import Mathlib

/-!
# Heterogeneous processor simulator: cycle model of the scheduler, the cores, the bus and the memory

A shallow embedding of the C++ cycle model under `sim/cpp_model` and the properties of it
that the specification states.

Conventions of the embedding

* A C++ object is a structure; a member function that mutates the object is a function that
  returns the new object (and the C++ return value, when there is one, as a pair).
* `std::queue<T>` is a `List T`: `front` is the head, `push` appends at the tail, `pop` drops
  the head.
* The 64-bit event counters that the code only ever advances with `++` are natural numbers:
  a counter that grows by one per call does not wrap in fewer than `2^64` calls.
* Arithmetic on `int` (32 bit, two's complement) and on `uint32_t`/`size_t` is reduced
  explicitly with `wrapInt32`, `% 2^32` and `% 2^64`.  Signed overflow and division by zero are
  undefined in C++; the embedding wraps, and Lean's division by zero is zero.  `size_t` is
  64 bit wide.
* `double` utilizations are the exact rationals they round.
* `memory.cpp` is not among the sources: the memory functions follow the specification and
  say so in their comments.
* The vector core's `register_file_` (floats, written only with zeros and never read) and
  `TaskDescriptor::reserved` (padding) carry no behaviour and are left out; console output
  is left out.
-/

namespace HeteroSim

/-! ## Machine integers -/

/-- Reduction of an integer to the `int` range `[-2^31, 2^31)`, two's complement. -/
def wrapInt32 (x : Int) : Int := (x + 2 ^ 31) % 2 ^ 32 - 2 ^ 31

/-- Conversion of an `int` to `unsigned int`: the value modulo `2^32`. -/
def intToUInt32 (x : Int) : Nat := (x % 2 ^ 32).toNat

/-- Conversion of an `int` to a 64-bit unsigned (`size_t`, `uint64_t`): the value modulo `2^64`. -/
def intToUInt64 (x : Int) : Nat := (x % 2 ^ 64).toNat

/-- Conversion of an unsigned value to `int`: the low 32 bits read as two's complement. -/
def toInt32 (n : Nat) : Int := wrapInt32 (n : Int)

/-! ## common_types.h -/

/-- Task types (`enum class TaskType`). -/
inductive TaskType where
  | VECTOR_ADD
  | VECTOR_MUL
  | VECTOR_FMA
  | MATRIX_MUL
  | CONV2D
  | ACTIVATION
  | UNKNOWN
  deriving DecidableEq, Repr

/-- Core types (`enum class CoreType`). -/
inductive CoreType where
  | VECTOR_CORE
  | TENSOR_CORE
  | AUTO_SELECT
  deriving DecidableEq, Repr

/-- Task descriptor (`struct TaskDescriptor`).  The addresses are `uint64_t`, the
dimensions, `priority` and `flags` are `uint32_t`. -/
structure TaskDescriptor where
  type : TaskType
  preferred_core : CoreType
  src_addr : Nat
  dst_addr : Nat
  dim_m : Nat
  dim_n : Nat
  dim_k : Nat
  priority : Nat
  flags : Nat
  deriving DecidableEq, Repr

/-- The default constructor `TaskDescriptor()`. -/
def TaskDescriptor.default : TaskDescriptor :=
  { type := .UNKNOWN, preferred_core := .AUTO_SELECT, src_addr := 0, dst_addr := 0,
    dim_m := 0, dim_n := 0, dim_k := 0, priority := 0, flags := 0 }

/-- The fields of a task hold values of their C++ types. -/
def TaskDescriptor.InRange (t : TaskDescriptor) : Prop :=
  t.src_addr < 2 ^ 64 ∧ t.dst_addr < 2 ^ 64 ∧ t.dim_m < 2 ^ 32 ∧ t.dim_n < 2 ^ 32 ∧
    t.dim_k < 2 ^ 32 ∧ t.priority < 2 ^ 32 ∧ t.flags < 2 ^ 32

/-- Performance statistics (`struct PerfStats`). -/
structure PerfStats where
  total_cycles : Nat
  vector_core_cycles : Nat
  tensor_core_cycles : Nat
  vector_core_tasks : Nat
  tensor_core_tasks : Nat
  total_tasks : Nat
  deriving DecidableEq, Repr

/-- The member `PerfStats::reset`: every field is set to zero. -/
def PerfStats.reset (_s : PerfStats) : PerfStats :=
  { total_cycles := 0, vector_core_cycles := 0, tensor_core_cycles := 0,
    vector_core_tasks := 0, tensor_core_tasks := 0, total_tasks := 0 }

/-- The member `PerfStats::vector_utilization`, as the exact ratio of which the C++ `double`
is the rounding: `vector_core_cycles / total_cycles`, and 0 when `total_cycles` is 0. -/
def PerfStats.vector_utilization (s : PerfStats) : ℚ :=
  if s.total_cycles > 0 then (s.vector_core_cycles : ℚ) / (s.total_cycles : ℚ) else 0

/-- The member `PerfStats::tensor_utilization`, as the exact ratio of which the C++ `double`
is the rounding: `tensor_core_cycles / total_cycles`, and 0 when `total_cycles` is 0. -/
def PerfStats.tensor_utilization (s : PerfStats) : ℚ :=
  if s.total_cycles > 0 then (s.tensor_core_cycles : ℚ) / (s.total_cycles : ℚ) else 0

/-! ## vector_core.h, vector_core.cpp -/

/-- Pipeline state of the vector core (`enum class PipelineStage`). -/
inductive PipelineStage where
  | IDLE
  | FETCH
  | DECODE
  | EXECUTE
  | WRITEBACK
  deriving DecidableEq, Repr

/-- State of a `VectorCore` object. -/
structure VectorCore where
  core_id_ : Int
  num_lanes_ : Int
  current_stage_ : PipelineStage
  task_queue_ : List TaskDescriptor
  cycle_count_ : Nat
  task_count_ : Nat
  busy_cycles_ : Nat
  idle_ : Bool
  current_task_ : TaskDescriptor
  execution_cycles_remaining_ : Int
  deriving DecidableEq, Repr

namespace VectorCore

/-- Queue capacity `VectorCore::MAX_QUEUE_DEPTH`. -/
def MAX_QUEUE_DEPTH : Nat := 16

/-- The constructor `VectorCore(id, num_lanes)`. -/
def new (id : Int) (num_lanes : Int) : VectorCore :=
  { core_id_ := id, num_lanes_ := num_lanes, current_stage_ := .IDLE, task_queue_ := [],
    cycle_count_ := 0, task_count_ := 0, busy_cycles_ := 0, idle_ := true,
    current_task_ := TaskDescriptor.default, execution_cycles_remaining_ := 0 }

/-- The member `VectorCore::reset`. -/
def reset (c : VectorCore) : VectorCore :=
  { c with task_queue_ := [], current_stage_ := .IDLE, cycle_count_ := 0, task_count_ := 0,
           busy_cycles_ := 0, idle_ := true, execution_cycles_remaining_ := 0 }

/-- The accessor `isIdle`. -/
def isIdle (c : VectorCore) : Bool := c.idle_

/-- The accessor `isBusy`. -/
def isBusy (c : VectorCore) : Bool := !c.idle_

/-- The accessor `getCycleCount`. -/
def getCycleCount (c : VectorCore) : Nat := c.cycle_count_

/-- The accessor `getTaskCount`. -/
def getTaskCount (c : VectorCore) : Nat := c.task_count_

/-- The accessor `getBusyCycles`. -/
def getBusyCycles (c : VectorCore) : Nat := c.busy_cycles_

/-- The member `VectorCore::submitTask`: the new state and the returned flag. -/
def submitTask (c : VectorCore) (task : TaskDescriptor) : VectorCore × Bool :=
  if c.task_queue_.length ≥ MAX_QUEUE_DEPTH then
    (c, false)
  else
    ({ c with task_queue_ := c.task_queue_ ++ [task] }, true)

/-- The member `VectorCore::estimateTaskCycles`.  `task.dim_m / num_lanes_` is an unsigned
32-bit division (the `int` lane count is converted to `unsigned`), the sum is unsigned and
the result is converted to `int` on return. -/
def estimateTaskCycles (c : VectorCore) (task : TaskDescriptor) : Int :=
  match task.type with
  | .VECTOR_ADD => toInt32 ((task.dim_m / intToUInt32 c.num_lanes_ + 5) % 2 ^ 32)
  | .VECTOR_MUL => toInt32 ((task.dim_m / intToUInt32 c.num_lanes_ + 5) % 2 ^ 32)
  | .VECTOR_FMA =>
      toInt32 (((task.dim_m / intToUInt32 c.num_lanes_) * 3 % 2 ^ 32 + 10) % 2 ^ 32)
  | _ => 100

/-- First half of `VectorCore::clock`: the cycle counter advances and, when the core is idle
and its queue is not empty, the head task is popped and started. -/
def clockStart (c : VectorCore) : VectorCore :=
  let c1 := { c with cycle_count_ := c.cycle_count_ + 1 }
  match c1.idle_, c1.task_queue_ with
  | true, task :: rest =>
      { c1 with current_task_ := task, task_queue_ := rest,
                execution_cycles_remaining_ := c1.estimateTaskCycles task,
                idle_ := false, task_count_ := c1.task_count_ + 1 }
  | _, _ => c1

/-- Second half of `VectorCore::clock`: a core that is not idle executes for one cycle and
becomes idle when its countdown is no longer positive. -/
def clockExecute (c : VectorCore) : VectorCore :=
  if c.idle_ then c
  else
    let c1 := { c with busy_cycles_ := c.busy_cycles_ + 1,
                       execution_cycles_remaining_ := wrapInt32 (c.execution_cycles_remaining_ - 1) }
    if c1.execution_cycles_remaining_ ≤ 0 then { c1 with idle_ := true } else c1

/-- The member `VectorCore::clock`. -/
def clock (c : VectorCore) : VectorCore := clockExecute (clockStart c)

end VectorCore

/-! ## tensor_core.h, tensor_core.cpp -/

/-- State of a `TensorCore` object. -/
structure TensorCore where
  core_id_ : Int
  array_size_ : Int
  task_queue_ : List TaskDescriptor
  cycle_count_ : Nat
  task_count_ : Nat
  busy_cycles_ : Nat
  mac_operations_ : Nat
  idle_ : Bool
  current_task_ : TaskDescriptor
  execution_cycles_remaining_ : Int
  deriving DecidableEq, Repr

namespace TensorCore

/-- Queue capacity `TensorCore::MAX_QUEUE_DEPTH`. -/
def MAX_QUEUE_DEPTH : Nat := 16

/-- The constructor `TensorCore(id, array_size)`. -/
def new (id : Int) (array_size : Int) : TensorCore :=
  { core_id_ := id, array_size_ := array_size, task_queue_ := [], cycle_count_ := 0,
    task_count_ := 0, busy_cycles_ := 0, mac_operations_ := 0, idle_ := true,
    current_task_ := TaskDescriptor.default, execution_cycles_remaining_ := 0 }

/-- The member `TensorCore::reset`. -/
def reset (c : TensorCore) : TensorCore :=
  { c with task_queue_ := [], cycle_count_ := 0, task_count_ := 0, busy_cycles_ := 0,
           mac_operations_ := 0, idle_ := true, execution_cycles_remaining_ := 0 }

/-- The accessor `isIdle`. -/
def isIdle (c : TensorCore) : Bool := c.idle_

/-- The accessor `isBusy`. -/
def isBusy (c : TensorCore) : Bool := !c.idle_

/-- The accessor `getCycleCount`. -/
def getCycleCount (c : TensorCore) : Nat := c.cycle_count_

/-- The accessor `getTaskCount`. -/
def getTaskCount (c : TensorCore) : Nat := c.task_count_

/-- The accessor `getBusyCycles`. -/
def getBusyCycles (c : TensorCore) : Nat := c.busy_cycles_

/-- The accessor `getMACOperations`. -/
def getMACOperations (c : TensorCore) : Nat := c.mac_operations_

/-- The member `TensorCore::submitTask`: the new state and the returned flag. -/
def submitTask (c : TensorCore) (task : TaskDescriptor) : TensorCore × Bool :=
  if c.task_queue_.length ≥ MAX_QUEUE_DEPTH then
    (c, false)
  else
    ({ c with task_queue_ := c.task_queue_ ++ [task] }, true)

/-- The member `TensorCore::calculateTiles`: `(dimension + array_size_ - 1) / array_size_`
in `int` arithmetic, the division truncating towards zero. -/
def calculateTiles (c : TensorCore) (dimension : Int) : Int :=
  wrapInt32 ((wrapInt32 (wrapInt32 (dimension + c.array_size_) - 1)).tdiv c.array_size_)

/-- The member `TensorCore::estimateTaskCycles`.  The `uint32_t` dimensions are converted to
the `int` parameter of `calculateTiles`; the product and the sum are `int` arithmetic. -/
def estimateTaskCycles (c : TensorCore) (task : TaskDescriptor) : Int :=
  match task.type with
  | .MATRIX_MUL =>
      let m_tiles := c.calculateTiles (toInt32 task.dim_m)
      let n_tiles := c.calculateTiles (toInt32 task.dim_n)
      let k_tiles := c.calculateTiles (toInt32 task.dim_k)
      wrapInt32 (wrapInt32 (wrapInt32 (wrapInt32 (m_tiles * n_tiles) * k_tiles) * c.array_size_) + 50)
  | .CONV2D => 500
  | _ => 1000

/-- First half of `TensorCore::clock`: the cycle counter advances and, when the core is idle
and its queue is not empty, the head task is popped and started. -/
def clockStart (c : TensorCore) : TensorCore :=
  let c1 := { c with cycle_count_ := c.cycle_count_ + 1 }
  match c1.idle_, c1.task_queue_ with
  | true, task :: rest =>
      { c1 with current_task_ := task, task_queue_ := rest,
                execution_cycles_remaining_ := c1.estimateTaskCycles task,
                idle_ := false, task_count_ := c1.task_count_ + 1 }
  | _, _ => c1

/-- Second half of `TensorCore::clock`: a core that is not idle executes for one cycle, adds
`array_size_ * array_size_` (an `int` product, converted to `uint64_t`) to the MAC counter
and becomes idle when its countdown is no longer positive. -/
def clockExecute (c : TensorCore) : TensorCore :=
  if c.idle_ then c
  else
    let c1 := { c with busy_cycles_ := c.busy_cycles_ + 1,
                       execution_cycles_remaining_ := wrapInt32 (c.execution_cycles_remaining_ - 1),
                       mac_operations_ :=
                         (c.mac_operations_ +
                           intToUInt64 (wrapInt32 (c.array_size_ * c.array_size_))) % 2 ^ 64 }
    if c1.execution_cycles_remaining_ ≤ 0 then { c1 with idle_ := true } else c1

/-- The member `TensorCore::clock`. -/
def clock (c : TensorCore) : TensorCore := clockExecute (clockStart c)

end TensorCore

/-! ## scheduler.h, scheduler.cpp -/

/-- State of a `Scheduler` object.  The two core pointers are modelled by flags that say
whether the pointer is non-null; a non-null pointer refers to the core of the enclosing
`System`. -/
structure Scheduler where
  vector_core_ : Bool
  tensor_core_ : Bool
  task_queue_ : List TaskDescriptor
  stats_ : PerfStats
  deriving DecidableEq, Repr

/-- A scheduler together with the two core objects its pointers may refer to. -/
structure System where
  sched : Scheduler
  vcore : VectorCore
  tcore : TensorCore
  deriving DecidableEq, Repr

namespace Scheduler

/-- Queue capacity `Scheduler::MAX_QUEUE_DEPTH`. -/
def MAX_QUEUE_DEPTH : Nat := 32

/-- The constructor `Scheduler()`: both pointers null, statistics reset. -/
def new : Scheduler :=
  { vector_core_ := false, tensor_core_ := false, task_queue_ := [],
    stats_ := { total_cycles := 0, vector_core_cycles := 0, tensor_core_cycles := 0,
                vector_core_tasks := 0, tensor_core_tasks := 0, total_tasks := 0 } }

/-- The member `Scheduler::initialize` (a reserved word here, hence the name), given which
of the two pointers are non-null. -/
def connectCores (s : Scheduler) (vector_core : Bool) (tensor_core : Bool) : Scheduler :=
  { s with vector_core_ := vector_core, tensor_core_ := tensor_core }

/-- The member `Scheduler::reset`. -/
def reset (s : Scheduler) : Scheduler :=
  { s with task_queue_ := [], stats_ := s.stats_.reset }

/-- The accessor `getStats`. -/
def getStats (s : Scheduler) : PerfStats := s.stats_

/-- The accessor `getQueueDepth`. -/
def getQueueDepth (s : Scheduler) : Nat := s.task_queue_.length

/-- The member `Scheduler::submitTask`: the new state and the returned flag. -/
def submitTask (s : Scheduler) (task : TaskDescriptor) : Scheduler × Bool :=
  if s.task_queue_.length ≥ MAX_QUEUE_DEPTH then
    (s, false)
  else
    ({ s with task_queue_ := s.task_queue_ ++ [task],
              stats_ := { s.stats_ with total_tasks := s.stats_.total_tasks + 1 } }, true)

/-- The member `Scheduler::simpleHeuristic`, reading the idle flags of the connected cores. -/
def simpleHeuristic (s : Scheduler) (v : VectorCore) (t : TensorCore)
    (task : TaskDescriptor) : CoreType :=
  match task.type with
  | .MATRIX_MUL => .TENSOR_CORE
  | .CONV2D => .TENSOR_CORE
  | .VECTOR_ADD => .VECTOR_CORE
  | .VECTOR_MUL => .VECTOR_CORE
  | .VECTOR_FMA => .VECTOR_CORE
  | _ =>
      if s.vector_core_ && v.isIdle then .VECTOR_CORE
      else if s.tensor_core_ && t.isIdle then .TENSOR_CORE
      else .VECTOR_CORE

/-- The member `Scheduler::selectCore`. -/
def selectCore (s : Scheduler) (v : VectorCore) (t : TensorCore)
    (task : TaskDescriptor) : CoreType :=
  s.simpleHeuristic v t task

/-- The member `Scheduler::dispatchTask`: the two cores after the call and the returned
flag. -/
def dispatchTask (s : Scheduler) (v : VectorCore) (t : TensorCore) (task : TaskDescriptor)
    (core : CoreType) : VectorCore × TensorCore × Bool :=
  if core = .VECTOR_CORE ∧ s.vector_core_ = true then
    ((v.submitTask task).1, t, (v.submitTask task).2)
  else if core = .TENSOR_CORE ∧ s.tensor_core_ = true then
    (v, (t.submitTask task).1, (t.submitTask task).2)
  else
    (v, t, false)

end Scheduler

namespace System

/-- The member `Scheduler::clock`, acting on the scheduler and on the cores it points to. -/
def schedulerClock (sys : System) : System :=
  let s := sys.sched
  let st0 := { s.stats_ with total_cycles := s.stats_.total_cycles + 1 }
  let st1 := if s.vector_core_ && sys.vcore.isBusy then
      { st0 with vector_core_cycles := st0.vector_core_cycles + 1 } else st0
  let st2 := if s.tensor_core_ && sys.tcore.isBusy then
      { st1 with tensor_core_cycles := st1.tensor_core_cycles + 1 } else st1
  match s.task_queue_ with
  | [] => { sys with sched := { s with stats_ := st2 } }
  | task :: rest =>
      let selected_core := s.selectCore sys.vcore sys.tcore task
      let r := s.dispatchTask sys.vcore sys.tcore task selected_core
      if r.2.2 then
        let st3 := if selected_core = .VECTOR_CORE then
            { st2 with vector_core_tasks := st2.vector_core_tasks + 1 }
          else
            { st2 with tensor_core_tasks := st2.tensor_core_tasks + 1 }
        { sched := { s with task_queue_ := rest, stats_ := st3 }, vcore := r.1, tcore := r.2.1 }
      else
        { sched := { s with stats_ := st2 }, vcore := r.1, tcore := r.2.1 }

end System

/-! ## interconnect.h -/

/-- Transaction types (`enum class TransactionType`). -/
inductive TransactionType where
  | READ_REQUEST
  | WRITE_REQUEST
  | READ_RESPONSE
  | WRITE_RESPONSE
  deriving DecidableEq, Repr

/-- Transaction descriptor (`struct Transaction`).  The port ids are `int`, `size` is a
`size_t`, `address` and `timestamp` are `uint64_t`. -/
structure Transaction where
  type : TransactionType
  source_id : Int
  dest_id : Int
  address : Nat
  size : Nat
  timestamp : Nat
  deriving DecidableEq, Repr

/-- The default constructor `Transaction()`. -/
def Transaction.default : Transaction :=
  { type := .READ_REQUEST, source_id := 0, dest_id := 0, address := 0, size := 0,
    timestamp := 0 }

/-- State of an `Interconnect` object. -/
structure Interconnect where
  num_ports_ : Int
  bandwidth_ : Int
  cycle_count_ : Nat
  transaction_count_ : Nat
  total_bytes_ : Nat
  busy_cycles_ : Nat
  pending_queue_ : List Transaction
  completion_queues_ : List (List Transaction)
  current_transaction_ : Transaction
  cycles_remaining_ : Int
  processing_ : Bool
  deriving DecidableEq, Repr

namespace Interconnect

/-- Queue capacity `Interconnect::MAX_QUEUE_DEPTH`. -/
def MAX_QUEUE_DEPTH : Nat := 32

/-- The constructor `Interconnect(num_ports, bandwidth_bytes_per_cycle)`:
`completion_queues_.resize(num_ports)` makes one empty completion queue per port (with a
negative port count the C++ call fails; the embedding then has no queue). -/
def new (num_ports : Int) (bandwidth_bytes_per_cycle : Int) : Interconnect :=
  { num_ports_ := num_ports, bandwidth_ := bandwidth_bytes_per_cycle, cycle_count_ := 0,
    transaction_count_ := 0, total_bytes_ := 0, busy_cycles_ := 0, pending_queue_ := [],
    completion_queues_ := List.replicate num_ports.toNat [],
    current_transaction_ := Transaction.default, cycles_remaining_ := 0,
    processing_ := false }

/-- The member `Interconnect::calculateTransactionCycles`:
`int cycles = (trans.size + bandwidth_ - 1) / bandwidth_; return std::max(1, cycles);`.
The quotient is computed in `size_t` arithmetic (the `int` bandwidth is converted) and
narrowed to `int`. -/
def calculateTransactionCycles (ic : Interconnect) (trans : Transaction) : Int :=
  let bw := intToUInt64 ic.bandwidth_
  let cycles := toInt32 ((((trans.size + bw) % 2 ^ 64 + (2 ^ 64 - 1)) % 2 ^ 64) / bw)
  max 1 cycles

/-- The accessor `getCycleCount`. -/
def getCycleCount (ic : Interconnect) : Nat := ic.cycle_count_

/-- The accessor `getTransactionCount`. -/
def getTransactionCount (ic : Interconnect) : Nat := ic.transaction_count_

/-- The accessor `getTotalBytesTransferred`. -/
def getTotalBytesTransferred (ic : Interconnect) : Nat := ic.total_bytes_

/-- The member `Interconnect::getUtilization`, as the exact ratio of which the C++ `double`
is the rounding: `busy_cycles_ / cycle_count_`, and 0 when `cycle_count_` is 0. -/
def getUtilization (ic : Interconnect) : ℚ :=
  if ic.cycle_count_ > 0 then (ic.busy_cycles_ : ℚ) / (ic.cycle_count_ : ℚ) else 0

/-- The member `Interconnect::submitTransaction`: the new state and the returned flag. -/
def submitTransaction (ic : Interconnect) (trans : Transaction) : Interconnect × Bool :=
  if ic.pending_queue_.length ≥ MAX_QUEUE_DEPTH then
    (ic, false)
  else
    ({ ic with pending_queue_ := ic.pending_queue_ ++ [trans] }, true)

/-- The member `Interconnect::hasCompletedTransaction`.  Behind the range check the code
reads `completion_queues_[port_id]`; the vector holds `num_ports_` queues in every
constructed object, and a missing entry reads as an empty queue here. -/
def hasCompletedTransaction (ic : Interconnect) (port_id : Int) : Bool :=
  if port_id < 0 ∨ port_id ≥ ic.num_ports_ then false
  else !(ic.completion_queues_.getD port_id.toNat []).isEmpty

/-- The member `Interconnect::getCompletedTransaction`: the new state and the returned
transaction. -/
def getCompletedTransaction (ic : Interconnect) (port_id : Int) : Interconnect × Transaction :=
  if port_id < 0 ∨ port_id ≥ ic.num_ports_ then (ic, Transaction.default)
  else
    match ic.completion_queues_.getD port_id.toNat [] with
    | [] => (ic, Transaction.default)
    | tr :: rest =>
        ({ ic with completion_queues_ := ic.completion_queues_.set port_id.toNat rest }, tr)

/-- The statement `completion_queues_[i].push(t)` for an `int` index `i`.  An index outside
the vector is undefined behaviour in C++; here it leaves the queues unchanged. -/
def pushCompleted (qs : List (List Transaction)) (i : Int) (t : Transaction) :
    List (List Transaction) :=
  if 0 ≤ i ∧ i.toNat < qs.length then qs.set i.toNat (qs.getD i.toNat [] ++ [t]) else qs

/-- First half of `Interconnect::clock`: the cycle counter advances and a transfer in
progress moves on by one cycle; when its countdown is no longer positive the transaction is
pushed on the completion queue of its destination port and the bus is free. -/
def clockProgress (ic : Interconnect) : Interconnect :=
  let ic1 := { ic with cycle_count_ := ic.cycle_count_ + 1 }
  if ic1.processing_ then
    let ic2 := { ic1 with busy_cycles_ := ic1.busy_cycles_ + 1,
                          cycles_remaining_ := wrapInt32 (ic1.cycles_remaining_ - 1) }
    if ic2.cycles_remaining_ ≤ 0 then
      { ic2 with completion_queues_ :=
                   pushCompleted ic2.completion_queues_ ic2.current_transaction_.dest_id
                     ic2.current_transaction_,
                 processing_ := false,
                 transaction_count_ := ic2.transaction_count_ + 1 }
    else ic2
  else ic1

/-- Second half of `Interconnect::clock`: when the bus is free and a transaction is pending,
the head of the pending queue is popped and becomes the current transaction. -/
def clockStart (ic : Interconnect) : Interconnect :=
  match ic.processing_, ic.pending_queue_ with
  | false, tr :: rest =>
      { ic with current_transaction_ := tr, pending_queue_ := rest,
                cycles_remaining_ := ic.calculateTransactionCycles tr,
                processing_ := true,
                total_bytes_ := (ic.total_bytes_ + tr.size) % 2 ^ 64 }
  | _, _ => ic

/-- The member `Interconnect::clock`. -/
def clock (ic : Interconnect) : Interconnect := clockStart (clockProgress ic)

/-- The member `Interconnect::reset`: the pending queue and every completion queue are
emptied, the four counters are zeroed and the bus is free (`cycles_remaining_` and
`current_transaction_` are not touched). -/
def reset (ic : Interconnect) : Interconnect :=
  { ic with pending_queue_ := [],
            completion_queues_ := ic.completion_queues_.map (fun _ => []),
            cycle_count_ := 0, transaction_count_ := 0, total_bytes_ := 0,
            busy_cycles_ := 0, processing_ := false }

end Interconnect

/-! ## memory.h

The header declares the class and its fields; the member functions are defined in
`memory.cpp`, which is not among the sources.  The functions below follow the
specification's description of them. -/

/-- One `uint8_t` of storage. -/
abbrev Byte : Type := Fin 256

/-- Outcome of a memory access that the bounds check refuses. -/
inductive MemoryError where
  | OUT_OF_BOUNDS
  deriving DecidableEq, Repr

/-- State of a `MemorySubsystem` object (the fields declared in `memory.h`). -/
structure MemorySubsystem where
  memory_ : List Byte
  cycle_count_ : Nat
  read_count_ : Nat
  write_count_ : Nat
  bytes_read_ : Nat
  bytes_written_ : Nat
  size_ : Nat
  deriving DecidableEq, Repr

namespace MemorySubsystem

/-- Modelled from the spec: the constructor `MemorySubsystem(size_bytes)` of the missing
`memory.cpp`, "a fixed-size addressable byte array" with all counters at zero; the initial
bytes are taken to be zero. -/
def new (size_bytes : Nat) : MemorySubsystem :=
  { memory_ := List.replicate size_bytes 0, cycle_count_ := 0, read_count_ := 0,
    write_count_ := 0, bytes_read_ := 0, bytes_written_ := 0, size_ := size_bytes }

/-- The accessor `getSize`. -/
def getSize (m : MemorySubsystem) : Nat := m.size_

/-- The accessor `getCycleCount`. -/
def getCycleCount (m : MemorySubsystem) : Nat := m.cycle_count_

/-- The accessor `getReadCount`. -/
def getReadCount (m : MemorySubsystem) : Nat := m.read_count_

/-- The accessor `getWriteCount`. -/
def getWriteCount (m : MemorySubsystem) : Nat := m.write_count_

/-- The accessor `getBytesRead`. -/
def getBytesRead (m : MemorySubsystem) : Nat := m.bytes_read_

/-- The accessor `getBytesWritten`. -/
def getBytesWritten (m : MemorySubsystem) : Nat := m.bytes_written_

/-- Modelled from the spec: `isValidAddress` of the missing `memory.cpp`, the "address
validity invariant: `addr + size <= total_size`"; the spec states it as this inequality
between numbers, so the sum is the exact one. -/
def isValidAddress (m : MemorySubsystem) (addr : Nat) (size : Nat) : Bool :=
  decide (addr + size ≤ m.size_)

/-- Modelled from the spec: `checkBounds` of the missing `memory.cpp`; an access outside
the range "must abort the operation" and "surface as a distinguishable error". -/
def checkBounds (m : MemorySubsystem) (addr : Nat) (size : Nat) : Except MemoryError Unit :=
  if m.isValidAddress addr size then .ok () else .error .OUT_OF_BOUNDS

/-- Modelled from the spec: `write` of the missing `memory.cpp`, "a raw byte copy into the
backing store after validating `addr + size <= capacity`"; the access "increments its
respective operation and byte counters".  The source buffer and its size are the list
`data`.  The result is the object after the call and the outcome; a refused access leaves
the object as it was. -/
def write (m : MemorySubsystem) (addr : Nat) (data : List Byte) :
    MemorySubsystem × Except MemoryError Unit :=
  match m.checkBounds addr data.length with
  | .error e => (m, .error e)
  | .ok _ =>
      ({ m with memory_ := m.memory_.take addr ++ data ++ m.memory_.drop (addr + data.length),
                write_count_ := m.write_count_ + 1,
                bytes_written_ := m.bytes_written_ + data.length }, .ok ())

/-- Modelled from the spec: `read` of the missing `memory.cpp`, "a raw byte copy out of the
backing store after validating `addr + size <= capacity`"; the access "increments its
respective operation and byte counters".  The result is the object after the call and
either the bytes copied out or the error. -/
def read (m : MemorySubsystem) (addr : Nat) (size : Nat) :
    MemorySubsystem × Except MemoryError (List Byte) :=
  match m.checkBounds addr size with
  | .error e => (m, .error e)
  | .ok _ =>
      ({ m with read_count_ := m.read_count_ + 1, bytes_read_ := m.bytes_read_ + size },
        .ok ((m.memory_.drop addr).take size))

/-- Modelled from the spec: `writeBlock` of the missing `memory.cpp`, the "block-oriented
equivalent" of `write` "operating on explicit byte sequences". -/
def writeBlock (m : MemorySubsystem) (addr : Nat) (data : List Byte) :
    MemorySubsystem × Except MemoryError Unit :=
  m.write addr data

/-- Modelled from the spec: `readBlock` of the missing `memory.cpp`, the "block-oriented
equivalent" of `read` "operating on explicit byte sequences". -/
def readBlock (m : MemorySubsystem) (addr : Nat) (size : Nat) :
    MemorySubsystem × Except MemoryError (List Byte) :=
  m.read addr size

/-- Modelled from the spec: `clock` of the missing `memory.cpp`, which "exists only to keep
a cycle counter". -/
def clock (m : MemorySubsystem) : MemorySubsystem :=
  { m with cycle_count_ := m.cycle_count_ + 1 }

end MemorySubsystem

/-! ## Auxiliary notions used to state the properties -/

/-- The specification's `ceil_div(a, b)`: `a` divided by `b`, rounded up. -/
def ceil_div (a b : Nat) : Nat := (a + b - 1) / b

namespace VectorCore

/-- Whether a call of `clock` in state `c` starts a task (the Idle-to-Busy transition): the
first `if` of `VectorCore::clock` is taken. -/
def startsOnClock (c : VectorCore) : Bool := c.idle_ && !c.task_queue_.isEmpty

/-- Whether a call of `clock` in state `c` completes a task (the Busy-to-Idle transition):
the branch `idle_ = true` of `VectorCore::clock` is taken. -/
def completesOnClock (c : VectorCore) : Bool :=
  !c.clockStart.idle_ && decide (wrapInt32 (c.clockStart.execution_cycles_remaining_ - 1) ≤ 0)

/-- Number of tasks completed during `n` successive calls of `clock` from state `c`. -/
def completedDuring (c : VectorCore) : Nat → Nat
  | 0 => 0
  | n + 1 => (if c.completesOnClock then 1 else 0) + completedDuring c.clock n

/-- A caller that submits the tasks of a list one after the other: the final state and the
flags returned, in order. -/
def submitAll (c : VectorCore) : List TaskDescriptor → VectorCore × List Bool
  | [] => (c, [])
  | task :: tasks =>
      ((submitAll (c.submitTask task).1 tasks).1,
        (c.submitTask task).2 :: (submitAll (c.submitTask task).1 tasks).2)

end VectorCore

namespace TensorCore

/-- Whether a call of `clock` in state `c` starts a task (the Idle-to-Busy transition): the
first `if` of `TensorCore::clock` is taken. -/
def startsOnClock (c : TensorCore) : Bool := c.idle_ && !c.task_queue_.isEmpty

/-- Whether a call of `clock` in state `c` completes a task (the Busy-to-Idle transition):
the branch `idle_ = true` of `TensorCore::clock` is taken. -/
def completesOnClock (c : TensorCore) : Bool :=
  !c.clockStart.idle_ && decide (wrapInt32 (c.clockStart.execution_cycles_remaining_ - 1) ≤ 0)

/-- Number of tasks completed during `n` successive calls of `clock` from state `c`. -/
def completedDuring (c : TensorCore) : Nat → Nat
  | 0 => 0
  | n + 1 => (if c.completesOnClock then 1 else 0) + completedDuring c.clock n

/-- A caller that submits the tasks of a list one after the other: the final state and the
flags returned, in order. -/
def submitAll (c : TensorCore) : List TaskDescriptor → TensorCore × List Bool
  | [] => (c, [])
  | task :: tasks =>
      ((submitAll (c.submitTask task).1 tasks).1,
        (c.submitTask task).2 :: (submitAll (c.submitTask task).1 tasks).2)

end TensorCore

/-! ## Inputs of the unit tests (`test.cpp`) and other concrete inputs -/

/-- A VECTOR_ADD task of length `m`, all other fields as default-constructed. -/
def vectorAddTask (m : Nat) : TaskDescriptor :=
  { TaskDescriptor.default with type := .VECTOR_ADD, dim_m := m }

/-- A MATRIX_MUL task of dimensions `m`, `n`, `k`, all other fields as default-constructed. -/
def matrixMulTask (m n k : Nat) : TaskDescriptor :=
  { TaskDescriptor.default with type := .MATRIX_MUL, dim_m := m, dim_n := n, dim_k := k }

/-- The system of `testScheduler` after the two submissions: a VECTOR_ADD of length 512 and
a 64x64x64 MATRIX_MUL queued in a scheduler connected to fresh 8-lane and 8x8 cores. -/
def testSchedulerSystem : System :=
  { sched := (((Scheduler.new.connectCores true true).submitTask (vectorAddTask 512)).1.submitTask
      (matrixMulTask 64 64 64)).1,
    vcore := VectorCore.new 0 8,
    tcore := TensorCore.new 0 8 }

/-- The same system with the vector core's queue already holding 16 tasks. -/
def blockedSchedulerSystem : System :=
  { testSchedulerSystem with
    vcore := { VectorCore.new 0 8 with task_queue_ := List.replicate 16 (vectorAddTask 512) } }

/-- A fresh 8-lane vector core after 16 accepted submissions (VECTOR_ADD of length 256). -/
def fullVectorCore : VectorCore :=
  ((VectorCore.new 0 8).submitAll (List.replicate 16 (vectorAddTask 256))).1

/-- A fresh 8-lane vector core that was given one task, clocked `k` times and then given 16
more tasks (VECTOR_ADD of length 256, cost 37 each). -/
def runningFullVectorCore (k : Nat) : VectorCore :=
  ((VectorCore.clock^[k] ((VectorCore.new 0 8).submitTask (vectorAddTask 256)).1).submitAll
    (List.replicate 16 (vectorAddTask 256))).1

/-- A fresh 8x8 tensor core after 16 accepted submissions (CONV2D, cost 500 each). -/
def fullTensorCore : TensorCore :=
  ((TensorCore.new 0 8).submitAll
    (List.replicate 16 { TaskDescriptor.default with type := .CONV2D })).1

/-- A fresh 8x8 tensor core that was given one task, clocked `k` times and then given 16 more
tasks (CONV2D, cost 500 each). -/
def runningFullTensorCore (k : Nat) : TensorCore :=
  ((TensorCore.clock^[k] ((TensorCore.new 0 8).submitTask
      { TaskDescriptor.default with type := .CONV2D }).1).submitAll
    (List.replicate 16 { TaskDescriptor.default with type := .CONV2D })).1

/-! ## Runs: sequences of calls on the components -/

/-- The system built by the tests and by the driver: a constructed scheduler, wired as
given, and freshly constructed cores. -/
def System.fresh (vector_core tensor_core : Bool) (vid lanes tid array_size : Int) : System :=
  { sched := Scheduler.new.connectCores vector_core tensor_core,
    vcore := VectorCore.new vid lanes,
    tcore := TensorCore.new tid array_size }

/-- One simulated cycle as the tests and the driver run it: `scheduler.clock()`, then
`vcore.clock()`, then `tcore.clock()`. -/
def System.cycle (sys : System) : System :=
  { sched := sys.schedulerClock.sched,
    vcore := sys.schedulerClock.vcore.clock,
    tcore := sys.schedulerClock.tcore.clock }

/-- A call a client can make on the scheduler or on one of the two cores. -/
inductive SystemOp where
  | submit (task : TaskDescriptor)
  | schedulerClock
  | schedulerReset
  | vectorSubmit (task : TaskDescriptor)
  | vectorClock
  | vectorReset
  | tensorSubmit (task : TaskDescriptor)
  | tensorClock
  | tensorReset
  deriving DecidableEq, Repr

/-- Effect of one call on the system. -/
def System.step (sys : System) : SystemOp → System
  | .submit task => { sys with sched := (sys.sched.submitTask task).1 }
  | .schedulerClock => sys.schedulerClock
  | .schedulerReset => { sys with sched := sys.sched.reset }
  | .vectorSubmit task => { sys with vcore := (sys.vcore.submitTask task).1 }
  | .vectorClock => { sys with vcore := sys.vcore.clock }
  | .vectorReset => { sys with vcore := sys.vcore.reset }
  | .tensorSubmit task => { sys with tcore := (sys.tcore.submitTask task).1 }
  | .tensorClock => { sys with tcore := sys.tcore.clock }
  | .tensorReset => { sys with tcore := sys.tcore.reset }

/-- Effect of a sequence of calls, first call first. -/
def System.run (sys : System) (ops : List SystemOp) : System := ops.foldl System.step sys

/-- A call a client can make on the interconnect. -/
inductive InterconnectOp where
  | submit (tr : Transaction)
  | clock
  | reset
  | getCompleted (port_id : Int)
  deriving DecidableEq, Repr

/-- Effect of one call on the interconnect. -/
def Interconnect.step (ic : Interconnect) : InterconnectOp → Interconnect
  | .submit tr => (ic.submitTransaction tr).1
  | .clock => ic.clock
  | .reset => ic.reset
  | .getCompleted port_id => (ic.getCompletedTransaction port_id).1

/-- Effect of a sequence of calls, first call first. -/
def Interconnect.run (ic : Interconnect) (ops : List InterconnectOp) : Interconnect :=
  ops.foldl Interconnect.step ic

/-- The transaction of `testInterconnect`: a read request from port 0 to port 1 at address
`0x1000`, 128 bytes. -/
def testTransaction : Transaction :=
  { type := .READ_REQUEST, source_id := 0, dest_id := 1, address := 4096, size := 128,
    timestamp := 0 }

/-- The interconnect of `testInterconnect` three clock calls after the test transaction was
submitted: the transaction lies in the completion queue of port 1. -/
def deliveredInterconnect : Interconnect :=
  Interconnect.clock^[3] ((Interconnect.new 4 64).submitTransaction testTransaction).1


/-- A call a client can make on a core. -/
inductive CoreOp where
  | submit (task : TaskDescriptor)
  | clock
  | reset
  deriving DecidableEq, Repr

/-- Effect of one call on a vector core. -/
def VectorCore.step (c : VectorCore) : CoreOp → VectorCore
  | .submit task => (c.submitTask task).1
  | .clock => c.clock
  | .reset => c.reset

/-- Effect of a sequence of calls on a vector core, first call first. -/
def VectorCore.run (c : VectorCore) (ops : List CoreOp) : VectorCore :=
  ops.foldl VectorCore.step c

/-- The tasks a vector core starts to execute during a sequence of calls: a clock call on an
idle core starts the head of its queue, if there is one. -/
def VectorCore.executedTasks (c : VectorCore) : List CoreOp → List TaskDescriptor
  | [] => []
  | .submit task :: rest => executedTasks (c.submitTask task).1 rest
  | .clock :: rest =>
      (if c.idle_ then c.task_queue_.take 1 else []) ++ executedTasks c.clock rest
  | .reset :: rest => executedTasks c.reset rest

/-- Effect of one call on a tensor core. -/
def TensorCore.step (c : TensorCore) : CoreOp → TensorCore
  | .submit task => (c.submitTask task).1
  | .clock => c.clock
  | .reset => c.reset

/-- Effect of a sequence of calls on a tensor core, first call first. -/
def TensorCore.run (c : TensorCore) (ops : List CoreOp) : TensorCore :=
  ops.foldl TensorCore.step c

/-- The tasks a tensor core starts to execute during a sequence of calls: a clock call on an
idle core starts the head of its queue, if there is one. -/
def TensorCore.executedTasks (c : TensorCore) : List CoreOp → List TaskDescriptor
  | [] => []
  | .submit task :: rest => executedTasks (c.submitTask task).1 rest
  | .clock :: rest =>
      (if c.idle_ then c.task_queue_.take 1 else []) ++ executedTasks c.clock rest
  | .reset :: rest => executedTasks c.reset rest

/-- A CONV2D task, all other fields as default-constructed. -/
def conv2dTask : TaskDescriptor :=
  { TaskDescriptor.default with type := .CONV2D }



/-- Estimated costs of a list of tasks on a vector core, as natural numbers. -/
def VectorCore.costs (c : VectorCore) (tasks : List TaskDescriptor) : List Nat :=
  tasks.map (fun task => (c.estimateTaskCycles task).toNat)

/-- Estimated costs of a list of tasks on a tensor core, as natural numbers. -/
def TensorCore.costs (c : TensorCore) (tasks : List TaskDescriptor) : List Nat :=
  tasks.map (fun task => (c.estimateTaskCycles task).toNat)

/-- The numbers of clock calls after which a core that executes tasks of the given costs one
after the other stands between two tasks: `0`, `c₁`, `c₁ + c₂`, ..., up to the sum of all
costs but the last. -/
def taskBoundaries : List Nat → List Nat
  | [] => []
  | c :: cs => 0 :: (taskBoundaries cs).map (fun b => c + b)


/-- A step of a run in which the scheduler and the two cores are ticked together: a
submission to the scheduler or directly to a core, or one lock-step cycle. -/
inductive LockstepOp where
  | submit (task : TaskDescriptor)
  | vectorSubmit (task : TaskDescriptor)
  | tensorSubmit (task : TaskDescriptor)
  | cycle
  deriving DecidableEq, Repr

/-- Effect of one step of a lock-step run. -/
def System.lockstep (sys : System) : LockstepOp → System
  | .submit task => { sys with sched := (sys.sched.submitTask task).1 }
  | .vectorSubmit task => { sys with vcore := (sys.vcore.submitTask task).1 }
  | .tensorSubmit task => { sys with tcore := (sys.tcore.submitTask task).1 }
  | .cycle => sys.cycle

/-- Effect of a lock-step run, first step first. -/
def System.runLockstep (sys : System) (ops : List LockstepOp) : System :=
  ops.foldl System.lockstep sys


/-- Whether a task is of one of the kinds always routed to the vector core. -/
def TaskDescriptor.isVectorKind (t : TaskDescriptor) : Bool :=
  decide (t.type = .VECTOR_ADD ∨ t.type = .VECTOR_MUL ∨ t.type = .VECTOR_FMA)

/-- Whether a task is of one of the kinds always routed to the tensor core. -/
def TaskDescriptor.isTensorKind (t : TaskDescriptor) : Bool :=
  decide (t.type = .MATRIX_MUL ∨ t.type = .CONV2D)

/-- A caller that submits the tasks of a list to the scheduler one after the other: the
final state and the flags returned, in order. -/
def Scheduler.submitAll (s : Scheduler) : List TaskDescriptor → Scheduler × List Bool
  | [] => (s, [])
  | task :: tasks =>
      ((submitAll (s.submitTask task).1 tasks).1,
        (s.submitTask task).2 :: (submitAll (s.submitTask task).1 tasks).2)

/-- The system after the tasks of a list were submitted to its scheduler. -/
def System.submitAll (sys : System) (tasks : List TaskDescriptor) : System :=
  { sys with sched := (sys.sched.submitAll tasks).1 }

/-- The two tasks of `testScheduler`. -/
def testSchedulerTasks : List TaskDescriptor :=
  [vectorAddTask 512, matrixMulTask 64 64 64]

/-- Task number `i` of the mixed workload of `testIntegration`. -/
def testIntegrationTask (i : Nat) : TaskDescriptor :=
  if i % 2 = 0 then
    { TaskDescriptor.default with type := .VECTOR_ADD, dim_m := 256 * (i + 1),
                                  priority := i % 3 }
  else
    { TaskDescriptor.default with type := .MATRIX_MUL, dim_m := 32 * (i + 1),
                                  dim_n := 32 * (i + 1), dim_k := 32, priority := i % 3 }

/-- The ten tasks of `testIntegration`. -/
def testIntegrationTasks : List TaskDescriptor :=
  (List.range 10).map testIntegrationTask


/-- A task with its `priority` and `flags` fields blanked. -/
def TaskDescriptor.erasePriority (t : TaskDescriptor) : TaskDescriptor :=
  { t with priority := 0, flags := 0 }

/-- A vector core with the `priority` and `flags` fields of every task it holds blanked. -/
def VectorCore.erasePriority (c : VectorCore) : VectorCore :=
  { c with task_queue_ := c.task_queue_.map TaskDescriptor.erasePriority,
           current_task_ := c.current_task_.erasePriority }

/-- A tensor core with the `priority` and `flags` fields of every task it holds blanked. -/
def TensorCore.erasePriority (c : TensorCore) : TensorCore :=
  { c with task_queue_ := c.task_queue_.map TaskDescriptor.erasePriority,
           current_task_ := c.current_task_.erasePriority }

/-- A scheduler with the `priority` and `flags` fields of every queued task blanked. -/
def Scheduler.erasePriority (s : Scheduler) : Scheduler :=
  { s with task_queue_ := s.task_queue_.map TaskDescriptor.erasePriority }

/-- A system with the `priority` and `flags` fields of every task in it blanked. -/
def System.erasePriority (sys : System) : System :=
  { sched := sys.sched.erasePriority, vcore := sys.vcore.erasePriority,
    tcore := sys.tcore.erasePriority }

/-- A call with the `priority` and `flags` fields of a submitted task blanked. -/
def SystemOp.erasePriority : SystemOp → SystemOp
  | .submit task => .submit task.erasePriority
  | .schedulerClock => .schedulerClock
  | .schedulerReset => .schedulerReset
  | .vectorSubmit task => .vectorSubmit task.erasePriority
  | .vectorClock => .vectorClock
  | .vectorReset => .vectorReset
  | .tensorSubmit task => .tensorSubmit task.erasePriority
  | .tensorClock => .tensorClock
  | .tensorReset => .tensorReset

/-- The dispatch decision the next `Scheduler::clock` call takes: nothing when the admission
queue is empty, otherwise the core selected for the head of the queue and whether
`dispatchTask` succeeds. -/
def System.dispatchDecision (sys : System) : Option (CoreType × Bool) :=
  match sys.sched.task_queue_ with
  | [] => none
  | task :: _ =>
      some (sys.sched.selectCore sys.vcore sys.tcore task,
        (sys.sched.dispatchTask sys.vcore sys.tcore task
          (sys.sched.selectCore sys.vcore sys.tcore task)).2.2)

/-- The task of `testIntegration` number `i` with another priority and other flags. -/
def reprioritizedTask (i : Nat) : TaskDescriptor :=
  { testIntegrationTask i with priority := 9 - i, flags := i }

/-- The statistics after the first statements of `Scheduler::clock`, before the dispatch
attempt: `total_cycles` is advanced and each connected core that is busy is counted. -/
def System.sampledStats (sys : System) : PerfStats :=
  let s := sys.sched
  let st0 := { s.stats_ with total_cycles := s.stats_.total_cycles + 1 }
  let st1 := if s.vector_core_ && sys.vcore.isBusy then
      { st0 with vector_core_cycles := st0.vector_core_cycles + 1 } else st0
  if s.tensor_core_ && sys.tcore.isBusy then
    { st1 with tensor_core_cycles := st1.tensor_core_cycles + 1 } else st1

/-- The calls of the first two cycles of `testIntegration` on the scheduler and the cores,
after the ten submissions, for a workload given by its task number `i`. -/
def integrationOps (task : Nat → TaskDescriptor) : List SystemOp :=
  (List.range 10).map (fun i => SystemOp.submit (task i))
    ++ [.schedulerClock, .vectorClock, .tensorClock, .schedulerClock, .vectorClock,
        .tensorClock]


/-- A caller that submits the transactions of a list one after the other: the final state
and the flags returned, in order. -/
def Interconnect.submitAll (ic : Interconnect) : List Transaction → Interconnect × List Bool
  | [] => (ic, [])
  | tr :: trs =>
      ((submitAll (ic.submitTransaction tr).1 trs).1,
        (ic.submitTransaction tr).2 :: (submitAll (ic.submitTransaction tr).1 trs).2)

/-- Durations computed by `calculateTransactionCycles` for a list of transactions, as
natural numbers. -/
def Interconnect.durations (ic : Interconnect) (trs : List Transaction) : List Nat :=
  trs.map (fun tr => (ic.calculateTransactionCycles tr).toNat)

/-- The completion queues after the transactions of a list were delivered in order, each
pushed on the queue of its destination port. -/
def Interconnect.deliver (qs : List (List Transaction)) (trs : List Transaction) :
    List (List Transaction) :=
  trs.foldl (fun q tr => Interconnect.pushCompleted q tr.dest_id tr) qs

/-- A transaction of `2^37` bytes for port 1. -/
def hugeTransaction : Transaction :=
  { testTransaction with size := 137438953472 }

/-- Three transactions for an interconnect of 64 bytes per cycle: the 128-byte transaction
of `testInterconnect` for port 1, a 64-byte transaction for port 2 and a 200-byte
transaction for port 1 again. -/
def testTransactions : List Transaction :=
  [testTransaction,
   { testTransaction with dest_id := 2, size := 64 },
   { testTransaction with size := 200 }]


/-- Whether a call of `clock` in state `ic` completes the transfer in progress: the branch
of `Interconnect::clock` that pushes `current_transaction_` on
`completion_queues_[current_transaction_.dest_id]` is taken. -/
def Interconnect.completesOnClock (ic : Interconnect) : Bool :=
  ic.processing_ && decide (wrapInt32 (ic.cycles_remaining_ - 1) ≤ 0)

/-- The transactions accepted by `submitTransaction` during a sequence of calls on an
interconnect, in order. -/
def Interconnect.acceptedTransactions (ic : Interconnect) :
    List InterconnectOp → List Transaction
  | [] => []
  | .submit tr :: rest =>
      (if (ic.submitTransaction tr).2 then [tr] else [])
        ++ acceptedTransactions (ic.submitTransaction tr).1 rest
  | .clock :: rest => acceptedTransactions ic.clock rest
  | .reset :: rest => acceptedTransactions ic.reset rest
  | .getCompleted port_id :: rest =>
      acceptedTransactions (ic.getCompletedTransaction port_id).1 rest

/-! ## Facts about the machine-integer conversions -/

theorem wrapInt32_of_range {x : Int} (h1 : -(2 ^ 31) ≤ x) (h2 : x < 2 ^ 31) :
    wrapInt32 x = x := by
  unfold wrapInt32
  rw [Int.emod_eq_of_lt (by omega) (by omega)]
  omega

theorem toInt32_of_lt {n : Nat} (h : n < 2 ^ 31) : toInt32 n = (n : Int) := by
  unfold toInt32
  exact wrapInt32_of_range (by omega) (by exact_mod_cast h)

theorem intToUInt32_of_range {x : Int} (h1 : 0 ≤ x) (h2 : x < 2 ^ 32) :
    intToUInt32 x = x.toNat := by
  unfold intToUInt32
  rw [Int.emod_eq_of_lt h1 h2]

theorem intToUInt64_of_range {x : Int} (h1 : 0 ≤ x) (h2 : x < 2 ^ 64) :
    intToUInt64 x = x.toNat := by
  unfold intToUInt64
  rw [Int.emod_eq_of_lt h1 h2]

/-! ## Scheduler: routing and admission -/

/-- C1: a task of kind MATRIX_MUL or CONV2D is routed to the tensor core and a task of kind
VECTOR_ADD, VECTOR_MUL or VECTOR_FMA to the vector core, by `simpleHeuristic` and by
`selectCore`, whatever the other fields of the task (affinity hint, priority, flags,
dimensions, addresses), whatever the state of the two cores and whether or not they are
connected. -/
theorem selectCore_routes_by_kind (s : Scheduler) (v : VectorCore) (t : TensorCore)
    (task : TaskDescriptor) :
    (s.simpleHeuristic v t { task with type := .MATRIX_MUL } = .TENSOR_CORE ∧
      s.simpleHeuristic v t { task with type := .CONV2D } = .TENSOR_CORE ∧
      s.simpleHeuristic v t { task with type := .VECTOR_ADD } = .VECTOR_CORE ∧
      s.simpleHeuristic v t { task with type := .VECTOR_MUL } = .VECTOR_CORE ∧
      s.simpleHeuristic v t { task with type := .VECTOR_FMA } = .VECTOR_CORE) ∧
    (s.selectCore v t { task with type := .MATRIX_MUL } = .TENSOR_CORE ∧
      s.selectCore v t { task with type := .CONV2D } = .TENSOR_CORE ∧
      s.selectCore v t { task with type := .VECTOR_ADD } = .VECTOR_CORE ∧
      s.selectCore v t { task with type := .VECTOR_MUL } = .VECTOR_CORE ∧
      s.selectCore v t { task with type := .VECTOR_FMA } = .VECTOR_CORE) := by
  simp [Scheduler.selectCore, Scheduler.simpleHeuristic]

/-- C2: `Scheduler::submitTask` returns true exactly when the admission queue holds fewer
than 32 tasks.  On true the task is appended at the tail, `total_tasks` grows by one and
every other statistic (and the core wiring) is unchanged; on false the scheduler is
unchanged. -/
theorem scheduler_submitTask_spec (s : Scheduler) (task : TaskDescriptor) :
    ((s.submitTask task).2 = true ↔ s.task_queue_.length < 32) ∧
    ((s.submitTask task).2 = true →
      (s.submitTask task).1.task_queue_ = s.task_queue_ ++ [task] ∧
      (s.submitTask task).1.stats_.total_tasks = s.stats_.total_tasks + 1 ∧
      (s.submitTask task).1.stats_.total_cycles = s.stats_.total_cycles ∧
      (s.submitTask task).1.stats_.vector_core_cycles = s.stats_.vector_core_cycles ∧
      (s.submitTask task).1.stats_.tensor_core_cycles = s.stats_.tensor_core_cycles ∧
      (s.submitTask task).1.stats_.vector_core_tasks = s.stats_.vector_core_tasks ∧
      (s.submitTask task).1.stats_.tensor_core_tasks = s.stats_.tensor_core_tasks ∧
      (s.submitTask task).1.vector_core_ = s.vector_core_ ∧
      (s.submitTask task).1.tensor_core_ = s.tensor_core_) ∧
    ((s.submitTask task).2 = false → (s.submitTask task).1 = s) := by
  unfold Scheduler.submitTask Scheduler.MAX_QUEUE_DEPTH
  by_cases h : s.task_queue_.length ≥ 32
  · simp [h]
  · simp [h]
    omega

/-- Witness for C2: on the freshly constructed scheduler the default task is accepted and
becomes the only queue entry; on a scheduler whose queue holds 32 tasks it is refused and
the scheduler is unchanged. -/
theorem scheduler_submitTask_spec_witness :
    ((Scheduler.new.submitTask TaskDescriptor.default).2 = true ∧
      (Scheduler.new.submitTask TaskDescriptor.default).1.task_queue_
        = [TaskDescriptor.default] ∧
      (Scheduler.new.submitTask TaskDescriptor.default).1.stats_.total_tasks = 1) ∧
    (({ Scheduler.new with task_queue_ := List.replicate 32 TaskDescriptor.default }.submitTask
        TaskDescriptor.default).2 = false ∧
      ({ Scheduler.new with task_queue_ := List.replicate 32 TaskDescriptor.default }.submitTask
        TaskDescriptor.default).1
        = { Scheduler.new with task_queue_ := List.replicate 32 TaskDescriptor.default }) := by
  have h1 := scheduler_submitTask_spec Scheduler.new TaskDescriptor.default
  have h2 := scheduler_submitTask_spec
    { Scheduler.new with task_queue_ := List.replicate 32 TaskDescriptor.default }
    TaskDescriptor.default
  have a1 : (Scheduler.new.submitTask TaskDescriptor.default).2 = true :=
    h1.1.2 (by decide)
  have a2 : ({ Scheduler.new with task_queue_ := List.replicate 32 TaskDescriptor.default
      }.submitTask TaskDescriptor.default).2 = false := by decide
  exact ⟨⟨a1, (h1.2.1 a1).1, (h1.2.1 a1).2.1⟩, a2, h2.2.2 a2⟩

/-- C3: with a non-empty admission queue and both cores connected, `Scheduler::clock` routes
the head task to the vector or to the tensor core.  When the selected core's queue holds
fewer than 16 tasks, the head leaves the admission queue, is appended to that core's queue,
that core's dispatched-task counter grows by one and the other core and its counter are
unchanged.  When the selected core's queue is full, the admission queue, both dispatch
counters and both cores are unchanged, so nothing behind the head is dispatched. -/
theorem schedulerClock_head_dispatch (sys : System) (task : TaskDescriptor)
    (rest : List TaskDescriptor)
    (hq : sys.sched.task_queue_ = task :: rest)
    (hv : sys.sched.vector_core_ = true) (ht : sys.sched.tensor_core_ = true) :
    (sys.sched.selectCore sys.vcore sys.tcore task = .VECTOR_CORE ∨
      sys.sched.selectCore sys.vcore sys.tcore task = .TENSOR_CORE) ∧
    (sys.sched.selectCore sys.vcore sys.tcore task = .VECTOR_CORE →
      sys.vcore.task_queue_.length < 16 →
        sys.schedulerClock.sched.task_queue_ = rest ∧
        sys.schedulerClock.vcore
          = { sys.vcore with task_queue_ := sys.vcore.task_queue_ ++ [task] } ∧
        sys.schedulerClock.tcore = sys.tcore ∧
        sys.schedulerClock.sched.stats_.vector_core_tasks
          = sys.sched.stats_.vector_core_tasks + 1 ∧
        sys.schedulerClock.sched.stats_.tensor_core_tasks
          = sys.sched.stats_.tensor_core_tasks) ∧
    (sys.sched.selectCore sys.vcore sys.tcore task = .TENSOR_CORE →
      sys.tcore.task_queue_.length < 16 →
        sys.schedulerClock.sched.task_queue_ = rest ∧
        sys.schedulerClock.tcore
          = { sys.tcore with task_queue_ := sys.tcore.task_queue_ ++ [task] } ∧
        sys.schedulerClock.vcore = sys.vcore ∧
        sys.schedulerClock.sched.stats_.tensor_core_tasks
          = sys.sched.stats_.tensor_core_tasks + 1 ∧
        sys.schedulerClock.sched.stats_.vector_core_tasks
          = sys.sched.stats_.vector_core_tasks) ∧
    (sys.sched.selectCore sys.vcore sys.tcore task = .VECTOR_CORE →
      16 ≤ sys.vcore.task_queue_.length →
        sys.schedulerClock.sched.task_queue_ = task :: rest ∧
        sys.schedulerClock.vcore = sys.vcore ∧
        sys.schedulerClock.tcore = sys.tcore ∧
        sys.schedulerClock.sched.stats_.vector_core_tasks
          = sys.sched.stats_.vector_core_tasks ∧
        sys.schedulerClock.sched.stats_.tensor_core_tasks
          = sys.sched.stats_.tensor_core_tasks) ∧
    (sys.sched.selectCore sys.vcore sys.tcore task = .TENSOR_CORE →
      16 ≤ sys.tcore.task_queue_.length →
        sys.schedulerClock.sched.task_queue_ = task :: rest ∧
        sys.schedulerClock.vcore = sys.vcore ∧
        sys.schedulerClock.tcore = sys.tcore ∧
        sys.schedulerClock.sched.stats_.vector_core_tasks
          = sys.sched.stats_.vector_core_tasks ∧
        sys.schedulerClock.sched.stats_.tensor_core_tasks
          = sys.sched.stats_.tensor_core_tasks) := by
  refine ⟨?_, ?_, ?_, ?_, ?_⟩
  · unfold Scheduler.selectCore Scheduler.simpleHeuristic
    split <;> first | (simp; done) | (split_ifs <;> simp)
  · intro hs hl
    have hl2 : ¬ (16 ≤ sys.vcore.task_queue_.length) := by omega
    simp only [System.schedulerClock, hq, hs, Scheduler.dispatchTask, hv,
      VectorCore.submitTask, VectorCore.MAX_QUEUE_DEPTH]
    simp [hl2]
    split <;> split <;> simp
  · intro hs hl
    have hl2 : ¬ (16 ≤ sys.tcore.task_queue_.length) := by omega
    simp only [System.schedulerClock, hq, hs, Scheduler.dispatchTask, ht,
      TensorCore.submitTask, TensorCore.MAX_QUEUE_DEPTH]
    simp [hl2]
    split <;> split <;> simp
  · intro hs hl
    simp only [System.schedulerClock, hq, hs, Scheduler.dispatchTask, hv,
      VectorCore.submitTask, VectorCore.MAX_QUEUE_DEPTH]
    simp [hl]
    split <;> split <;> simp
  · intro hs hl
    simp only [System.schedulerClock, hq, hs, Scheduler.dispatchTask, ht,
      TensorCore.submitTask, TensorCore.MAX_QUEUE_DEPTH]
    simp [hl]
    split <;> split <;> simp

/-- Witness for C3: in the system of `testScheduler` the head VECTOR_ADD is handed to the
vector core; when the vector core's queue already holds 16 tasks nothing moves, although the
MATRIX_MUL behind the head targets the empty tensor core. -/
theorem schedulerClock_head_dispatch_witness :
    (testSchedulerSystem.schedulerClock.sched.task_queue_ = [matrixMulTask 64 64 64] ∧
      testSchedulerSystem.schedulerClock.vcore
        = { testSchedulerSystem.vcore with
            task_queue_ := testSchedulerSystem.vcore.task_queue_ ++ [vectorAddTask 512] } ∧
      testSchedulerSystem.schedulerClock.tcore = testSchedulerSystem.tcore ∧
      testSchedulerSystem.schedulerClock.sched.stats_.vector_core_tasks
        = testSchedulerSystem.sched.stats_.vector_core_tasks + 1 ∧
      testSchedulerSystem.schedulerClock.sched.stats_.tensor_core_tasks
        = testSchedulerSystem.sched.stats_.tensor_core_tasks) ∧
    (blockedSchedulerSystem.schedulerClock.sched.task_queue_
        = [vectorAddTask 512, matrixMulTask 64 64 64] ∧
      blockedSchedulerSystem.schedulerClock.vcore = blockedSchedulerSystem.vcore ∧
      blockedSchedulerSystem.schedulerClock.tcore = blockedSchedulerSystem.tcore ∧
      blockedSchedulerSystem.schedulerClock.sched.stats_.vector_core_tasks
        = blockedSchedulerSystem.sched.stats_.vector_core_tasks ∧
      blockedSchedulerSystem.schedulerClock.sched.stats_.tensor_core_tasks
        = blockedSchedulerSystem.sched.stats_.tensor_core_tasks) :=
  ⟨(schedulerClock_head_dispatch testSchedulerSystem (vectorAddTask 512)
      [matrixMulTask 64 64 64] rfl rfl rfl).2.1 (by decide) (by decide),
   (schedulerClock_head_dispatch blockedSchedulerSystem (vectorAddTask 512)
      [matrixMulTask 64 64 64] rfl rfl rfl).2.2.2.1 (by decide) (by decide)⟩

/-! ## Modular arithmetic of the conversions and the rounded-up quotient -/

theorem wrapInt32_emod (x : Int) : wrapInt32 x % 2 ^ 32 = x % 2 ^ 32 := by
  unfold wrapInt32
  omega

theorem wrapInt32_congr {x y : Int} (h : x % 2 ^ 32 = y % 2 ^ 32) :
    wrapInt32 x = wrapInt32 y := by
  unfold wrapInt32
  omega

theorem wrapInt32_mul_left (x y : Int) : wrapInt32 (wrapInt32 x * y) = wrapInt32 (x * y) := by
  apply wrapInt32_congr
  rw [Int.mul_emod, wrapInt32_emod, ← Int.mul_emod]

theorem wrapInt32_add_left (x y : Int) : wrapInt32 (wrapInt32 x + y) = wrapInt32 (x + y) := by
  apply wrapInt32_congr
  rw [Int.add_emod, wrapInt32_emod, ← Int.add_emod]

theorem wrapInt32_range (x : Int) : -(2 ^ 31) ≤ wrapInt32 x ∧ wrapInt32 x < 2 ^ 31 := by
  unfold wrapInt32
  omega

theorem ceil_div_least (a b : Nat) (hb : 1 ≤ b) :
    a ≤ ceil_div a b * b ∧ ∀ q, a ≤ q * b → ceil_div a b ≤ q := by
  unfold ceil_div
  constructor
  · have h1 := Nat.div_add_mod (a + b - 1) b
    have h2 := Nat.mod_lt (a + b - 1) (show b > 0 by omega)
    rw [Nat.mul_comm] at h1
    omega
  · intro q hq
    apply Nat.le_of_lt_succ
    rw [Nat.div_lt_iff_lt_mul (by omega), Nat.succ_mul]
    omega

theorem ceil_div_of_dvd (a b : Nat) (hb : 1 ≤ b) (h : b ∣ a) : ceil_div a b = a / b := by
  obtain ⟨k, rfl⟩ := h
  unfold ceil_div
  rw [Nat.mul_div_cancel_left k (by omega)]
  apply Nat.div_eq_of_lt_le
  · rw [Nat.mul_comm]
    omega
  · rw [Nat.succ_mul, Nat.mul_comm]
    omega

/-! ## Cost estimates -/

/-- C4 (as amended): for every lane count from 1 up (an `int`) and every `dim_m`,
`VectorCore::estimateTaskCycles` returns `dim_m / lanes + 5` for VECTOR_ADD and VECTOR_MUL
and `(dim_m / lanes) * 3 + 10` for VECTOR_FMA, the quotient rounded down, whenever that
value fits in a signed 32-bit integer, and 100 for every other kind; the quotient equals
`ceil_div dim_m lanes` when the lane count divides `dim_m`. -/
theorem vector_estimateTaskCycles_floor (c : VectorCore) (task : TaskDescriptor)
    (hl : 1 ≤ c.num_lanes_) (hl2 : c.num_lanes_ < 2 ^ 31) :
    ((task.type = .VECTOR_ADD ∨ task.type = .VECTOR_MUL) →
      task.dim_m / c.num_lanes_.toNat + 5 < 2 ^ 31 →
        c.estimateTaskCycles task = ((task.dim_m / c.num_lanes_.toNat + 5 : Nat) : Int)) ∧
    (task.type = .VECTOR_FMA →
      task.dim_m / c.num_lanes_.toNat * 3 + 10 < 2 ^ 31 →
        c.estimateTaskCycles task = ((task.dim_m / c.num_lanes_.toNat * 3 + 10 : Nat) : Int)) ∧
    (task.type ≠ .VECTOR_ADD → task.type ≠ .VECTOR_MUL → task.type ≠ .VECTOR_FMA →
      c.estimateTaskCycles task = 100) ∧
    (c.num_lanes_.toNat ∣ task.dim_m →
      task.dim_m / c.num_lanes_.toNat = ceil_div task.dim_m c.num_lanes_.toNat) := by
  have hu : intToUInt32 c.num_lanes_ = c.num_lanes_.toNat :=
    intToUInt32_of_range (by omega) (by omega)
  refine ⟨?_, ?_, ?_, ?_⟩
  · intro ht hfit
    have he : c.estimateTaskCycles task
        = toInt32 ((task.dim_m / intToUInt32 c.num_lanes_ + 5) % 2 ^ 32) := by
      unfold VectorCore.estimateTaskCycles
      rcases ht with ht | ht <;> rw [ht]
    rw [he, hu, Nat.mod_eq_of_lt (by omega), toInt32_of_lt hfit]
  · intro ht hfit
    have he : c.estimateTaskCycles task
        = toInt32 (((task.dim_m / intToUInt32 c.num_lanes_) * 3 % 2 ^ 32 + 10) % 2 ^ 32) := by
      unfold VectorCore.estimateTaskCycles
      rw [ht]
    have h3 : task.dim_m / c.num_lanes_.toNat * 3 % 2 ^ 32
        = task.dim_m / c.num_lanes_.toNat * 3 := Nat.mod_eq_of_lt (by omega)
    rw [he, hu, h3, Nat.mod_eq_of_lt (by omega), toInt32_of_lt hfit]
  · intro h1 h2 h3
    unfold VectorCore.estimateTaskCycles
    split <;> first | contradiction | rfl
  · intro hd
    exact (ceil_div_of_dvd task.dim_m c.num_lanes_.toNat (by omega) hd).symm

/-- Witness for C4: the task of `testVectorCore` (VECTOR_ADD, `dim_m = 256`) on 8 lanes costs
`256 / 8 + 5 = 37`, and there the quotient is also the rounded-up one. -/
theorem vector_estimateTaskCycles_floor_witness :
    (VectorCore.new 0 8).estimateTaskCycles (vectorAddTask 256) = 37 ∧
      256 / 8 = ceil_div 256 8 :=
  ⟨(vector_estimateTaskCycles_floor (VectorCore.new 0 8) (vectorAddTask 256)
      (by decide) (by decide)).1 (Or.inl rfl) (by decide),
   (vector_estimateTaskCycles_floor (VectorCore.new 0 8) (vectorAddTask 256)
      (by decide) (by decide)).2.2.2 (by decide)⟩

/-- Counterexample to C4 as stated: a VECTOR_ADD of length 10 on 8 lanes costs 6, not
`ceil_div 10 8 + 5 = 7`; and a VECTOR_ADD of length `2^32 - 1` on one lane costs 4 (the
unsigned sum wraps), not `ceil_div (2^32 - 1) 1 + 5`. -/
theorem vector_estimateTaskCycles_not_ceil :
    ((VectorCore.new 0 8).estimateTaskCycles (vectorAddTask 10) = 6 ∧
      (VectorCore.new 0 8).estimateTaskCycles (vectorAddTask 10)
        ≠ ((ceil_div 10 8 + 5 : Nat) : Int)) ∧
    ((VectorCore.new 0 1).estimateTaskCycles (vectorAddTask 4294967295) = 4 ∧
      (VectorCore.new 0 1).estimateTaskCycles (vectorAddTask 4294967295)
        ≠ ((ceil_div 4294967295 1 + 5 : Nat) : Int)) := by
  decide

/-- The tile count of `calculateTiles` is the rounded-up quotient when the array size is at
least 1 and `dimension + array_size_` does not overflow an `int`. -/
theorem calculateTiles_eq_ceil_div (c : TensorCore) (d : Nat)
    (ha : 1 ≤ c.array_size_) (hd : (d : Int) + c.array_size_ < 2 ^ 31) :
    c.calculateTiles (toInt32 d) = (ceil_div d c.array_size_.toNat : Nat) := by
  obtain ⟨A, hA⟩ : ∃ A : Nat, c.array_size_ = (A : Int) :=
    ⟨c.array_size_.toNat, (Int.toNat_of_nonneg (by omega)).symm⟩
  have hA1 : 1 ≤ A := by omega
  have hdl : d < 2 ^ 31 := by omega
  have w1 : wrapInt32 ((d : Int) + A) = (d : Int) + A :=
    wrapInt32_of_range (by omega) (by omega)
  have w2 : wrapInt32 ((d : Int) + A - 1) = (d : Int) + A - 1 :=
    wrapInt32_of_range (by omega) (by omega)
  have hcast : ((d : Int) + A - 1) / (A : Int) = (((d + A - 1) / A : Nat) : Int) := by
    have hc : ((d + A - 1 : Nat) : Int) = (d : Int) + A - 1 := by omega
    rw [Int.natCast_div, hc]
  have hq : (d + A - 1) / A ≤ d + A - 1 := Nat.div_le_self _ _
  unfold TensorCore.calculateTiles ceil_div
  rw [toInt32_of_lt hdl, hA, Int.toNat_ofNat, w1, w2,
    Int.tdiv_eq_ediv (by omega) (by omega), hcast]
  generalize (d + A - 1) / A = q at hq
  exact wrapInt32_of_range (by omega) (by omega)

/-- C5 (as amended): for every array size from 1 up, `TensorCore::estimateTaskCycles`
returns `tiles(dim_m) * tiles(dim_n) * tiles(dim_k) * array_size + 50` for a MATRIX_MUL,
with `tiles(d) = ceil_div d array_size`, whenever that value fits in a signed 32-bit
integer and so does each sum `dimension + array_size` formed by `calculateTiles`; it
returns 500 for CONV2D and 1000 for every other kind; `dim_m = dim_n = dim_k = 64` with
`array_size = 8` gives 4146. -/
theorem tensor_estimateTaskCycles_formula (c : TensorCore) (task : TaskDescriptor)
    (ha : 1 ≤ c.array_size_) :
    (task.type = .MATRIX_MUL →
      (task.dim_m : Int) + c.array_size_ < 2 ^ 31 →
      (task.dim_n : Int) + c.array_size_ < 2 ^ 31 →
      (task.dim_k : Int) + c.array_size_ < 2 ^ 31 →
      ceil_div task.dim_m c.array_size_.toNat * ceil_div task.dim_n c.array_size_.toNat *
        ceil_div task.dim_k c.array_size_.toNat * c.array_size_.toNat + 50 < 2 ^ 31 →
      c.estimateTaskCycles task =
        ((ceil_div task.dim_m c.array_size_.toNat * ceil_div task.dim_n c.array_size_.toNat *
          ceil_div task.dim_k c.array_size_.toNat * c.array_size_.toNat + 50 : Nat) : Int)) ∧
    (task.type = .CONV2D → c.estimateTaskCycles task = 500) ∧
    (task.type ≠ .MATRIX_MUL → task.type ≠ .CONV2D → c.estimateTaskCycles task = 1000) ∧
    (task.type = .MATRIX_MUL → c.array_size_ = 8 → task.dim_m = 64 → task.dim_n = 64 →
      task.dim_k = 64 → c.estimateTaskCycles task = 4146) := by
  have main : task.type = .MATRIX_MUL →
      (task.dim_m : Int) + c.array_size_ < 2 ^ 31 →
      (task.dim_n : Int) + c.array_size_ < 2 ^ 31 →
      (task.dim_k : Int) + c.array_size_ < 2 ^ 31 →
      ceil_div task.dim_m c.array_size_.toNat * ceil_div task.dim_n c.array_size_.toNat *
        ceil_div task.dim_k c.array_size_.toNat * c.array_size_.toNat + 50 < 2 ^ 31 →
      c.estimateTaskCycles task =
        ((ceil_div task.dim_m c.array_size_.toNat * ceil_div task.dim_n c.array_size_.toNat *
          ceil_div task.dim_k c.array_size_.toNat * c.array_size_.toNat + 50 : Nat) : Int) := by
    intro ht hm hn hk hfit
    have hA : c.array_size_ = (c.array_size_.toNat : Int) :=
      (Int.toNat_of_nonneg (by omega)).symm
    have he : c.estimateTaskCycles task
        = wrapInt32 (wrapInt32 (wrapInt32 (wrapInt32
            (c.calculateTiles (toInt32 task.dim_m) * c.calculateTiles (toInt32 task.dim_n))
            * c.calculateTiles (toInt32 task.dim_k)) * c.array_size_) + 50) := by
      unfold TensorCore.estimateTaskCycles
      rw [ht]
    rw [he, calculateTiles_eq_ceil_div c task.dim_m ha hm,
      calculateTiles_eq_ceil_div c task.dim_n ha hn,
      calculateTiles_eq_ceil_div c task.dim_k ha hk]
    generalize ceil_div task.dim_m c.array_size_.toNat = tm at hfit ⊢
    generalize ceil_div task.dim_n c.array_size_.toNat = tn at hfit ⊢
    generalize ceil_div task.dim_k c.array_size_.toNat = tk at hfit ⊢
    rw [wrapInt32_mul_left ((tm : Int) * tn) tk,
      wrapInt32_mul_left ((tm : Int) * tn * tk) c.array_size_, wrapInt32_add_left]
    have hz : ((tm : Int) * tn * tk * c.array_size_ + 50)
        = ((tm * tn * tk * c.array_size_.toNat + 50 : Nat) : Int) := by
      push_cast
      rw [← hA]
    rw [hz]
    exact wrapInt32_of_range (by omega) (by exact_mod_cast hfit)
  refine ⟨main, ?_, ?_, ?_⟩
  · intro ht
    unfold TensorCore.estimateTaskCycles
    rw [ht]
  · intro h1 h2
    unfold TensorCore.estimateTaskCycles
    split <;> first | contradiction | rfl
  · intro ht h8 hm hn hk
    have h := main ht (by rw [hm, h8]; decide) (by rw [hn, h8]; decide)
      (by rw [hk, h8]; decide) (by rw [hm, hn, hk, h8]; decide)
    rw [h, hm, hn, hk, h8]
    decide

/-- Witness for C5: the 32x32x32 MATRIX_MUL of `testTensorCore` on the 8x8 array costs
`4 * 4 * 4 * 8 + 50 = 562`, and the 64x64x64 one of `testScheduler` costs 4146. -/
theorem tensor_estimateTaskCycles_formula_witness :
    (TensorCore.new 0 8).estimateTaskCycles (matrixMulTask 32 32 32) = 562 ∧
      (TensorCore.new 0 8).estimateTaskCycles (matrixMulTask 64 64 64) = 4146 :=
  ⟨(tensor_estimateTaskCycles_formula (TensorCore.new 0 8) (matrixMulTask 32 32 32)
      (by decide)).1 rfl (by decide) (by decide) (by decide) (by decide),
   (tensor_estimateTaskCycles_formula (TensorCore.new 0 8) (matrixMulTask 64 64 64)
      (by decide)).2.2.2 rfl rfl rfl rfl rfl⟩

/-- Counterexample to C5 as stated: on an array of size 1073741798 a MATRIX_MUL with
`dim_m = 2147483596`, `dim_n = dim_k = 1` has the in-range formula value
`2 * 1 * 1 * 1073741798 + 50 = 2147483646`, but `dimension + array_size_ - 1` leaves the
`int` range inside `calculateTiles` and the estimate is `-1073741748`. -/
theorem tensor_estimateTaskCycles_overflow :
    (1 : Int) ≤ (TensorCore.new 0 1073741798).array_size_ ∧
    ceil_div 2147483596 1073741798 * ceil_div 1 1073741798 * ceil_div 1 1073741798
        * 1073741798 + 50 = 2147483646 ∧
    2147483646 < 2 ^ 31 ∧
    (TensorCore.new 0 1073741798).estimateTaskCycles (matrixMulTask 2147483596 1 1)
      = -1073741748 ∧
    (TensorCore.new 0 1073741798).estimateTaskCycles (matrixMulTask 2147483596 1 1)
      ≠ ((ceil_div 2147483596 1073741798 * ceil_div 1 1073741798 * ceil_div 1 1073741798
        * 1073741798 + 50 : Nat) : Int) := by
  decide

/-! ## One clock call of a core, case by case -/

theorem vector_estimate_range (c : VectorCore) (task : TaskDescriptor) :
    -(2 ^ 31) ≤ c.estimateTaskCycles task ∧ c.estimateTaskCycles task < 2 ^ 31 := by
  unfold VectorCore.estimateTaskCycles toInt32
  split <;> first | exact wrapInt32_range _ | (constructor <;> decide)

theorem vector_clock_idle_empty (s : VectorCore) (hi : s.idle_ = true)
    (hq : s.task_queue_ = []) :
    s.clock = { s with cycle_count_ := s.cycle_count_ + 1 } := by
  simp [VectorCore.clock, VectorCore.clockStart, VectorCore.clockExecute, hi, hq]

theorem vector_clock_busy (s : VectorCore) (hi : s.idle_ = false)
    (h1 : 1 ≤ s.execution_cycles_remaining_) (h2 : s.execution_cycles_remaining_ < 2 ^ 31) :
    s.clock = { s with cycle_count_ := s.cycle_count_ + 1,
                       busy_cycles_ := s.busy_cycles_ + 1,
                       execution_cycles_remaining_ := s.execution_cycles_remaining_ - 1,
                       idle_ := decide (s.execution_cycles_remaining_ ≤ 1) } := by
  have hw : wrapInt32 (s.execution_cycles_remaining_ - 1) = s.execution_cycles_remaining_ - 1 :=
    wrapInt32_of_range (by omega) (by omega)
  simp only [VectorCore.clock, VectorCore.clockStart, VectorCore.clockExecute, hi, hw]
  by_cases h : s.execution_cycles_remaining_ ≤ 1
  · have h0 : s.execution_cycles_remaining_ - 1 ≤ 0 := by omega
    simp [h, h0]
  · have h0 : ¬ (s.execution_cycles_remaining_ - 1 ≤ 0) := by omega
    simp [h, h0, hi]

theorem vector_estimate_eq_of_lanes (c d : VectorCore) (task : TaskDescriptor)
    (h : d.num_lanes_ = c.num_lanes_) : d.estimateTaskCycles task = c.estimateTaskCycles task := by
  unfold VectorCore.estimateTaskCycles
  rw [h]

theorem vector_clockStart_idle_cons (s : VectorCore) (task : TaskDescriptor)
    (rest : List TaskDescriptor) (hi : s.idle_ = true) (hq : s.task_queue_ = task :: rest) :
    s.clockStart = { s with cycle_count_ := s.cycle_count_ + 1,
                            current_task_ := task,
                            task_queue_ := rest,
                            execution_cycles_remaining_ := s.estimateTaskCycles task,
                            idle_ := false,
                            task_count_ := s.task_count_ + 1 } := by
  simp only [VectorCore.clockStart, hi, hq]
  congr 1

theorem vector_clock_idle_start (s : VectorCore) (task : TaskDescriptor)
    (rest : List TaskDescriptor) (hi : s.idle_ = true) (hq : s.task_queue_ = task :: rest)
    (h1 : 1 ≤ s.estimateTaskCycles task) :
    s.clock = { s with cycle_count_ := s.cycle_count_ + 1,
                       current_task_ := task,
                       task_queue_ := rest,
                       task_count_ := s.task_count_ + 1,
                       busy_cycles_ := s.busy_cycles_ + 1,
                       execution_cycles_remaining_ := s.estimateTaskCycles task - 1,
                       idle_ := decide (s.estimateTaskCycles task ≤ 1) } := by
  have hr := vector_estimate_range s task
  have hw : wrapInt32 (s.estimateTaskCycles task - 1) = s.estimateTaskCycles task - 1 :=
    wrapInt32_of_range (by omega) (by omega)
  rw [VectorCore.clock, vector_clockStart_idle_cons s task rest hi hq]
  simp only [VectorCore.clockExecute, hw]
  by_cases h : s.estimateTaskCycles task ≤ 1
  · have h0 : s.estimateTaskCycles task - 1 ≤ 0 := by omega
    simp [h, h0]
  · have h0 : ¬ (s.estimateTaskCycles task - 1 ≤ 0) := by omega
    simp [h, h0]

/-! ## A single task on a fresh vector core -/

/-- State of a fresh vector core with one queued task after `k + 1` clock calls, field by
field, when the task's estimated cost is at least 1. -/
theorem vector_single_task_trace (id lanes : Int) (task : TaskDescriptor)
    (hc : 1 ≤ (VectorCore.new id lanes).estimateTaskCycles task) (k : Nat) :
    (VectorCore.clock^[k + 1] ((VectorCore.new id lanes).submitTask task).1).task_queue_ = [] ∧
    (VectorCore.clock^[k + 1] ((VectorCore.new id lanes).submitTask task).1).task_count_ = 1 ∧
    (VectorCore.clock^[k + 1] ((VectorCore.new id lanes).submitTask task).1).cycle_count_
      = k + 1 ∧
    (VectorCore.clock^[k + 1] ((VectorCore.new id lanes).submitTask task).1).busy_cycles_
      = min (k + 1) ((VectorCore.new id lanes).estimateTaskCycles task).toNat ∧
    (VectorCore.clock^[k + 1] ((VectorCore.new id lanes).submitTask task).1).idle_
      = decide ((VectorCore.new id lanes).estimateTaskCycles task ≤ ((k + 1 : Nat) : Int)) ∧
    (VectorCore.clock^[k + 1]
        ((VectorCore.new id lanes).submitTask task).1).execution_cycles_remaining_
      = (VectorCore.new id lanes).estimateTaskCycles task
        - ((min (k + 1) ((VectorCore.new id lanes).estimateTaskCycles task).toNat : Nat) : Int) := by
  have hr := vector_estimate_range (VectorCore.new id lanes) task
  generalize hE : (VectorCore.new id lanes).estimateTaskCycles task = E at hc hr ⊢
  induction k with
  | zero =>
    have h0 : ((VectorCore.new id lanes).submitTask task).1
        = { VectorCore.new id lanes with task_queue_ := [task] } := rfl
    have hE0 : VectorCore.estimateTaskCycles
        { VectorCore.new id lanes with task_queue_ := [task] } task = E := by
      rw [← hE]
      exact vector_estimate_eq_of_lanes _ _ task rfl
    rw [Function.iterate_one, h0,
      vector_clock_idle_start _ task [] rfl rfl (by rw [hE0]; exact hc), hE0]
    refine ⟨rfl, rfl, rfl, ?_, ?_, ?_⟩
    · show 0 + 1 = min (0 + 1) E.toNat
      omega
    · show decide (E ≤ 1) = decide (E ≤ ((0 + 1 : Nat) : Int))
      rfl
    · show E - 1 = E - ((min (0 + 1) E.toNat : Nat) : Int)
      omega
  | succ n ih =>
    rw [Function.iterate_succ_apply']
    generalize VectorCore.clock^[n + 1] ((VectorCore.new id lanes).submitTask task).1 = s at ih ⊢
    obtain ⟨hq, ht, hcy, hb, hi, hrem⟩ := ih
    by_cases hdone : E ≤ ((n + 1 : Nat) : Int)
    · have hidle : s.idle_ = true := by rw [hi]; exact decide_eq_true hdone
      rw [vector_clock_idle_empty s hidle hq]
      refine ⟨hq, ht, ?_, ?_, ?_, ?_⟩
      · show s.cycle_count_ + 1 = n + 1 + 1
        omega
      · show s.busy_cycles_ = min (n + 1 + 1) E.toNat
        omega
      · show s.idle_ = decide (E ≤ ((n + 1 + 1 : Nat) : Int))
        rw [hidle]
        exact (decide_eq_true (by omega)).symm
      · show s.execution_cycles_remaining_ = E - ((min (n + 1 + 1) E.toNat : Nat) : Int)
        omega
    · have hbusy : s.idle_ = false := by rw [hi]; exact decide_eq_false hdone
      rw [vector_clock_busy s hbusy (by omega) (by omega)]
      refine ⟨hq, ht, ?_, ?_, ?_, ?_⟩
      · show s.cycle_count_ + 1 = n + 1 + 1
        omega
      · show s.busy_cycles_ + 1 = min (n + 1 + 1) E.toNat
        omega
      · show decide (s.execution_cycles_remaining_ ≤ 1) = decide (E ≤ ((n + 1 + 1 : Nat) : Int))
        apply decide_eq_decide.mpr
        omega
      · show s.execution_cycles_remaining_ - 1 = E - ((min (n + 1 + 1) E.toNat : Nat) : Int)
        omega

/-- C6: one task of estimated cost `c` at least 1 is submitted to a freshly constructed
vector core before the first clock call.  The submission is accepted, and after `k` clock
calls the core is busy exactly when `1 ≤ k < c` (so it is idle for every `k ≥ c` and stays
idle), `getTaskCount` is 1 for every `k ≥ 1`, `getBusyCycles` is `min k c`, and the queue is
empty for every `k ≥ 1`. -/
theorem vector_single_task_run (id lanes : Int) (task : TaskDescriptor)
    (hc : 1 ≤ (VectorCore.new id lanes).estimateTaskCycles task) (k : Nat) :
    ((VectorCore.new id lanes).submitTask task).2 = true ∧
    ((VectorCore.clock^[k] ((VectorCore.new id lanes).submitTask task).1).isBusy = true ↔
      1 ≤ k ∧ (k : Int) < (VectorCore.new id lanes).estimateTaskCycles task) ∧
    ((VectorCore.new id lanes).estimateTaskCycles task ≤ (k : Int) →
      (VectorCore.clock^[k] ((VectorCore.new id lanes).submitTask task).1).isIdle = true) ∧
    (1 ≤ k →
      (VectorCore.clock^[k] ((VectorCore.new id lanes).submitTask task).1).getTaskCount = 1) ∧
    (VectorCore.clock^[k] ((VectorCore.new id lanes).submitTask task).1).getBusyCycles
      = min k ((VectorCore.new id lanes).estimateTaskCycles task).toNat ∧
    (1 ≤ k →
      (VectorCore.clock^[k] ((VectorCore.new id lanes).submitTask task).1).task_queue_ = []) := by
  cases k with
  | zero =>
    refine ⟨rfl, ?_, ?_, ?_, ?_, ?_⟩
    · constructor
      · intro h
        have hf : (VectorCore.clock^[0] ((VectorCore.new id lanes).submitTask task).1).isBusy
            = false := rfl
        rw [hf] at h
        exact absurd h (by decide)
      · intro h
        omega
    · intro _
      rfl
    · intro h
      omega
    · show 0 = min 0 _
      omega
    · intro h
      omega
  | succ n =>
    obtain ⟨hq, ht, _, hb, hi, _⟩ := vector_single_task_trace id lanes task hc n
    refine ⟨rfl, ?_, ?_, fun _ => ht, hb, fun _ => hq⟩
    · unfold VectorCore.isBusy
      rw [hi]
      constructor
      · intro h
        have h2 : ¬ ((VectorCore.new id lanes).estimateTaskCycles task ≤ ((n + 1 : Nat) : Int)) := by
          intro h3
          rw [decide_eq_true h3] at h
          exact absurd h (by decide)
        omega
      · intro h
        have h2 : ¬ ((VectorCore.new id lanes).estimateTaskCycles task ≤ ((n + 1 : Nat) : Int)) := by
          omega
        rw [decide_eq_false h2]
        rfl
    · intro h
      unfold VectorCore.isIdle
      rw [hi]
      exact decide_eq_true h

/-- Witness for C6: the VECTOR_ADD of length 256 of `testVectorCore` on 8 lanes has cost 37;
the core is busy after 36 clock calls, idle after 37, and after the 200 clock calls of the
test it is idle with task count 1 and 37 busy cycles. -/
theorem vector_single_task_run_witness :
    (VectorCore.new 0 8).estimateTaskCycles (vectorAddTask 256) = 37 ∧
    (VectorCore.clock^[36] ((VectorCore.new 0 8).submitTask (vectorAddTask 256)).1).isBusy
      = true ∧
    (VectorCore.clock^[37] ((VectorCore.new 0 8).submitTask (vectorAddTask 256)).1).isIdle
      = true ∧
    (VectorCore.clock^[200] ((VectorCore.new 0 8).submitTask (vectorAddTask 256)).1).isIdle
      = true ∧
    (VectorCore.clock^[200] ((VectorCore.new 0 8).submitTask (vectorAddTask 256)).1).getTaskCount
      = 1 ∧
    (VectorCore.clock^[200] ((VectorCore.new 0 8).submitTask (vectorAddTask 256)).1).getBusyCycles
      = 37 :=
  ⟨by decide,
   (vector_single_task_run 0 8 (vectorAddTask 256) (by decide) 36).2.1.2
      ⟨by decide, by decide⟩,
   (vector_single_task_run 0 8 (vectorAddTask 256) (by decide) 37).2.2.1 (by decide),
   (vector_single_task_run 0 8 (vectorAddTask 256) (by decide) 200).2.2.1 (by decide),
   (vector_single_task_run 0 8 (vectorAddTask 256) (by decide) 200).2.2.2.1 (by decide),
   (vector_single_task_run 0 8 (vectorAddTask 256) (by decide) 200).2.2.2.2.1.trans
      (by decide)⟩

theorem tensor_estimate_range (c : TensorCore) (task : TaskDescriptor) :
    -(2 ^ 31) ≤ c.estimateTaskCycles task ∧ c.estimateTaskCycles task < 2 ^ 31 := by
  unfold TensorCore.estimateTaskCycles
  split <;> first | exact wrapInt32_range _ | (constructor <;> decide)

theorem tensor_clockStart_busy (s : TensorCore) (hi : s.idle_ = false) :
    s.clockStart = { s with cycle_count_ := s.cycle_count_ + 1 } := by
  simp [TensorCore.clockStart, hi]

theorem tensor_clock_idle_empty (s : TensorCore) (hi : s.idle_ = true)
    (hq : s.task_queue_ = []) :
    s.clock = { s with cycle_count_ := s.cycle_count_ + 1 } := by
  simp [TensorCore.clock, TensorCore.clockStart, TensorCore.clockExecute, hi, hq]

theorem tensor_clock_busy (s : TensorCore) (hi : s.idle_ = false)
    (h1 : 1 ≤ s.execution_cycles_remaining_) (h2 : s.execution_cycles_remaining_ < 2 ^ 31) :
    s.clock = { s with cycle_count_ := s.cycle_count_ + 1,
                       busy_cycles_ := s.busy_cycles_ + 1,
                       mac_operations_ :=
                         (s.mac_operations_ +
                           intToUInt64 (wrapInt32 (s.array_size_ * s.array_size_))) % 2 ^ 64,
                       execution_cycles_remaining_ := s.execution_cycles_remaining_ - 1,
                       idle_ := decide (s.execution_cycles_remaining_ ≤ 1) } := by
  have hw : wrapInt32 (s.execution_cycles_remaining_ - 1) = s.execution_cycles_remaining_ - 1 :=
    wrapInt32_of_range (by omega) (by omega)
  simp only [TensorCore.clock, TensorCore.clockStart, TensorCore.clockExecute, hi, hw]
  by_cases h : s.execution_cycles_remaining_ ≤ 1
  · have h0 : s.execution_cycles_remaining_ - 1 ≤ 0 := by omega
    simp [h, h0]
  · have h0 : ¬ (s.execution_cycles_remaining_ - 1 ≤ 0) := by omega
    simp [h, h0, hi]

theorem tensor_completedDuring_succ (s : TensorCore) (n : Nat) :
    s.completedDuring (n + 1)
      = (if s.completesOnClock = true then 1 else 0) + s.clock.completedDuring n := rfl

/-- A busy tensor core whose countdown exceeds `n` is still busy after `n` clock calls: the
countdown has dropped by `n`, the task counter and the queue are untouched and no task has
completed. -/
theorem tensor_busy_run (n : Nat) : ∀ s : TensorCore, s.idle_ = false →
    (n : Int) < s.execution_cycles_remaining_ → s.execution_cycles_remaining_ < 2 ^ 31 →
    (TensorCore.clock^[n] s).idle_ = false ∧
    (TensorCore.clock^[n] s).execution_cycles_remaining_ = s.execution_cycles_remaining_ - n ∧
    (TensorCore.clock^[n] s).task_count_ = s.task_count_ ∧
    (TensorCore.clock^[n] s).task_queue_ = s.task_queue_ ∧
    s.completedDuring n = 0 := by
  induction n with
  | zero =>
    intro s hi _ _
    refine ⟨hi, ?_, rfl, rfl, rfl⟩
    show s.execution_cycles_remaining_ = s.execution_cycles_remaining_ - ((0 : Nat) : Int)
    omega
  | succ m ih =>
    intro s hi h1 h2
    have hstep := tensor_clock_busy s hi (by omega) h2
    have hnot : ¬ (s.execution_cycles_remaining_ ≤ 1) := by omega
    have hidle : s.clock.idle_ = false := by
      rw [hstep]
      exact decide_eq_false hnot
    have hrem : s.clock.execution_cycles_remaining_ = s.execution_cycles_remaining_ - 1 := by
      rw [hstep]
    have htc : s.clock.task_count_ = s.task_count_ := by rw [hstep]
    have htq : s.clock.task_queue_ = s.task_queue_ := by rw [hstep]
    obtain ⟨a1, a2, a3, a4, a5⟩ := ih s.clock hidle (by omega) (by omega)
    rw [Function.iterate_succ_apply]
    refine ⟨a1, ?_, a3.trans htc, a4.trans htq, ?_⟩
    · rw [a2, hrem]
      push_cast
      omega
    · have hw : wrapInt32 (s.execution_cycles_remaining_ - 1)
          = s.execution_cycles_remaining_ - 1 := wrapInt32_of_range (by omega) (by omega)
      have hcomp : s.completesOnClock = false := by
        unfold TensorCore.completesOnClock
        rw [tensor_clockStart_busy s hi]
        simp only [hw]
        have h0 : ¬ (s.execution_cycles_remaining_ - 1 ≤ 0) := by omega
        simp [h0]
      show (if s.completesOnClock = true then 1 else 0) + s.clock.completedDuring m = 0
      rw [hcomp, a5]
      rfl

/-! ## The task counter -/

/-- C7, evaluation at the input of `testTensorCore`: the 32x32x32 MATRIX_MUL costs 562
cycles on the 8x8 tensor core, so during the 300 clock calls of the test no task completes
(the core is still busy, with 262 cycles to go), yet `getTaskCount` is 1: the counter is
advanced when a task starts. -/
theorem taskCount_counts_started_tasks :
    (TensorCore.new 0 8).estimateTaskCycles (matrixMulTask 32 32 32) = 562 ∧
    ((TensorCore.new 0 8).submitTask (matrixMulTask 32 32 32)).2 = true ∧
    (((TensorCore.new 0 8).submitTask (matrixMulTask 32 32 32)).1).completedDuring 300 = 0 ∧
    (TensorCore.clock^[300]
      ((TensorCore.new 0 8).submitTask (matrixMulTask 32 32 32)).1).isBusy = true ∧
    (TensorCore.clock^[300]
      ((TensorCore.new 0 8).submitTask (matrixMulTask 32 32 32)).1).execution_cycles_remaining_
        = 262 ∧
    (TensorCore.clock^[300]
      ((TensorCore.new 0 8).submitTask (matrixMulTask 32 32 32)).1).getTaskCount = 1 := by
  have hiter : TensorCore.clock^[300] ((TensorCore.new 0 8).submitTask (matrixMulTask 32 32 32)).1
      = TensorCore.clock^[299]
          (((TensorCore.new 0 8).submitTask (matrixMulTask 32 32 32)).1).clock :=
    Function.iterate_succ_apply _ 299 _
  have hfirst : (((TensorCore.new 0 8).submitTask (matrixMulTask 32 32 32)).1).completesOnClock
      = false := by decide
  have hi : (((TensorCore.new 0 8).submitTask (matrixMulTask 32 32 32)).1).clock.idle_
      = false := by decide
  have hrem : (((TensorCore.new 0 8).submitTask
      (matrixMulTask 32 32 32)).1).clock.execution_cycles_remaining_ = 561 := by decide
  have htc : (((TensorCore.new 0 8).submitTask (matrixMulTask 32 32 32)).1).clock.task_count_
      = 1 := by decide
  obtain ⟨a1, a2, a3, _, a5⟩ := tensor_busy_run 299
    (((TensorCore.new 0 8).submitTask (matrixMulTask 32 32 32)).1).clock hi
    (by rw [hrem]; decide) (by rw [hrem]; decide)
  refine ⟨by decide, by decide, ?_, ?_, ?_, ?_⟩
  · rw [tensor_completedDuring_succ _ 299, hfirst, a5]
    rfl
  · rw [hiter]
    unfold TensorCore.isBusy
    rw [a1]
    rfl
  · rw [hiter, a2, hrem]
    decide
  · rw [hiter]
    unfold TensorCore.getTaskCount
    rw [a3, htc]

/-! ## Capacity of the core queues -/

theorem vector_submitTask_accept (c : VectorCore) (task : TaskDescriptor)
    (h : c.task_queue_.length < 16) :
    c.submitTask task = ({ c with task_queue_ := c.task_queue_ ++ [task] }, true) := by
  have h2 : ¬ (c.task_queue_.length ≥ 16) := by omega
  simp [VectorCore.submitTask, VectorCore.MAX_QUEUE_DEPTH, h2]

theorem vector_submitTask_reject (c : VectorCore) (task : TaskDescriptor)
    (h : 16 ≤ c.task_queue_.length) : c.submitTask task = (c, false) := by
  simp [VectorCore.submitTask, VectorCore.MAX_QUEUE_DEPTH, h]

theorem tensor_submitTask_accept (c : TensorCore) (task : TaskDescriptor)
    (h : c.task_queue_.length < 16) :
    c.submitTask task = ({ c with task_queue_ := c.task_queue_ ++ [task] }, true) := by
  have h2 : ¬ (c.task_queue_.length ≥ 16) := by omega
  simp [TensorCore.submitTask, TensorCore.MAX_QUEUE_DEPTH, h2]

theorem tensor_submitTask_reject (c : TensorCore) (task : TaskDescriptor)
    (h : 16 ≤ c.task_queue_.length) : c.submitTask task = (c, false) := by
  simp [TensorCore.submitTask, TensorCore.MAX_QUEUE_DEPTH, h]

theorem vector_submitAll_cons (c : VectorCore) (x : TaskDescriptor) (xs : List TaskDescriptor) :
    c.submitAll (x :: xs)
      = (((c.submitTask x).1.submitAll xs).1,
          (c.submitTask x).2 :: ((c.submitTask x).1.submitAll xs).2) := rfl

/-- Submitting as many tasks as the vector core's queue has free slots, and then one more:
all but the last are accepted and queued in order, the last is refused. -/
theorem vector_submitAll_fill (task : TaskDescriptor) (tasks : List TaskDescriptor) :
    ∀ c : VectorCore, c.task_queue_.length + tasks.length = 16 →
      c.submitAll (tasks ++ [task])
        = ({ c with task_queue_ := c.task_queue_ ++ tasks },
            List.replicate tasks.length true ++ [false]) := by
  induction tasks with
  | nil =>
    intro c h
    have hfull : 16 ≤ c.task_queue_.length := by simpa using h.ge
    simp [VectorCore.submitAll, vector_submitTask_reject c task hfull]
  | cons x xs ih =>
    intro c h
    have hroom : c.task_queue_.length < 16 := by
      simp only [List.length_cons] at h
      omega
    have hnext := ih { c with task_queue_ := c.task_queue_ ++ [x] } (by
      simp only [List.length_cons] at h
      simp only [List.length_append, List.length_singleton]
      omega)
    rw [List.cons_append, vector_submitAll_cons, vector_submitTask_accept c x hroom]
    simp only []
    rw [hnext]
    simp [List.replicate_succ]

theorem tensor_submitAll_cons (c : TensorCore) (x : TaskDescriptor) (xs : List TaskDescriptor) :
    c.submitAll (x :: xs)
      = (((c.submitTask x).1.submitAll xs).1,
          (c.submitTask x).2 :: ((c.submitTask x).1.submitAll xs).2) := rfl

/-- Submitting as many tasks as the tensor core's queue has free slots, and then one more:
all but the last are accepted and queued in order, the last is refused. -/
theorem tensor_submitAll_fill (task : TaskDescriptor) (tasks : List TaskDescriptor) :
    ∀ c : TensorCore, c.task_queue_.length + tasks.length = 16 →
      c.submitAll (tasks ++ [task])
        = ({ c with task_queue_ := c.task_queue_ ++ tasks },
            List.replicate tasks.length true ++ [false]) := by
  induction tasks with
  | nil =>
    intro c h
    have hfull : 16 ≤ c.task_queue_.length := by simpa using h.ge
    simp [TensorCore.submitAll, tensor_submitTask_reject c task hfull]
  | cons x xs ih =>
    intro c h
    have hroom : c.task_queue_.length < 16 := by
      simp only [List.length_cons] at h
      omega
    have hnext := ih { c with task_queue_ := c.task_queue_ ++ [x] } (by
      simp only [List.length_cons] at h
      simp only [List.length_append, List.length_singleton]
      omega)
    rw [List.cons_append, tensor_submitAll_cons, tensor_submitTask_accept c x hroom]
    simp only []
    rw [hnext]
    simp [List.replicate_succ]

/-- C8: for the vector core and for the tensor core, `submitTask` returns true exactly when
the core's own queue holds fewer than 16 tasks, and a refused submission leaves the whole
core state (queue and counters) unchanged.  On a freshly constructed core and on a core
just reset, 17 submissions in a row without a clock call return true 16 times and then
false, and the queue then holds the first 16 tasks in order. -/
theorem core_submitTask_capacity (v : VectorCore) (t : TensorCore) (task : TaskDescriptor)
    (tasks : List TaskDescriptor) (id n : Int) :
    (((v.submitTask task).2 = true ↔ v.task_queue_.length < 16) ∧
      ((v.submitTask task).2 = false → (v.submitTask task).1 = v) ∧
      (tasks.length = 16 →
        ((VectorCore.new id n).submitAll (tasks ++ [task])).2
            = List.replicate 16 true ++ [false] ∧
          ((VectorCore.new id n).submitAll (tasks ++ [task])).1.task_queue_ = tasks) ∧
      (tasks.length = 16 →
        (v.reset.submitAll (tasks ++ [task])).2 = List.replicate 16 true ++ [false] ∧
          (v.reset.submitAll (tasks ++ [task])).1.task_queue_ = tasks)) ∧
    (((t.submitTask task).2 = true ↔ t.task_queue_.length < 16) ∧
      ((t.submitTask task).2 = false → (t.submitTask task).1 = t) ∧
      (tasks.length = 16 →
        ((TensorCore.new id n).submitAll (tasks ++ [task])).2
            = List.replicate 16 true ++ [false] ∧
          ((TensorCore.new id n).submitAll (tasks ++ [task])).1.task_queue_ = tasks) ∧
      (tasks.length = 16 →
        (t.reset.submitAll (tasks ++ [task])).2 = List.replicate 16 true ++ [false] ∧
          (t.reset.submitAll (tasks ++ [task])).1.task_queue_ = tasks)) := by
  refine ⟨⟨?_, ?_, ?_, ?_⟩, ⟨?_, ?_, ?_, ?_⟩⟩
  · by_cases h : v.task_queue_.length < 16
    · simp [vector_submitTask_accept v task h, h]
    · simp [vector_submitTask_reject v task (by omega), h]
  · by_cases h : v.task_queue_.length < 16
    · simp [vector_submitTask_accept v task h]
    · simp [vector_submitTask_reject v task (by omega)]
  · intro hl
    rw [vector_submitAll_fill task tasks (VectorCore.new id n) (by
      show 0 + tasks.length = 16
      omega), hl]
    exact ⟨rfl, List.nil_append tasks⟩
  · intro hl
    rw [vector_submitAll_fill task tasks v.reset (by
      show 0 + tasks.length = 16
      omega), hl]
    exact ⟨rfl, List.nil_append tasks⟩
  · by_cases h : t.task_queue_.length < 16
    · simp [tensor_submitTask_accept t task h, h]
    · simp [tensor_submitTask_reject t task (by omega), h]
  · by_cases h : t.task_queue_.length < 16
    · simp [tensor_submitTask_accept t task h]
    · simp [tensor_submitTask_reject t task (by omega)]
  · intro hl
    rw [tensor_submitAll_fill task tasks (TensorCore.new id n) (by
      show 0 + tasks.length = 16
      omega), hl]
    exact ⟨rfl, List.nil_append tasks⟩
  · intro hl
    rw [tensor_submitAll_fill task tasks t.reset (by
      show 0 + tasks.length = 16
      omega), hl]
    exact ⟨rfl, List.nil_append tasks⟩

/-- Witness for C8: sixteen VECTOR_ADD tasks fill a fresh 8-lane vector core and sixteen
MATRIX_MUL tasks a fresh 8x8 tensor core; the seventeenth submission is refused and leaves
the full core unchanged. -/
theorem core_submitTask_capacity_witness :
    (((VectorCore.new 0 8).submitAll
        (List.replicate 16 (vectorAddTask 256) ++ [vectorAddTask 256])).2
        = List.replicate 16 true ++ [false] ∧
      ({ VectorCore.new 0 8 with task_queue_ := List.replicate 16 (vectorAddTask 256)
          }.submitTask (vectorAddTask 256)).1
        = { VectorCore.new 0 8 with task_queue_ := List.replicate 16 (vectorAddTask 256) }) ∧
    (((TensorCore.new 0 8).submitAll
        (List.replicate 16 (matrixMulTask 32 32 32) ++ [matrixMulTask 32 32 32])).2
        = List.replicate 16 true ++ [false] ∧
      ({ TensorCore.new 0 8 with task_queue_ := List.replicate 16 (matrixMulTask 32 32 32)
          }.submitTask (matrixMulTask 32 32 32)).1
        = { TensorCore.new 0 8 with task_queue_ := List.replicate 16 (matrixMulTask 32 32 32) }) :=
  ⟨⟨((core_submitTask_capacity (VectorCore.new 0 8) (TensorCore.new 0 8) (vectorAddTask 256)
        (List.replicate 16 (vectorAddTask 256)) 0 8).1.2.2.1 (by decide)).1,
     (core_submitTask_capacity
        { VectorCore.new 0 8 with task_queue_ := List.replicate 16 (vectorAddTask 256) }
        (TensorCore.new 0 8) (vectorAddTask 256) [] 0 8).1.2.1 (by decide)⟩,
   ⟨((core_submitTask_capacity (VectorCore.new 0 8) (TensorCore.new 0 8)
        (matrixMulTask 32 32 32) (List.replicate 16 (matrixMulTask 32 32 32)) 0 8).2.2.2.1
        (by decide)).1,
     (core_submitTask_capacity (VectorCore.new 0 8)
        { TensorCore.new 0 8 with task_queue_ := List.replicate 16 (matrixMulTask 32 32 32) }
        (matrixMulTask 32 32 32) [] 0 8).2.2.1 (by decide)⟩⟩

/-! ## When a full core queue gets room again -/

theorem vector_clock_queue (s : VectorCore) :
    s.clock.task_queue_ = if s.startsOnClock = true then s.task_queue_.tail else s.task_queue_ := by
  unfold VectorCore.clock VectorCore.clockExecute VectorCore.clockStart VectorCore.startsOnClock
  cases hi : s.idle_ <;> cases hq : s.task_queue_ <;> simp <;> split <;> rfl

theorem tensor_clock_queue (s : TensorCore) :
    s.clock.task_queue_ = if s.startsOnClock = true then s.task_queue_.tail else s.task_queue_ := by
  unfold TensorCore.clock TensorCore.clockExecute TensorCore.clockStart TensorCore.startsOnClock
  cases hi : s.idle_ <;> cases hq : s.task_queue_ <;> simp <;> split <;> rfl

theorem vector_queue_kept (s : VectorCore) (n : Nat)
    (h : ∀ i, i < n → (VectorCore.clock^[i] s).startsOnClock = false) :
    (VectorCore.clock^[n] s).task_queue_ = s.task_queue_ := by
  induction n with
  | zero => rfl
  | succ m ih =>
    rw [Function.iterate_succ_apply', vector_clock_queue, h m (by omega)]
    exact ih (fun i hi => h i (by omega))

theorem tensor_queue_kept (s : TensorCore) (n : Nat)
    (h : ∀ i, i < n → (TensorCore.clock^[i] s).startsOnClock = false) :
    (TensorCore.clock^[n] s).task_queue_ = s.task_queue_ := by
  induction n with
  | zero => rfl
  | succ m ih =>
    rw [Function.iterate_succ_apply', tensor_clock_queue, h m (by omega)]
    exact ih (fun i hi => h i (by omega))

/-- C9 (as amended): once a core's queue holds 16 tasks, `submitTask` is refused, and it
keeps being refused after any number of clock calls none of which starts a task (the queue
is unchanged meanwhile).  After one clock call the next submission is accepted exactly when
that call started a task, the Idle-to-Busy transition that pops the queue head: room in a
core's queue is made only by a tick that starts a task.  The same for the tensor core. -/
theorem core_queue_room_only_by_start (v : VectorCore) (t : TensorCore)
    (task : TaskDescriptor) (n : Nat) :
    (v.task_queue_.length = 16 →
      (v.submitTask task).2 = false ∧
      ((v.clock.submitTask task).2 = true ↔ v.startsOnClock = true) ∧
      ((∀ i, i < n → (VectorCore.clock^[i] v).startsOnClock = false) →
        (VectorCore.clock^[n] v).task_queue_ = v.task_queue_ ∧
        ((VectorCore.clock^[n] v).submitTask task).2 = false)) ∧
    (t.task_queue_.length = 16 →
      (t.submitTask task).2 = false ∧
      ((t.clock.submitTask task).2 = true ↔ t.startsOnClock = true) ∧
      ((∀ i, i < n → (TensorCore.clock^[i] t).startsOnClock = false) →
        (TensorCore.clock^[n] t).task_queue_ = t.task_queue_ ∧
        ((TensorCore.clock^[n] t).submitTask task).2 = false)) := by
  constructor
  · intro hfull
    refine ⟨?_, ?_, ?_⟩
    · rw [vector_submitTask_reject v task (by omega)]
    · by_cases hs : v.startsOnClock = true
      · have hl : v.clock.task_queue_.length < 16 := by
          rw [vector_clock_queue, if_pos hs, List.length_tail]
          omega
        rw [vector_submitTask_accept v.clock task hl]
        simp [hs]
      · have hl : 16 ≤ v.clock.task_queue_.length := by
          rw [vector_clock_queue, if_neg hs]
          omega
        rw [vector_submitTask_reject v.clock task hl]
        simp [hs]
    · intro hno
      have hq := vector_queue_kept v n hno
      refine ⟨hq, ?_⟩
      rw [vector_submitTask_reject _ task (by rw [hq]; omega)]
  · intro hfull
    refine ⟨?_, ?_, ?_⟩
    · rw [tensor_submitTask_reject t task (by omega)]
    · by_cases hs : t.startsOnClock = true
      · have hl : t.clock.task_queue_.length < 16 := by
          rw [tensor_clock_queue, if_pos hs, List.length_tail]
          omega
        rw [tensor_submitTask_accept t.clock task hl]
        simp [hs]
      · have hl : 16 ≤ t.clock.task_queue_.length := by
          rw [tensor_clock_queue, if_neg hs]
          omega
        rw [tensor_submitTask_reject t.clock task hl]
        simp [hs]
    · intro hno
      have hq := tensor_queue_kept t n hno
      refine ⟨hq, ?_⟩
      rw [tensor_submitTask_reject _ task (by rw [hq]; omega)]

set_option maxRecDepth 20000 in
/-- Witness for C9: a full idle core starts a task on the next clock call and then accepts a
submission; a full core that is one cycle into a task refuses submissions after each of
the next three clock calls, none of which starts a task. -/
theorem core_queue_room_only_by_start_witness :
    ((fullVectorCore.clock.submitTask (vectorAddTask 256)).2 = true ∧
      ((VectorCore.clock^[3] (runningFullVectorCore 1)).submitTask (vectorAddTask 256)).2
        = false) ∧
    ((fullTensorCore.clock.submitTask (vectorAddTask 256)).2 = true ∧
      ((TensorCore.clock^[3] (runningFullTensorCore 1)).submitTask (vectorAddTask 256)).2
        = false) :=
  ⟨⟨((core_queue_room_only_by_start fullVectorCore fullTensorCore (vectorAddTask 256) 0).1
        (by decide)).2.1.2 (by decide),
    (((core_queue_room_only_by_start (runningFullVectorCore 1) (runningFullTensorCore 1)
        (vectorAddTask 256) 3).1 (by decide)).2.2 (by decide)).2⟩,
   ⟨((core_queue_room_only_by_start fullVectorCore fullTensorCore (vectorAddTask 256) 0).2
        (by decide)).2.1.2 (by decide),
    (((core_queue_room_only_by_start (runningFullVectorCore 1) (runningFullTensorCore 1)
        (vectorAddTask 256) 3).2 (by decide)).2.2 (by decide)).2⟩⟩

set_option maxRecDepth 20000 in
/-- Counterexample to C9 as stated: a fresh vector core accepts 16 tasks of cost 37 and
refuses the 17th; the next clock call completes no task (the core is busy afterwards), yet
the submission after it is accepted.  Conversely, when the 16 tasks were queued behind a
task in its last cycle, the clock call that completes that task leaves the queue full and
the submission after it is still refused. -/
theorem core_queue_room_without_completion :
    (((VectorCore.new 0 8).submitAll
        (List.replicate 16 (vectorAddTask 256) ++ [vectorAddTask 256])).2
        = List.replicate 16 true ++ [false] ∧
      ((VectorCore.new 0 8).submitAll
        (List.replicate 16 (vectorAddTask 256) ++ [vectorAddTask 256])).1 = fullVectorCore ∧
      fullVectorCore.completesOnClock = false ∧
      fullVectorCore.clock.isBusy = true ∧
      (fullVectorCore.clock.submitTask (vectorAddTask 256)).2 = true) ∧
    (((runningFullVectorCore 36).submitTask (vectorAddTask 256)).2 = false ∧
      (runningFullVectorCore 36).completesOnClock = true ∧
      (runningFullVectorCore 36).clock.isIdle = true ∧
      ((runningFullVectorCore 36).clock.submitTask (vectorAddTask 256)).2 = false) := by
  decide

/-! ## Interconnect: duration of a transaction -/

/-- C10 (as amended): for every transaction size `S` and every bandwidth `B` from 1 up, with
`S + B - 1` not overflowing the 64-bit `size_t` and `ceil_div S B` fitting the `int` that
the code stores it in, `Interconnect::calculateTransactionCycles` returns
`max 1 (ceil_div S B)`; a zero-byte transaction costs 1 cycle and a 128-byte transaction
at 64 bytes per cycle costs 2. -/
theorem interconnect_cycles_formula (ic : Interconnect) (trans : Transaction)
    (hb : 1 ≤ ic.bandwidth_) (hb2 : ic.bandwidth_ < 2 ^ 31)
    (hs : trans.size + ic.bandwidth_.toNat - 1 < 2 ^ 64)
    (hfit : ceil_div trans.size ic.bandwidth_.toNat < 2 ^ 31) :
    ic.calculateTransactionCycles trans
        = max 1 ((ceil_div trans.size ic.bandwidth_.toNat : Nat) : Int) ∧
    (trans.size = 0 → ic.calculateTransactionCycles trans = 1) ∧
    (trans.size = 128 → ic.bandwidth_ = 64 → ic.calculateTransactionCycles trans = 2) := by
  have hu : intToUInt64 ic.bandwidth_ = ic.bandwidth_.toNat :=
    intToUInt64_of_range (by omega) (by omega)
  have hb3 : 1 ≤ ic.bandwidth_.toNat := by omega
  have hsum : ((trans.size + ic.bandwidth_.toNat) % 2 ^ 64 + (2 ^ 64 - 1)) % 2 ^ 64
      = trans.size + ic.bandwidth_.toNat - 1 := by omega
  have main : ic.calculateTransactionCycles trans
      = max 1 ((ceil_div trans.size ic.bandwidth_.toNat : Nat) : Int) := by
    unfold Interconnect.calculateTransactionCycles
    simp only [hu, hsum]
    rw [show (trans.size + ic.bandwidth_.toNat - 1) / ic.bandwidth_.toNat
      = ceil_div trans.size ic.bandwidth_.toNat from rfl, toInt32_of_lt hfit]
  refine ⟨main, ?_, ?_⟩
  · intro h0
    have hc : ceil_div trans.size ic.bandwidth_.toNat = 0 := by
      unfold ceil_div
      rw [h0, Nat.zero_add]
      exact Nat.div_eq_of_lt (by omega)
    rw [main, hc]
    rfl
  · intro h128 h64
    rw [main, h128, h64]
    decide

/-- Witness for C10: the transaction of `testInterconnect` (128 bytes) on the 4-port
interconnect of 64 bytes per cycle takes 2 cycles, a zero-byte transaction takes 1. -/
theorem interconnect_cycles_formula_witness :
    (Interconnect.new 4 64).calculateTransactionCycles { Transaction.default with size := 128 }
      = 2 ∧
    (Interconnect.new 4 64).calculateTransactionCycles Transaction.default = 1 :=
  ⟨(interconnect_cycles_formula (Interconnect.new 4 64) { Transaction.default with size := 128 }
      (by decide) (by decide) (by decide) (by decide)).2.2 rfl rfl,
   (interconnect_cycles_formula (Interconnect.new 4 64) Transaction.default
      (by decide) (by decide) (by decide) (by decide)).2.1 rfl⟩

/-- Counterexample to C10 as stated: at 64 bytes per cycle a transaction of `2^37` bytes has
`ceil_div = 2^31` with no overflow in `S + B - 1`, but the quotient does not fit the `int`
it is stored in and the function returns 1. -/
theorem interconnect_cycles_narrowing :
    (1 : Int) ≤ (Interconnect.new 4 64).bandwidth_ ∧
    137438953472 + 64 - 1 < 2 ^ 64 ∧
    ceil_div 137438953472 64 = 2147483648 ∧
    (Interconnect.new 4 64).calculateTransactionCycles
      { Transaction.default with size := 137438953472 } = 1 ∧
    (Interconnect.new 4 64).calculateTransactionCycles
      { Transaction.default with size := 137438953472 }
        ≠ max 1 ((ceil_div 137438953472 64 : Nat) : Int) := by
  decide

/-! ## Interconnect: admission and retrieval -/

/-- C12: `Interconnect::submitTransaction` returns true exactly when the pending queue holds
fewer than 32 transactions.  On true the transaction is appended unchanged at the tail of
the pending queue and nothing else changes, in particular no counter; on false the whole
interconnect state is unchanged. -/
theorem interconnect_submitTransaction_spec (ic : Interconnect) (tr : Transaction) :
    ((ic.submitTransaction tr).2 = true ↔ ic.pending_queue_.length < 32) ∧
    ((ic.submitTransaction tr).2 = true →
      (ic.submitTransaction tr).1 = { ic with pending_queue_ := ic.pending_queue_ ++ [tr] } ∧
      (ic.submitTransaction tr).1.cycle_count_ = ic.cycle_count_ ∧
      (ic.submitTransaction tr).1.transaction_count_ = ic.transaction_count_ ∧
      (ic.submitTransaction tr).1.total_bytes_ = ic.total_bytes_ ∧
      (ic.submitTransaction tr).1.busy_cycles_ = ic.busy_cycles_) ∧
    ((ic.submitTransaction tr).2 = false → (ic.submitTransaction tr).1 = ic) := by
  unfold Interconnect.submitTransaction Interconnect.MAX_QUEUE_DEPTH
  by_cases h : ic.pending_queue_.length ≥ 32
  · simp [h]
  · simp [h]
    omega

/-- Witness for C12: the fresh interconnect of `testInterconnect` accepts the test
transaction, which becomes the only pending one; with 32 transactions pending the
submission is refused and the state is unchanged. -/
theorem interconnect_submitTransaction_spec_witness :
    (((Interconnect.new 4 64).submitTransaction testTransaction).2 = true ∧
      ((Interconnect.new 4 64).submitTransaction testTransaction).1
        = { Interconnect.new 4 64 with
            pending_queue_ := (Interconnect.new 4 64).pending_queue_ ++ [testTransaction] }) ∧
    (({ Interconnect.new 4 64 with pending_queue_ := List.replicate 32 testTransaction
        }.submitTransaction testTransaction).2 = false ∧
      ({ Interconnect.new 4 64 with pending_queue_ := List.replicate 32 testTransaction
        }.submitTransaction testTransaction).1
        = { Interconnect.new 4 64 with pending_queue_ := List.replicate 32 testTransaction }) := by
  have h1 := interconnect_submitTransaction_spec (Interconnect.new 4 64) testTransaction
  have h2 := interconnect_submitTransaction_spec
    { Interconnect.new 4 64 with pending_queue_ := List.replicate 32 testTransaction }
    testTransaction
  have a1 : ((Interconnect.new 4 64).submitTransaction testTransaction).2 = true :=
    h1.1.2 (by decide)
  have a2 : ({ Interconnect.new 4 64 with pending_queue_ := List.replicate 32 testTransaction
      }.submitTransaction testTransaction).2 = false := by decide
  exact ⟨⟨a1, (h1.2.1 a1).1⟩, a2, h2.2.2 a2⟩

/-- C13: for every interconnect state and every integer `port_id`: when
`0 ≤ port_id < num_ports_` and that port's completion queue is not empty,
`getCompletedTransaction` returns the oldest transaction of that queue and removes exactly
that one, every other port's queue and every other field being unchanged; otherwise (port
id negative, port id at or above `num_ports_`, or queue empty) it returns the
default-constructed transaction, READ_REQUEST with all numeric fields 0, and the state is
unchanged. -/
theorem getCompletedTransaction_spec (ic : Interconnect) (port_id : Int) :
    (∀ (tr : Transaction) (rest : List Transaction),
      0 ≤ port_id → port_id < ic.num_ports_ →
      ic.completion_queues_.getD port_id.toNat [] = tr :: rest →
        (ic.getCompletedTransaction port_id).2 = tr ∧
        (ic.getCompletedTransaction port_id).1.completion_queues_.getD port_id.toNat [] = rest ∧
        (∀ j : Nat, j ≠ port_id.toNat →
          (ic.getCompletedTransaction port_id).1.completion_queues_.getD j []
            = ic.completion_queues_.getD j []) ∧
        (ic.getCompletedTransaction port_id).1.completion_queues_.length
          = ic.completion_queues_.length ∧
        (ic.getCompletedTransaction port_id).1
          = { ic with completion_queues_ :=
                (ic.getCompletedTransaction port_id).1.completion_queues_ }) ∧
    ((port_id < 0 ∨ ic.num_ports_ ≤ port_id ∨
        ic.completion_queues_.getD port_id.toNat [] = []) →
      ic.getCompletedTransaction port_id = (ic, Transaction.default)) ∧
    Transaction.default
      = { type := .READ_REQUEST, source_id := 0, dest_id := 0, address := 0, size := 0,
          timestamp := 0 } := by
  refine ⟨?_, ?_, rfl⟩
  · intro tr rest h0 h1 hq
    have hr : ¬ (port_id < 0 ∨ port_id ≥ ic.num_ports_) := by omega
    have hlt : port_id.toNat < ic.completion_queues_.length := by
      by_contra hge
      rw [List.getD_eq_default _ _ (by omega)] at hq
      exact absurd hq (by simp)
    have hres : ic.getCompletedTransaction port_id
        = ({ ic with completion_queues_ := ic.completion_queues_.set port_id.toNat rest },
            tr) := by
      unfold Interconnect.getCompletedTransaction
      rw [if_neg hr, hq]
    rw [hres]
    refine ⟨rfl, ?_, ?_, ?_, rfl⟩
    · simp [List.getD_eq_getElem?_getD, List.getElem?_set, hlt]
    · intro j hj
      simp [List.getD_eq_getElem?_getD, List.getElem?_set, Ne.symm hj]
    · simp
  · intro h
    unfold Interconnect.getCompletedTransaction
    by_cases hr : port_id < 0 ∨ port_id ≥ ic.num_ports_
    · rw [if_pos hr]
    · rw [if_neg hr]
      have hq : ic.completion_queues_.getD port_id.toNat [] = [] := by
        rcases h with h | h | h
        · exact absurd (Or.inl h) hr
        · exact absurd (Or.inr h) hr
        · exact h
      rw [hq]

/-- Witness for C13: with the test transaction delivered to port 1, a query of port 1
returns it and leaves that queue empty; a query of the nonexistent port 7 returns the
default transaction and changes nothing. -/
theorem getCompletedTransaction_spec_witness :
    ((deliveredInterconnect.getCompletedTransaction 1).2 = testTransaction ∧
      (deliveredInterconnect.getCompletedTransaction 1).1.completion_queues_.getD
        (1 : Int).toNat [] = []) ∧
    deliveredInterconnect.getCompletedTransaction 7
      = (deliveredInterconnect, Transaction.default) :=
  ⟨⟨((getCompletedTransaction_spec deliveredInterconnect 1).1 testTransaction []
        (by decide) (by decide) (by decide)).1,
    ((getCompletedTransaction_spec deliveredInterconnect 1).1 testTransaction []
        (by decide) (by decide) (by decide)).2.1⟩,
   (getCompletedTransaction_spec deliveredInterconnect 7).2.1 (Or.inr (Or.inl (by decide)))⟩

/-- C14 (as amended): a query of a nonexistent port (`port_id < 0` or
`port_id ≥ num_ports_`) is not an error: `hasCompletedTransaction` returns false and
`getCompletedTransaction` returns the default-constructed transaction with the state
unchanged, the very results a valid port with an empty completion queue gives. -/
theorem invalid_port_query_is_silent (ic : Interconnect) (port_id : Int)
    (h : port_id < 0 ∨ ic.num_ports_ ≤ port_id) :
    ic.hasCompletedTransaction port_id = false ∧
    ic.getCompletedTransaction port_id = (ic, Transaction.default) ∧
    (∀ q : Int, 0 ≤ q → q < ic.num_ports_ → ic.completion_queues_.getD q.toNat [] = [] →
      ic.hasCompletedTransaction q = ic.hasCompletedTransaction port_id ∧
      ic.getCompletedTransaction q = ic.getCompletedTransaction port_id) := by
  have hr : port_id < 0 ∨ port_id ≥ ic.num_ports_ := h
  have h1 : ic.hasCompletedTransaction port_id = false := by
    unfold Interconnect.hasCompletedTransaction
    rw [if_pos hr]
  have h2 : ic.getCompletedTransaction port_id = (ic, Transaction.default) := by
    unfold Interconnect.getCompletedTransaction
    rw [if_pos hr]
  refine ⟨h1, h2, ?_⟩
  intro q hq0 hq1 hempty
  have hv : ¬ (q < 0 ∨ q ≥ ic.num_ports_) := by omega
  constructor
  · rw [h1]
    unfold Interconnect.hasCompletedTransaction
    rw [if_neg hv, hempty]
    rfl
  · rw [h2]
    unfold Interconnect.getCompletedTransaction
    rw [if_neg hv, hempty]

/-- Witness for C14: on the fresh 4-port interconnect the queries of port 7 and of port -1
give false and the default transaction, as does the query of the valid, empty port 1. -/
theorem invalid_port_query_is_silent_witness :
    ((Interconnect.new 4 64).hasCompletedTransaction 7 = false ∧
      (Interconnect.new 4 64).getCompletedTransaction 7
        = (Interconnect.new 4 64, Transaction.default)) ∧
    ((Interconnect.new 4 64).hasCompletedTransaction (-1) = false ∧
      (Interconnect.new 4 64).getCompletedTransaction (-1)
        = (Interconnect.new 4 64, Transaction.default)) ∧
    ((Interconnect.new 4 64).hasCompletedTransaction 1
        = (Interconnect.new 4 64).hasCompletedTransaction 7 ∧
      (Interconnect.new 4 64).getCompletedTransaction 1
        = (Interconnect.new 4 64).getCompletedTransaction 7) :=
  ⟨⟨(invalid_port_query_is_silent (Interconnect.new 4 64) 7 (Or.inr (by decide))).1,
    (invalid_port_query_is_silent (Interconnect.new 4 64) 7 (Or.inr (by decide))).2.1⟩,
   ⟨(invalid_port_query_is_silent (Interconnect.new 4 64) (-1) (Or.inl (by decide))).1,
    (invalid_port_query_is_silent (Interconnect.new 4 64) (-1) (Or.inl (by decide))).2.1⟩,
   (invalid_port_query_is_silent (Interconnect.new 4 64) 7 (Or.inr (by decide))).2.2 1
      (by decide) (by decide) (by decide)⟩

/-- Counterexample to C14 as stated: on the fresh 4-port interconnect the queries of the
nonexistent ports 7 and -1 return exactly what the query of the valid, empty port 1
returns, value and state alike; no error is signalled that would tell them apart. -/
theorem invalid_port_query_not_distinguished :
    ¬ ((0 : Int) ≤ 7 ∧ (7 : Int) < (Interconnect.new 4 64).num_ports_) ∧
    ((0 : Int) ≤ 1 ∧ (1 : Int) < (Interconnect.new 4 64).num_ports_) ∧
    (Interconnect.new 4 64).hasCompletedTransaction 7
      = (Interconnect.new 4 64).hasCompletedTransaction 1 ∧
    (Interconnect.new 4 64).getCompletedTransaction 7
      = (Interconnect.new 4 64).getCompletedTransaction 1 ∧
    (Interconnect.new 4 64).hasCompletedTransaction (-1)
      = (Interconnect.new 4 64).hasCompletedTransaction 1 ∧
    (Interconnect.new 4 64).getCompletedTransaction (-1)
      = (Interconnect.new 4 64).getCompletedTransaction 1 := by
  decide

/-! ## One clock call of the interconnect, case by case -/

theorem interconnect_cycles_range (ic : Interconnect) (tr : Transaction) :
    1 ≤ ic.calculateTransactionCycles tr ∧ ic.calculateTransactionCycles tr < 2 ^ 31 := by
  unfold Interconnect.calculateTransactionCycles toInt32
  simp only []
  have h := wrapInt32_range
    ((((tr.size + intToUInt64 ic.bandwidth_) % 2 ^ 64 + (2 ^ 64 - 1)) % 2 ^ 64
      / intToUInt64 ic.bandwidth_ : Nat) : Int)
  omega

theorem interconnect_cycles_eq_of_bandwidth (a b : Interconnect) (tr : Transaction)
    (h : a.bandwidth_ = b.bandwidth_) :
    a.calculateTransactionCycles tr = b.calculateTransactionCycles tr := by
  unfold Interconnect.calculateTransactionCycles
  rw [h]

/-- The duration computed by `calculateTransactionCycles` is `max 1 (ceil_div S B)` when the
bandwidth is an `int` from 1 up, `S + B - 1` does not overflow and the quotient fits an
`int`. -/
theorem interconnect_cycles_eq_ceil (ic : Interconnect) (tr : Transaction)
    (hb : 1 ≤ ic.bandwidth_) (hb2 : ic.bandwidth_ < 2 ^ 31)
    (hs : tr.size + ic.bandwidth_.toNat - 1 < 2 ^ 64)
    (hfit : ceil_div tr.size ic.bandwidth_.toNat < 2 ^ 31) :
    ic.calculateTransactionCycles tr
      = max 1 ((ceil_div tr.size ic.bandwidth_.toNat : Nat) : Int) := by
  have hu : intToUInt64 ic.bandwidth_ = ic.bandwidth_.toNat :=
    intToUInt64_of_range (by omega) (by omega)
  have hsum : ((tr.size + ic.bandwidth_.toNat) % 2 ^ 64 + (2 ^ 64 - 1)) % 2 ^ 64
      = tr.size + ic.bandwidth_.toNat - 1 := by omega
  unfold Interconnect.calculateTransactionCycles
  simp only [hu, hsum]
  rw [show (tr.size + ic.bandwidth_.toNat - 1) / ic.bandwidth_.toNat
    = ceil_div tr.size ic.bandwidth_.toNat from rfl, toInt32_of_lt hfit]

theorem interconnect_clock_idle (s : Interconnect) (hp : s.processing_ = false)
    (hq : s.pending_queue_ = []) :
    s.clock = { s with cycle_count_ := s.cycle_count_ + 1 } := by
  simp [Interconnect.clock, Interconnect.clockProgress, Interconnect.clockStart, hp, hq]

theorem interconnect_clock_start (s : Interconnect) (tr : Transaction)
    (rest : List Transaction) (hp : s.processing_ = false)
    (hq : s.pending_queue_ = tr :: rest) :
    s.clock = { s with cycle_count_ := s.cycle_count_ + 1,
                       current_transaction_ := tr,
                       pending_queue_ := rest,
                       cycles_remaining_ := s.calculateTransactionCycles tr,
                       processing_ := true,
                       total_bytes_ := (s.total_bytes_ + tr.size) % 2 ^ 64 } := by
  have hc : Interconnect.clockProgress s = { s with cycle_count_ := s.cycle_count_ + 1 } := by
    simp [Interconnect.clockProgress, hp]
  rw [Interconnect.clock, hc]
  simp only [Interconnect.clockStart, hp, hq]
  congr 1

theorem interconnect_clock_busy (s : Interconnect) (hp : s.processing_ = true)
    (h1 : 2 ≤ s.cycles_remaining_) (h2 : s.cycles_remaining_ < 2 ^ 31) :
    s.clock = { s with cycle_count_ := s.cycle_count_ + 1,
                       busy_cycles_ := s.busy_cycles_ + 1,
                       cycles_remaining_ := s.cycles_remaining_ - 1 } := by
  have hw : wrapInt32 (s.cycles_remaining_ - 1) = s.cycles_remaining_ - 1 :=
    wrapInt32_of_range (by omega) (by omega)
  have h0 : ¬ (s.cycles_remaining_ - 1 ≤ 0) := by omega
  simp [Interconnect.clock, Interconnect.clockProgress, Interconnect.clockStart, hp, hw, h0]

theorem interconnect_clock_finish (s : Interconnect) (hp : s.processing_ = true)
    (h1 : s.cycles_remaining_ = 1) (hq : s.pending_queue_ = []) :
    s.clock = { s with cycle_count_ := s.cycle_count_ + 1,
                       busy_cycles_ := s.busy_cycles_ + 1,
                       cycles_remaining_ := 0,
                       completion_queues_ :=
                         Interconnect.pushCompleted s.completion_queues_
                           s.current_transaction_.dest_id s.current_transaction_,
                       processing_ := false,
                       transaction_count_ := s.transaction_count_ + 1 } := by
  have hw : wrapInt32 (s.cycles_remaining_ - 1) = 0 := by
    rw [h1]
    decide
  simp [Interconnect.clock, Interconnect.clockProgress, Interconnect.clockStart, hp, hw, hq]

/-! ## A single transaction on a fresh interconnect -/

/-- State of a fresh interconnect with one pending transaction after `k + 1` clock calls,
field by field; `d` is the duration computed for the transaction. -/
theorem interconnect_single_trace (P B : Int) (tr : Transaction) (k : Nat) :
    (Interconnect.clock^[k + 1] ((Interconnect.new P B).submitTransaction tr).1).processing_
      = decide (k < ((Interconnect.new P B).calculateTransactionCycles tr).toNat) ∧
    (Interconnect.clock^[k + 1]
        ((Interconnect.new P B).submitTransaction tr).1).cycles_remaining_
      = (Interconnect.new P B).calculateTransactionCycles tr
        - ((min k ((Interconnect.new P B).calculateTransactionCycles tr).toNat : Nat) : Int) ∧
    (Interconnect.clock^[k + 1]
        ((Interconnect.new P B).submitTransaction tr).1).completion_queues_
      = (if k < ((Interconnect.new P B).calculateTransactionCycles tr).toNat then
          List.replicate P.toNat []
        else Interconnect.pushCompleted (List.replicate P.toNat []) tr.dest_id tr) ∧
    (Interconnect.clock^[k + 1] ((Interconnect.new P B).submitTransaction tr).1).pending_queue_
      = [] ∧
    (Interconnect.clock^[k + 1]
        ((Interconnect.new P B).submitTransaction tr).1).current_transaction_ = tr ∧
    (Interconnect.clock^[k + 1] ((Interconnect.new P B).submitTransaction tr).1).busy_cycles_
      = min k ((Interconnect.new P B).calculateTransactionCycles tr).toNat ∧
    (Interconnect.clock^[k + 1]
        ((Interconnect.new P B).submitTransaction tr).1).transaction_count_
      = (if k < ((Interconnect.new P B).calculateTransactionCycles tr).toNat then 0 else 1) ∧
    (Interconnect.clock^[k + 1] ((Interconnect.new P B).submitTransaction tr).1).cycle_count_
      = k + 1 ∧
    (Interconnect.clock^[k + 1] ((Interconnect.new P B).submitTransaction tr).1).num_ports_
      = P := by
  have hr := interconnect_cycles_range (Interconnect.new P B) tr
  generalize hE : (Interconnect.new P B).calculateTransactionCycles tr = d at hr ⊢
  obtain ⟨D, hD⟩ : ∃ D : Nat, d = (D : Int) := ⟨d.toNat, (Int.toNat_of_nonneg (by omega)).symm⟩
  subst hD
  rw [Int.toNat_ofNat]
  have hD1 : 1 ≤ D := by omega
  induction k with
  | zero =>
    have h0 : ((Interconnect.new P B).submitTransaction tr).1
        = { Interconnect.new P B with pending_queue_ := [tr] } := rfl
    have hE0 : Interconnect.calculateTransactionCycles
        { Interconnect.new P B with pending_queue_ := [tr] } tr = (D : Int) := by
      rw [← hE]
      exact interconnect_cycles_eq_of_bandwidth _ _ tr rfl
    rw [Function.iterate_one, h0, interconnect_clock_start _ tr [] rfl rfl, hE0]
    refine ⟨?_, ?_, ?_, rfl, rfl, ?_, ?_, rfl, rfl⟩
    · exact (decide_eq_true (by omega)).symm
    · show (D : Int) = (D : Int) - ((min 0 D : Nat) : Int)
      omega
    · rw [if_pos (by omega)]
      rfl
    · show 0 = min 0 D
      omega
    · rw [if_pos (by omega)]
      rfl
  | succ n ih =>
    rw [Function.iterate_succ_apply']
    generalize Interconnect.clock^[n + 1] ((Interconnect.new P B).submitTransaction tr).1 = s
      at ih ⊢
    obtain ⟨hp, hrem, hcq, hpq, hcur, hbusy, htc, hcy, hnp⟩ := ih
    by_cases hlt : n < D
    · have hproc : s.processing_ = true := by rw [hp]; exact decide_eq_true hlt
      rw [if_pos hlt] at hcq htc
      by_cases hlast : n + 1 < D
      · rw [interconnect_clock_busy s hproc (by omega) (by omega)]
        refine ⟨?_, ?_, ?_, hpq, hcur, ?_, ?_, ?_, hnp⟩
        · show s.processing_ = decide (n + 1 < D)
          rw [hproc]
          exact (decide_eq_true hlast).symm
        · show s.cycles_remaining_ - 1 = (D : Int) - ((min (n + 1) D : Nat) : Int)
          omega
        · rw [if_pos hlast]
          exact hcq
        · show s.busy_cycles_ + 1 = min (n + 1) D
          omega
        · rw [if_pos hlast]
          exact htc
        · show s.cycle_count_ + 1 = n + 1 + 1
          omega
      · rw [interconnect_clock_finish s hproc (by omega) hpq]
        refine ⟨?_, ?_, ?_, hpq, hcur, ?_, ?_, ?_, hnp⟩
        · exact (decide_eq_false hlast).symm
        · show (0 : Int) = (D : Int) - ((min (n + 1) D : Nat) : Int)
          omega
        · rw [if_neg hlast]
          show Interconnect.pushCompleted s.completion_queues_
            s.current_transaction_.dest_id s.current_transaction_ = _
          rw [hcq, hcur]
        · show s.busy_cycles_ + 1 = min (n + 1) D
          omega
        · rw [if_neg hlast]
          show s.transaction_count_ + 1 = 1
          omega
        · show s.cycle_count_ + 1 = n + 1 + 1
          omega
    · have hproc : s.processing_ = false := by rw [hp]; exact decide_eq_false hlt
      rw [if_neg hlt] at hcq htc
      have hlast : ¬ (n + 1 < D) := by omega
      rw [interconnect_clock_idle s hproc hpq]
      refine ⟨?_, ?_, ?_, hpq, hcur, ?_, ?_, ?_, hnp⟩
      · rw [hproc]
        exact (decide_eq_false hlast).symm
      · show s.cycles_remaining_ = (D : Int) - ((min (n + 1) D : Nat) : Int)
        omega
      · rw [if_neg hlast]
        exact hcq
      · show s.busy_cycles_ = min (n + 1) D
        omega
      · rw [if_neg hlast]
        exact htc
      · show s.cycle_count_ + 1 = n + 1 + 1
        omega

theorem replicate_nil_getD (n i : Nat) :
    (List.replicate n ([] : List Transaction)).getD i [] = [] := by
  rw [List.getD_eq_getElem?_getD, List.getElem?_replicate]
  split <;> rfl

theorem hasCompleted_of_queues (s : Interconnect) (port : Int) (h0 : 0 ≤ port)
    (h1 : port < s.num_ports_) :
    s.hasCompletedTransaction port = !(s.completion_queues_.getD port.toNat []).isEmpty := by
  have hv : ¬ (port < 0 ∨ port ≥ s.num_ports_) := by omega
  unfold Interconnect.hasCompletedTransaction
  rw [if_neg hv]

theorem pushCompleted_replicate_getD (n : Nat) (port : Int) (tr : Transaction)
    (h0 : 0 ≤ port) (h1 : port.toNat < n) :
    (Interconnect.pushCompleted (List.replicate n []) port tr).getD port.toNat [] = [tr] := by
  unfold Interconnect.pushCompleted
  have hlen : port.toNat < (List.replicate n ([] : List Transaction)).length := by
    rw [List.length_replicate]
    exact h1
  rw [if_pos ⟨h0, hlen⟩, replicate_nil_getD, List.getD_eq_getElem?_getD,
    List.getElem?_set_self hlen]
  rfl

/-- C11 (as amended): a transaction with a valid destination port is submitted to a freshly
constructed interconnect.  The submission is accepted, and the transaction is in the
completion queue of its destination port after `k` clock calls exactly when `k ≥ d + 1`,
where `d` is the duration computed by `calculateTransactionCycles`: the first clock call
only starts the transfer and the next `d` calls carry it out.  `d` is
`max 1 (ceil_div S B)` when the bandwidth is at least 1, `S + B - 1` does not overflow and
the quotient fits an `int`. -/
theorem interconnect_delivery_latency (P B : Int) (tr : Transaction)
    (h0 : 0 ≤ tr.dest_id) (h1 : tr.dest_id < P) (k : Nat) :
    ((Interconnect.new P B).submitTransaction tr).2 = true ∧
    ((Interconnect.clock^[k]
        ((Interconnect.new P B).submitTransaction tr).1).hasCompletedTransaction tr.dest_id
        = true ↔
      ((Interconnect.new P B).calculateTransactionCycles tr).toNat + 1 ≤ k) ∧
    (1 ≤ B → B < 2 ^ 31 → tr.size + B.toNat - 1 < 2 ^ 64 →
      ceil_div tr.size B.toNat < 2 ^ 31 →
        ((Interconnect.new P B).calculateTransactionCycles tr).toNat
          = max 1 (ceil_div tr.size B.toNat)) := by
  have hP : tr.dest_id.toNat < P.toNat := by omega
  refine ⟨rfl, ?_, ?_⟩
  · cases k with
    | zero =>
      have hq0 : (((Interconnect.new P B).submitTransaction tr).1).completion_queues_
          = List.replicate P.toNat [] := rfl
      have hs : (Interconnect.clock^[0]
          ((Interconnect.new P B).submitTransaction tr).1).hasCompletedTransaction tr.dest_id
          = false := by
        rw [Function.iterate_zero, id_eq,
          hasCompleted_of_queues ((Interconnect.new P B).submitTransaction tr).1 tr.dest_id
            h0 h1,
          hq0, replicate_nil_getD]
        rfl
      rw [hs]
      constructor
      · intro h
        exact absurd h (by decide)
      · intro h
        omega
    | succ n =>
      obtain ⟨_, _, hcq, _, _, _, _, _, hnp⟩ := interconnect_single_trace P B tr n
      generalize Interconnect.clock^[n + 1] ((Interconnect.new P B).submitTransaction tr).1 = s
        at hcq hnp ⊢
      generalize ((Interconnect.new P B).calculateTransactionCycles tr).toNat = D at hcq ⊢
      have hin : tr.dest_id < s.num_ports_ := by
        rw [hnp]
        exact h1
      rw [hasCompleted_of_queues s tr.dest_id h0 hin, hcq]
      by_cases hlt : n < D
      · rw [if_pos hlt, replicate_nil_getD]
        constructor
        · intro h
          exact absurd h (by decide)
        · intro h
          omega
      · rw [if_neg hlt, pushCompleted_replicate_getD P.toNat tr.dest_id tr h0 hP]
        constructor
        · intro _
          omega
        · intro _
          rfl
  · intro hb hb2 hs hfit
    rw [interconnect_cycles_eq_ceil (Interconnect.new P B) tr hb hb2 hs hfit]
    have hc : (1 : Int) ≤ max 1 ((ceil_div tr.size B.toNat : Nat) : Int) := le_max_left _ _
    show (max (1 : Int) ((ceil_div tr.size B.toNat : Nat) : Int)).toNat
      = max 1 (ceil_div tr.size B.toNat)
    omega

/-- Witness for C11: the 128-byte transaction of `testInterconnect` at 64 bytes per cycle
has duration 2; it is not in the completion queue of port 1 after 2 clock calls and it is
there after 3 and after the 100 calls of the test. -/
theorem interconnect_delivery_latency_witness :
    ((Interconnect.new 4 64).calculateTransactionCycles testTransaction).toNat = 2 ∧
    (Interconnect.clock^[3]
      ((Interconnect.new 4 64).submitTransaction testTransaction).1).hasCompletedTransaction
        testTransaction.dest_id = true ∧
    (Interconnect.clock^[100]
      ((Interconnect.new 4 64).submitTransaction testTransaction).1).hasCompletedTransaction
        testTransaction.dest_id = true :=
  ⟨((interconnect_delivery_latency 4 64 testTransaction (by decide) (by decide) 0).2.2
      (by decide) (by decide) (by decide) (by decide)).trans (by decide),
   (interconnect_delivery_latency 4 64 testTransaction (by decide) (by decide) 3).2.1.2
      (by decide),
   (interconnect_delivery_latency 4 64 testTransaction (by decide) (by decide) 100).2.1.2
      (by decide)⟩

/-- Counterexample to C11 as stated: for the 128-byte transaction at 64 bytes per cycle
`d = max 1 (ceil_div 128 64) = 2`, the destination port is valid, and after 2 clock calls
following the submission the completion queue of port 1 is still empty; the transaction
appears with the third call. -/
theorem interconnect_delivery_not_after_d :
    max 1 (ceil_div testTransaction.size 64) = 2 ∧
    ((0 : Int) ≤ testTransaction.dest_id ∧
      testTransaction.dest_id < (Interconnect.new 4 64).num_ports_) ∧
    ((Interconnect.new 4 64).submitTransaction testTransaction).2 = true ∧
    (Interconnect.clock^[2]
      ((Interconnect.new 4 64).submitTransaction testTransaction).1).hasCompletedTransaction
        testTransaction.dest_id = false ∧
    (Interconnect.clock^[3]
      ((Interconnect.new 4 64).submitTransaction testTransaction).1).hasCompletedTransaction
        testTransaction.dest_id = true := by
  decide

/-! ## Memory subsystem -/

/-- C15: on a memory whose backing store has the size it was constructed with, writing a
byte sequence of length `N` at address `A` with `A + N ≤ capacity` succeeds, and reading
`N` bytes back from `A` returns the identical sequence, through `write`/`read` and through
`writeBlock`/`readBlock`.  The constructor gives such a memory for every capacity and a
write keeps it so. -/
theorem memory_write_read_roundtrip (m : MemorySubsystem) (A : Nat) (data : List Byte)
    (cap : Nat) (hwf : m.memory_.length = m.size_) (h : A + data.length ≤ m.size_) :
    (m.write A data).2 = .ok () ∧
    ((m.write A data).1.read A data.length).2 = .ok data ∧
    (m.writeBlock A data).2 = .ok () ∧
    ((m.writeBlock A data).1.readBlock A data.length).2 = .ok data ∧
    (m.write A data).1.memory_.length = (m.write A data).1.size_ ∧
    (m.write A data).1.size_ = m.size_ ∧
    ((MemorySubsystem.new cap).memory_.length = (MemorySubsystem.new cap).size_ ∧
      (MemorySubsystem.new cap).getSize = cap) := by
  have hw : m.write A data
      = ({ m with memory_ := m.memory_.take A ++ data ++ m.memory_.drop (A + data.length),
                  write_count_ := m.write_count_ + 1,
                  bytes_written_ := m.bytes_written_ + data.length }, .ok ()) := by
    simp [MemorySubsystem.write, MemorySubsystem.checkBounds, MemorySubsystem.isValidAddress, h]
  have htake : (m.memory_.take A).length = A := by
    rw [List.length_take]
    omega
  have hrd : ((m.write A data).1.read A data.length).2 = .ok data := by
    rw [hw]
    simp only [MemorySubsystem.read, MemorySubsystem.checkBounds,
      MemorySubsystem.isValidAddress, decide_eq_true h, if_true]
    rw [List.append_assoc, List.drop_left' htake, List.take_left' rfl]
  refine ⟨by rw [hw], hrd, by rw [MemorySubsystem.writeBlock, hw], hrd, ?_, by rw [hw], ?_, rfl⟩
  · rw [hw]
    simp only [List.length_append, List.length_take, List.length_drop]
    omega
  · exact List.length_replicate _ _

/-- Witness for C15: the accesses of `testMemorySubsystem` on a 1024-byte memory: the four
bytes of `0xDEADBEEF` written at address 0 and the block `1, 2, 3, 4, 5` written at
address 100 are read back unchanged. -/
theorem memory_write_read_roundtrip_witness :
    (((MemorySubsystem.new 1024).write 0 [239, 190, 173, 222]).1.read 0 4).2
      = .ok [239, 190, 173, 222] ∧
    (((MemorySubsystem.new 1024).writeBlock 100 [1, 2, 3, 4, 5]).1.readBlock 100 5).2
      = .ok [1, 2, 3, 4, 5] :=
  ⟨(memory_write_read_roundtrip (MemorySubsystem.new 1024) 0 [239, 190, 173, 222] 1024
      (List.length_replicate _ _) (by decide)).2.1,
   (memory_write_read_roundtrip (MemorySubsystem.new 1024) 100 [1, 2, 3, 4, 5] 1024
      (List.length_replicate _ _) (by decide)).2.2.2.1⟩

/-- C16: `isValidAddress addr size` is true exactly when `addr + size ≤ capacity`, the sum
being the exact one (on a 1024-byte memory `isValidAddress 0 1024` is true,
`isValidAddress 1024 1` is false, and so is `isValidAddress (2^64 - 1) 2`, whose 64-bit sum
would wrap to 1); every read or write with `addr + size > capacity` ends in the
out-of-bounds error and leaves the stored bytes and all counters as they were. -/
theorem memory_bounds_check (m : MemorySubsystem) (addr size : Nat) (data : List Byte) :
    (m.isValidAddress addr size = true ↔ addr + size ≤ m.size_) ∧
    ((MemorySubsystem.new 1024).isValidAddress 0 1024 = true ∧
      (MemorySubsystem.new 1024).isValidAddress 1024 1 = false ∧
      (MemorySubsystem.new 1024).isValidAddress 18446744073709551615 2 = false) ∧
    (m.size_ < addr + size →
      m.read addr size = (m, .error .OUT_OF_BOUNDS) ∧
      m.readBlock addr size = (m, .error .OUT_OF_BOUNDS)) ∧
    (m.size_ < addr + data.length →
      m.write addr data = (m, .error .OUT_OF_BOUNDS) ∧
      m.writeBlock addr data = (m, .error .OUT_OF_BOUNDS)) := by
  refine ⟨?_, ⟨by decide, by decide, by decide⟩, ?_, ?_⟩
  · simp [MemorySubsystem.isValidAddress]
  · intro h
    have hn : ¬ (addr + size ≤ m.size_) := by omega
    have hr : m.read addr size = (m, .error .OUT_OF_BOUNDS) := by
      simp [MemorySubsystem.read, MemorySubsystem.checkBounds, MemorySubsystem.isValidAddress, hn]
    exact ⟨hr, hr⟩
  · intro h
    have hn : ¬ (addr + data.length ≤ m.size_) := by omega
    have hr : m.write addr data = (m, .error .OUT_OF_BOUNDS) := by
      simp [MemorySubsystem.write, MemorySubsystem.checkBounds, MemorySubsystem.isValidAddress, hn]
    exact ⟨hr, hr⟩

/-- Witness for C16: on the 1024-byte memory of `testMemorySubsystem` a one-byte read at
address 1024 and a five-byte write at address 1020 are refused and change nothing. -/
theorem memory_bounds_check_witness :
    ((MemorySubsystem.new 1024).read 1024 1
        = (MemorySubsystem.new 1024, .error .OUT_OF_BOUNDS)) ∧
    ((MemorySubsystem.new 1024).write 1020 [1, 2, 3, 4, 5]
        = (MemorySubsystem.new 1024, .error .OUT_OF_BOUNDS)) :=
  ⟨((memory_bounds_check (MemorySubsystem.new 1024) 1024 1 []).2.2.1 (by decide)).1,
   ((memory_bounds_check (MemorySubsystem.new 1024) 1020 0 [1, 2, 3, 4, 5]).2.2.2
      (by decide)).1⟩

/-! ## Utilization -/

theorem scheduler_submitTask_stats (s : Scheduler) (task : TaskDescriptor) :
    (s.submitTask task).1.stats_.vector_core_cycles = s.stats_.vector_core_cycles ∧
    (s.submitTask task).1.stats_.tensor_core_cycles = s.stats_.tensor_core_cycles ∧
    (s.submitTask task).1.stats_.total_cycles = s.stats_.total_cycles := by
  unfold Scheduler.submitTask
  split <;> exact ⟨rfl, rfl, rfl⟩

theorem schedulerClock_stats (sys : System) :
    sys.schedulerClock.sched.stats_.total_cycles = sys.sched.stats_.total_cycles + 1 ∧
    sys.schedulerClock.sched.stats_.vector_core_cycles
      ≤ sys.sched.stats_.vector_core_cycles + 1 ∧
    sys.schedulerClock.sched.stats_.tensor_core_cycles
      ≤ sys.sched.stats_.tensor_core_cycles + 1 := by
  unfold System.schedulerClock
  simp only []
  split
  · split_ifs <;> simp
  · split_ifs <;> simp

theorem system_step_busy_le_total (sys : System) (op : SystemOp)
    (h : sys.sched.stats_.vector_core_cycles ≤ sys.sched.stats_.total_cycles ∧
      sys.sched.stats_.tensor_core_cycles ≤ sys.sched.stats_.total_cycles) :
    (sys.step op).sched.stats_.vector_core_cycles ≤ (sys.step op).sched.stats_.total_cycles ∧
    (sys.step op).sched.stats_.tensor_core_cycles
      ≤ (sys.step op).sched.stats_.total_cycles := by
  cases op with
  | submit task =>
    have hs := scheduler_submitTask_stats sys.sched task
    show ((sys.sched.submitTask task).1).stats_.vector_core_cycles
        ≤ ((sys.sched.submitTask task).1).stats_.total_cycles ∧
      ((sys.sched.submitTask task).1).stats_.tensor_core_cycles
        ≤ ((sys.sched.submitTask task).1).stats_.total_cycles
    rw [hs.1, hs.2.1, hs.2.2]
    exact h
  | schedulerClock =>
    have hs := schedulerClock_stats sys
    show sys.schedulerClock.sched.stats_.vector_core_cycles
        ≤ sys.schedulerClock.sched.stats_.total_cycles ∧
      sys.schedulerClock.sched.stats_.tensor_core_cycles
        ≤ sys.schedulerClock.sched.stats_.total_cycles
    omega
  | schedulerReset => exact ⟨Nat.le_refl 0, Nat.le_refl 0⟩
  | vectorSubmit task => exact h
  | vectorClock => exact h
  | vectorReset => exact h
  | tensorSubmit task => exact h
  | tensorClock => exact h
  | tensorReset => exact h

theorem system_run_busy_le_total (ops : List SystemOp) : ∀ sys : System,
    (sys.sched.stats_.vector_core_cycles ≤ sys.sched.stats_.total_cycles ∧
      sys.sched.stats_.tensor_core_cycles ≤ sys.sched.stats_.total_cycles) →
    (sys.run ops).sched.stats_.vector_core_cycles ≤ (sys.run ops).sched.stats_.total_cycles ∧
    (sys.run ops).sched.stats_.tensor_core_cycles
      ≤ (sys.run ops).sched.stats_.total_cycles := by
  induction ops with
  | nil => intro sys h; exact h
  | cons op rest ih =>
    intro sys h
    exact ih (sys.step op) (system_step_busy_le_total sys op h)

theorem interconnect_clock_counters (ic : Interconnect) :
    ic.clock.cycle_count_ = ic.cycle_count_ + 1 ∧
    ic.clock.busy_cycles_ ≤ ic.busy_cycles_ + 1 := by
  unfold Interconnect.clock Interconnect.clockStart Interconnect.clockProgress
  simp only []
  split <;> split_ifs <;> simp_all

theorem interconnect_step_busy_le_cycles (ic : Interconnect) (op : InterconnectOp)
    (h : ic.busy_cycles_ ≤ ic.cycle_count_) :
    (ic.step op).busy_cycles_ ≤ (ic.step op).cycle_count_ := by
  cases op with
  | submit tr =>
    show (ic.submitTransaction tr).1.busy_cycles_ ≤ (ic.submitTransaction tr).1.cycle_count_
    unfold Interconnect.submitTransaction
    split <;> exact h
  | clock =>
    have hs := interconnect_clock_counters ic
    show ic.clock.busy_cycles_ ≤ ic.clock.cycle_count_
    omega
  | reset => exact Nat.le_refl 0
  | getCompleted port_id =>
    show (ic.getCompletedTransaction port_id).1.busy_cycles_
      ≤ (ic.getCompletedTransaction port_id).1.cycle_count_
    unfold Interconnect.getCompletedTransaction
    split
    · exact h
    · split <;> exact h

theorem interconnect_run_busy_le_cycles (ops : List InterconnectOp) : ∀ ic : Interconnect,
    ic.busy_cycles_ ≤ ic.cycle_count_ →
    (ic.run ops).busy_cycles_ ≤ (ic.run ops).cycle_count_ := by
  induction ops with
  | nil => intro ic h; exact h
  | cons op rest ih =>
    intro ic h
    exact ih (ic.step op) (interconnect_step_busy_le_cycles ic op h)

theorem ratio_in_unit_interval (a b : Nat) (h : a ≤ b) :
    (0 : ℚ) ≤ (if b > 0 then (a : ℚ) / (b : ℚ) else 0) ∧
    (if b > 0 then (a : ℚ) / (b : ℚ) else 0) ≤ 1 ∧
    (b = 0 → (if b > 0 then (a : ℚ) / (b : ℚ) else 0) = 0) := by
  by_cases hb : b > 0
  · rw [if_pos hb]
    have hb2 : (0 : ℚ) < (b : ℚ) := by exact_mod_cast hb
    have hab : (a : ℚ) ≤ (b : ℚ) := by exact_mod_cast h
    refine ⟨div_nonneg (by positivity) (le_of_lt hb2), (div_le_one hb2).mpr hab, ?_⟩
    intro h0
    omega
  · rw [if_neg hb]
    exact ⟨le_refl 0, zero_le_one, fun _ => rfl⟩

/-- C17: in every state reached from a freshly constructed system by any sequence of calls
(submissions, clock calls and resets of the scheduler and of the two cores) the
scheduler's statistics satisfy `vector_core_cycles ≤ total_cycles` and
`tensor_core_cycles ≤ total_cycles`, and in every state reached from a freshly constructed
interconnect by submissions, clock calls, resets and retrievals `busy_cycles_ ≤
cycle_count_`; hence the three utilizations, as exact ratios, lie between 0 and 1, and each
is 0 when its total tick count is 0. -/
theorem utilization_in_unit_interval (vc tc : Bool) (vid lanes tid asz P B : Int)
    (ops : List SystemOp) (iops : List InterconnectOp) :
    (((System.fresh vc tc vid lanes tid asz).run ops).sched.getStats.vector_core_cycles
        ≤ ((System.fresh vc tc vid lanes tid asz).run ops).sched.getStats.total_cycles ∧
      ((System.fresh vc tc vid lanes tid asz).run ops).sched.getStats.tensor_core_cycles
        ≤ ((System.fresh vc tc vid lanes tid asz).run ops).sched.getStats.total_cycles ∧
      ((Interconnect.new P B).run iops).busy_cycles_
        ≤ ((Interconnect.new P B).run iops).cycle_count_) ∧
    (0 ≤ ((System.fresh vc tc vid lanes tid asz).run ops).sched.getStats.vector_utilization ∧
      ((System.fresh vc tc vid lanes tid asz).run ops).sched.getStats.vector_utilization ≤ 1 ∧
      (((System.fresh vc tc vid lanes tid asz).run ops).sched.getStats.total_cycles = 0 →
        ((System.fresh vc tc vid lanes tid asz).run ops).sched.getStats.vector_utilization
          = 0)) ∧
    (0 ≤ ((System.fresh vc tc vid lanes tid asz).run ops).sched.getStats.tensor_utilization ∧
      ((System.fresh vc tc vid lanes tid asz).run ops).sched.getStats.tensor_utilization ≤ 1 ∧
      (((System.fresh vc tc vid lanes tid asz).run ops).sched.getStats.total_cycles = 0 →
        ((System.fresh vc tc vid lanes tid asz).run ops).sched.getStats.tensor_utilization
          = 0)) ∧
    (0 ≤ ((Interconnect.new P B).run iops).getUtilization ∧
      ((Interconnect.new P B).run iops).getUtilization ≤ 1 ∧
      (((Interconnect.new P B).run iops).getCycleCount = 0 →
        ((Interconnect.new P B).run iops).getUtilization = 0)) := by
  have hs := system_run_busy_le_total ops (System.fresh vc tc vid lanes tid asz)
    ⟨Nat.le_refl 0, Nat.le_refl 0⟩
  have hi := interconnect_run_busy_le_cycles iops (Interconnect.new P B) (Nat.le_refl 0)
  exact ⟨⟨hs.1, hs.2, hi⟩, ratio_in_unit_interval _ _ hs.1, ratio_in_unit_interval _ _ hs.2,
    ratio_in_unit_interval _ _ hi⟩

/-- Witness for C17: with no call made at all the tick counts are 0 and the three
utilizations are 0. -/
theorem utilization_in_unit_interval_witness :
    ((System.fresh true true 0 8 0 8).run []).sched.getStats.vector_utilization = 0 ∧
    ((System.fresh true true 0 8 0 8).run []).sched.getStats.tensor_utilization = 0 ∧
    ((Interconnect.new 4 64).run []).getUtilization = 0 :=
  ⟨(utilization_in_unit_interval true true 0 8 0 8 4 64 [] []).2.1.2.2 rfl,
   (utilization_in_unit_interval true true 0 8 0 8 4 64 [] []).2.2.1.2.2 rfl,
   (utilization_in_unit_interval true true 0 8 0 8 4 64 [] []).2.2.2.2.2 rfl⟩

/-! ## Construction and reset -/

/-- C18: a vector core and a tensor core are idle, have an empty queue and have cycle count,
task count and busy-cycle count (for the tensor core also the MAC-operation count) equal
to 0 right after construction and right after `reset` called in any state whatever, a
state with a task in flight included; the countdown is 0 as well. -/
theorem core_fresh_and_reset_state (v : VectorCore) (t : TensorCore)
    (vid lanes tid asz : Int) :
    ((VectorCore.new vid lanes).isIdle = true ∧ (VectorCore.new vid lanes).isBusy = false ∧
      (VectorCore.new vid lanes).task_queue_ = [] ∧
      (VectorCore.new vid lanes).getCycleCount = 0 ∧
      (VectorCore.new vid lanes).getTaskCount = 0 ∧
      (VectorCore.new vid lanes).getBusyCycles = 0 ∧
      (VectorCore.new vid lanes).execution_cycles_remaining_ = 0) ∧
    (v.reset.isIdle = true ∧ v.reset.isBusy = false ∧ v.reset.task_queue_ = [] ∧
      v.reset.getCycleCount = 0 ∧ v.reset.getTaskCount = 0 ∧ v.reset.getBusyCycles = 0 ∧
      v.reset.execution_cycles_remaining_ = 0) ∧
    ((TensorCore.new tid asz).isIdle = true ∧ (TensorCore.new tid asz).isBusy = false ∧
      (TensorCore.new tid asz).task_queue_ = [] ∧
      (TensorCore.new tid asz).getCycleCount = 0 ∧
      (TensorCore.new tid asz).getTaskCount = 0 ∧
      (TensorCore.new tid asz).getBusyCycles = 0 ∧
      (TensorCore.new tid asz).getMACOperations = 0 ∧
      (TensorCore.new tid asz).execution_cycles_remaining_ = 0) ∧
    (t.reset.isIdle = true ∧ t.reset.isBusy = false ∧ t.reset.task_queue_ = [] ∧
      t.reset.getCycleCount = 0 ∧ t.reset.getTaskCount = 0 ∧ t.reset.getBusyCycles = 0 ∧
      t.reset.getMACOperations = 0 ∧ t.reset.execution_cycles_remaining_ = 0) :=
  ⟨⟨rfl, rfl, rfl, rfl, rfl, rfl, rfl⟩, ⟨rfl, rfl, rfl, rfl, rfl, rfl, rfl⟩,
   ⟨rfl, rfl, rfl, rfl, rfl, rfl, rfl, rfl⟩, ⟨rfl, rfl, rfl, rfl, rfl, rfl, rfl, rfl⟩⟩

/-- C19: for every state of a vector core, a tensor core, a scheduler and an interconnect,
`reset` called twice in a row gives the same state as `reset` called once; after it the
counters are zero and the queues are empty. -/
theorem reset_idempotent (v : VectorCore) (t : TensorCore) (s : Scheduler)
    (ic : Interconnect) :
    (v.reset.reset = v.reset ∧ t.reset.reset = t.reset ∧ s.reset.reset = s.reset ∧
      ic.reset.reset = ic.reset) ∧
    (s.reset.task_queue_ = [] ∧
      s.reset.stats_ = { total_cycles := 0, vector_core_cycles := 0, tensor_core_cycles := 0,
                         vector_core_tasks := 0, tensor_core_tasks := 0, total_tasks := 0 }) ∧
    (ic.reset.pending_queue_ = [] ∧
      (∀ q, q ∈ ic.reset.completion_queues_ → q = []) ∧
      ic.reset.completion_queues_.length = ic.completion_queues_.length ∧
      ic.reset.cycle_count_ = 0 ∧ ic.reset.transaction_count_ = 0 ∧
      ic.reset.total_bytes_ = 0 ∧ ic.reset.busy_cycles_ = 0 ∧ ic.reset.processing_ = false) ∧
    (v.reset.task_queue_ = [] ∧ v.reset.cycle_count_ = 0 ∧ v.reset.task_count_ = 0 ∧
      v.reset.busy_cycles_ = 0) ∧
    (t.reset.task_queue_ = [] ∧ t.reset.cycle_count_ = 0 ∧ t.reset.task_count_ = 0 ∧
      t.reset.busy_cycles_ = 0 ∧ t.reset.mac_operations_ = 0) := by
  refine ⟨⟨rfl, rfl, rfl, ?_⟩, ⟨rfl, rfl⟩, ⟨rfl, ?_, ?_, rfl, rfl, rfl, rfl, rfl⟩,
    ⟨rfl, rfl, rfl, rfl⟩, ⟨rfl, rfl, rfl, rfl, rfl⟩⟩
  · simp [Interconnect.reset]
  · intro q hq
    simp only [Interconnect.reset, List.mem_map] at hq
    obtain ⟨_, _, h⟩ := hq
    exact h.symm
  · simp [Interconnect.reset]

/-! ## Clock calls with nothing submitted -/

theorem vector_idle_run (vid lanes : Int) (n : Nat) :
    VectorCore.clock^[n] (VectorCore.new vid lanes)
      = { VectorCore.new vid lanes with cycle_count_ := n } := by
  induction n with
  | zero => rfl
  | succ m ih =>
    rw [Function.iterate_succ_apply', ih, vector_clock_idle_empty _ rfl rfl]

theorem tensor_idle_run (tid asz : Int) (n : Nat) :
    TensorCore.clock^[n] (TensorCore.new tid asz)
      = { TensorCore.new tid asz with cycle_count_ := n } := by
  induction n with
  | zero => rfl
  | succ m ih =>
    rw [Function.iterate_succ_apply', ih, tensor_clock_idle_empty _ rfl rfl]

theorem interconnect_idle_run (P B : Int) (n : Nat) :
    Interconnect.clock^[n] (Interconnect.new P B)
      = { Interconnect.new P B with cycle_count_ := n } := by
  induction n with
  | zero => rfl
  | succ m ih =>
    rw [Function.iterate_succ_apply', ih, interconnect_clock_idle _ rfl rfl]

theorem schedulerClock_nothing_to_do (sys : System) (hq : sys.sched.task_queue_ = [])
    (hv : sys.vcore.idle_ = true) (ht : sys.tcore.idle_ = true) :
    sys.schedulerClock
      = { sys with sched := { sys.sched with stats_ :=
            { sys.sched.stats_ with total_cycles := sys.sched.stats_.total_cycles + 1 } } } := by
  simp [System.schedulerClock, hq, VectorCore.isBusy, TensorCore.isBusy, hv, ht]

theorem system_idle_run (vc tc : Bool) (vid lanes tid asz : Int) (n : Nat) :
    System.cycle^[n] (System.fresh vc tc vid lanes tid asz)
      = { sched := { Scheduler.new.connectCores vc tc with stats_ :=
            { total_cycles := n, vector_core_cycles := 0, tensor_core_cycles := 0,
              vector_core_tasks := 0, tensor_core_tasks := 0, total_tasks := 0 } },
          vcore := { VectorCore.new vid lanes with cycle_count_ := n },
          tcore := { TensorCore.new tid asz with cycle_count_ := n } } := by
  induction n with
  | zero => rfl
  | succ m ih =>
    rw [Function.iterate_succ_apply', ih]
    unfold System.cycle
    rw [schedulerClock_nothing_to_do _ rfl rfl rfl]
    simp only []
    rw [vector_clock_idle_empty _ rfl rfl, tensor_clock_idle_empty _ rfl rfl]

/-- C20: after `n` clock calls on freshly constructed components to which nothing was ever
submitted, the vector core and the tensor core report cycle count `n`, busy cycles 0 and
task count 0 (the tensor core also 0 MAC operations), the interconnect reports cycle count
`n`, transaction count 0 and utilization 0, and a scheduler ticked in lock-step with those
cores, whatever its wiring to them, reports `total_cycles = n` with both per-core busy
counters at 0. -/
theorem idle_run_counters (n : Nat) (vc tc : Bool) (vid lanes tid asz P B : Int) :
    ((VectorCore.clock^[n] (VectorCore.new vid lanes)).getCycleCount = n ∧
      (VectorCore.clock^[n] (VectorCore.new vid lanes)).getBusyCycles = 0 ∧
      (VectorCore.clock^[n] (VectorCore.new vid lanes)).getTaskCount = 0) ∧
    ((TensorCore.clock^[n] (TensorCore.new tid asz)).getCycleCount = n ∧
      (TensorCore.clock^[n] (TensorCore.new tid asz)).getBusyCycles = 0 ∧
      (TensorCore.clock^[n] (TensorCore.new tid asz)).getTaskCount = 0 ∧
      (TensorCore.clock^[n] (TensorCore.new tid asz)).getMACOperations = 0) ∧
    ((Interconnect.clock^[n] (Interconnect.new P B)).getCycleCount = n ∧
      (Interconnect.clock^[n] (Interconnect.new P B)).getTransactionCount = 0 ∧
      (Interconnect.clock^[n] (Interconnect.new P B)).busy_cycles_ = 0 ∧
      (Interconnect.clock^[n] (Interconnect.new P B)).getUtilization = 0) ∧
    ((System.cycle^[n] (System.fresh vc tc vid lanes tid asz)).sched.getStats.total_cycles
        = n ∧
      (System.cycle^[n]
        (System.fresh vc tc vid lanes tid asz)).sched.getStats.vector_core_cycles = 0 ∧
      (System.cycle^[n]
        (System.fresh vc tc vid lanes tid asz)).sched.getStats.tensor_core_cycles = 0 ∧
      (System.cycle^[n] (System.fresh vc tc vid lanes tid asz)).vcore.getBusyCycles = 0 ∧
      (System.cycle^[n] (System.fresh vc tc vid lanes tid asz)).tcore.getBusyCycles = 0) := by
  rw [vector_idle_run, tensor_idle_run, interconnect_idle_run, system_idle_run]
  refine ⟨⟨rfl, rfl, rfl⟩, ⟨rfl, rfl, rfl, rfl⟩, ⟨rfl, rfl, rfl, ?_⟩, ⟨rfl, rfl, rfl, rfl, rfl⟩⟩
  unfold Interconnect.getUtilization
  split
  · show ((0 : Nat) : ℚ) / _ = 0
    simp
  · rfl

/-! ## Scheduler: fallback routing and bookkeeping -/

/-- C23: for a task of kind ACTIVATION or UNKNOWN, with both cores connected,
`simpleHeuristic` (and `selectCore`) returns VECTOR_CORE when the vector core is idle,
otherwise TENSOR_CORE when the tensor core is idle, otherwise VECTOR_CORE; the result is
always one of the two cores, never an error. -/
theorem simpleHeuristic_fallback (s : Scheduler) (v : VectorCore) (t : TensorCore)
    (task : TaskDescriptor) (hv : s.vector_core_ = true) (ht : s.tensor_core_ = true)
    (hk : task.type = .ACTIVATION ∨ task.type = .UNKNOWN) :
    (v.isIdle = true → s.simpleHeuristic v t task = .VECTOR_CORE) ∧
    (v.isIdle = false → t.isIdle = true → s.simpleHeuristic v t task = .TENSOR_CORE) ∧
    (v.isIdle = false → t.isIdle = false → s.simpleHeuristic v t task = .VECTOR_CORE) ∧
    (s.simpleHeuristic v t task = .VECTOR_CORE ∨ s.simpleHeuristic v t task = .TENSOR_CORE) ∧
    s.selectCore v t task = s.simpleHeuristic v t task := by
  have hdef : s.simpleHeuristic v t task
      = if (s.vector_core_ && v.isIdle) = true then CoreType.VECTOR_CORE
        else if (s.tensor_core_ && t.isIdle) = true then CoreType.TENSOR_CORE
        else CoreType.VECTOR_CORE := by
    unfold Scheduler.simpleHeuristic
    rcases hk with hk | hk <;> rw [hk]
  refine ⟨?_, ?_, ?_, ?_, rfl⟩
  · intro h
    rw [hdef, hv, ht]
    simp [h]
  · intro h1 h2
    rw [hdef, hv, ht]
    simp [h1, h2]
  · intro h1 h2
    rw [hdef, hv, ht]
    simp [h1, h2]
  · rw [hdef, hv, ht]
    cases v.isIdle <;> cases t.isIdle <;> simp

/-- Witness for C23: an ACTIVATION task goes to the vector core of the fresh test system,
to the tensor core when the vector core is busy and the tensor core idle, and to the
vector core when both are busy. -/
theorem simpleHeuristic_fallback_witness :
    (Scheduler.new.connectCores true true).simpleHeuristic (VectorCore.new 0 8)
        (TensorCore.new 0 8) { TaskDescriptor.default with type := .ACTIVATION }
      = .VECTOR_CORE ∧
    (Scheduler.new.connectCores true true).simpleHeuristic
        { VectorCore.new 0 8 with idle_ := false }
        (TensorCore.new 0 8) { TaskDescriptor.default with type := .ACTIVATION }
      = .TENSOR_CORE ∧
    (Scheduler.new.connectCores true true).simpleHeuristic
        { VectorCore.new 0 8 with idle_ := false }
        { TensorCore.new 0 8 with idle_ := false } TaskDescriptor.default
      = .VECTOR_CORE :=
  ⟨(simpleHeuristic_fallback (Scheduler.new.connectCores true true) (VectorCore.new 0 8)
      (TensorCore.new 0 8) { TaskDescriptor.default with type := .ACTIVATION } rfl rfl
      (Or.inl rfl)).1 rfl,
   (simpleHeuristic_fallback (Scheduler.new.connectCores true true)
      { VectorCore.new 0 8 with idle_ := false } (TensorCore.new 0 8)
      { TaskDescriptor.default with type := .ACTIVATION } rfl rfl (Or.inl rfl)).2.1 rfl rfl,
   (simpleHeuristic_fallback (Scheduler.new.connectCores true true)
      { VectorCore.new 0 8 with idle_ := false } { TensorCore.new 0 8 with idle_ := false }
      TaskDescriptor.default rfl rfl (Or.inr rfl)).2.2.1 rfl rfl⟩

/-- What one `Scheduler::clock` call does to the queues and the dispatch counters: either
nothing, or the head of the admission queue moves to the tail of one core's queue, which
held fewer than 16 tasks, and that core's dispatch counter grows by one. -/
theorem schedulerClock_cases (sys : System) :
    sys.schedulerClock.sched.vector_core_ = sys.sched.vector_core_ ∧
    sys.schedulerClock.sched.tensor_core_ = sys.sched.tensor_core_ ∧
    sys.schedulerClock.sched.stats_.total_tasks = sys.sched.stats_.total_tasks ∧
    ((sys.schedulerClock.sched.task_queue_ = sys.sched.task_queue_ ∧
        sys.schedulerClock.vcore = sys.vcore ∧ sys.schedulerClock.tcore = sys.tcore ∧
        sys.schedulerClock.sched.stats_.vector_core_tasks
          = sys.sched.stats_.vector_core_tasks ∧
        sys.schedulerClock.sched.stats_.tensor_core_tasks
          = sys.sched.stats_.tensor_core_tasks) ∨
      (∃ task rest, sys.sched.task_queue_ = task :: rest ∧
        sys.schedulerClock.sched.task_queue_ = rest ∧
        ((sys.sched.selectCore sys.vcore sys.tcore task = .VECTOR_CORE ∧
            sys.sched.vector_core_ = true ∧
            sys.vcore.task_queue_.length < 16 ∧
            sys.schedulerClock.vcore
              = { sys.vcore with task_queue_ := sys.vcore.task_queue_ ++ [task] } ∧
            sys.schedulerClock.tcore = sys.tcore ∧
            sys.schedulerClock.sched.stats_.vector_core_tasks
              = sys.sched.stats_.vector_core_tasks + 1 ∧
            sys.schedulerClock.sched.stats_.tensor_core_tasks
              = sys.sched.stats_.tensor_core_tasks) ∨
          (sys.sched.selectCore sys.vcore sys.tcore task = .TENSOR_CORE ∧
            sys.sched.tensor_core_ = true ∧
            sys.tcore.task_queue_.length < 16 ∧
            sys.schedulerClock.tcore
              = { sys.tcore with task_queue_ := sys.tcore.task_queue_ ++ [task] } ∧
            sys.schedulerClock.vcore = sys.vcore ∧
            sys.schedulerClock.sched.stats_.tensor_core_tasks
              = sys.sched.stats_.tensor_core_tasks + 1 ∧
            sys.schedulerClock.sched.stats_.vector_core_tasks
              = sys.sched.stats_.vector_core_tasks)))) := by
  cases hq : sys.sched.task_queue_ with
  | nil =>
    refine ⟨?_, ?_, ?_, Or.inl ?_⟩ <;>
      simp only [System.schedulerClock, hq] <;> split_ifs <;> simp
  | cons task rest =>
    have hsel : sys.sched.selectCore sys.vcore sys.tcore task = .VECTOR_CORE ∨
        sys.sched.selectCore sys.vcore sys.tcore task = .TENSOR_CORE := by
      unfold Scheduler.selectCore Scheduler.simpleHeuristic
      split <;> first | (simp; done) | (split_ifs <;> simp)
    rcases hsel with hs | hs
    · by_cases hc : sys.sched.vector_core_ = true
      · by_cases hl : sys.vcore.task_queue_.length < 16
        · have hl2 : ¬ (16 ≤ sys.vcore.task_queue_.length) := by omega
          refine ⟨?_, ?_, ?_, Or.inr ⟨task, rest, rfl, ?_, Or.inl ⟨hs, hc, hl, ?_, ?_, ?_, ?_⟩⟩⟩ <;>
            simp only [System.schedulerClock, hq, hs, Scheduler.dispatchTask, hc,
              VectorCore.submitTask, VectorCore.MAX_QUEUE_DEPTH] <;>
            simp [hl2] <;> split_ifs <;> simp
        · have hl2 : 16 ≤ sys.vcore.task_queue_.length := by omega
          refine ⟨?_, ?_, ?_, Or.inl ⟨?_, ?_, ?_, ?_, ?_⟩⟩ <;>
            simp only [System.schedulerClock, hq, hs, Scheduler.dispatchTask, hc,
              VectorCore.submitTask, VectorCore.MAX_QUEUE_DEPTH] <;>
            simp [hl2] <;> split_ifs <;> simp
      · have hc2 : sys.sched.vector_core_ = false := by simpa using hc
        refine ⟨?_, ?_, ?_, Or.inl ⟨?_, ?_, ?_, ?_, ?_⟩⟩ <;>
          simp only [System.schedulerClock, hq, hs, Scheduler.dispatchTask, hc2] <;>
          simp <;> split_ifs <;> simp
    · by_cases hc : sys.sched.tensor_core_ = true
      · by_cases hl : sys.tcore.task_queue_.length < 16
        · have hl2 : ¬ (16 ≤ sys.tcore.task_queue_.length) := by omega
          refine ⟨?_, ?_, ?_, Or.inr ⟨task, rest, rfl, ?_, Or.inr ⟨hs, hc, hl, ?_, ?_, ?_, ?_⟩⟩⟩ <;>
            simp only [System.schedulerClock, hq, hs, Scheduler.dispatchTask, hc,
              TensorCore.submitTask, TensorCore.MAX_QUEUE_DEPTH] <;>
            simp [hl2] <;> split_ifs <;> simp
        · have hl2 : 16 ≤ sys.tcore.task_queue_.length := by omega
          refine ⟨?_, ?_, ?_, Or.inl ⟨?_, ?_, ?_, ?_, ?_⟩⟩ <;>
            simp only [System.schedulerClock, hq, hs, Scheduler.dispatchTask, hc,
              TensorCore.submitTask, TensorCore.MAX_QUEUE_DEPTH] <;>
            simp [hl2] <;> split_ifs <;> simp
      · have hc2 : sys.sched.tensor_core_ = false := by simpa using hc
        refine ⟨?_, ?_, ?_, Or.inl ⟨?_, ?_, ?_, ?_, ?_⟩⟩ <;>
          simp only [System.schedulerClock, hq, hs, Scheduler.dispatchTask, hc2] <;>
          simp <;> split_ifs <;> simp

theorem system_step_task_accounting (sys : System) (op : SystemOp)
    (h : sys.sched.stats_.total_tasks = sys.sched.task_queue_.length
      + sys.sched.stats_.vector_core_tasks + sys.sched.stats_.tensor_core_tasks) :
    (sys.step op).sched.stats_.total_tasks = (sys.step op).sched.task_queue_.length
      + (sys.step op).sched.stats_.vector_core_tasks
      + (sys.step op).sched.stats_.tensor_core_tasks := by
  cases op with
  | submit task =>
    show (sys.sched.submitTask task).1.stats_.total_tasks
      = (sys.sched.submitTask task).1.task_queue_.length
        + (sys.sched.submitTask task).1.stats_.vector_core_tasks
        + (sys.sched.submitTask task).1.stats_.tensor_core_tasks
    unfold Scheduler.submitTask
    split
    · exact h
    · simp only [List.length_append, List.length_singleton]
      omega
  | schedulerClock =>
    show sys.schedulerClock.sched.stats_.total_tasks
      = sys.schedulerClock.sched.task_queue_.length
        + sys.schedulerClock.sched.stats_.vector_core_tasks
        + sys.schedulerClock.sched.stats_.tensor_core_tasks
    obtain ⟨_, _, htot, hcase⟩ := schedulerClock_cases sys
    rcases hcase with ⟨hq, _, _, hv, ht⟩ | ⟨task, rest, hq, hq2, hcase2⟩
    · rw [htot, hq, hv, ht]
      exact h
    · rw [hq] at h
      simp only [List.length_cons] at h
      rcases hcase2 with ⟨_, _, _, _, _, hv, ht⟩ | ⟨_, _, _, _, _, ht, hv⟩
      · rw [htot, hq2, hv, ht]
        omega
      · rw [htot, hq2, hv, ht]
        omega
  | schedulerReset => rfl
  | vectorSubmit task => exact h
  | vectorClock => exact h
  | vectorReset => exact h
  | tensorSubmit task => exact h
  | tensorClock => exact h
  | tensorReset => exact h

/-- C27: in every scheduler state reached from construction by any sequence of calls
(scheduler submissions, clock calls and resets, and any calls on the two cores)
`total_tasks` equals the admission-queue depth plus `vector_core_tasks` plus
`tensor_core_tasks`: an accepted task is either still queued or counted as dispatched to
exactly one core. -/
theorem scheduler_task_accounting (vc tc : Bool) (vid lanes tid asz : Int)
    (ops : List SystemOp) :
    ((System.fresh vc tc vid lanes tid asz).run ops).sched.getStats.total_tasks
      = ((System.fresh vc tc vid lanes tid asz).run ops).sched.getQueueDepth
        + ((System.fresh vc tc vid lanes tid asz).run ops).sched.getStats.vector_core_tasks
        + ((System.fresh vc tc vid lanes tid asz).run ops).sched.getStats.tensor_core_tasks := by
  have key : ∀ (l : List SystemOp) (sys : System),
      sys.sched.stats_.total_tasks = sys.sched.task_queue_.length
        + sys.sched.stats_.vector_core_tasks + sys.sched.stats_.tensor_core_tasks →
      (sys.run l).sched.stats_.total_tasks = (sys.run l).sched.task_queue_.length
        + (sys.run l).sched.stats_.vector_core_tasks
        + (sys.run l).sched.stats_.tensor_core_tasks := by
    intro l
    induction l with
    | nil => intro sys h; exact h
    | cons op rest ih =>
      intro sys h
      exact ih (sys.step op) (system_step_task_accounting sys op h)
  exact key ops (System.fresh vc tc vid lanes tid asz) rfl

/-! ## Queue bounds -/

theorem vector_clock_queue_le (c : VectorCore) :
    c.clock.task_queue_.length ≤ c.task_queue_.length := by
  rw [vector_clock_queue]
  split
  · rw [List.length_tail]
    omega
  · exact Nat.le_refl _

theorem tensor_clock_queue_le (c : TensorCore) :
    c.clock.task_queue_.length ≤ c.task_queue_.length := by
  rw [tensor_clock_queue]
  split
  · rw [List.length_tail]
    omega
  · exact Nat.le_refl _

theorem vector_submitTask_queue_le (c : VectorCore) (task : TaskDescriptor)
    (h : c.task_queue_.length ≤ 16) : (c.submitTask task).1.task_queue_.length ≤ 16 := by
  by_cases hl : c.task_queue_.length < 16
  · rw [vector_submitTask_accept c task hl]
    simp only [List.length_append, List.length_singleton]
    omega
  · rw [vector_submitTask_reject c task (by omega)]
    exact h

theorem tensor_submitTask_queue_le (c : TensorCore) (task : TaskDescriptor)
    (h : c.task_queue_.length ≤ 16) : (c.submitTask task).1.task_queue_.length ≤ 16 := by
  by_cases hl : c.task_queue_.length < 16
  · rw [tensor_submitTask_accept c task hl]
    simp only [List.length_append, List.length_singleton]
    omega
  · rw [tensor_submitTask_reject c task (by omega)]
    exact h

theorem system_step_queue_bounds (sys : System) (op : SystemOp)
    (h : sys.sched.task_queue_.length ≤ 32 ∧ sys.vcore.task_queue_.length ≤ 16 ∧
      sys.tcore.task_queue_.length ≤ 16) :
    (sys.step op).sched.task_queue_.length ≤ 32 ∧ (sys.step op).vcore.task_queue_.length ≤ 16 ∧
      (sys.step op).tcore.task_queue_.length ≤ 16 := by
  obtain ⟨hs, hv, ht⟩ := h
  cases op with
  | submit task =>
    refine ⟨?_, hv, ht⟩
    show (sys.sched.submitTask task).1.task_queue_.length ≤ 32
    unfold Scheduler.submitTask Scheduler.MAX_QUEUE_DEPTH
    split
    · exact hs
    · simp only [List.length_append, List.length_singleton]
      omega
  | schedulerClock =>
    show sys.schedulerClock.sched.task_queue_.length ≤ 32 ∧
      sys.schedulerClock.vcore.task_queue_.length ≤ 16 ∧
      sys.schedulerClock.tcore.task_queue_.length ≤ 16
    obtain ⟨_, _, _, hcase⟩ := schedulerClock_cases sys
    rcases hcase with ⟨hq, hv2, ht2, _, _⟩ | ⟨task, rest, hq, hq2, hcase2⟩
    · rw [hq, hv2, ht2]
      exact ⟨hs, hv, ht⟩
    · rw [hq] at hs
      simp only [List.length_cons] at hs
      rcases hcase2 with ⟨_, _, hl, hv2, ht2, _, _⟩ | ⟨_, _, hl, ht2, hv2, _, _⟩
      · rw [hq2, hv2, ht2]
        refine ⟨by omega, ?_, ht⟩
        simp only [List.length_append, List.length_singleton]
        omega
      · rw [hq2, hv2, ht2]
        refine ⟨by omega, hv, ?_⟩
        simp only [List.length_append, List.length_singleton]
        omega
  | schedulerReset => exact ⟨Nat.zero_le _, hv, ht⟩
  | vectorSubmit task => exact ⟨hs, vector_submitTask_queue_le sys.vcore task hv, ht⟩
  | vectorClock => exact ⟨hs, Nat.le_trans (vector_clock_queue_le sys.vcore) hv, ht⟩
  | vectorReset => exact ⟨hs, Nat.zero_le _, ht⟩
  | tensorSubmit task => exact ⟨hs, hv, tensor_submitTask_queue_le sys.tcore task ht⟩
  | tensorClock => exact ⟨hs, hv, Nat.le_trans (tensor_clock_queue_le sys.tcore) ht⟩
  | tensorReset => exact ⟨hs, hv, Nat.zero_le _⟩

theorem interconnect_step_pending_le (ic : Interconnect) (op : InterconnectOp)
    (h : ic.pending_queue_.length ≤ 32) : (ic.step op).pending_queue_.length ≤ 32 := by
  cases op with
  | submit tr =>
    show (ic.submitTransaction tr).1.pending_queue_.length ≤ 32
    unfold Interconnect.submitTransaction Interconnect.MAX_QUEUE_DEPTH
    split
    · exact h
    · simp only [List.length_append, List.length_singleton]
      omega
  | clock =>
    show ic.clock.pending_queue_.length ≤ 32
    have hle : ic.clock.pending_queue_.length ≤ ic.pending_queue_.length := by
      unfold Interconnect.clock Interconnect.clockStart Interconnect.clockProgress
      simp only []
      split <;> split_ifs <;> simp_all
    omega
  | reset => exact Nat.zero_le _
  | getCompleted port_id =>
    show (ic.getCompletedTransaction port_id).1.pending_queue_.length ≤ 32
    unfold Interconnect.getCompletedTransaction
    split
    · exact h
    · split <;> exact h

/-- C21: in every state reached from construction by any sequence of calls (submissions,
clock calls and resets on the scheduler and on the cores; submissions, clock calls,
resets and retrievals on the interconnect) the scheduler's admission queue holds at most
32 tasks, each core's queue holds at most 16 tasks and the interconnect's pending queue
holds at most 32 transactions. -/
theorem queue_lengths_bounded (vc tc : Bool) (vid lanes tid asz P B : Int)
    (ops : List SystemOp) (iops : List InterconnectOp) :
    ((System.fresh vc tc vid lanes tid asz).run ops).sched.getQueueDepth ≤ 32 ∧
    ((System.fresh vc tc vid lanes tid asz).run ops).vcore.task_queue_.length ≤ 16 ∧
    ((System.fresh vc tc vid lanes tid asz).run ops).tcore.task_queue_.length ≤ 16 ∧
    ((Interconnect.new P B).run iops).pending_queue_.length ≤ 32 := by
  have key : ∀ (l : List SystemOp) (sys : System),
      (sys.sched.task_queue_.length ≤ 32 ∧ sys.vcore.task_queue_.length ≤ 16 ∧
        sys.tcore.task_queue_.length ≤ 16) →
      ((sys.run l).sched.task_queue_.length ≤ 32 ∧ (sys.run l).vcore.task_queue_.length ≤ 16 ∧
        (sys.run l).tcore.task_queue_.length ≤ 16) := by
    intro l
    induction l with
    | nil => intro sys h; exact h
    | cons op rest ih =>
      intro sys h
      exact ih (sys.step op) (system_step_queue_bounds sys op h)
  have keyi : ∀ (l : List InterconnectOp) (ic : Interconnect),
      ic.pending_queue_.length ≤ 32 → (ic.run l).pending_queue_.length ≤ 32 := by
    intro l
    induction l with
    | nil => intro ic h; exact h
    | cons op rest ih =>
      intro ic h
      exact ih (ic.step op) (interconnect_step_pending_le ic op h)
  obtain ⟨h1, h2, h3⟩ := key ops (System.fresh vc tc vid lanes tid asz)
    ⟨Nat.zero_le _, Nat.zero_le _, Nat.zero_le _⟩
  exact ⟨h1, h2, h3, keyi iops (Interconnect.new P B) (Nat.zero_le _)⟩

/-! ## MAC operations of the tensor core -/

theorem tensor_clock_mac (c : TensorCore) :
    c.clock.array_size_ = c.array_size_ ∧
    ((c.clock.busy_cycles_ = c.busy_cycles_ ∧ c.clock.mac_operations_ = c.mac_operations_) ∨
      (c.clock.busy_cycles_ = c.busy_cycles_ + 1 ∧
        c.clock.mac_operations_
          = (c.mac_operations_ + intToUInt64 (wrapInt32 (c.array_size_ * c.array_size_)))
            % 2 ^ 64)) := by
  unfold TensorCore.clock TensorCore.clockExecute TensorCore.clockStart
  cases hi : c.idle_ <;> cases hq : c.task_queue_ <;> simp <;> split <;> simp

theorem tensor_step_mac (c : TensorCore) (op : CoreOp) (A : Nat)
    (hA : intToUInt64 (wrapInt32 (c.array_size_ * c.array_size_)) = A)
    (h : c.mac_operations_ = A * c.busy_cycles_ % 2 ^ 64) :
    (c.step op).array_size_ = c.array_size_ ∧
    (c.step op).mac_operations_ = A * (c.step op).busy_cycles_ % 2 ^ 64 := by
  cases op with
  | submit task =>
    show (c.submitTask task).1.array_size_ = c.array_size_ ∧
      (c.submitTask task).1.mac_operations_ = A * (c.submitTask task).1.busy_cycles_ % 2 ^ 64
    unfold TensorCore.submitTask
    split
    · exact ⟨rfl, h⟩
    · exact ⟨rfl, h⟩
  | clock =>
    show c.clock.array_size_ = c.array_size_ ∧
      c.clock.mac_operations_ = A * c.clock.busy_cycles_ % 2 ^ 64
    obtain ⟨ha, hcase⟩ := tensor_clock_mac c
    refine ⟨ha, ?_⟩
    rcases hcase with ⟨hb, hm⟩ | ⟨hb, hm⟩
    · rw [hb, hm]
      exact h
    · rw [hb, hm, hA, h, Nat.mul_add, Nat.mul_one]
      omega
  | reset => exact ⟨rfl, rfl⟩

/-- C22 (as amended): for a tensor core whose array size squared fits in a signed 32-bit
integer, in every state reached from construction by submissions, clock calls and resets
`getMACOperations` equals `array_size * array_size * getBusyCycles` as a 64-bit unsigned
value, that is modulo `2^64`, and equals the product itself while that is below `2^64`.
In any state whatever a clock call either leaves both counters alone (an idle tick) or
adds one busy cycle and the `int` product `array_size_ * array_size_` to the MAC counter,
whatever task is executing. -/
theorem tensor_mac_operations (tid a : Int) (ops : List CoreOp) (c : TensorCore)
    (ha : a * a < 2 ^ 31) :
    ((TensorCore.new tid a).run ops).getMACOperations
      = (a * a).toNat * ((TensorCore.new tid a).run ops).getBusyCycles % 2 ^ 64 ∧
    ((a * a).toNat * ((TensorCore.new tid a).run ops).getBusyCycles < 2 ^ 64 →
      ((TensorCore.new tid a).run ops).getMACOperations
        = (a * a).toNat * ((TensorCore.new tid a).run ops).getBusyCycles) ∧
    ((c.clock.getBusyCycles = c.getBusyCycles ∧
        c.clock.getMACOperations = c.getMACOperations) ∨
      (c.clock.getBusyCycles = c.getBusyCycles + 1 ∧
        c.clock.getMACOperations
          = (c.getMACOperations + intToUInt64 (wrapInt32 (c.array_size_ * c.array_size_)))
            % 2 ^ 64)) := by
  have hsq : 0 ≤ a * a := mul_self_nonneg a
  have hA : intToUInt64 (wrapInt32 (a * a)) = (a * a).toNat := by
    rw [wrapInt32_of_range (by omega) ha]
    exact intToUInt64_of_range hsq (by omega)
  have key : ∀ (l : List CoreOp) (s : TensorCore), s.array_size_ = a →
      s.mac_operations_ = (a * a).toNat * s.busy_cycles_ % 2 ^ 64 →
      (s.run l).mac_operations_ = (a * a).toNat * (s.run l).busy_cycles_ % 2 ^ 64 := by
    intro l
    induction l with
    | nil => intro s _ h; exact h
    | cons op rest ih =>
      intro s hs h
      obtain ⟨h1, h2⟩ := tensor_step_mac s op (a * a).toNat (by rw [hs]; exact hA) h
      exact ih (s.step op) (h1.trans hs) h2
  have hmain := key ops (TensorCore.new tid a) rfl rfl
  refine ⟨hmain, ?_, (tensor_clock_mac c).2⟩
  intro hlt
  show ((TensorCore.new tid a).run ops).mac_operations_
    = (a * a).toNat * ((TensorCore.new tid a).run ops).busy_cycles_
  rw [hmain]
  exact Nat.mod_eq_of_lt hlt

set_option maxRecDepth 20000 in
/-- Witness for C22: on the 8x8 tensor core of `testTensorCore`, five clock calls after the
32x32x32 MATRIX_MUL was submitted, 5 busy cycles and `8 * 8 * 5 = 320` MAC operations are
counted. -/
theorem tensor_mac_operations_witness :
    ((TensorCore.new 0 8).run
        [.submit (matrixMulTask 32 32 32), .clock, .clock, .clock, .clock, .clock]).getBusyCycles
      = 5 ∧
    ((TensorCore.new 0 8).run
        [.submit (matrixMulTask 32 32 32), .clock, .clock, .clock, .clock,
          .clock]).getMACOperations
      = (8 * 8 : Int).toNat * 5 :=
  ⟨by decide,
   ((tensor_mac_operations 0 8
      [.submit (matrixMulTask 32 32 32), .clock, .clock, .clock, .clock, .clock]
      (TensorCore.new 0 8) (by decide)).2.1 (by decide)).trans (by decide)⟩

set_option maxRecDepth 20000 in
/-- Counterexample to C22 as stated: with array size 65536 the `int` product
`array_size_ * array_size_` is `2^32`, which wraps to 0; one clock call after a CONV2D task
was submitted the core has one busy cycle and still 0 MAC operations, not `65536 * 65536`. -/
theorem tensor_mac_operations_overflow :
    ((TensorCore.new 0 65536).run [.submit conv2dTask, .clock]).getBusyCycles = 1 ∧
    ((TensorCore.new 0 65536).run [.submit conv2dTask, .clock]).getMACOperations = 0 ∧
    ((TensorCore.new 0 65536).run [.submit conv2dTask, .clock]).getMACOperations
      ≠ 65536 * 65536
        * ((TensorCore.new 0 65536).run [.submit conv2dTask, .clock]).getBusyCycles := by
  decide

/-! ## Busy flag and countdown -/

theorem tensor_estimate_eq_of_array (c d : TensorCore) (task : TaskDescriptor)
    (h : d.array_size_ = c.array_size_) :
    d.estimateTaskCycles task = c.estimateTaskCycles task := by
  unfold TensorCore.estimateTaskCycles TensorCore.calculateTiles
  rw [h]

theorem tensor_clockStart_idle_cons (s : TensorCore) (task : TaskDescriptor)
    (rest : List TaskDescriptor) (hi : s.idle_ = true) (hq : s.task_queue_ = task :: rest) :
    s.clockStart = { s with cycle_count_ := s.cycle_count_ + 1,
                            current_task_ := task,
                            task_queue_ := rest,
                            execution_cycles_remaining_ := s.estimateTaskCycles task,
                            idle_ := false,
                            task_count_ := s.task_count_ + 1 } := by
  simp only [TensorCore.clockStart, hi, hq]
  congr 1

theorem tensor_clock_idle_start (s : TensorCore) (task : TaskDescriptor)
    (rest : List TaskDescriptor) (hi : s.idle_ = true) (hq : s.task_queue_ = task :: rest)
    (h1 : 1 ≤ s.estimateTaskCycles task) :
    s.clock = { s with cycle_count_ := s.cycle_count_ + 1,
                       current_task_ := task,
                       task_queue_ := rest,
                       task_count_ := s.task_count_ + 1,
                       busy_cycles_ := s.busy_cycles_ + 1,
                       mac_operations_ :=
                         (s.mac_operations_ +
                           intToUInt64 (wrapInt32 (s.array_size_ * s.array_size_))) % 2 ^ 64,
                       execution_cycles_remaining_ := s.estimateTaskCycles task - 1,
                       idle_ := decide (s.estimateTaskCycles task ≤ 1) } := by
  have hr := tensor_estimate_range s task
  have hw : wrapInt32 (s.estimateTaskCycles task - 1) = s.estimateTaskCycles task - 1 :=
    wrapInt32_of_range (by omega) (by omega)
  rw [TensorCore.clock, tensor_clockStart_idle_cons s task rest hi hq]
  simp only [TensorCore.clockExecute, hw]
  by_cases h : s.estimateTaskCycles task ≤ 1
  · have h0 : s.estimateTaskCycles task - 1 ≤ 0 := by omega
    simp [h, h0]
  · have h0 : ¬ (s.estimateTaskCycles task - 1 ≤ 0) := by omega
    simp [h, h0]

theorem vector_step_countdown (c : VectorCore) (op : CoreOp)
    (hinv : (c.idle_ = true → c.execution_cycles_remaining_ = 0) ∧
      (c.idle_ = false → 0 < c.execution_cycles_remaining_) ∧
      c.execution_cycles_remaining_ < 2 ^ 31)
    (hcost : ∀ task, task ∈ c.executedTasks [op] → 1 ≤ c.estimateTaskCycles task) :
    ((c.step op).idle_ = true → (c.step op).execution_cycles_remaining_ = 0) ∧
    ((c.step op).idle_ = false → 0 < (c.step op).execution_cycles_remaining_) ∧
    (c.step op).execution_cycles_remaining_ < 2 ^ 31 ∧
    (c.step op).num_lanes_ = c.num_lanes_ := by
  obtain ⟨h1, h2, h3⟩ := hinv
  cases op with
  | submit task =>
    show ((c.submitTask task).1.idle_ = true →
        (c.submitTask task).1.execution_cycles_remaining_ = 0) ∧
      ((c.submitTask task).1.idle_ = false →
        0 < (c.submitTask task).1.execution_cycles_remaining_) ∧
      (c.submitTask task).1.execution_cycles_remaining_ < 2 ^ 31 ∧
      (c.submitTask task).1.num_lanes_ = c.num_lanes_
    unfold VectorCore.submitTask
    split
    · exact ⟨h1, h2, h3, rfl⟩
    · exact ⟨h1, h2, h3, rfl⟩
  | reset =>
    have hidle : (c.step CoreOp.reset).idle_ = true := rfl
    have hrem : (c.step CoreOp.reset).execution_cycles_remaining_ = 0 := rfl
    refine ⟨fun _ => hrem, ?_, ?_, rfl⟩
    · intro h
      rw [hidle] at h
      exact absurd h (by decide)
    · rw [hrem]
      decide
  | clock =>
    show (c.clock.idle_ = true → c.clock.execution_cycles_remaining_ = 0) ∧
      (c.clock.idle_ = false → 0 < c.clock.execution_cycles_remaining_) ∧
      c.clock.execution_cycles_remaining_ < 2 ^ 31 ∧ c.clock.num_lanes_ = c.num_lanes_
    cases hi : c.idle_ with
    | false =>
      have hpos := h2 hi
      rw [vector_clock_busy c hi (by omega) h3]
      refine ⟨?_, ?_, ?_, rfl⟩
      · intro h
        have h' : c.execution_cycles_remaining_ ≤ 1 := of_decide_eq_true h
        show c.execution_cycles_remaining_ - 1 = 0
        omega
      · intro h
        have h' : ¬ (c.execution_cycles_remaining_ ≤ 1) := of_decide_eq_false h
        show 0 < c.execution_cycles_remaining_ - 1
        omega
      · show c.execution_cycles_remaining_ - 1 < 2 ^ 31
        omega
    | true =>
      cases hq : c.task_queue_ with
      | nil =>
        rw [vector_clock_idle_empty c hi hq]
        refine ⟨fun _ => h1 hi, ?_, h3, rfl⟩
        intro h
        rw [hi] at h
        exact absurd h (by decide)
      | cons task rest =>
        have hc : 1 ≤ c.estimateTaskCycles task := by
          apply hcost
          simp [VectorCore.executedTasks, hi, hq]
        have hr := vector_estimate_range c task
        rw [vector_clock_idle_start c task rest hi hq hc]
        refine ⟨?_, ?_, ?_, rfl⟩
        · intro h
          have h' : c.estimateTaskCycles task ≤ 1 := of_decide_eq_true h
          show c.estimateTaskCycles task - 1 = 0
          omega
        · intro h
          have h' : ¬ (c.estimateTaskCycles task ≤ 1) := of_decide_eq_false h
          show 0 < c.estimateTaskCycles task - 1
          omega
        · show c.estimateTaskCycles task - 1 < 2 ^ 31
          omega

theorem tensor_step_countdown (c : TensorCore) (op : CoreOp)
    (hinv : (c.idle_ = true → c.execution_cycles_remaining_ = 0) ∧
      (c.idle_ = false → 0 < c.execution_cycles_remaining_) ∧
      c.execution_cycles_remaining_ < 2 ^ 31)
    (hcost : ∀ task, task ∈ c.executedTasks [op] → 1 ≤ c.estimateTaskCycles task) :
    ((c.step op).idle_ = true → (c.step op).execution_cycles_remaining_ = 0) ∧
    ((c.step op).idle_ = false → 0 < (c.step op).execution_cycles_remaining_) ∧
    (c.step op).execution_cycles_remaining_ < 2 ^ 31 ∧
    (c.step op).array_size_ = c.array_size_ := by
  obtain ⟨h1, h2, h3⟩ := hinv
  cases op with
  | submit task =>
    show ((c.submitTask task).1.idle_ = true →
        (c.submitTask task).1.execution_cycles_remaining_ = 0) ∧
      ((c.submitTask task).1.idle_ = false →
        0 < (c.submitTask task).1.execution_cycles_remaining_) ∧
      (c.submitTask task).1.execution_cycles_remaining_ < 2 ^ 31 ∧
      (c.submitTask task).1.array_size_ = c.array_size_
    unfold TensorCore.submitTask
    split
    · exact ⟨h1, h2, h3, rfl⟩
    · exact ⟨h1, h2, h3, rfl⟩
  | reset =>
    have hidle : (c.step CoreOp.reset).idle_ = true := rfl
    have hrem : (c.step CoreOp.reset).execution_cycles_remaining_ = 0 := rfl
    refine ⟨fun _ => hrem, ?_, ?_, rfl⟩
    · intro h
      rw [hidle] at h
      exact absurd h (by decide)
    · rw [hrem]
      decide
  | clock =>
    show (c.clock.idle_ = true → c.clock.execution_cycles_remaining_ = 0) ∧
      (c.clock.idle_ = false → 0 < c.clock.execution_cycles_remaining_) ∧
      c.clock.execution_cycles_remaining_ < 2 ^ 31 ∧ c.clock.array_size_ = c.array_size_
    cases hi : c.idle_ with
    | false =>
      have hpos := h2 hi
      rw [tensor_clock_busy c hi (by omega) h3]
      refine ⟨?_, ?_, ?_, rfl⟩
      · intro h
        have h' : c.execution_cycles_remaining_ ≤ 1 := of_decide_eq_true h
        show c.execution_cycles_remaining_ - 1 = 0
        omega
      · intro h
        have h' : ¬ (c.execution_cycles_remaining_ ≤ 1) := of_decide_eq_false h
        show 0 < c.execution_cycles_remaining_ - 1
        omega
      · show c.execution_cycles_remaining_ - 1 < 2 ^ 31
        omega
    | true =>
      cases hq : c.task_queue_ with
      | nil =>
        rw [tensor_clock_idle_empty c hi hq]
        refine ⟨fun _ => h1 hi, ?_, h3, rfl⟩
        intro h
        rw [hi] at h
        exact absurd h (by decide)
      | cons task rest =>
        have hc : 1 ≤ c.estimateTaskCycles task := by
          apply hcost
          simp [TensorCore.executedTasks, hi, hq]
        have hr := tensor_estimate_range c task
        rw [tensor_clock_idle_start c task rest hi hq hc]
        refine ⟨?_, ?_, ?_, rfl⟩
        · intro h
          have h' : c.estimateTaskCycles task ≤ 1 := of_decide_eq_true h
          show c.estimateTaskCycles task - 1 = 0
          omega
        · intro h
          have h' : ¬ (c.estimateTaskCycles task ≤ 1) := of_decide_eq_false h
          show 0 < c.estimateTaskCycles task - 1
          omega
        · show c.estimateTaskCycles task - 1 < 2 ^ 31
          omega

theorem vector_executedTasks_cons (c : VectorCore) (op : CoreOp) (rest : List CoreOp) :
    c.executedTasks (op :: rest) = c.executedTasks [op] ++ (c.step op).executedTasks rest := by
  cases op <;> simp [VectorCore.executedTasks, VectorCore.step]

theorem vector_run_countdown (lanes : Int) (ops : List CoreOp) : ∀ c : VectorCore,
    c.num_lanes_ = lanes →
    ((c.idle_ = true → c.execution_cycles_remaining_ = 0) ∧
      (c.idle_ = false → 0 < c.execution_cycles_remaining_) ∧
      c.execution_cycles_remaining_ < 2 ^ 31) →
    (∀ task, task ∈ c.executedTasks ops → 1 ≤ c.estimateTaskCycles task) →
    ((c.run ops).idle_ = true → (c.run ops).execution_cycles_remaining_ = 0) ∧
    ((c.run ops).idle_ = false → 0 < (c.run ops).execution_cycles_remaining_) := by
  induction ops with
  | nil =>
    intro c _ h _
    exact ⟨h.1, h.2.1⟩
  | cons op rest ih =>
    intro c hl hinv hcost
    have hsplit := vector_executedTasks_cons c op rest
    obtain ⟨a1, a2, a3, a4⟩ := vector_step_countdown c op hinv (by
      intro task ht
      apply hcost
      rw [hsplit]
      exact List.mem_append_left _ ht)
    exact ih (c.step op) (a4.trans hl) ⟨a1, a2, a3⟩ (by
      intro task ht
      rw [vector_estimate_eq_of_lanes c (c.step op) task a4]
      apply hcost
      rw [hsplit]
      exact List.mem_append_right _ ht)

theorem tensor_executedTasks_cons (c : TensorCore) (op : CoreOp) (rest : List CoreOp) :
    c.executedTasks (op :: rest) = c.executedTasks [op] ++ (c.step op).executedTasks rest := by
  cases op <;> simp [TensorCore.executedTasks, TensorCore.step]

theorem tensor_run_countdown (asz : Int) (ops : List CoreOp) : ∀ c : TensorCore,
    c.array_size_ = asz →
    ((c.idle_ = true → c.execution_cycles_remaining_ = 0) ∧
      (c.idle_ = false → 0 < c.execution_cycles_remaining_) ∧
      c.execution_cycles_remaining_ < 2 ^ 31) →
    (∀ task, task ∈ c.executedTasks ops → 1 ≤ c.estimateTaskCycles task) →
    ((c.run ops).idle_ = true → (c.run ops).execution_cycles_remaining_ = 0) ∧
    ((c.run ops).idle_ = false → 0 < (c.run ops).execution_cycles_remaining_) := by
  induction ops with
  | nil =>
    intro c _ h _
    exact ⟨h.1, h.2.1⟩
  | cons op rest ih =>
    intro c hl hinv hcost
    have hsplit := tensor_executedTasks_cons c op rest
    obtain ⟨a1, a2, a3, a4⟩ := tensor_step_countdown c op hinv (by
      intro task ht
      apply hcost
      rw [hsplit]
      exact List.mem_append_left _ ht)
    exact ih (c.step op) (a4.trans hl) ⟨a1, a2, a3⟩ (by
      intro task ht
      rw [tensor_estimate_eq_of_array c (c.step op) task a4]
      apply hcost
      rw [hsplit]
      exact List.mem_append_right _ ht)

/-- C24: in every state of a vector core or a tensor core reached from construction by
submissions, clock calls and resets, every task started on the way having estimated cost
at least 1, `isBusy` holds exactly when the countdown is greater than 0, and when the core
is idle the countdown is exactly 0.  A clock call starts a task only on an idle core, so
at most one task is in flight. -/
theorem core_busy_iff_countdown (vid lanes tid asz : Int) (ops : List CoreOp)
    (hv : ∀ task, task ∈ (VectorCore.new vid lanes).executedTasks ops →
      1 ≤ (VectorCore.new vid lanes).estimateTaskCycles task)
    (ht : ∀ task, task ∈ (TensorCore.new tid asz).executedTasks ops →
      1 ≤ (TensorCore.new tid asz).estimateTaskCycles task) :
    ((((VectorCore.new vid lanes).run ops).isBusy = true ↔
        0 < ((VectorCore.new vid lanes).run ops).execution_cycles_remaining_) ∧
      (((VectorCore.new vid lanes).run ops).isIdle = true →
        ((VectorCore.new vid lanes).run ops).execution_cycles_remaining_ = 0) ∧
      (((VectorCore.new vid lanes).run ops).startsOnClock = true →
        ((VectorCore.new vid lanes).run ops).isBusy = false)) ∧
    ((((TensorCore.new tid asz).run ops).isBusy = true ↔
        0 < ((TensorCore.new tid asz).run ops).execution_cycles_remaining_) ∧
      (((TensorCore.new tid asz).run ops).isIdle = true →
        ((TensorCore.new tid asz).run ops).execution_cycles_remaining_ = 0) ∧
      (((TensorCore.new tid asz).run ops).startsOnClock = true →
        ((TensorCore.new tid asz).run ops).isBusy = false)) := by
  have hv0 : ((VectorCore.new vid lanes).idle_ = true →
        (VectorCore.new vid lanes).execution_cycles_remaining_ = 0) ∧
      ((VectorCore.new vid lanes).idle_ = false →
        0 < (VectorCore.new vid lanes).execution_cycles_remaining_) ∧
      (VectorCore.new vid lanes).execution_cycles_remaining_ < 2 ^ 31 := by
    refine ⟨fun _ => rfl, ?_, ?_⟩
    · intro h
      have hi : (VectorCore.new vid lanes).idle_ = true := rfl
      rw [hi] at h
      exact absurd h (by decide)
    · show (0 : Int) < 2 ^ 31
      decide
  have ht0 : ((TensorCore.new tid asz).idle_ = true →
        (TensorCore.new tid asz).execution_cycles_remaining_ = 0) ∧
      ((TensorCore.new tid asz).idle_ = false →
        0 < (TensorCore.new tid asz).execution_cycles_remaining_) ∧
      (TensorCore.new tid asz).execution_cycles_remaining_ < 2 ^ 31 := by
    refine ⟨fun _ => rfl, ?_, ?_⟩
    · intro h
      have hi : (TensorCore.new tid asz).idle_ = true := rfl
      rw [hi] at h
      exact absurd h (by decide)
    · show (0 : Int) < 2 ^ 31
      decide
  have hV := vector_run_countdown lanes ops (VectorCore.new vid lanes) rfl hv0 hv
  have hT := tensor_run_countdown asz ops (TensorCore.new tid asz) rfl ht0 ht
  constructor
  · generalize (VectorCore.new vid lanes).run ops = s at hV
    obtain ⟨h1, h2⟩ := hV
    unfold VectorCore.isBusy VectorCore.isIdle VectorCore.startsOnClock
    cases hi : s.idle_ with
    | true =>
      have h0 := h1 hi
      refine ⟨⟨fun h => absurd h (by decide), fun h => by omega⟩, fun _ => h0, fun _ => rfl⟩
    | false =>
      have h0 := h2 hi
      refine ⟨⟨fun _ => h0, fun _ => rfl⟩, fun h => absurd h (by decide),
        fun h => absurd h (by simp)⟩
  · generalize (TensorCore.new tid asz).run ops = s at hT
    obtain ⟨h1, h2⟩ := hT
    unfold TensorCore.isBusy TensorCore.isIdle TensorCore.startsOnClock
    cases hi : s.idle_ with
    | true =>
      have h0 := h1 hi
      refine ⟨⟨fun h => absurd h (by decide), fun h => by omega⟩, fun _ => h0, fun _ => rfl⟩
    | false =>
      have h0 := h2 hi
      refine ⟨⟨fun _ => h0, fun _ => rfl⟩, fun h => absurd h (by decide),
        fun h => absurd h (by simp)⟩

set_option maxRecDepth 20000 in
/-- Witness for C24: a VECTOR_ADD of length 256 on 8 lanes (cost 37) and, on the 8x8 tensor
core, the same task at its flat cost of 1000: two clock calls after the submission both
cores are busy with a positive countdown. -/
theorem core_busy_iff_countdown_witness :
    (0 < ((VectorCore.new 0 8).run
        [.submit (vectorAddTask 256), .clock, .clock]).execution_cycles_remaining_ ∧
      ((VectorCore.new 0 8).run [.submit (vectorAddTask 256), .clock, .clock]).isBusy = true) ∧
    (0 < ((TensorCore.new 0 8).run
        [.submit (vectorAddTask 256), .clock, .clock]).execution_cycles_remaining_ ∧
      ((TensorCore.new 0 8).run [.submit (vectorAddTask 256), .clock, .clock]).isBusy = true) :=
  ⟨⟨(core_busy_iff_countdown 0 8 0 8 [.submit (vectorAddTask 256), .clock, .clock]
        (by decide) (by decide)).1.1.1 (by decide), by decide⟩,
   ⟨(core_busy_iff_countdown 0 8 0 8 [.submit (vectorAddTask 256), .clock, .clock]
        (by decide) (by decide)).2.1.1 (by decide), by decide⟩⟩

/-! ## Tasks executed back to back -/

/-- A vector core that is idle with a task at the head of its queue, during the first
`j + 1` clock calls when the task's estimated cost is at least `j + 1`, field by field. -/
theorem vector_task_run (s : VectorCore) (task : TaskDescriptor) (rest : List TaskDescriptor)
    (hi : s.idle_ = true) (hq : s.task_queue_ = task :: rest) (j : Nat)
    (hj : ((j + 1 : Nat) : Int) ≤ s.estimateTaskCycles task) :
    (VectorCore.clock^[j + 1] s).num_lanes_ = s.num_lanes_ ∧
    (VectorCore.clock^[j + 1] s).task_queue_ = rest ∧
    (VectorCore.clock^[j + 1] s).task_count_ = s.task_count_ + 1 ∧
    (VectorCore.clock^[j + 1] s).cycle_count_ = s.cycle_count_ + (j + 1) ∧
    (VectorCore.clock^[j + 1] s).busy_cycles_ = s.busy_cycles_ + (j + 1) ∧
    (VectorCore.clock^[j + 1] s).idle_
      = decide (s.estimateTaskCycles task ≤ ((j + 1 : Nat) : Int)) ∧
    (VectorCore.clock^[j + 1] s).execution_cycles_remaining_
      = s.estimateTaskCycles task - ((j + 1 : Nat) : Int) ∧
    (VectorCore.clock^[j + 1] s).current_task_ = task := by
  have hr := vector_estimate_range s task
  induction j with
  | zero =>
    rw [Function.iterate_one, vector_clock_idle_start s task rest hi hq (by omega)]
    exact ⟨rfl, rfl, rfl, rfl, rfl, rfl, rfl, rfl⟩
  | succ n ih =>
    have ih2 := ih (by omega)
    rw [Function.iterate_succ_apply']
    generalize VectorCore.clock^[n + 1] s = s1 at ih2 ⊢
    generalize s.estimateTaskCycles task = E at hj hr ih2 ⊢
    obtain ⟨hl, hq1, ht, hcy, hb, hi1, hrem, hcur⟩ := ih2
    have hbusy : s1.idle_ = false := by
      rw [hi1]
      exact decide_eq_false (by omega)
    rw [vector_clock_busy s1 hbusy (by omega) (by omega)]
    refine ⟨hl, hq1, ht, ?_, ?_, ?_, ?_, hcur⟩
    · show s1.cycle_count_ + 1 = s.cycle_count_ + (n + 1 + 1)
      omega
    · show s1.busy_cycles_ + 1 = s.busy_cycles_ + (n + 1 + 1)
      omega
    · show decide (s1.execution_cycles_remaining_ ≤ 1) = decide (E ≤ ((n + 1 + 1 : Nat) : Int))
      apply decide_eq_decide.mpr
      omega
    · show s1.execution_cycles_remaining_ - 1 = E - ((n + 1 + 1 : Nat) : Int)
      omega

theorem vector_costs_cons (c : VectorCore) (task : TaskDescriptor)
    (tasks : List TaskDescriptor) :
    c.costs (task :: tasks) = (c.estimateTaskCycles task).toNat :: c.costs tasks := rfl

theorem taskBoundaries_cons (c : Nat) (cs : List Nat) :
    taskBoundaries (c :: cs) = 0 :: (taskBoundaries cs).map (fun b => c + b) := rfl

/-- A vector core that is idle with the tasks `pre ++ post` in its queue, all of `pre` of
cost at least 1, after as many clock calls as the costs of `pre` add up to. -/
theorem vector_tasks_run (c0 : VectorCore) (pre : List TaskDescriptor) :
    ∀ (s : VectorCore) (post : List TaskDescriptor), s.num_lanes_ = c0.num_lanes_ →
      s.idle_ = true → s.task_queue_ = pre ++ post →
      (∀ task ∈ pre, 1 ≤ c0.estimateTaskCycles task) →
      (VectorCore.clock^[(c0.costs pre).sum] s).num_lanes_ = c0.num_lanes_ ∧
      (VectorCore.clock^[(c0.costs pre).sum] s).idle_ = true ∧
      (VectorCore.clock^[(c0.costs pre).sum] s).task_queue_ = post ∧
      (VectorCore.clock^[(c0.costs pre).sum] s).task_count_ = s.task_count_ + pre.length ∧
      (VectorCore.clock^[(c0.costs pre).sum] s).busy_cycles_
        = s.busy_cycles_ + (c0.costs pre).sum ∧
      (VectorCore.clock^[(c0.costs pre).sum] s).cycle_count_
        = s.cycle_count_ + (c0.costs pre).sum := by
  induction pre with
  | nil =>
    intro s post hl hi hq _
    exact ⟨hl, hi, hq, rfl, rfl, rfl⟩
  | cons t pre1 ih =>
    intro s post hl hi hq hc
    have hE : s.estimateTaskCycles t = c0.estimateTaskCycles t :=
      vector_estimate_eq_of_lanes c0 s t hl
    have h1 : 1 ≤ c0.estimateTaskCycles t := hc t (List.mem_cons_self _ _)
    obtain ⟨j, hj⟩ : ∃ j : Nat, (c0.estimateTaskCycles t).toNat = j + 1 :=
      ⟨(c0.estimateTaskCycles t).toNat - 1, by omega⟩
    have hrun := vector_task_run s t (pre1 ++ post) hi hq j (by rw [hE]; omega)
    rw [vector_costs_cons, List.sum_cons, hj, Nat.add_comm, Function.iterate_add_apply]
    generalize VectorCore.clock^[j + 1] s = s1 at hrun ⊢
    obtain ⟨hl1, hq1, ht1, hcy1, hb1, hi1, _, _⟩ := hrun
    have hidle : s1.idle_ = true := by
      rw [hi1]
      exact decide_eq_true (by rw [hE]; omega)
    obtain ⟨r1, r2, r3, r4, r5, r6⟩ := ih s1 post (hl1.trans hl) hidle hq1
      (fun task hm => hc task (List.mem_cons_of_mem _ hm))
    refine ⟨r1, r2, r3, ?_, ?_, ?_⟩
    · rw [r4, ht1, List.length_cons]
      omega
    · rw [r5, hb1]
      omega
    · rw [r6, hcy1]
      omega

/-- A vector core that is idle with tasks of cost at least 1 in its queue: every one of the
first `c₁ + ... + c_k` clock calls is a busy tick, and before the last of them the core is
idle exactly at the task boundaries. -/
theorem vector_tasks_busy (c0 : VectorCore) (tasks : List TaskDescriptor) :
    ∀ (s : VectorCore), s.num_lanes_ = c0.num_lanes_ → s.idle_ = true →
      s.task_queue_ = tasks → (∀ task ∈ tasks, 1 ≤ c0.estimateTaskCycles task) →
      ∀ n : Nat, n ≤ (c0.costs tasks).sum →
        (VectorCore.clock^[n] s).busy_cycles_ = s.busy_cycles_ + n ∧
        (n < (c0.costs tasks).sum →
          ((VectorCore.clock^[n] s).idle_ = true ↔ n ∈ taskBoundaries (c0.costs tasks))) := by
  induction tasks with
  | nil =>
    intro s _ _ _ _ n hn
    have h0 : n = 0 := by
      have : (c0.costs []).sum = 0 := rfl
      omega
    subst h0
    refine ⟨rfl, ?_⟩
    intro h
    exact absurd h (Nat.lt_irrefl 0)
  | cons t rest ih =>
    intro s hl hi hq hc n hn
    have hE : s.estimateTaskCycles t = c0.estimateTaskCycles t :=
      vector_estimate_eq_of_lanes c0 s t hl
    have h1 : 1 ≤ c0.estimateTaskCycles t := hc t (List.mem_cons_self _ _)
    obtain ⟨j, hj⟩ : ∃ j : Nat, (c0.estimateTaskCycles t).toNat = j + 1 :=
      ⟨(c0.estimateTaskCycles t).toNat - 1, by omega⟩
    rw [vector_costs_cons, List.sum_cons, hj] at hn ⊢
    rw [taskBoundaries_cons]
    rcases Nat.eq_zero_or_pos n with h0 | hpos
    · subst h0
      refine ⟨rfl, ?_⟩
      intro _
      constructor
      · intro _
        exact List.mem_cons_self _ _
      · intro _
        exact hi
    · by_cases hlt : n < j + 1
      · obtain ⟨m, hm⟩ : ∃ m : Nat, n = m + 1 := ⟨n - 1, by omega⟩
        subst hm
        have hrun := vector_task_run s t rest hi hq m (by rw [hE]; omega)
        generalize VectorCore.clock^[m + 1] s = s1 at hrun ⊢
        obtain ⟨_, _, _, _, hb1, hi1, _, _⟩ := hrun
        refine ⟨hb1, ?_⟩
        intro _
        constructor
        · intro hidle
          rw [hi1] at hidle
          have := of_decide_eq_true hidle
          omega
        · intro hmem
          rcases List.mem_cons.mp hmem with h | h
          · omega
          · obtain ⟨b, _, hb⟩ := List.mem_map.mp h
            omega
      · have hrun := vector_task_run s t rest hi hq j (by rw [hE]; omega)
        obtain ⟨m, hm⟩ : ∃ m : Nat, n = m + (j + 1) := ⟨n - (j + 1), by omega⟩
        subst hm
        rw [Function.iterate_add_apply]
        generalize VectorCore.clock^[j + 1] s = s1 at hrun ⊢
        obtain ⟨hl1, hq1, _, _, hb1, hi1, _, _⟩ := hrun
        have hidle : s1.idle_ = true := by
          rw [hi1]
          exact decide_eq_true (by rw [hE]; omega)
        obtain ⟨r1, r2⟩ := ih s1 (hl1.trans hl) hidle hq1
          (fun task hm => hc task (List.mem_cons_of_mem _ hm)) m (by omega)
        refine ⟨?_, ?_⟩
        · rw [r1, hb1]
          omega
        · intro hlt2
          rw [r2 (by omega)]
          constructor
          · intro hmem
            exact List.mem_cons_of_mem _ (List.mem_map.mpr ⟨m, hmem, by omega⟩)
          · intro hmem
            rcases List.mem_cons.mp hmem with h | h
            · omega
            · obtain ⟨b, hb, hbe⟩ := List.mem_map.mp h
              have : b = m := by omega
              rw [← this]
              exact hb

theorem vector_submitAll_room (tasks : List TaskDescriptor) :
    ∀ c : VectorCore, c.task_queue_.length + tasks.length ≤ 16 →
      c.submitAll tasks
        = ({ c with task_queue_ := c.task_queue_ ++ tasks },
            List.replicate tasks.length true) := by
  induction tasks with
  | nil =>
    intro c _
    simp [VectorCore.submitAll]
  | cons x xs ih =>
    intro c h
    have hroom : c.task_queue_.length < 16 := by
      simp only [List.length_cons] at h
      omega
    have hnext := ih { c with task_queue_ := c.task_queue_ ++ [x] } (by
      simp only [List.length_cons] at h
      simp only [List.length_append, List.length_singleton]
      omega)
    rw [vector_submitAll_cons, vector_submitTask_accept c x hroom]
    simp only []
    rw [hnext]
    simp [List.replicate_succ]

/-- A tensor core that is idle with a task at the head of its queue, during the first
`j + 1` clock calls when the task's estimated cost is at least `j + 1`, field by field. -/
theorem tensor_task_run (s : TensorCore) (task : TaskDescriptor) (rest : List TaskDescriptor)
    (hi : s.idle_ = true) (hq : s.task_queue_ = task :: rest) (j : Nat)
    (hj : ((j + 1 : Nat) : Int) ≤ s.estimateTaskCycles task) :
    (TensorCore.clock^[j + 1] s).array_size_ = s.array_size_ ∧
    (TensorCore.clock^[j + 1] s).task_queue_ = rest ∧
    (TensorCore.clock^[j + 1] s).task_count_ = s.task_count_ + 1 ∧
    (TensorCore.clock^[j + 1] s).cycle_count_ = s.cycle_count_ + (j + 1) ∧
    (TensorCore.clock^[j + 1] s).busy_cycles_ = s.busy_cycles_ + (j + 1) ∧
    (TensorCore.clock^[j + 1] s).idle_
      = decide (s.estimateTaskCycles task ≤ ((j + 1 : Nat) : Int)) ∧
    (TensorCore.clock^[j + 1] s).execution_cycles_remaining_
      = s.estimateTaskCycles task - ((j + 1 : Nat) : Int) ∧
    (TensorCore.clock^[j + 1] s).current_task_ = task := by
  have hr := tensor_estimate_range s task
  induction j with
  | zero =>
    rw [Function.iterate_one, tensor_clock_idle_start s task rest hi hq (by omega)]
    exact ⟨rfl, rfl, rfl, rfl, rfl, rfl, rfl, rfl⟩
  | succ n ih =>
    have ih2 := ih (by omega)
    rw [Function.iterate_succ_apply']
    generalize TensorCore.clock^[n + 1] s = s1 at ih2 ⊢
    generalize s.estimateTaskCycles task = E at hj hr ih2 ⊢
    obtain ⟨hl, hq1, ht, hcy, hb, hi1, hrem, hcur⟩ := ih2
    have hbusy : s1.idle_ = false := by
      rw [hi1]
      exact decide_eq_false (by omega)
    rw [tensor_clock_busy s1 hbusy (by omega) (by omega)]
    refine ⟨hl, hq1, ht, ?_, ?_, ?_, ?_, hcur⟩
    · show s1.cycle_count_ + 1 = s.cycle_count_ + (n + 1 + 1)
      omega
    · show s1.busy_cycles_ + 1 = s.busy_cycles_ + (n + 1 + 1)
      omega
    · show decide (s1.execution_cycles_remaining_ ≤ 1) = decide (E ≤ ((n + 1 + 1 : Nat) : Int))
      apply decide_eq_decide.mpr
      omega
    · show s1.execution_cycles_remaining_ - 1 = E - ((n + 1 + 1 : Nat) : Int)
      omega

theorem tensor_costs_cons (c : TensorCore) (task : TaskDescriptor)
    (tasks : List TaskDescriptor) :
    c.costs (task :: tasks) = (c.estimateTaskCycles task).toNat :: c.costs tasks := rfl

/-- A tensor core that is idle with the tasks `pre ++ post` in its queue, all of `pre` of
cost at least 1, after as many clock calls as the costs of `pre` add up to. -/
theorem tensor_tasks_run (c0 : TensorCore) (pre : List TaskDescriptor) :
    ∀ (s : TensorCore) (post : List TaskDescriptor), s.array_size_ = c0.array_size_ →
      s.idle_ = true → s.task_queue_ = pre ++ post →
      (∀ task ∈ pre, 1 ≤ c0.estimateTaskCycles task) →
      (TensorCore.clock^[(c0.costs pre).sum] s).array_size_ = c0.array_size_ ∧
      (TensorCore.clock^[(c0.costs pre).sum] s).idle_ = true ∧
      (TensorCore.clock^[(c0.costs pre).sum] s).task_queue_ = post ∧
      (TensorCore.clock^[(c0.costs pre).sum] s).task_count_ = s.task_count_ + pre.length ∧
      (TensorCore.clock^[(c0.costs pre).sum] s).busy_cycles_
        = s.busy_cycles_ + (c0.costs pre).sum ∧
      (TensorCore.clock^[(c0.costs pre).sum] s).cycle_count_
        = s.cycle_count_ + (c0.costs pre).sum := by
  induction pre with
  | nil =>
    intro s post hl hi hq _
    exact ⟨hl, hi, hq, rfl, rfl, rfl⟩
  | cons t pre1 ih =>
    intro s post hl hi hq hc
    have hE : s.estimateTaskCycles t = c0.estimateTaskCycles t :=
      tensor_estimate_eq_of_array c0 s t hl
    have h1 : 1 ≤ c0.estimateTaskCycles t := hc t (List.mem_cons_self _ _)
    obtain ⟨j, hj⟩ : ∃ j : Nat, (c0.estimateTaskCycles t).toNat = j + 1 :=
      ⟨(c0.estimateTaskCycles t).toNat - 1, by omega⟩
    have hrun := tensor_task_run s t (pre1 ++ post) hi hq j (by rw [hE]; omega)
    rw [tensor_costs_cons, List.sum_cons, hj, Nat.add_comm, Function.iterate_add_apply]
    generalize TensorCore.clock^[j + 1] s = s1 at hrun ⊢
    obtain ⟨hl1, hq1, ht1, hcy1, hb1, hi1, _, _⟩ := hrun
    have hidle : s1.idle_ = true := by
      rw [hi1]
      exact decide_eq_true (by rw [hE]; omega)
    obtain ⟨r1, r2, r3, r4, r5, r6⟩ := ih s1 post (hl1.trans hl) hidle hq1
      (fun task hm => hc task (List.mem_cons_of_mem _ hm))
    refine ⟨r1, r2, r3, ?_, ?_, ?_⟩
    · rw [r4, ht1, List.length_cons]
      omega
    · rw [r5, hb1]
      omega
    · rw [r6, hcy1]
      omega

/-- A tensor core that is idle with tasks of cost at least 1 in its queue: every one of the
first `c₁ + ... + c_k` clock calls is a busy tick, and before the last of them the core is
idle exactly at the task boundaries. -/
theorem tensor_tasks_busy (c0 : TensorCore) (tasks : List TaskDescriptor) :
    ∀ (s : TensorCore), s.array_size_ = c0.array_size_ → s.idle_ = true →
      s.task_queue_ = tasks → (∀ task ∈ tasks, 1 ≤ c0.estimateTaskCycles task) →
      ∀ n : Nat, n ≤ (c0.costs tasks).sum →
        (TensorCore.clock^[n] s).busy_cycles_ = s.busy_cycles_ + n ∧
        (n < (c0.costs tasks).sum →
          ((TensorCore.clock^[n] s).idle_ = true ↔ n ∈ taskBoundaries (c0.costs tasks))) := by
  induction tasks with
  | nil =>
    intro s _ _ _ _ n hn
    have h0 : n = 0 := by
      have : (c0.costs []).sum = 0 := rfl
      omega
    subst h0
    refine ⟨rfl, ?_⟩
    intro h
    exact absurd h (Nat.lt_irrefl 0)
  | cons t rest ih =>
    intro s hl hi hq hc n hn
    have hE : s.estimateTaskCycles t = c0.estimateTaskCycles t :=
      tensor_estimate_eq_of_array c0 s t hl
    have h1 : 1 ≤ c0.estimateTaskCycles t := hc t (List.mem_cons_self _ _)
    obtain ⟨j, hj⟩ : ∃ j : Nat, (c0.estimateTaskCycles t).toNat = j + 1 :=
      ⟨(c0.estimateTaskCycles t).toNat - 1, by omega⟩
    rw [tensor_costs_cons, List.sum_cons, hj] at hn ⊢
    rw [taskBoundaries_cons]
    rcases Nat.eq_zero_or_pos n with h0 | hpos
    · subst h0
      refine ⟨rfl, ?_⟩
      intro _
      constructor
      · intro _
        exact List.mem_cons_self _ _
      · intro _
        exact hi
    · by_cases hlt : n < j + 1
      · obtain ⟨m, hm⟩ : ∃ m : Nat, n = m + 1 := ⟨n - 1, by omega⟩
        subst hm
        have hrun := tensor_task_run s t rest hi hq m (by rw [hE]; omega)
        generalize TensorCore.clock^[m + 1] s = s1 at hrun ⊢
        obtain ⟨_, _, _, _, hb1, hi1, _, _⟩ := hrun
        refine ⟨hb1, ?_⟩
        intro _
        constructor
        · intro hidle
          rw [hi1] at hidle
          have := of_decide_eq_true hidle
          omega
        · intro hmem
          rcases List.mem_cons.mp hmem with h | h
          · omega
          · obtain ⟨b, _, hb⟩ := List.mem_map.mp h
            omega
      · have hrun := tensor_task_run s t rest hi hq j (by rw [hE]; omega)
        obtain ⟨m, hm⟩ : ∃ m : Nat, n = m + (j + 1) := ⟨n - (j + 1), by omega⟩
        subst hm
        rw [Function.iterate_add_apply]
        generalize TensorCore.clock^[j + 1] s = s1 at hrun ⊢
        obtain ⟨hl1, hq1, _, _, hb1, hi1, _, _⟩ := hrun
        have hidle : s1.idle_ = true := by
          rw [hi1]
          exact decide_eq_true (by rw [hE]; omega)
        obtain ⟨r1, r2⟩ := ih s1 (hl1.trans hl) hidle hq1
          (fun task hm => hc task (List.mem_cons_of_mem _ hm)) m (by omega)
        refine ⟨?_, ?_⟩
        · rw [r1, hb1]
          omega
        · intro hlt2
          rw [r2 (by omega)]
          constructor
          · intro hmem
            exact List.mem_cons_of_mem _ (List.mem_map.mpr ⟨m, hmem, by omega⟩)
          · intro hmem
            rcases List.mem_cons.mp hmem with h | h
            · omega
            · obtain ⟨b, hb, hbe⟩ := List.mem_map.mp h
              have : b = m := by omega
              rw [← this]
              exact hb

theorem tensor_submitAll_room (tasks : List TaskDescriptor) :
    ∀ c : TensorCore, c.task_queue_.length + tasks.length ≤ 16 →
      c.submitAll tasks
        = ({ c with task_queue_ := c.task_queue_ ++ tasks },
            List.replicate tasks.length true) := by
  induction tasks with
  | nil =>
    intro c _
    simp [TensorCore.submitAll]
  | cons x xs ih =>
    intro c h
    have hroom : c.task_queue_.length < 16 := by
      simp only [List.length_cons] at h
      omega
    have hnext := ih { c with task_queue_ := c.task_queue_ ++ [x] } (by
      simp only [List.length_cons] at h
      simp only [List.length_append, List.length_singleton]
      omega)
    rw [tensor_submitAll_cons, tensor_submitTask_accept c x hroom]
    simp only []
    rw [hnext]
    simp [List.replicate_succ]

theorem vector_costs_take (c : VectorCore) (tasks : List TaskDescriptor) (i : Nat) :
    c.costs (tasks.take i) = (c.costs tasks).take i := by
  unfold VectorCore.costs
  rw [List.map_take]

theorem tensor_costs_take (c : TensorCore) (tasks : List TaskDescriptor) (i : Nat) :
    c.costs (tasks.take i) = (c.costs tasks).take i := by
  unfold TensorCore.costs
  rw [List.map_take]

/-- C29 (as amended): `k ≤ 16` tasks are submitted to a freshly constructed vector core
(or tensor core) before its first clock call, and every task's estimated cost `c_i` on that
core is at least 1.  All submissions are accepted, and the tasks execute back to back in
submission order: after `c_1 + ... + c_i` clock calls (for every `i ≤ k`) the core is idle,
its queue holds the tasks after the first `i`, and its task count is `i`; so after exactly
`c_1 + ... + c_k` calls it is idle with an empty queue, task count `k` and busy-cycle count
`c_1 + ... + c_k`.  Every one of these clock calls is a busy tick (after `n ≤ c_1 + ... +
c_k` calls the busy-cycle count is `n`), and after `n < c_1 + ... + c_k` calls the core is
busy unless `n` is one of the task boundaries `0, c_1, c_1 + c_2, ...`, at which it is idle
between two tasks. -/
theorem core_tasks_back_to_back (vid lanes tid asz : Int) (tasks : List TaskDescriptor)
    (hk : tasks.length ≤ 16) :
    ((∀ task ∈ tasks, 1 ≤ (VectorCore.new vid lanes).estimateTaskCycles task) →
      ((VectorCore.new vid lanes).submitAll tasks).2 = List.replicate tasks.length true ∧
      (∀ i : Nat, i ≤ tasks.length →
        (VectorCore.clock^[(((VectorCore.new vid lanes).costs tasks).take i).sum]
            ((VectorCore.new vid lanes).submitAll tasks).1).isIdle = true ∧
        (VectorCore.clock^[(((VectorCore.new vid lanes).costs tasks).take i).sum]
            ((VectorCore.new vid lanes).submitAll tasks).1).task_queue_ = tasks.drop i ∧
        (VectorCore.clock^[(((VectorCore.new vid lanes).costs tasks).take i).sum]
            ((VectorCore.new vid lanes).submitAll tasks).1).getTaskCount = i) ∧
      (VectorCore.clock^[((VectorCore.new vid lanes).costs tasks).sum]
          ((VectorCore.new vid lanes).submitAll tasks).1).isIdle = true ∧
      (VectorCore.clock^[((VectorCore.new vid lanes).costs tasks).sum]
          ((VectorCore.new vid lanes).submitAll tasks).1).task_queue_ = [] ∧
      (VectorCore.clock^[((VectorCore.new vid lanes).costs tasks).sum]
          ((VectorCore.new vid lanes).submitAll tasks).1).getTaskCount = tasks.length ∧
      (VectorCore.clock^[((VectorCore.new vid lanes).costs tasks).sum]
          ((VectorCore.new vid lanes).submitAll tasks).1).getBusyCycles
        = ((VectorCore.new vid lanes).costs tasks).sum ∧
      (∀ n : Nat, n ≤ ((VectorCore.new vid lanes).costs tasks).sum →
        (VectorCore.clock^[n] ((VectorCore.new vid lanes).submitAll tasks).1).getBusyCycles
          = n) ∧
      (∀ n : Nat, n < ((VectorCore.new vid lanes).costs tasks).sum →
        ((VectorCore.clock^[n] ((VectorCore.new vid lanes).submitAll tasks).1).isBusy = true ↔
          n ∉ taskBoundaries ((VectorCore.new vid lanes).costs tasks)))) ∧
    ((∀ task ∈ tasks, 1 ≤ (TensorCore.new tid asz).estimateTaskCycles task) →
      ((TensorCore.new tid asz).submitAll tasks).2 = List.replicate tasks.length true ∧
      (∀ i : Nat, i ≤ tasks.length →
        (TensorCore.clock^[(((TensorCore.new tid asz).costs tasks).take i).sum]
            ((TensorCore.new tid asz).submitAll tasks).1).isIdle = true ∧
        (TensorCore.clock^[(((TensorCore.new tid asz).costs tasks).take i).sum]
            ((TensorCore.new tid asz).submitAll tasks).1).task_queue_ = tasks.drop i ∧
        (TensorCore.clock^[(((TensorCore.new tid asz).costs tasks).take i).sum]
            ((TensorCore.new tid asz).submitAll tasks).1).getTaskCount = i) ∧
      (TensorCore.clock^[((TensorCore.new tid asz).costs tasks).sum]
          ((TensorCore.new tid asz).submitAll tasks).1).isIdle = true ∧
      (TensorCore.clock^[((TensorCore.new tid asz).costs tasks).sum]
          ((TensorCore.new tid asz).submitAll tasks).1).task_queue_ = [] ∧
      (TensorCore.clock^[((TensorCore.new tid asz).costs tasks).sum]
          ((TensorCore.new tid asz).submitAll tasks).1).getTaskCount = tasks.length ∧
      (TensorCore.clock^[((TensorCore.new tid asz).costs tasks).sum]
          ((TensorCore.new tid asz).submitAll tasks).1).getBusyCycles
        = ((TensorCore.new tid asz).costs tasks).sum ∧
      (∀ n : Nat, n ≤ ((TensorCore.new tid asz).costs tasks).sum →
        (TensorCore.clock^[n] ((TensorCore.new tid asz).submitAll tasks).1).getBusyCycles
          = n) ∧
      (∀ n : Nat, n < ((TensorCore.new tid asz).costs tasks).sum →
        ((TensorCore.clock^[n] ((TensorCore.new tid asz).submitAll tasks).1).isBusy = true ↔
          n ∉ taskBoundaries ((TensorCore.new tid asz).costs tasks)))) := by
  constructor
  · intro hc
    have hsub := vector_submitAll_room tasks (VectorCore.new vid lanes)
      (by show 0 + tasks.length ≤ 16; omega)
    have hs0 : ((VectorCore.new vid lanes).submitAll tasks).1
        = { VectorCore.new vid lanes with task_queue_ := tasks } := by
      rw [hsub]
      rfl
    have hfl : ((VectorCore.new vid lanes).submitAll tasks).2
        = List.replicate tasks.length true := by
      rw [hsub]
    rw [hs0]
    obtain ⟨_, f2, f3, f4, f5, _⟩ := vector_tasks_run (VectorCore.new vid lanes) tasks
      { VectorCore.new vid lanes with task_queue_ := tasks } [] rfl rfl
      (List.append_nil _).symm hc
    refine ⟨hfl, ?_, f2, f3, ?_, ?_, ?_, ?_⟩
    · intro i hi
      obtain ⟨_, g2, g3, g4, _, _⟩ := vector_tasks_run (VectorCore.new vid lanes)
        (tasks.take i) { VectorCore.new vid lanes with task_queue_ := tasks } (tasks.drop i)
        rfl rfl (List.take_append_drop i tasks).symm
        (fun task hm => hc task (List.mem_of_mem_take hm))
      rw [vector_costs_take] at g2 g3 g4
      refine ⟨g2, g3, ?_⟩
      show (VectorCore.clock^[_] _).task_count_ = i
      rw [g4, List.length_take]
      show 0 + min i tasks.length = i
      omega
    · show (VectorCore.clock^[_] _).task_count_ = tasks.length
      rw [f4]
      show 0 + tasks.length = tasks.length
      omega
    · show (VectorCore.clock^[_] _).busy_cycles_ = _
      rw [f5]
      show 0 + _ = _
      omega
    · intro n hn
      have h := (vector_tasks_busy (VectorCore.new vid lanes) tasks
        { VectorCore.new vid lanes with task_queue_ := tasks } rfl rfl rfl hc n hn).1
      show (VectorCore.clock^[n] _).busy_cycles_ = n
      rw [h]
      show 0 + n = n
      omega
    · intro n hn
      have h := (vector_tasks_busy (VectorCore.new vid lanes) tasks
        { VectorCore.new vid lanes with task_queue_ := tasks } rfl rfl rfl hc n
        (Nat.le_of_lt hn)).2 hn
      rw [← h]
      show (!(VectorCore.clock^[n] _).idle_) = true ↔ ¬ ((VectorCore.clock^[n] _).idle_ = true)
      cases (VectorCore.clock^[n]
        { VectorCore.new vid lanes with task_queue_ := tasks }).idle_ <;> simp
  · intro hc
    have hsub := tensor_submitAll_room tasks (TensorCore.new tid asz)
      (by show 0 + tasks.length ≤ 16; omega)
    have hs0 : ((TensorCore.new tid asz).submitAll tasks).1
        = { TensorCore.new tid asz with task_queue_ := tasks } := by
      rw [hsub]
      rfl
    have hfl : ((TensorCore.new tid asz).submitAll tasks).2
        = List.replicate tasks.length true := by
      rw [hsub]
    rw [hs0]
    obtain ⟨_, f2, f3, f4, f5, _⟩ := tensor_tasks_run (TensorCore.new tid asz) tasks
      { TensorCore.new tid asz with task_queue_ := tasks } [] rfl rfl
      (List.append_nil _).symm hc
    refine ⟨hfl, ?_, f2, f3, ?_, ?_, ?_, ?_⟩
    · intro i hi
      obtain ⟨_, g2, g3, g4, _, _⟩ := tensor_tasks_run (TensorCore.new tid asz)
        (tasks.take i) { TensorCore.new tid asz with task_queue_ := tasks } (tasks.drop i)
        rfl rfl (List.take_append_drop i tasks).symm
        (fun task hm => hc task (List.mem_of_mem_take hm))
      rw [tensor_costs_take] at g2 g3 g4
      refine ⟨g2, g3, ?_⟩
      show (TensorCore.clock^[_] _).task_count_ = i
      rw [g4, List.length_take]
      show 0 + min i tasks.length = i
      omega
    · show (TensorCore.clock^[_] _).task_count_ = tasks.length
      rw [f4]
      show 0 + tasks.length = tasks.length
      omega
    · show (TensorCore.clock^[_] _).busy_cycles_ = _
      rw [f5]
      show 0 + _ = _
      omega
    · intro n hn
      have h := (tensor_tasks_busy (TensorCore.new tid asz) tasks
        { TensorCore.new tid asz with task_queue_ := tasks } rfl rfl rfl hc n hn).1
      show (TensorCore.clock^[n] _).busy_cycles_ = n
      rw [h]
      show 0 + n = n
      omega
    · intro n hn
      have h := (tensor_tasks_busy (TensorCore.new tid asz) tasks
        { TensorCore.new tid asz with task_queue_ := tasks } rfl rfl rfl hc n
        (Nat.le_of_lt hn)).2 hn
      rw [← h]
      show (!(TensorCore.clock^[n] _).idle_) = true ↔ ¬ ((TensorCore.clock^[n] _).idle_ = true)
      cases (TensorCore.clock^[n]
        { TensorCore.new tid asz with task_queue_ := tasks }).idle_ <;> simp

/-- Witness for C29: two VECTOR_ADD tasks of length 256 (cost 37 each on 8 lanes, a flat
1000 each on the 8x8 tensor core).  The vector core has finished both after 74 clock calls
and the tensor core after 2000; after 36 calls the vector core is busy. -/
theorem core_tasks_back_to_back_witness :
    ((VectorCore.new 0 8).costs [vectorAddTask 256, vectorAddTask 256]).sum = 74 ∧
    (VectorCore.clock^[((VectorCore.new 0 8).costs [vectorAddTask 256, vectorAddTask 256]).sum]
      ((VectorCore.new 0 8).submitAll [vectorAddTask 256, vectorAddTask 256]).1).getTaskCount
        = 2 ∧
    (VectorCore.clock^[((VectorCore.new 0 8).costs [vectorAddTask 256, vectorAddTask 256]).sum]
      ((VectorCore.new 0 8).submitAll [vectorAddTask 256, vectorAddTask 256]).1).getBusyCycles
        = 74 ∧
    (VectorCore.clock^[36]
      ((VectorCore.new 0 8).submitAll [vectorAddTask 256, vectorAddTask 256]).1).isBusy
        = true ∧
    ((TensorCore.new 0 8).costs [vectorAddTask 256, vectorAddTask 256]).sum = 2000 ∧
    (TensorCore.clock^[((TensorCore.new 0 8).costs [vectorAddTask 256, vectorAddTask 256]).sum]
      ((TensorCore.new 0 8).submitAll [vectorAddTask 256, vectorAddTask 256]).1).isIdle
        = true ∧
    (TensorCore.clock^[((TensorCore.new 0 8).costs [vectorAddTask 256, vectorAddTask 256]).sum]
      ((TensorCore.new 0 8).submitAll [vectorAddTask 256, vectorAddTask 256]).1).getBusyCycles
        = 2000 :=
  ⟨by decide,
   ((core_tasks_back_to_back 0 8 0 8 [vectorAddTask 256, vectorAddTask 256] (by decide)).1
      (by decide)).2.2.2.2.1,
   (((core_tasks_back_to_back 0 8 0 8 [vectorAddTask 256, vectorAddTask 256] (by decide)).1
      (by decide)).2.2.2.2.2.1).trans (by decide),
   (((core_tasks_back_to_back 0 8 0 8 [vectorAddTask 256, vectorAddTask 256] (by decide)).1
      (by decide)).2.2.2.2.2.2.2 36 (by decide)).2 (by decide),
   by decide,
   ((core_tasks_back_to_back 0 8 0 8 [vectorAddTask 256, vectorAddTask 256] (by decide)).2
      (by decide)).2.2.1,
   (((core_tasks_back_to_back 0 8 0 8 [vectorAddTask 256, vectorAddTask 256] (by decide)).2
      (by decide)).2.2.2.2.2.1).trans (by decide)⟩

set_option maxRecDepth 20000 in
/-- Counterexample to C29 as stated: two VECTOR_ADD tasks of length 256 are submitted to a
fresh 8-lane vector core, cost 37 each, 74 in all.  After 37 clock calls, fewer than 74, the
core is not busy: the first task has completed, the second is still queued and is started
by the next call.  Nor is the core busy after 0 calls. -/
theorem core_idle_between_tasks :
    (VectorCore.new 0 8).estimateTaskCycles (vectorAddTask 256) = 37 ∧
    ((VectorCore.new 0 8).submitAll [vectorAddTask 256, vectorAddTask 256]).2 = [true, true] ∧
    (VectorCore.clock^[37]
      ((VectorCore.new 0 8).submitAll [vectorAddTask 256, vectorAddTask 256]).1).isBusy
        = false ∧
    (VectorCore.clock^[37]
      ((VectorCore.new 0 8).submitAll [vectorAddTask 256, vectorAddTask 256]).1).task_queue_
        = [vectorAddTask 256] ∧
    (VectorCore.clock^[0]
      ((VectorCore.new 0 8).submitAll [vectorAddTask 256, vectorAddTask 256]).1).isBusy
        = false := by
  decide

/-! ## Busy cycles seen by the scheduler and by the cores -/

theorem schedulerClock_busy_samples (sys : System) :
    sys.schedulerClock.sched.stats_.vector_core_cycles
      = sys.sched.stats_.vector_core_cycles
        + (if sys.sched.vector_core_ && sys.vcore.isBusy then 1 else 0) ∧
    sys.schedulerClock.sched.stats_.tensor_core_cycles
      = sys.sched.stats_.tensor_core_cycles
        + (if sys.sched.tensor_core_ && sys.tcore.isBusy then 1 else 0) := by
  unfold System.schedulerClock
  simp only []
  split
  · split_ifs <;> simp
  · split_ifs <;> simp

theorem schedulerClock_core_counters (sys : System) :
    (sys.schedulerClock.vcore.idle_ = sys.vcore.idle_ ∧
      sys.schedulerClock.vcore.busy_cycles_ = sys.vcore.busy_cycles_ ∧
      sys.schedulerClock.vcore.task_count_ = sys.vcore.task_count_ ∧
      sys.schedulerClock.vcore.num_lanes_ = sys.vcore.num_lanes_) ∧
    (sys.schedulerClock.tcore.idle_ = sys.tcore.idle_ ∧
      sys.schedulerClock.tcore.busy_cycles_ = sys.tcore.busy_cycles_ ∧
      sys.schedulerClock.tcore.task_count_ = sys.tcore.task_count_ ∧
      sys.schedulerClock.tcore.array_size_ = sys.tcore.array_size_) := by
  obtain ⟨_, _, _, hcase⟩ := schedulerClock_cases sys
  rcases hcase with ⟨_, hv, ht, _, _⟩ | ⟨task, rest, _, _, hcase2⟩
  · rw [hv, ht]
    exact ⟨⟨rfl, rfl, rfl, rfl⟩, ⟨rfl, rfl, rfl, rfl⟩⟩
  · rcases hcase2 with ⟨_, _, _, hv, ht, _, _⟩ | ⟨_, _, _, ht, hv, _, _⟩
    · rw [hv, ht]
      exact ⟨⟨rfl, rfl, rfl, rfl⟩, ⟨rfl, rfl, rfl, rfl⟩⟩
    · rw [hv, ht]
      exact ⟨⟨rfl, rfl, rfl, rfl⟩, ⟨rfl, rfl, rfl, rfl⟩⟩

/-- One clock call of a vector core: the busy-cycle counter advances unless the core is idle
with an empty queue, and the task counter advances when a task is started. -/
theorem vector_clock_counters (c : VectorCore) :
    c.clock.busy_cycles_ + c.task_count_
      = c.busy_cycles_ + c.clock.task_count_ + (if c.idle_ then 0 else 1) := by
  unfold VectorCore.clock VectorCore.clockStart VectorCore.clockExecute
  cases hi : c.idle_ <;> cases hq : c.task_queue_ <;> simp [hi, hq] <;> split_ifs <;>
    simp <;> omega

/-- One clock call of a tensor core: the busy-cycle counter advances unless the core is idle
with an empty queue, and the task counter advances when a task is started. -/
theorem tensor_clock_counters (c : TensorCore) :
    c.clock.busy_cycles_ + c.task_count_
      = c.busy_cycles_ + c.clock.task_count_ + (if c.idle_ then 0 else 1) := by
  unfold TensorCore.clock TensorCore.clockStart TensorCore.clockExecute
  cases hi : c.idle_ <;> cases hq : c.task_queue_ <;> simp [hi, hq] <;> split_ifs <;>
    simp <;> omega

theorem scheduler_submitTask_flags (s : Scheduler) (task : TaskDescriptor) :
    (s.submitTask task).1.vector_core_ = s.vector_core_ ∧
    (s.submitTask task).1.tensor_core_ = s.tensor_core_ := by
  unfold Scheduler.submitTask
  split <;> exact ⟨rfl, rfl⟩

theorem vector_submitTask_counters (c : VectorCore) (task : TaskDescriptor) :
    (c.submitTask task).1.busy_cycles_ = c.busy_cycles_ ∧
    (c.submitTask task).1.task_count_ = c.task_count_ := by
  unfold VectorCore.submitTask
  split <;> exact ⟨rfl, rfl⟩

theorem tensor_submitTask_counters (c : TensorCore) (task : TaskDescriptor) :
    (c.submitTask task).1.busy_cycles_ = c.busy_cycles_ ∧
    (c.submitTask task).1.task_count_ = c.task_count_ := by
  unfold TensorCore.submitTask
  split <;> exact ⟨rfl, rfl⟩

/-- One step of a lock-step run keeps the wiring, and for a connected core it keeps the
relation between the core's busy-cycle counter and the scheduler's count of its busy
cycles. -/
theorem lockstep_step_accounting (sys : System) (op : LockstepOp) :
    (sys.lockstep op).sched.vector_core_ = sys.sched.vector_core_ ∧
    (sys.lockstep op).sched.tensor_core_ = sys.sched.tensor_core_ ∧
    (sys.sched.vector_core_ = true →
      sys.vcore.busy_cycles_ = sys.sched.stats_.vector_core_cycles + sys.vcore.task_count_ →
      (sys.lockstep op).vcore.busy_cycles_
        = (sys.lockstep op).sched.stats_.vector_core_cycles
          + (sys.lockstep op).vcore.task_count_) ∧
    (sys.sched.tensor_core_ = true →
      sys.tcore.busy_cycles_ = sys.sched.stats_.tensor_core_cycles + sys.tcore.task_count_ →
      (sys.lockstep op).tcore.busy_cycles_
        = (sys.lockstep op).sched.stats_.tensor_core_cycles
          + (sys.lockstep op).tcore.task_count_) := by
  cases op with
  | submit task =>
    have hf := scheduler_submitTask_flags sys.sched task
    have hs := scheduler_submitTask_stats sys.sched task
    refine ⟨hf.1, hf.2, ?_, ?_⟩
    · intro _ h
      show sys.vcore.busy_cycles_
        = (sys.sched.submitTask task).1.stats_.vector_core_cycles + sys.vcore.task_count_
      rw [hs.1]
      exact h
    · intro _ h
      show sys.tcore.busy_cycles_
        = (sys.sched.submitTask task).1.stats_.tensor_core_cycles + sys.tcore.task_count_
      rw [hs.2.1]
      exact h
  | vectorSubmit task =>
    have hc := vector_submitTask_counters sys.vcore task
    refine ⟨rfl, rfl, ?_, fun _ h => h⟩
    intro _ h
    show (sys.vcore.submitTask task).1.busy_cycles_
      = sys.sched.stats_.vector_core_cycles + (sys.vcore.submitTask task).1.task_count_
    rw [hc.1, hc.2]
    exact h
  | tensorSubmit task =>
    have hc := tensor_submitTask_counters sys.tcore task
    refine ⟨rfl, rfl, fun _ h => h, ?_⟩
    intro _ h
    show (sys.tcore.submitTask task).1.busy_cycles_
      = sys.sched.stats_.tensor_core_cycles + (sys.tcore.submitTask task).1.task_count_
    rw [hc.1, hc.2]
    exact h
  | cycle =>
    obtain ⟨hfv, hft, _, _⟩ := schedulerClock_cases sys
    obtain ⟨hsv, hst⟩ := schedulerClock_busy_samples sys
    obtain ⟨⟨hvi, hvb, hvt, _⟩, ⟨hti, htb, htt, _⟩⟩ := schedulerClock_core_counters sys
    have hvc := vector_clock_counters sys.schedulerClock.vcore
    have htc := tensor_clock_counters sys.schedulerClock.tcore
    refine ⟨hfv, hft, ?_, ?_⟩
    · intro hflag h
      show sys.schedulerClock.vcore.clock.busy_cycles_
        = sys.schedulerClock.sched.stats_.vector_core_cycles
          + sys.schedulerClock.vcore.clock.task_count_
      rw [hvi, hvb, hvt] at hvc
      rw [hsv, hflag]
      unfold VectorCore.isBusy
      cases hidle : sys.vcore.idle_
      · rw [hidle] at hvc
        simp at hvc ⊢
        omega
      · rw [hidle] at hvc
        simp at hvc ⊢
        omega
    · intro hflag h
      show sys.schedulerClock.tcore.clock.busy_cycles_
        = sys.schedulerClock.sched.stats_.tensor_core_cycles
          + sys.schedulerClock.tcore.clock.task_count_
      rw [hti, htb, htt] at htc
      rw [hst, hflag]
      unfold TensorCore.isBusy
      cases hidle : sys.tcore.idle_
      · rw [hidle] at htc
        simp at htc ⊢
        omega
      · rw [hidle] at htc
        simp at htc ⊢
        omega

theorem lockstep_run_accounting (ops : List LockstepOp) : ∀ sys : System,
    (sys.runLockstep ops).sched.vector_core_ = sys.sched.vector_core_ ∧
    (sys.runLockstep ops).sched.tensor_core_ = sys.sched.tensor_core_ ∧
    (sys.sched.vector_core_ = true →
      sys.vcore.busy_cycles_ = sys.sched.stats_.vector_core_cycles + sys.vcore.task_count_ →
      (sys.runLockstep ops).vcore.busy_cycles_
        = (sys.runLockstep ops).sched.stats_.vector_core_cycles
          + (sys.runLockstep ops).vcore.task_count_) ∧
    (sys.sched.tensor_core_ = true →
      sys.tcore.busy_cycles_ = sys.sched.stats_.tensor_core_cycles + sys.tcore.task_count_ →
      (sys.runLockstep ops).tcore.busy_cycles_
        = (sys.runLockstep ops).sched.stats_.tensor_core_cycles
          + (sys.runLockstep ops).tcore.task_count_) := by
  induction ops with
  | nil =>
    intro sys
    exact ⟨rfl, rfl, fun _ h => h, fun _ h => h⟩
  | cons op rest ih =>
    intro sys
    obtain ⟨s1, s2, s3, s4⟩ := lockstep_step_accounting sys op
    obtain ⟨r1, r2, r3, r4⟩ := ih (sys.lockstep op)
    show ((sys.lockstep op).runLockstep rest).sched.vector_core_ = _ ∧
      ((sys.lockstep op).runLockstep rest).sched.tensor_core_ = _ ∧
      (_ → _ → ((sys.lockstep op).runLockstep rest).vcore.busy_cycles_ = _) ∧
      (_ → _ → ((sys.lockstep op).runLockstep rest).tcore.busy_cycles_ = _)
    refine ⟨r1.trans s1, r2.trans s2, ?_, ?_⟩
    · intro hflag h
      exact r3 (s1.trans hflag) (s3 hflag h)
    · intro hflag h
      exact r4 (s2.trans hflag) (s4 hflag h)

/-- A `Scheduler::clock` call whose head task is routed to the connected vector core while
that core's queue has room: the task moves to the tail of the vector core's queue. -/
theorem schedulerClock_to_vector (sys : System) (task : TaskDescriptor)
    (rest : List TaskDescriptor) (hq : sys.sched.task_queue_ = task :: rest)
    (hs : sys.sched.selectCore sys.vcore sys.tcore task = .VECTOR_CORE)
    (hc : sys.sched.vector_core_ = true) (hl : sys.vcore.task_queue_.length < 16) :
    sys.schedulerClock.sched.task_queue_ = rest ∧
    sys.schedulerClock.vcore
      = { sys.vcore with task_queue_ := sys.vcore.task_queue_ ++ [task] } ∧
    sys.schedulerClock.tcore = sys.tcore ∧
    sys.schedulerClock.sched.stats_.vector_core_tasks
      = sys.sched.stats_.vector_core_tasks + 1 ∧
    sys.schedulerClock.sched.stats_.tensor_core_tasks
      = sys.sched.stats_.tensor_core_tasks := by
  have hl2 : ¬ (16 ≤ sys.vcore.task_queue_.length) := by omega
  refine ⟨?_, ?_, ?_, ?_, ?_⟩ <;>
    simp only [System.schedulerClock, hq, hs, Scheduler.dispatchTask, hc,
      VectorCore.submitTask, VectorCore.MAX_QUEUE_DEPTH] <;>
    simp [hl2] <;> split_ifs <;> simp

/-- A `Scheduler::clock` call whose head task is routed to the connected tensor core while
that core's queue has room: the task moves to the tail of the tensor core's queue. -/
theorem schedulerClock_to_tensor (sys : System) (task : TaskDescriptor)
    (rest : List TaskDescriptor) (hq : sys.sched.task_queue_ = task :: rest)
    (hs : sys.sched.selectCore sys.vcore sys.tcore task = .TENSOR_CORE)
    (hc : sys.sched.tensor_core_ = true) (hl : sys.tcore.task_queue_.length < 16) :
    sys.schedulerClock.sched.task_queue_ = rest ∧
    sys.schedulerClock.tcore
      = { sys.tcore with task_queue_ := sys.tcore.task_queue_ ++ [task] } ∧
    sys.schedulerClock.vcore = sys.vcore ∧
    sys.schedulerClock.sched.stats_.tensor_core_tasks
      = sys.sched.stats_.tensor_core_tasks + 1 ∧
    sys.schedulerClock.sched.stats_.vector_core_tasks
      = sys.sched.stats_.vector_core_tasks := by
  have hl2 : ¬ (16 ≤ sys.tcore.task_queue_.length) := by omega
  refine ⟨?_, ?_, ?_, ?_, ?_⟩ <;>
    simp only [System.schedulerClock, hq, hs, Scheduler.dispatchTask, hc,
      TensorCore.submitTask, TensorCore.MAX_QUEUE_DEPTH] <;>
    simp [hl2] <;> split_ifs <;> simp

theorem vector_idle_empty_run (m : Nat) : ∀ s : VectorCore, s.idle_ = true →
    s.task_queue_ = [] →
    (VectorCore.clock^[m] s).idle_ = true ∧ (VectorCore.clock^[m] s).task_queue_ = [] ∧
    (VectorCore.clock^[m] s).busy_cycles_ = s.busy_cycles_ ∧
    (VectorCore.clock^[m] s).task_count_ = s.task_count_ := by
  induction m with
  | zero =>
    intro s hi hq
    exact ⟨hi, hq, rfl, rfl⟩
  | succ n ih =>
    intro s hi hq
    rw [Function.iterate_succ_apply, vector_clock_idle_empty s hi hq]
    exact ih { s with cycle_count_ := s.cycle_count_ + 1 } hi hq

theorem tensor_idle_empty_run (m : Nat) : ∀ s : TensorCore, s.idle_ = true →
    s.task_queue_ = [] →
    (TensorCore.clock^[m] s).idle_ = true ∧ (TensorCore.clock^[m] s).task_queue_ = [] ∧
    (TensorCore.clock^[m] s).busy_cycles_ = s.busy_cycles_ ∧
    (TensorCore.clock^[m] s).task_count_ = s.task_count_ := by
  induction m with
  | zero =>
    intro s hi hq
    exact ⟨hi, hq, rfl, rfl⟩
  | succ n ih =>
    intro s hi hq
    rw [Function.iterate_succ_apply, tensor_clock_idle_empty s hi hq]
    exact ih { s with cycle_count_ := s.cycle_count_ + 1 } hi hq

/-- A vector core that is idle with exactly one queued task of cost `c ≥ 1`: after `m + 1`
clock calls it has counted `min (m + 1) c` busy cycles and one more task. -/
theorem vector_one_task_counters (s : VectorCore) (task : TaskDescriptor)
    (hi : s.idle_ = true) (hq : s.task_queue_ = [task])
    (h1 : 1 ≤ s.estimateTaskCycles task) (m : Nat) :
    (VectorCore.clock^[m + 1] s).busy_cycles_
      = s.busy_cycles_ + min (m + 1) (s.estimateTaskCycles task).toNat ∧
    (VectorCore.clock^[m + 1] s).task_count_ = s.task_count_ + 1 := by
  by_cases hle : ((m + 1 : Nat) : Int) ≤ s.estimateTaskCycles task
  · obtain ⟨_, _, ht, _, hb, _, _, _⟩ := vector_task_run s task [] hi hq m hle
    refine ⟨?_, ht⟩
    rw [hb]
    omega
  · obtain ⟨j, hj⟩ : ∃ j : Nat, (s.estimateTaskCycles task).toNat = j + 1 :=
      ⟨(s.estimateTaskCycles task).toNat - 1, by omega⟩
    obtain ⟨r, hr⟩ : ∃ r : Nat, m + 1 = r + (j + 1) := ⟨m + 1 - (j + 1), by omega⟩
    have hrun := vector_task_run s task [] hi hq j (by omega)
    rw [hr, Function.iterate_add_apply]
    generalize VectorCore.clock^[j + 1] s = s1 at hrun ⊢
    obtain ⟨_, hq1, ht, _, hb, hi1, _, _⟩ := hrun
    have hidle : s1.idle_ = true := by
      rw [hi1]
      exact decide_eq_true (by omega)
    obtain ⟨_, _, gb, gt⟩ := vector_idle_empty_run r s1 hidle hq1
    refine ⟨?_, ?_⟩
    · rw [gb, hb]
      omega
    · rw [gt, ht]

/-- A tensor core that is idle with exactly one queued task of cost `c ≥ 1`: after `m + 1`
clock calls it has counted `min (m + 1) c` busy cycles and one more task. -/
theorem tensor_one_task_counters (s : TensorCore) (task : TaskDescriptor)
    (hi : s.idle_ = true) (hq : s.task_queue_ = [task])
    (h1 : 1 ≤ s.estimateTaskCycles task) (m : Nat) :
    (TensorCore.clock^[m + 1] s).busy_cycles_
      = s.busy_cycles_ + min (m + 1) (s.estimateTaskCycles task).toNat ∧
    (TensorCore.clock^[m + 1] s).task_count_ = s.task_count_ + 1 := by
  by_cases hle : ((m + 1 : Nat) : Int) ≤ s.estimateTaskCycles task
  · obtain ⟨_, _, ht, _, hb, _, _, _⟩ := tensor_task_run s task [] hi hq m hle
    refine ⟨?_, ht⟩
    rw [hb]
    omega
  · obtain ⟨j, hj⟩ : ∃ j : Nat, (s.estimateTaskCycles task).toNat = j + 1 :=
      ⟨(s.estimateTaskCycles task).toNat - 1, by omega⟩
    obtain ⟨r, hr⟩ : ∃ r : Nat, m + 1 = r + (j + 1) := ⟨m + 1 - (j + 1), by omega⟩
    have hrun := tensor_task_run s task [] hi hq j (by omega)
    rw [hr, Function.iterate_add_apply]
    generalize TensorCore.clock^[j + 1] s = s1 at hrun ⊢
    obtain ⟨_, hq1, ht, _, hb, hi1, _, _⟩ := hrun
    have hidle : s1.idle_ = true := by
      rw [hi1]
      exact decide_eq_true (by omega)
    obtain ⟨_, _, gb, gt⟩ := tensor_idle_empty_run r s1 hidle hq1
    refine ⟨?_, ?_⟩
    · rw [gb, hb]
      omega
    · rw [gt, ht]

theorem system_cycle_empty (sys : System) (hq : sys.sched.task_queue_ = []) :
    sys.cycle.sched.task_queue_ = [] ∧ sys.cycle.vcore = sys.vcore.clock ∧
    sys.cycle.tcore = sys.tcore.clock := by
  obtain ⟨_, _, _, hcase⟩ := schedulerClock_cases sys
  rcases hcase with ⟨hq1, hv, ht, _, _⟩ | ⟨task, rest, hq2, _, _⟩
  · refine ⟨hq1.trans hq, ?_, ?_⟩
    · show sys.schedulerClock.vcore.clock = sys.vcore.clock
      rw [hv]
    · show sys.schedulerClock.tcore.clock = sys.tcore.clock
      rw [ht]
  · rw [hq] at hq2
    exact absurd hq2 (by simp)

theorem runLockstep_cons (sys : System) (op : LockstepOp) (ops : List LockstepOp) :
    sys.runLockstep (op :: ops) = (sys.lockstep op).runLockstep ops := rfl

/-- Lock-step cycles with an empty admission queue only tick the two cores. -/
theorem lockstep_cycles_empty (n : Nat) : ∀ sys : System, sys.sched.task_queue_ = [] →
    (sys.runLockstep (List.replicate n .cycle)).sched.task_queue_ = [] ∧
    (sys.runLockstep (List.replicate n .cycle)).vcore = VectorCore.clock^[n] sys.vcore ∧
    (sys.runLockstep (List.replicate n .cycle)).tcore = TensorCore.clock^[n] sys.tcore := by
  induction n with
  | zero =>
    intro sys hq
    exact ⟨hq, rfl, rfl⟩
  | succ m ih =>
    intro sys hq
    obtain ⟨h1, h2, h3⟩ := system_cycle_empty sys hq
    obtain ⟨r1, r2, r3⟩ := ih sys.cycle h1
    rw [List.replicate_succ, runLockstep_cons]
    show (sys.cycle.runLockstep _).sched.task_queue_ = [] ∧
      (sys.cycle.runLockstep _).vcore = _ ∧ (sys.cycle.runLockstep _).tcore = _
    refine ⟨r1, ?_, ?_⟩
    · rw [r2, h2, Function.iterate_succ_apply]
    · rw [r3, h3, Function.iterate_succ_apply]

/-- C28: a freshly constructed scheduler and freshly constructed cores are run in lock-step
(`scheduler.clock()`, then the vector core's clock, then the tensor core's clock on every
cycle, with submissions at any time in between and no reset).  After every step, for a core
the scheduler is connected to, the core's own busy-cycle counter equals the scheduler's
count of that core's busy cycles plus the core's task count.  In particular, when a single
task of cost `c ≥ 1` is submitted and routed to a connected core, after `n ≥ 1` cycles the
core has counted `min n c` busy cycles and the scheduler one fewer: `c` and `c - 1` once the
task has completed. -/
theorem lockstep_busy_cycle_accounting (vc tc : Bool) (vid lanes tid asz : Int) :
    (∀ ops : List LockstepOp,
      (vc = true →
        ((System.fresh vc tc vid lanes tid asz).runLockstep ops).vcore.getBusyCycles
          = ((System.fresh vc tc vid lanes tid asz).runLockstep
              ops).sched.getStats.vector_core_cycles
            + ((System.fresh vc tc vid lanes tid asz).runLockstep ops).vcore.getTaskCount) ∧
      (tc = true →
        ((System.fresh vc tc vid lanes tid asz).runLockstep ops).tcore.getBusyCycles
          = ((System.fresh vc tc vid lanes tid asz).runLockstep
              ops).sched.getStats.tensor_core_cycles
            + ((System.fresh vc tc vid lanes tid asz).runLockstep ops).tcore.getTaskCount)) ∧
    (∀ (task : TaskDescriptor) (n : Nat), vc = true →
      (System.fresh vc tc vid lanes tid asz).sched.selectCore
          (VectorCore.new vid lanes) (TensorCore.new tid asz) task = .VECTOR_CORE →
      1 ≤ (VectorCore.new vid lanes).estimateTaskCycles task → 1 ≤ n →
      ((System.fresh vc tc vid lanes tid asz).runLockstep
          (.submit task :: List.replicate n .cycle)).vcore.getBusyCycles
        = min n ((VectorCore.new vid lanes).estimateTaskCycles task).toNat ∧
      ((System.fresh vc tc vid lanes tid asz).runLockstep
          (.submit task :: List.replicate n .cycle)).sched.getStats.vector_core_cycles
        = min n ((VectorCore.new vid lanes).estimateTaskCycles task).toNat - 1) ∧
    (∀ (task : TaskDescriptor) (n : Nat), tc = true →
      (System.fresh vc tc vid lanes tid asz).sched.selectCore
          (VectorCore.new vid lanes) (TensorCore.new tid asz) task = .TENSOR_CORE →
      1 ≤ (TensorCore.new tid asz).estimateTaskCycles task → 1 ≤ n →
      ((System.fresh vc tc vid lanes tid asz).runLockstep
          (.submit task :: List.replicate n .cycle)).tcore.getBusyCycles
        = min n ((TensorCore.new tid asz).estimateTaskCycles task).toNat ∧
      ((System.fresh vc tc vid lanes tid asz).runLockstep
          (.submit task :: List.replicate n .cycle)).sched.getStats.tensor_core_cycles
        = min n ((TensorCore.new tid asz).estimateTaskCycles task).toNat - 1) := by
  have hinv : ∀ ops : List LockstepOp,
      (vc = true →
        ((System.fresh vc tc vid lanes tid asz).runLockstep ops).vcore.busy_cycles_
          = ((System.fresh vc tc vid lanes tid asz).runLockstep
              ops).sched.stats_.vector_core_cycles
            + ((System.fresh vc tc vid lanes tid asz).runLockstep ops).vcore.task_count_) ∧
      (tc = true →
        ((System.fresh vc tc vid lanes tid asz).runLockstep ops).tcore.busy_cycles_
          = ((System.fresh vc tc vid lanes tid asz).runLockstep
              ops).sched.stats_.tensor_core_cycles
            + ((System.fresh vc tc vid lanes tid asz).runLockstep ops).tcore.task_count_) := by
    intro ops
    obtain ⟨_, _, h3, h4⟩ := lockstep_run_accounting ops (System.fresh vc tc vid lanes tid asz)
    exact ⟨fun h => h3 h rfl, fun h => h4 h rfl⟩
  refine ⟨hinv, ?_, ?_⟩
  · intro task n hvc hsel hcost hn
    obtain ⟨m, hm⟩ : ∃ m : Nat, n = m + 1 := ⟨n - 1, by omega⟩
    subst hm
    have hi := (hinv (.submit task :: List.replicate (m + 1) .cycle)).1 hvc
    have hq1 : ((System.fresh vc tc vid lanes tid asz).lockstep (.submit task)).sched.task_queue_
        = [task] := rfl
    obtain ⟨d1, d2, _, _, _⟩ := schedulerClock_to_vector
      ((System.fresh vc tc vid lanes tid asz).lockstep (.submit task)) task [] hq1 hsel hvc
      (show (0 : Nat) < 16 by decide)
    have hc1 : (((System.fresh vc tc vid lanes tid asz).lockstep (.submit task)).cycle).vcore
        = VectorCore.clock { VectorCore.new vid lanes with task_queue_ := [task] } := by
      show VectorCore.clock
        ((System.fresh vc tc vid lanes tid asz).lockstep (.submit task)).schedulerClock.vcore = _
      rw [d2]
      rfl
    have hc2 : (((System.fresh vc tc vid lanes tid asz).lockstep (.submit task)).cycle
        ).sched.task_queue_ = [] := d1
    obtain ⟨_, e2, _⟩ := lockstep_cycles_empty m _ hc2
    have hrun : (System.fresh vc tc vid lanes tid asz).runLockstep
        (.submit task :: List.replicate (m + 1) .cycle)
        = (((System.fresh vc tc vid lanes tid asz).lockstep (.submit task)).cycle).runLockstep
          (List.replicate m .cycle) := rfl
    rw [hrun] at hi ⊢
    have hE : VectorCore.estimateTaskCycles
        { VectorCore.new vid lanes with task_queue_ := [task] } task
        = (VectorCore.new vid lanes).estimateTaskCycles task :=
      vector_estimate_eq_of_lanes _ _ task rfl
    obtain ⟨k1, k2⟩ := vector_one_task_counters
      { VectorCore.new vid lanes with task_queue_ := [task] } task rfl rfl
      (by rw [hE]; exact hcost) m
    rw [hE] at k1
    rw [e2, hc1, ← Function.iterate_succ_apply] at hi
    rw [k1, k2] at hi
    have hb : (((System.fresh vc tc vid lanes tid asz).lockstep (.submit task)).cycle.runLockstep
        (List.replicate m .cycle)).vcore.getBusyCycles
        = min (m + 1) ((VectorCore.new vid lanes).estimateTaskCycles task).toNat := by
      show (((System.fresh vc tc vid lanes tid asz).lockstep (.submit task)).cycle.runLockstep
        (List.replicate m .cycle)).vcore.busy_cycles_ = _
      rw [e2, hc1, ← Function.iterate_succ_apply, k1]
      show 0 + _ = _
      omega
    refine ⟨hb, ?_⟩
    show (((System.fresh vc tc vid lanes tid asz).lockstep (.submit task)).cycle.runLockstep
      (List.replicate m .cycle)).sched.stats_.vector_core_cycles = _
    have h0 : ({ VectorCore.new vid lanes with task_queue_ := [task] } : VectorCore).busy_cycles_
        = 0 := rfl
    have h1 : ({ VectorCore.new vid lanes with task_queue_ := [task] } : VectorCore).task_count_
        = 0 := rfl
    rw [h0, h1] at hi
    omega
  · intro task n htc hsel hcost hn
    obtain ⟨m, hm⟩ : ∃ m : Nat, n = m + 1 := ⟨n - 1, by omega⟩
    subst hm
    have hi := (hinv (.submit task :: List.replicate (m + 1) .cycle)).2 htc
    have hq1 : ((System.fresh vc tc vid lanes tid asz).lockstep (.submit task)).sched.task_queue_
        = [task] := rfl
    obtain ⟨d1, d2, _, _, _⟩ := schedulerClock_to_tensor
      ((System.fresh vc tc vid lanes tid asz).lockstep (.submit task)) task [] hq1 hsel htc
      (show (0 : Nat) < 16 by decide)
    have hc1 : (((System.fresh vc tc vid lanes tid asz).lockstep (.submit task)).cycle).tcore
        = TensorCore.clock { TensorCore.new tid asz with task_queue_ := [task] } := by
      show TensorCore.clock
        ((System.fresh vc tc vid lanes tid asz).lockstep (.submit task)).schedulerClock.tcore = _
      rw [d2]
      rfl
    have hc2 : (((System.fresh vc tc vid lanes tid asz).lockstep (.submit task)).cycle
        ).sched.task_queue_ = [] := d1
    obtain ⟨_, _, e3⟩ := lockstep_cycles_empty m _ hc2
    have hrun : (System.fresh vc tc vid lanes tid asz).runLockstep
        (.submit task :: List.replicate (m + 1) .cycle)
        = (((System.fresh vc tc vid lanes tid asz).lockstep (.submit task)).cycle).runLockstep
          (List.replicate m .cycle) := rfl
    rw [hrun] at hi ⊢
    have hE : TensorCore.estimateTaskCycles
        { TensorCore.new tid asz with task_queue_ := [task] } task
        = (TensorCore.new tid asz).estimateTaskCycles task :=
      tensor_estimate_eq_of_array _ _ task rfl
    obtain ⟨k1, k2⟩ := tensor_one_task_counters
      { TensorCore.new tid asz with task_queue_ := [task] } task rfl rfl
      (by rw [hE]; exact hcost) m
    rw [hE] at k1
    rw [e3, hc1, ← Function.iterate_succ_apply] at hi
    rw [k1, k2] at hi
    have hb : (((System.fresh vc tc vid lanes tid asz).lockstep (.submit task)).cycle.runLockstep
        (List.replicate m .cycle)).tcore.getBusyCycles
        = min (m + 1) ((TensorCore.new tid asz).estimateTaskCycles task).toNat := by
      show (((System.fresh vc tc vid lanes tid asz).lockstep (.submit task)).cycle.runLockstep
        (List.replicate m .cycle)).tcore.busy_cycles_ = _
      rw [e3, hc1, ← Function.iterate_succ_apply, k1]
      show 0 + _ = _
      omega
    refine ⟨hb, ?_⟩
    show (((System.fresh vc tc vid lanes tid asz).lockstep (.submit task)).cycle.runLockstep
      (List.replicate m .cycle)).sched.stats_.tensor_core_cycles = _
    have h0 : ({ TensorCore.new tid asz with task_queue_ := [task] } : TensorCore).busy_cycles_
        = 0 := rfl
    have h1 : ({ TensorCore.new tid asz with task_queue_ := [task] } : TensorCore).task_count_
        = 0 := rfl
    rw [h0, h1] at hi
    omega

set_option maxRecDepth 20000 in
/-- Witness for C28: the VECTOR_ADD of length 256 (cost 37 on 8 lanes) and the 64x64x64
MATRIX_MUL of the tests (cost 4146 on the 8x8 array), each submitted alone to a fresh
system: after 100 cycles the vector core has counted 37 busy cycles and the scheduler 36;
after 5000 cycles the tensor core has counted 4146 and the scheduler 4145. -/
theorem lockstep_busy_cycle_accounting_witness :
    ((System.fresh true true 0 8 0 8).runLockstep
        (.submit (vectorAddTask 256) :: List.replicate 100 .cycle)).vcore.getBusyCycles = 37 ∧
    ((System.fresh true true 0 8 0 8).runLockstep
        (.submit (vectorAddTask 256) :: List.replicate 100 .cycle)
      ).sched.getStats.vector_core_cycles = 36 ∧
    ((System.fresh true true 0 8 0 8).runLockstep
        (.submit (matrixMulTask 64 64 64) :: List.replicate 5000 .cycle)).tcore.getBusyCycles
      = 4146 ∧
    ((System.fresh true true 0 8 0 8).runLockstep
        (.submit (matrixMulTask 64 64 64) :: List.replicate 5000 .cycle)
      ).sched.getStats.tensor_core_cycles = 4145 :=
  ⟨((lockstep_busy_cycle_accounting true true 0 8 0 8).2.1 (vectorAddTask 256) 100 rfl
      (by decide) (by decide) (by decide)).1.trans (by decide),
   ((lockstep_busy_cycle_accounting true true 0 8 0 8).2.1 (vectorAddTask 256) 100 rfl
      (by decide) (by decide) (by decide)).2.trans (by decide),
   ((lockstep_busy_cycle_accounting true true 0 8 0 8).2.2 (matrixMulTask 64 64 64) 5000 rfl
      (by decide) (by decide) (by decide)).1.trans (by decide),
   ((lockstep_busy_cycle_accounting true true 0 8 0 8).2.2 (matrixMulTask 64 64 64) 5000 rfl
      (by decide) (by decide) (by decide)).2.trans (by decide)⟩

/-! ## One dispatch per lock-step cycle -/

theorem selectCore_tensor_kind (s : Scheduler) (v : VectorCore) (t : TensorCore)
    (task : TaskDescriptor) (h : task.isTensorKind = true) :
    s.selectCore v t task = .TENSOR_CORE := by
  unfold TaskDescriptor.isTensorKind at h
  rcases of_decide_eq_true h with h1 | h1 <;>
    simp [Scheduler.selectCore, Scheduler.simpleHeuristic, h1]

theorem selectCore_vector_kind (s : Scheduler) (v : VectorCore) (t : TensorCore)
    (task : TaskDescriptor) (h : task.isVectorKind = true) :
    s.selectCore v t task = .VECTOR_CORE := by
  unfold TaskDescriptor.isVectorKind at h
  rcases of_decide_eq_true h with h1 | h1 | h1 <;>
    simp [Scheduler.selectCore, Scheduler.simpleHeuristic, h1]

theorem selectCore_cases (s : Scheduler) (v : VectorCore) (t : TensorCore)
    (task : TaskDescriptor) :
    s.selectCore v t task = .VECTOR_CORE ∨ s.selectCore v t task = .TENSOR_CORE := by
  unfold Scheduler.selectCore Scheduler.simpleHeuristic
  split <;> first | (simp; done) | (split_ifs <;> simp)

theorem scheduler_submitTask_accept (s : Scheduler) (task : TaskDescriptor)
    (h : s.task_queue_.length < 32) :
    s.submitTask task
      = ({ s with task_queue_ := s.task_queue_ ++ [task],
                  stats_ := { s.stats_ with total_tasks := s.stats_.total_tasks + 1 } },
          true) := by
  have h2 : ¬ (s.task_queue_.length ≥ 32) := by omega
  simp [Scheduler.submitTask, Scheduler.MAX_QUEUE_DEPTH, h2]

theorem scheduler_submitAll_cons (s : Scheduler) (x : TaskDescriptor)
    (xs : List TaskDescriptor) :
    s.submitAll (x :: xs)
      = (((s.submitTask x).1.submitAll xs).1,
          (s.submitTask x).2 :: ((s.submitTask x).1.submitAll xs).2) := rfl

/-- Submitting no more tasks than the admission queue has free slots: all are accepted and
queued in order, and `total_tasks` grows by their number. -/
theorem scheduler_submitAll_room (tasks : List TaskDescriptor) :
    ∀ s : Scheduler, s.task_queue_.length + tasks.length ≤ 32 →
      s.submitAll tasks
        = ({ s with task_queue_ := s.task_queue_ ++ tasks,
                    stats_ := { s.stats_ with
                      total_tasks := s.stats_.total_tasks + tasks.length } },
            List.replicate tasks.length true) := by
  induction tasks with
  | nil =>
    intro s _
    simp [Scheduler.submitAll]
  | cons x xs ih =>
    intro s h
    have hroom : s.task_queue_.length < 32 := by
      simp only [List.length_cons] at h
      omega
    have hnext := ih { s with task_queue_ := s.task_queue_ ++ [x],
                              stats_ := { s.stats_ with
                                total_tasks := s.stats_.total_tasks + 1 } } (by
      simp only [List.length_cons] at h
      simp only [List.length_append, List.length_singleton]
      omega)
    rw [scheduler_submitAll_cons, scheduler_submitTask_accept s x hroom]
    simp only []
    rw [hnext]
    simp [List.replicate_succ, Nat.add_assoc, Nat.add_comm 1]

/-- Lock-step cycles of a system whose scheduler is connected to both cores, while the core
queues have room for one task per cycle: every cycle hands over the head of the admission
queue. -/
theorem lockstep_dispatch_run (i : Nat) : ∀ (sys : System) (tasks : List TaskDescriptor),
    sys.sched.vector_core_ = true → sys.sched.tensor_core_ = true →
    sys.sched.task_queue_ = tasks → i ≤ tasks.length →
    sys.vcore.task_queue_.length + i ≤ 16 → sys.tcore.task_queue_.length + i ≤ 16 →
    (sys.runLockstep (List.replicate i .cycle)).sched.task_queue_ = tasks.drop i ∧
    (sys.runLockstep (List.replicate i .cycle)).sched.stats_.total_tasks
      = sys.sched.stats_.total_tasks ∧
    (sys.runLockstep (List.replicate i .cycle)).sched.stats_.vector_core_tasks
        + (sys.runLockstep (List.replicate i .cycle)).sched.stats_.tensor_core_tasks
      = sys.sched.stats_.vector_core_tasks + sys.sched.stats_.tensor_core_tasks + i ∧
    sys.sched.stats_.tensor_core_tasks + (tasks.take i).countP TaskDescriptor.isTensorKind
      ≤ (sys.runLockstep (List.replicate i .cycle)).sched.stats_.tensor_core_tasks ∧
    sys.sched.stats_.vector_core_tasks + (tasks.take i).countP TaskDescriptor.isVectorKind
      ≤ (sys.runLockstep (List.replicate i .cycle)).sched.stats_.vector_core_tasks := by
  induction i with
  | zero =>
    intro sys tasks _ _ hq _ _ _
    refine ⟨hq, rfl, rfl, ?_, ?_⟩
    · show _ + 0 ≤ sys.sched.stats_.tensor_core_tasks
      omega
    · show _ + 0 ≤ sys.sched.stats_.vector_core_tasks
      omega
  | succ n ih =>
    intro sys tasks hv ht hq hi hvq htq
    cases tasks with
    | nil => exact absurd hi (by simp)
    | cons t rest =>
      obtain ⟨hfv, hft, htot, _⟩ := schedulerClock_cases sys
      have hvl := vector_clock_queue_le sys.schedulerClock.vcore
      have htl := tensor_clock_queue_le sys.schedulerClock.tcore
      have hlen : n ≤ rest.length := by
        simp only [List.length_cons] at hi
        omega
      rw [List.replicate_succ, runLockstep_cons]
      show (sys.cycle.runLockstep _).sched.task_queue_ = _ ∧
        (sys.cycle.runLockstep _).sched.stats_.total_tasks = _ ∧
        (sys.cycle.runLockstep _).sched.stats_.vector_core_tasks
          + (sys.cycle.runLockstep _).sched.stats_.tensor_core_tasks = _ ∧
        _ ≤ (sys.cycle.runLockstep _).sched.stats_.tensor_core_tasks ∧
        _ ≤ (sys.cycle.runLockstep _).sched.stats_.vector_core_tasks
      rw [List.take_succ_cons, List.countP_cons, List.countP_cons, List.drop_succ_cons]
      rcases selectCore_cases sys.sched sys.vcore sys.tcore t with hs | hs
      · obtain ⟨d1, d2, d3, d4, d5⟩ :=
          schedulerClock_to_vector sys t rest hq hs hv (by omega)
        have hnt : t.isTensorKind = false := by
          cases hk : t.isTensorKind
          · rfl
          · rw [selectCore_tensor_kind sys.sched sys.vcore sys.tcore t hk] at hs
            exact absurd hs (by decide)
        have hq2 : sys.schedulerClock.vcore.task_queue_.length
            = sys.vcore.task_queue_.length + 1 := by
          rw [d2]
          simp
        have hq3 : sys.schedulerClock.tcore.task_queue_.length
            = sys.tcore.task_queue_.length := by
          rw [d3]
        obtain ⟨r1, r2, r3, r4, r5⟩ := ih sys.cycle rest (hfv.trans hv) (hft.trans ht) d1 hlen
          (by show sys.schedulerClock.vcore.clock.task_queue_.length + n ≤ 16; omega)
          (by show sys.schedulerClock.tcore.clock.task_queue_.length + n ≤ 16; omega)
        have e1 : sys.cycle.sched.stats_.total_tasks = sys.sched.stats_.total_tasks := htot
        have e2 : sys.cycle.sched.stats_.vector_core_tasks
            = sys.sched.stats_.vector_core_tasks + 1 := d4
        have e3 : sys.cycle.sched.stats_.tensor_core_tasks
            = sys.sched.stats_.tensor_core_tasks := d5
        rw [e1] at r2
        rw [e2, e3] at r3
        rw [e3] at r4
        rw [e2] at r5
        rw [hnt]
        refine ⟨r1, r2, ?_, ?_, ?_⟩
        · omega
        · simp only [Bool.false_eq_true, if_false]
          omega
        · split_ifs <;> omega
      · obtain ⟨d1, d2, d3, d4, d5⟩ :=
          schedulerClock_to_tensor sys t rest hq hs ht (by omega)
        have hnv : t.isVectorKind = false := by
          cases hk : t.isVectorKind
          · rfl
          · rw [selectCore_vector_kind sys.sched sys.vcore sys.tcore t hk] at hs
            exact absurd hs (by decide)
        have hq2 : sys.schedulerClock.tcore.task_queue_.length
            = sys.tcore.task_queue_.length + 1 := by
          rw [d2]
          simp
        have hq3 : sys.schedulerClock.vcore.task_queue_.length
            = sys.vcore.task_queue_.length := by
          rw [d3]
        obtain ⟨r1, r2, r3, r4, r5⟩ := ih sys.cycle rest (hfv.trans hv) (hft.trans ht) d1 hlen
          (by show sys.schedulerClock.vcore.clock.task_queue_.length + n ≤ 16; omega)
          (by show sys.schedulerClock.tcore.clock.task_queue_.length + n ≤ 16; omega)
        have e1 : sys.cycle.sched.stats_.total_tasks = sys.sched.stats_.total_tasks := htot
        have e2 : sys.cycle.sched.stats_.tensor_core_tasks
            = sys.sched.stats_.tensor_core_tasks + 1 := d4
        have e3 : sys.cycle.sched.stats_.vector_core_tasks
            = sys.sched.stats_.vector_core_tasks := d5
        rw [e1] at r2
        rw [e2, e3] at r3
        rw [e2] at r4
        rw [e3] at r5
        rw [hnv]
        refine ⟨r1, r2, ?_, ?_, ?_⟩
        · omega
        · split_ifs <;> omega
        · simp only [Bool.false_eq_true, if_false]
          omega

/-- One clock call of a vector core keeps the number of tasks the core has been given: a
task that is started leaves the queue and is counted. -/
theorem vector_clock_received (c : VectorCore) :
    c.clock.task_count_ + c.clock.task_queue_.length
      = c.task_count_ + c.task_queue_.length := by
  unfold VectorCore.clock VectorCore.clockStart VectorCore.clockExecute
  cases hi : c.idle_ <;> cases hq : c.task_queue_ <;> simp [hi, hq] <;> split_ifs <;>
    simp <;> omega

/-- One clock call of a tensor core keeps the number of tasks the core has been given: a
task that is started leaves the queue and is counted. -/
theorem tensor_clock_received (c : TensorCore) :
    c.clock.task_count_ + c.clock.task_queue_.length
      = c.task_count_ + c.task_queue_.length := by
  unfold TensorCore.clock TensorCore.clockStart TensorCore.clockExecute
  cases hi : c.idle_ <;> cases hq : c.task_queue_ <;> simp [hi, hq] <;> split_ifs <;>
    simp <;> omega

/-- One lock-step cycle keeps, for each core, the equality between the tasks the core has
been given (started or still in its queue) and the scheduler's dispatch counter. -/
theorem system_cycle_received (sys : System)
    (h : sys.vcore.task_count_ + sys.vcore.task_queue_.length
        = sys.sched.stats_.vector_core_tasks ∧
      sys.tcore.task_count_ + sys.tcore.task_queue_.length
        = sys.sched.stats_.tensor_core_tasks) :
    sys.cycle.vcore.task_count_ + sys.cycle.vcore.task_queue_.length
        = sys.cycle.sched.stats_.vector_core_tasks ∧
      sys.cycle.tcore.task_count_ + sys.cycle.tcore.task_queue_.length
        = sys.cycle.sched.stats_.tensor_core_tasks := by
  obtain ⟨hv, ht⟩ := h
  have cv := vector_clock_received sys.schedulerClock.vcore
  have ct := tensor_clock_received sys.schedulerClock.tcore
  show sys.schedulerClock.vcore.clock.task_count_
        + sys.schedulerClock.vcore.clock.task_queue_.length
        = sys.schedulerClock.sched.stats_.vector_core_tasks ∧
      sys.schedulerClock.tcore.clock.task_count_
        + sys.schedulerClock.tcore.clock.task_queue_.length
        = sys.schedulerClock.sched.stats_.tensor_core_tasks
  rw [cv, ct]
  obtain ⟨_, _, _, hcase⟩ := schedulerClock_cases sys
  rcases hcase with ⟨_, e1, e2, e3, e4⟩ | ⟨task, rest, _, _, hcase2⟩
  · rw [e1, e2, e3, e4]
    exact ⟨hv, ht⟩
  · rcases hcase2 with ⟨_, _, _, e1, e2, e3, e4⟩ | ⟨_, _, _, e1, e2, e3, e4⟩
    · rw [e1, e2, e3, e4]
      refine ⟨?_, ht⟩
      show sys.vcore.task_count_ + (sys.vcore.task_queue_ ++ [task]).length = _
      rw [List.length_append, List.length_singleton]
      omega
    · rw [e1, e2, e3, e4]
      refine ⟨hv, ?_⟩
      show sys.tcore.task_count_ + (sys.tcore.task_queue_ ++ [task]).length = _
      rw [List.length_append, List.length_singleton]
      omega

theorem lockstep_cycles_received (n : Nat) : ∀ sys : System,
    (sys.vcore.task_count_ + sys.vcore.task_queue_.length
        = sys.sched.stats_.vector_core_tasks ∧
      sys.tcore.task_count_ + sys.tcore.task_queue_.length
        = sys.sched.stats_.tensor_core_tasks) →
    ((sys.runLockstep (List.replicate n .cycle)).vcore.task_count_
        + (sys.runLockstep (List.replicate n .cycle)).vcore.task_queue_.length
        = (sys.runLockstep (List.replicate n .cycle)).sched.stats_.vector_core_tasks ∧
      (sys.runLockstep (List.replicate n .cycle)).tcore.task_count_
        + (sys.runLockstep (List.replicate n .cycle)).tcore.task_queue_.length
        = (sys.runLockstep (List.replicate n .cycle)).sched.stats_.tensor_core_tasks) := by
  induction n with
  | zero =>
    intro sys h
    exact h
  | succ m ih =>
    intro sys h
    rw [List.replicate_succ, runLockstep_cons]
    exact ih sys.cycle (system_cycle_received sys h)

/-- C25: `k ≤ 16` tasks of any kinds are submitted to a freshly constructed scheduler
connected to a fresh vector core and a fresh tensor core, and the system is then run in
lock-step cycles (`scheduler.clock()`, vector core clock, tensor core clock).  All
submissions are accepted, and every one of the first `k` cycles dispatches exactly one task
and meets no rejection: after `i ≤ k` cycles the admission queue holds the tasks after the
first `i`, `vector_core_tasks + tensor_core_tasks = i` and `total_tasks = k`.  After `k`
cycles the admission queue is empty, `total_tasks = k`,
`vector_core_tasks + tensor_core_tasks = k`, `tensor_core_tasks` is at least the number of
MATRIX_MUL/CONV2D tasks and `vector_core_tasks` is at least the number of
VECTOR_ADD/VECTOR_MUL/VECTOR_FMA tasks.  The dispatch reaches the cores: in cycle `i + 1`
task `i + 1` is at the head of the admission queue and `scheduler.clock()` appends it to
the queue of the vector core (never for a MATRIX_MUL/CONV2D task) or of the tensor core
(never for a task of a vector kind), leaving the other core alone; and after every `i ≤ k`
cycles the tasks each core has started or still holds in its queue are as many as the
scheduler has counted as dispatched to it. -/
theorem scheduler_one_dispatch_per_cycle (vid lanes tid asz : Int)
    (tasks : List TaskDescriptor) (hk : tasks.length ≤ 16) :
    ((System.fresh true true vid lanes tid asz).sched.submitAll tasks).2
      = List.replicate tasks.length true ∧
    (∀ i : Nat, i ≤ tasks.length →
      ((((System.fresh true true vid lanes tid asz).submitAll tasks).runLockstep
          (List.replicate i .cycle)).sched.task_queue_ = tasks.drop i ∧
        (((System.fresh true true vid lanes tid asz).submitAll tasks).runLockstep
          (List.replicate i .cycle)).sched.getQueueDepth = tasks.length - i ∧
        (((System.fresh true true vid lanes tid asz).submitAll tasks).runLockstep
            (List.replicate i .cycle)).sched.getStats.vector_core_tasks
          + (((System.fresh true true vid lanes tid asz).submitAll tasks).runLockstep
            (List.replicate i .cycle)).sched.getStats.tensor_core_tasks = i ∧
        (((System.fresh true true vid lanes tid asz).submitAll tasks).runLockstep
          (List.replicate i .cycle)).sched.getStats.total_tasks = tasks.length)) ∧
    (((System.fresh true true vid lanes tid asz).submitAll tasks).runLockstep
      (List.replicate tasks.length .cycle)).sched.getQueueDepth = 0 ∧
    (((System.fresh true true vid lanes tid asz).submitAll tasks).runLockstep
      (List.replicate tasks.length .cycle)).sched.getStats.total_tasks = tasks.length ∧
    (((System.fresh true true vid lanes tid asz).submitAll tasks).runLockstep
        (List.replicate tasks.length .cycle)).sched.getStats.vector_core_tasks
      + (((System.fresh true true vid lanes tid asz).submitAll tasks).runLockstep
        (List.replicate tasks.length .cycle)).sched.getStats.tensor_core_tasks
      = tasks.length ∧
    tasks.countP TaskDescriptor.isTensorKind
      ≤ (((System.fresh true true vid lanes tid asz).submitAll tasks).runLockstep
        (List.replicate tasks.length .cycle)).sched.getStats.tensor_core_tasks ∧
    tasks.countP TaskDescriptor.isVectorKind
      ≤ (((System.fresh true true vid lanes tid asz).submitAll tasks).runLockstep
        (List.replicate tasks.length .cycle)).sched.getStats.vector_core_tasks ∧
    (∀ (pre : List TaskDescriptor) (task : TaskDescriptor) (post : List TaskDescriptor),
      tasks = pre ++ task :: post →
      (((System.fresh true true vid lanes tid asz).submitAll tasks).runLockstep
          (List.replicate pre.length .cycle)).sched.task_queue_ = task :: post ∧
      (((((System.fresh true true vid lanes tid asz).submitAll tasks).runLockstep
          (List.replicate pre.length .cycle)).schedulerClock.vcore
            = { (((System.fresh true true vid lanes tid asz).submitAll tasks).runLockstep
          (List.replicate pre.length .cycle)).vcore with
                task_queue_ := (((System.fresh true true vid lanes tid asz).submitAll tasks).runLockstep
          (List.replicate pre.length .cycle)).vcore.task_queue_ ++ [task] } ∧
          (((System.fresh true true vid lanes tid asz).submitAll tasks).runLockstep
          (List.replicate pre.length .cycle)).schedulerClock.tcore
            = (((System.fresh true true vid lanes tid asz).submitAll tasks).runLockstep
          (List.replicate pre.length .cycle)).tcore ∧
          task.isTensorKind = false) ∨
        ((((System.fresh true true vid lanes tid asz).submitAll tasks).runLockstep
          (List.replicate pre.length .cycle)).schedulerClock.tcore
            = { (((System.fresh true true vid lanes tid asz).submitAll tasks).runLockstep
          (List.replicate pre.length .cycle)).tcore with
                task_queue_ := (((System.fresh true true vid lanes tid asz).submitAll tasks).runLockstep
          (List.replicate pre.length .cycle)).tcore.task_queue_ ++ [task] } ∧
          (((System.fresh true true vid lanes tid asz).submitAll tasks).runLockstep
          (List.replicate pre.length .cycle)).schedulerClock.vcore
            = (((System.fresh true true vid lanes tid asz).submitAll tasks).runLockstep
          (List.replicate pre.length .cycle)).vcore ∧
          task.isVectorKind = false))) ∧
    (∀ i : Nat, i ≤ tasks.length →
      (((System.fresh true true vid lanes tid asz).submitAll tasks).runLockstep
          (List.replicate i .cycle)).vcore.getTaskCount
          + (((System.fresh true true vid lanes tid asz).submitAll tasks).runLockstep
          (List.replicate i .cycle)).vcore.task_queue_.length
        = (((System.fresh true true vid lanes tid asz).submitAll tasks).runLockstep
          (List.replicate i .cycle)).sched.getStats.vector_core_tasks ∧
      (((System.fresh true true vid lanes tid asz).submitAll tasks).runLockstep
          (List.replicate i .cycle)).tcore.getTaskCount
          + (((System.fresh true true vid lanes tid asz).submitAll tasks).runLockstep
          (List.replicate i .cycle)).tcore.task_queue_.length
        = (((System.fresh true true vid lanes tid asz).submitAll tasks).runLockstep
          (List.replicate i .cycle)).sched.getStats.tensor_core_tasks) := by
  have hsub := scheduler_submitAll_room tasks (System.fresh true true vid lanes tid asz).sched
    (by show 0 + tasks.length ≤ 32; omega)
  have hfl : ((System.fresh true true vid lanes tid asz).sched.submitAll tasks).2
      = List.replicate tasks.length true := by
    rw [hsub]
  have hS : (System.fresh true true vid lanes tid asz).submitAll tasks
      = { System.fresh true true vid lanes tid asz with
          sched := { (System.fresh true true vid lanes tid asz).sched with
            task_queue_ := tasks,
            stats_ := { (System.fresh true true vid lanes tid asz).sched.stats_ with
              total_tasks := 0 + tasks.length } } } := by
    unfold System.submitAll
    rw [hsub]
    rfl
  rw [hS]
  have key : ∀ i : Nat, i ≤ tasks.length → _ :=
    fun i hi => lockstep_dispatch_run i
      { System.fresh true true vid lanes tid asz with
          sched := { (System.fresh true true vid lanes tid asz).sched with
            task_queue_ := tasks,
            stats_ := { (System.fresh true true vid lanes tid asz).sched.stats_ with
              total_tasks := 0 + tasks.length } } }
      tasks rfl rfl rfl hi (by show 0 + i ≤ 16; omega) (by show 0 + i ≤ 16; omega)
  have hrecv := fun i : Nat => lockstep_cycles_received i
      { System.fresh true true vid lanes tid asz with
          sched := { (System.fresh true true vid lanes tid asz).sched with
            task_queue_ := tasks,
            stats_ := { (System.fresh true true vid lanes tid asz).sched.stats_ with
              total_tasks := 0 + tasks.length } } }
      ⟨rfl, rfl⟩
  refine ⟨hfl, ?_, ?_⟩
  · intro i hi
    obtain ⟨r1, r2, r3, _, _⟩ := key i hi
    refine ⟨r1, ?_, ?_, ?_⟩
    · show (System.runLockstep _ _).sched.task_queue_.length = _
      rw [r1, List.length_drop]
    · show (System.runLockstep _ _).sched.stats_.vector_core_tasks
        + (System.runLockstep _ _).sched.stats_.tensor_core_tasks = i
      rw [r3]
      show 0 + 0 + i = i
      omega
    · show (System.runLockstep _ _).sched.stats_.total_tasks = _
      rw [r2]
      show 0 + tasks.length = tasks.length
      omega
  · obtain ⟨r1, r2, r3, r4, r5⟩ := key tasks.length (Nat.le_refl _)
    rw [List.take_length] at r4 r5
    refine ⟨?_, ?_, ?_, ?_, ?_, ?_, ?_⟩
    · show (System.runLockstep _ _).sched.task_queue_.length = 0
      rw [r1, List.length_drop]
      omega
    · show (System.runLockstep _ _).sched.stats_.total_tasks = _
      rw [r2]
      show 0 + tasks.length = tasks.length
      omega
    · show (System.runLockstep _ _).sched.stats_.vector_core_tasks
        + (System.runLockstep _ _).sched.stats_.tensor_core_tasks = _
      rw [r3]
      show 0 + 0 + tasks.length = tasks.length
      omega
    · have h0 : 0 + tasks.countP TaskDescriptor.isTensorKind
          ≤ (System.runLockstep _ _).sched.stats_.tensor_core_tasks := r4
      show _ ≤ (System.runLockstep _ _).sched.stats_.tensor_core_tasks
      omega
    · have h0 : 0 + tasks.countP TaskDescriptor.isVectorKind
          ≤ (System.runLockstep _ _).sched.stats_.vector_core_tasks := r5
      show _ ≤ (System.runLockstep _ _).sched.stats_.vector_core_tasks
      omega
    · intro pre task post hsplit
      have hlen : pre.length < tasks.length := by
        rw [hsplit, List.length_append, List.length_cons]
        omega
      obtain ⟨q1, _, q3, _, _⟩ := key pre.length (Nat.le_of_lt hlen)
      obtain ⟨f1, f2, _, _⟩ := lockstep_run_accounting (List.replicate pre.length .cycle)
        { System.fresh true true vid lanes tid asz with
          sched := { (System.fresh true true vid lanes tid asz).sched with
            task_queue_ := tasks,
            stats_ := { (System.fresh true true vid lanes tid asz).sched.stats_ with
              total_tasks := 0 + tasks.length } } }
      obtain ⟨b1, b2⟩ := hrecv pre.length
      have hdrop : tasks.drop pre.length = task :: post := by
        rw [hsplit, List.drop_left]
      rw [hdrop] at q1
      generalize System.runLockstep _ (List.replicate pre.length LockstepOp.cycle) = s
        at q1 q3 f1 f2 b1 b2 ⊢
      have hv : s.sched.vector_core_ = true := f1
      have ht : s.sched.tensor_core_ = true := f2
      have hsum : s.sched.stats_.vector_core_tasks + s.sched.stats_.tensor_core_tasks
          = pre.length := by
        rw [q3]
        show 0 + 0 + pre.length = pre.length
        omega
      refine ⟨q1, ?_⟩
      rcases selectCore_cases s.sched s.vcore s.tcore task with hs | hs
      · obtain ⟨_, d2, d3, _, _⟩ := schedulerClock_to_vector s task post q1 hs hv (by omega)
        refine Or.inl ⟨d2, d3, ?_⟩
        cases hkind : task.isTensorKind
        · rfl
        · rw [selectCore_tensor_kind s.sched s.vcore s.tcore task hkind] at hs
          exact absurd hs (by decide)
      · obtain ⟨_, d2, d3, _, _⟩ := schedulerClock_to_tensor s task post q1 hs ht (by omega)
        refine Or.inr ⟨d2, d3, ?_⟩
        cases hkind : task.isVectorKind
        · rfl
        · rw [selectCore_vector_kind s.sched s.vcore s.tcore task hkind] at hs
          exact absurd hs (by decide)
    · intro i _
      exact hrecv i

set_option maxRecDepth 20000 in
/-- Witness for C25: the two tasks of `testScheduler` and the ten tasks of
`testIntegration` on the 8-lane and 8x8 cores of the tests.  After 2 (respectively 10)
cycles the admission queue is empty and each core has been given one (respectively five)
of the tasks, started or waiting in its queue; in the first cycle of `testScheduler` the
VECTOR_ADD task is appended to the queue of the vector core. -/
theorem scheduler_one_dispatch_per_cycle_witness :
    (testSchedulerTasks.length = 2 ∧
      (((System.fresh true true 0 8 0 8).submitAll testSchedulerTasks).runLockstep
        (List.replicate testSchedulerTasks.length .cycle)).sched.getQueueDepth = 0 ∧
      1 ≤ (((System.fresh true true 0 8 0 8).submitAll testSchedulerTasks).runLockstep
        (List.replicate testSchedulerTasks.length .cycle)).sched.getStats.tensor_core_tasks ∧
      1 ≤ (((System.fresh true true 0 8 0 8).submitAll testSchedulerTasks).runLockstep
        (List.replicate testSchedulerTasks.length .cycle)).sched.getStats.vector_core_tasks ∧
      (((System.fresh true true 0 8 0 8).submitAll testSchedulerTasks).runLockstep
          (List.replicate 2 .cycle)).vcore.getTaskCount
        + (((System.fresh true true 0 8 0 8).submitAll testSchedulerTasks).runLockstep
          (List.replicate 2 .cycle)).vcore.task_queue_.length = 1 ∧
      (((System.fresh true true 0 8 0 8).submitAll testSchedulerTasks).runLockstep
          (List.replicate 2 .cycle)).tcore.getTaskCount
        + (((System.fresh true true 0 8 0 8).submitAll testSchedulerTasks).runLockstep
          (List.replicate 2 .cycle)).tcore.task_queue_.length = 1 ∧
      (((System.fresh true true 0 8 0 8).submitAll testSchedulerTasks).runLockstep
          (List.replicate 0 .cycle)).schedulerClock.vcore
        = { VectorCore.new 0 8 with task_queue_ := [vectorAddTask 512] }) ∧
    (testIntegrationTasks.length = 10 ∧
      ((System.fresh true true 0 8 0 8).sched.submitAll testIntegrationTasks).2
        = List.replicate testIntegrationTasks.length true ∧
      (((System.fresh true true 0 8 0 8).submitAll testIntegrationTasks).runLockstep
        (List.replicate testIntegrationTasks.length .cycle)).sched.getQueueDepth = 0 ∧
      5 ≤ (((System.fresh true true 0 8 0 8).submitAll testIntegrationTasks).runLockstep
        (List.replicate testIntegrationTasks.length .cycle)).sched.getStats.tensor_core_tasks ∧
      5 ≤ (((System.fresh true true 0 8 0 8).submitAll testIntegrationTasks).runLockstep
        (List.replicate testIntegrationTasks.length .cycle)).sched.getStats.vector_core_tasks ∧
      (((System.fresh true true 0 8 0 8).submitAll testIntegrationTasks).runLockstep
          (List.replicate 10 .cycle)).vcore.getTaskCount
        + (((System.fresh true true 0 8 0 8).submitAll testIntegrationTasks).runLockstep
          (List.replicate 10 .cycle)).vcore.task_queue_.length = 5 ∧
      (((System.fresh true true 0 8 0 8).submitAll testIntegrationTasks).runLockstep
          (List.replicate 10 .cycle)).tcore.getTaskCount
        + (((System.fresh true true 0 8 0 8).submitAll testIntegrationTasks).runLockstep
          (List.replicate 10 .cycle)).tcore.task_queue_.length = 5) :=
  ⟨⟨by decide,
    (scheduler_one_dispatch_per_cycle 0 8 0 8 testSchedulerTasks (by decide)).2.2.1,
    le_trans (by decide)
      (scheduler_one_dispatch_per_cycle 0 8 0 8 testSchedulerTasks (by decide)).2.2.2.2.2.1,
    le_trans (by decide)
      (scheduler_one_dispatch_per_cycle 0 8 0 8 testSchedulerTasks
        (by decide)).2.2.2.2.2.2.1,
    (((scheduler_one_dispatch_per_cycle 0 8 0 8 testSchedulerTasks
        (by decide)).2.2.2.2.2.2.2.2 2 (by decide)).1).trans (by decide),
    (((scheduler_one_dispatch_per_cycle 0 8 0 8 testSchedulerTasks
        (by decide)).2.2.2.2.2.2.2.2 2 (by decide)).2).trans (by decide),
    ((((scheduler_one_dispatch_per_cycle 0 8 0 8 testSchedulerTasks
        (by decide)).2.2.2.2.2.2.2.1 [] (vectorAddTask 512) [matrixMulTask 64 64 64]
          rfl).2.resolve_right (fun h => absurd h.2.2 (by decide))).1).trans (by decide)⟩,
   ⟨by decide,
    (scheduler_one_dispatch_per_cycle 0 8 0 8 testIntegrationTasks (by decide)).1,
    (scheduler_one_dispatch_per_cycle 0 8 0 8 testIntegrationTasks (by decide)).2.2.1,
    le_trans (by decide)
      (scheduler_one_dispatch_per_cycle 0 8 0 8 testIntegrationTasks (by decide)).2.2.2.2.2.1,
    le_trans (by decide)
      (scheduler_one_dispatch_per_cycle 0 8 0 8 testIntegrationTasks
        (by decide)).2.2.2.2.2.2.1,
    (((scheduler_one_dispatch_per_cycle 0 8 0 8 testIntegrationTasks
        (by decide)).2.2.2.2.2.2.2.2 10 (by decide)).1).trans (by decide),
    (((scheduler_one_dispatch_per_cycle 0 8 0 8 testIntegrationTasks
        (by decide)).2.2.2.2.2.2.2.2 10 (by decide)).2).trans (by decide)⟩⟩

/-! ## Dispatch order and the priority field -/

theorem vector_estimate_erasePriority (c : VectorCore) (task : TaskDescriptor) :
    c.erasePriority.estimateTaskCycles task.erasePriority = c.estimateTaskCycles task := rfl

theorem tensor_estimate_erasePriority (c : TensorCore) (task : TaskDescriptor) :
    c.erasePriority.estimateTaskCycles task.erasePriority = c.estimateTaskCycles task := rfl

theorem vector_submitTask_erasePriority (c : VectorCore) (task : TaskDescriptor) :
    (c.submitTask task).1.erasePriority = (c.erasePriority.submitTask task.erasePriority).1 ∧
    (c.submitTask task).2 = (c.erasePriority.submitTask task.erasePriority).2 := by
  have hlen : c.erasePriority.task_queue_.length = c.task_queue_.length := by
    show (c.task_queue_.map TaskDescriptor.erasePriority).length = _
    rw [List.length_map]
  unfold VectorCore.submitTask
  rw [hlen]
  split
  · exact ⟨rfl, rfl⟩
  · refine ⟨?_, rfl⟩
    simp [VectorCore.erasePriority]

theorem tensor_submitTask_erasePriority (c : TensorCore) (task : TaskDescriptor) :
    (c.submitTask task).1.erasePriority = (c.erasePriority.submitTask task.erasePriority).1 ∧
    (c.submitTask task).2 = (c.erasePriority.submitTask task.erasePriority).2 := by
  have hlen : c.erasePriority.task_queue_.length = c.task_queue_.length := by
    show (c.task_queue_.map TaskDescriptor.erasePriority).length = _
    rw [List.length_map]
  unfold TensorCore.submitTask
  rw [hlen]
  split
  · exact ⟨rfl, rfl⟩
  · refine ⟨?_, rfl⟩
    simp [TensorCore.erasePriority]

theorem vector_clockExecute_erasePriority (c : VectorCore) :
    c.clockExecute.erasePriority = c.erasePriority.clockExecute := by
  unfold VectorCore.clockExecute
  show _ = if c.idle_ = true then _ else _
  split
  · rfl
  · show _ = if wrapInt32 (c.execution_cycles_remaining_ - 1) ≤ 0 then _ else _
    simp only []
    split <;> rfl

theorem vector_clockStart_erasePriority (c : VectorCore) :
    c.clockStart.erasePriority = c.erasePriority.clockStart := by
  cases hi : c.idle_ with
  | false =>
    have h1 : c.clockStart = { c with cycle_count_ := c.cycle_count_ + 1 } := by
      simp [VectorCore.clockStart, hi]
    have h2 : c.erasePriority.clockStart
        = { c.erasePriority with cycle_count_ := c.erasePriority.cycle_count_ + 1 } := by
      have hi2 : c.erasePriority.idle_ = false := hi
      simp [VectorCore.clockStart, hi2]
    rw [h1, h2]
    rfl
  | true =>
    cases hq : c.task_queue_ with
    | nil =>
      have hq2 : c.erasePriority.task_queue_ = [] := by
        show c.task_queue_.map TaskDescriptor.erasePriority = []
        rw [hq]
        rfl
      have h1 : c.clockStart = { c with cycle_count_ := c.cycle_count_ + 1 } := by
        simp [VectorCore.clockStart, hi, hq]
      have h2 : c.erasePriority.clockStart
          = { c.erasePriority with cycle_count_ := c.erasePriority.cycle_count_ + 1 } := by
        simp [VectorCore.clockStart, hq2]
      rw [h1, h2]
      rfl
    | cons task rest =>
      have hq2 : c.erasePriority.task_queue_
          = task.erasePriority :: rest.map TaskDescriptor.erasePriority := by
        show c.task_queue_.map TaskDescriptor.erasePriority = _
        rw [hq]
        rfl
      rw [vector_clockStart_idle_cons c task rest hi hq,
        vector_clockStart_idle_cons c.erasePriority _ _ hi hq2]
      rfl

theorem vector_clock_erasePriority (c : VectorCore) :
    c.clock.erasePriority = c.erasePriority.clock := by
  unfold VectorCore.clock
  rw [vector_clockExecute_erasePriority, vector_clockStart_erasePriority]

theorem tensor_clockExecute_erasePriority (c : TensorCore) :
    c.clockExecute.erasePriority = c.erasePriority.clockExecute := by
  unfold TensorCore.clockExecute
  show _ = if c.idle_ = true then _ else _
  split
  · rfl
  · show _ = if wrapInt32 (c.execution_cycles_remaining_ - 1) ≤ 0 then _ else _
    simp only []
    split <;> rfl

theorem tensor_clockStart_erasePriority (c : TensorCore) :
    c.clockStart.erasePriority = c.erasePriority.clockStart := by
  cases hi : c.idle_ with
  | false =>
    have h1 : c.clockStart = { c with cycle_count_ := c.cycle_count_ + 1 } := by
      simp [TensorCore.clockStart, hi]
    have h2 : c.erasePriority.clockStart
        = { c.erasePriority with cycle_count_ := c.erasePriority.cycle_count_ + 1 } := by
      have hi2 : c.erasePriority.idle_ = false := hi
      simp [TensorCore.clockStart, hi2]
    rw [h1, h2]
    rfl
  | true =>
    cases hq : c.task_queue_ with
    | nil =>
      have hq2 : c.erasePriority.task_queue_ = [] := by
        show c.task_queue_.map TaskDescriptor.erasePriority = []
        rw [hq]
        rfl
      have h1 : c.clockStart = { c with cycle_count_ := c.cycle_count_ + 1 } := by
        simp [TensorCore.clockStart, hi, hq]
      have h2 : c.erasePriority.clockStart
          = { c.erasePriority with cycle_count_ := c.erasePriority.cycle_count_ + 1 } := by
        simp [TensorCore.clockStart, hq2]
      rw [h1, h2]
      rfl
    | cons task rest =>
      have hq2 : c.erasePriority.task_queue_
          = task.erasePriority :: rest.map TaskDescriptor.erasePriority := by
        show c.task_queue_.map TaskDescriptor.erasePriority = _
        rw [hq]
        rfl
      rw [tensor_clockStart_idle_cons c task rest hi hq,
        tensor_clockStart_idle_cons c.erasePriority _ _ hi hq2]
      rfl

theorem tensor_clock_erasePriority (c : TensorCore) :
    c.clock.erasePriority = c.erasePriority.clock := by
  unfold TensorCore.clock
  rw [tensor_clockExecute_erasePriority, tensor_clockStart_erasePriority]

theorem scheduler_submitTask_erasePriority (s : Scheduler) (task : TaskDescriptor) :
    (s.submitTask task).1.erasePriority = (s.erasePriority.submitTask task.erasePriority).1 ∧
    (s.submitTask task).2 = (s.erasePriority.submitTask task.erasePriority).2 := by
  have hlen : s.erasePriority.task_queue_.length = s.task_queue_.length := by
    show (s.task_queue_.map TaskDescriptor.erasePriority).length = _
    rw [List.length_map]
  unfold Scheduler.submitTask
  rw [hlen]
  split
  · exact ⟨rfl, rfl⟩
  · refine ⟨?_, rfl⟩
    simp [Scheduler.erasePriority]

theorem selectCore_erasePriority (s : Scheduler) (v : VectorCore) (t : TensorCore)
    (task : TaskDescriptor) :
    s.erasePriority.selectCore v.erasePriority t.erasePriority task.erasePriority
      = s.selectCore v t task := rfl

theorem dispatchTask_erasePriority (s : Scheduler) (v : VectorCore) (t : TensorCore)
    (task : TaskDescriptor) (core : CoreType) :
    (s.dispatchTask v t task core).1.erasePriority
      = (s.erasePriority.dispatchTask v.erasePriority t.erasePriority
          task.erasePriority core).1 ∧
    (s.dispatchTask v t task core).2.1.erasePriority
      = (s.erasePriority.dispatchTask v.erasePriority t.erasePriority
          task.erasePriority core).2.1 ∧
    (s.dispatchTask v t task core).2.2
      = (s.erasePriority.dispatchTask v.erasePriority t.erasePriority
          task.erasePriority core).2.2 := by
  obtain ⟨hv1, hv2⟩ := vector_submitTask_erasePriority v task
  obtain ⟨ht1, ht2⟩ := tensor_submitTask_erasePriority t task
  have e1 : s.erasePriority.vector_core_ = s.vector_core_ := rfl
  have e2 : s.erasePriority.tensor_core_ = s.tensor_core_ := rfl
  unfold Scheduler.dispatchTask
  rw [e1, e2]
  split_ifs
  · exact ⟨hv1, rfl, hv2⟩
  · exact ⟨rfl, ht1, ht2⟩
  · exact ⟨rfl, rfl, rfl⟩

theorem schedulerClock_nil (sys : System) (hq : sys.sched.task_queue_ = []) :
    sys.schedulerClock = { sys with sched := { sys.sched with stats_ := sys.sampledStats } } := by
  obtain ⟨⟨vc, tc, q, st⟩, v, t⟩ := sys
  simp only at hq
  subst hq
  rfl

theorem schedulerClock_cons (sys : System) (task : TaskDescriptor)
    (rest : List TaskDescriptor) (hq : sys.sched.task_queue_ = task :: rest) :
    sys.schedulerClock
      = if (sys.sched.dispatchTask sys.vcore sys.tcore task
            (sys.sched.selectCore sys.vcore sys.tcore task)).2.2 = true then
          { sched := { sys.sched with
              task_queue_ := rest,
              stats_ :=
                if sys.sched.selectCore sys.vcore sys.tcore task = .VECTOR_CORE then
                  { sys.sampledStats with
                    vector_core_tasks := sys.sampledStats.vector_core_tasks + 1 }
                else
                  { sys.sampledStats with
                    tensor_core_tasks := sys.sampledStats.tensor_core_tasks + 1 } },
            vcore := (sys.sched.dispatchTask sys.vcore sys.tcore task
              (sys.sched.selectCore sys.vcore sys.tcore task)).1,
            tcore := (sys.sched.dispatchTask sys.vcore sys.tcore task
              (sys.sched.selectCore sys.vcore sys.tcore task)).2.1 }
        else
          { sched := { sys.sched with stats_ := sys.sampledStats },
            vcore := (sys.sched.dispatchTask sys.vcore sys.tcore task
              (sys.sched.selectCore sys.vcore sys.tcore task)).1,
            tcore := (sys.sched.dispatchTask sys.vcore sys.tcore task
              (sys.sched.selectCore sys.vcore sys.tcore task)).2.1 } := by
  obtain ⟨⟨vc, tc, q, st⟩, v, t⟩ := sys
  simp only at hq
  subst hq
  rfl

theorem schedulerClock_erasePriority (sys : System) :
    sys.schedulerClock.erasePriority = sys.erasePriority.schedulerClock := by
  cases hq : sys.sched.task_queue_ with
  | nil =>
    have hq2 : sys.erasePriority.sched.task_queue_ = [] := by
      show sys.sched.task_queue_.map TaskDescriptor.erasePriority = []
      rw [hq]
      rfl
    rw [schedulerClock_nil sys hq, schedulerClock_nil sys.erasePriority hq2]
    show _ = ({ sched := { vector_core_ := sys.sched.vector_core_,
                           tensor_core_ := sys.sched.tensor_core_,
                           task_queue_ := sys.erasePriority.sched.task_queue_,
                           stats_ := sys.sampledStats },
                vcore := sys.vcore.erasePriority, tcore := sys.tcore.erasePriority } : System)
    rw [hq2]
    show ({ sched := { vector_core_ := sys.sched.vector_core_,
                       tensor_core_ := sys.sched.tensor_core_,
                       task_queue_ := sys.sched.task_queue_.map TaskDescriptor.erasePriority,
                       stats_ := sys.sampledStats },
            vcore := sys.vcore.erasePriority, tcore := sys.tcore.erasePriority } : System) = _
    rw [hq]
    rfl
  | cons task rest =>
    have hq2 : sys.erasePriority.sched.task_queue_
        = task.erasePriority :: rest.map TaskDescriptor.erasePriority := by
      show sys.sched.task_queue_.map TaskDescriptor.erasePriority = _
      rw [hq]
      rfl
    obtain ⟨d1, d2, d3⟩ := dispatchTask_erasePriority sys.sched sys.vcore sys.tcore task
      (sys.sched.selectCore sys.vcore sys.tcore task)
    have e1 : (sys.sched.dispatchTask sys.vcore sys.tcore task
          (sys.sched.selectCore sys.vcore sys.tcore task)).1.erasePriority
        = (sys.erasePriority.sched.dispatchTask sys.erasePriority.vcore sys.erasePriority.tcore
            task.erasePriority
            (sys.erasePriority.sched.selectCore sys.erasePriority.vcore
              sys.erasePriority.tcore task.erasePriority)).1 := d1
    have e2 : (sys.sched.dispatchTask sys.vcore sys.tcore task
          (sys.sched.selectCore sys.vcore sys.tcore task)).2.1.erasePriority
        = (sys.erasePriority.sched.dispatchTask sys.erasePriority.vcore sys.erasePriority.tcore
            task.erasePriority
            (sys.erasePriority.sched.selectCore sys.erasePriority.vcore
              sys.erasePriority.tcore task.erasePriority)).2.1 := d2
    have e3 : (sys.sched.dispatchTask sys.vcore sys.tcore task
          (sys.sched.selectCore sys.vcore sys.tcore task)).2.2
        = (sys.erasePriority.sched.dispatchTask sys.erasePriority.vcore sys.erasePriority.tcore
            task.erasePriority
            (sys.erasePriority.sched.selectCore sys.erasePriority.vcore
              sys.erasePriority.tcore task.erasePriority)).2.2 := d3
    rw [schedulerClock_cons sys task rest hq,
      schedulerClock_cons sys.erasePriority _ _ hq2, ← e1, ← e2, ← e3]
    split <;> rfl

theorem system_step_erasePriority (sys : System) (op : SystemOp) :
    (sys.step op).erasePriority = sys.erasePriority.step op.erasePriority := by
  cases op with
  | submit task =>
    show ({ sched := (sys.sched.submitTask task).1.erasePriority,
            vcore := sys.vcore.erasePriority, tcore := sys.tcore.erasePriority } : System) = _
    rw [(scheduler_submitTask_erasePriority sys.sched task).1]
    rfl
  | schedulerClock => exact schedulerClock_erasePriority sys
  | schedulerReset => rfl
  | vectorSubmit task =>
    show ({ sched := sys.sched.erasePriority,
            vcore := (sys.vcore.submitTask task).1.erasePriority,
            tcore := sys.tcore.erasePriority } : System) = _
    rw [(vector_submitTask_erasePriority sys.vcore task).1]
    rfl
  | vectorClock =>
    show ({ sched := sys.sched.erasePriority, vcore := sys.vcore.clock.erasePriority,
            tcore := sys.tcore.erasePriority } : System) = _
    rw [vector_clock_erasePriority]
    rfl
  | vectorReset => rfl
  | tensorSubmit task =>
    show ({ sched := sys.sched.erasePriority, vcore := sys.vcore.erasePriority,
            tcore := (sys.tcore.submitTask task).1.erasePriority } : System) = _
    rw [(tensor_submitTask_erasePriority sys.tcore task).1]
    rfl
  | tensorClock =>
    show ({ sched := sys.sched.erasePriority, vcore := sys.vcore.erasePriority,
            tcore := sys.tcore.clock.erasePriority } : System) = _
    rw [tensor_clock_erasePriority]
    rfl
  | tensorReset => rfl

theorem system_run_erasePriority (ops : List SystemOp) : ∀ sys : System,
    (sys.run ops).erasePriority = sys.erasePriority.run (ops.map SystemOp.erasePriority) := by
  induction ops with
  | nil =>
    intro sys
    rfl
  | cons op rest ih =>
    intro sys
    show ((sys.step op).run rest).erasePriority
      = (sys.erasePriority.step op.erasePriority).run (rest.map SystemOp.erasePriority)
    rw [ih (sys.step op), system_step_erasePriority]

theorem dispatchDecision_erasePriority (sys : System) :
    sys.erasePriority.dispatchDecision = sys.dispatchDecision := by
  obtain ⟨⟨vc, tc, q, st⟩, v, t⟩ := sys
  cases q with
  | nil => rfl
  | cons task rest =>
    have d3 := (dispatchTask_erasePriority ⟨vc, tc, task :: rest, st⟩ v t task
      (Scheduler.selectCore ⟨vc, tc, task :: rest, st⟩ v t task)).2.2
    exact congrArg
      (fun b => some (Scheduler.selectCore ⟨vc, tc, task :: rest, st⟩ v t task, b)) d3.symm

/-- Two systems that agree up to the `priority` and `flags` fields of the tasks they hold
agree on everything a client can observe of the scheduling. -/
theorem erasePriority_observations (s1 s2 : System)
    (h : s1.erasePriority = s2.erasePriority) :
    s1.dispatchDecision = s2.dispatchDecision ∧
    s1.sched.getStats = s2.sched.getStats ∧
    s1.sched.getQueueDepth = s2.sched.getQueueDepth ∧
    s1.vcore.task_queue_.length = s2.vcore.task_queue_.length ∧
    s1.tcore.task_queue_.length = s2.tcore.task_queue_.length ∧
    s1.vcore.isBusy = s2.vcore.isBusy ∧ s1.tcore.isBusy = s2.tcore.isBusy := by
  have h1 : (s1.sched.task_queue_.map TaskDescriptor.erasePriority).length
      = (s2.sched.task_queue_.map TaskDescriptor.erasePriority).length :=
    congrArg (fun s : System => s.sched.task_queue_.length) h
  have h2 : (s1.vcore.task_queue_.map TaskDescriptor.erasePriority).length
      = (s2.vcore.task_queue_.map TaskDescriptor.erasePriority).length :=
    congrArg (fun s : System => s.vcore.task_queue_.length) h
  have h3 : (s1.tcore.task_queue_.map TaskDescriptor.erasePriority).length
      = (s2.tcore.task_queue_.map TaskDescriptor.erasePriority).length :=
    congrArg (fun s : System => s.tcore.task_queue_.length) h
  rw [List.length_map, List.length_map] at h1 h2 h3
  refine ⟨?_, ?_, h1, h2, h3, ?_, ?_⟩
  · rw [← dispatchDecision_erasePriority s1, ← dispatchDecision_erasePriority s2, h]
  · have h4 : s1.erasePriority.sched.stats_ = s2.erasePriority.sched.stats_ := by rw [h]
    exact h4
  · have h5 : s1.erasePriority.vcore.isBusy = s2.erasePriority.vcore.isBusy := by rw [h]
    exact h5
  · have h6 : s1.erasePriority.tcore.isBusy = s2.erasePriority.tcore.isBusy := by rw [h]
    exact h6

/-- C26: the scheduler dispatches strictly in submission order and never reads `priority`
or `flags`.  An accepted submission is appended at the tail of the admission queue, and a
`Scheduler::clock` call either hands over nothing or moves the head of the admission queue,
its oldest task, to the tail of one core's queue.  Two runs from the same freshly
constructed system whose calls differ only in the `priority` and `flags` fields of the
submitted tasks agree, after every call, on the whole state up to those two fields: on the
dispatch decision of the next tick, on the statistics, on the depths of the three queues
and on the busy flags of the cores. -/
theorem scheduler_fifo_ignores_priority (vc tc : Bool) (vid lanes tid asz : Int) :
    (∀ (s : Scheduler) (task : TaskDescriptor), (s.submitTask task).2 = true →
      (s.submitTask task).1.task_queue_ = s.task_queue_ ++ [task]) ∧
    (∀ sys : System,
      (sys.schedulerClock.sched.task_queue_ = sys.sched.task_queue_ ∧
        sys.schedulerClock.vcore = sys.vcore ∧ sys.schedulerClock.tcore = sys.tcore) ∨
      (∃ task rest, sys.sched.task_queue_ = task :: rest ∧
        sys.schedulerClock.sched.task_queue_ = rest ∧
        ((sys.schedulerClock.vcore
              = { sys.vcore with task_queue_ := sys.vcore.task_queue_ ++ [task] } ∧
            sys.schedulerClock.tcore = sys.tcore) ∨
          (sys.schedulerClock.tcore
              = { sys.tcore with task_queue_ := sys.tcore.task_queue_ ++ [task] } ∧
            sys.schedulerClock.vcore = sys.vcore)))) ∧
    (∀ ops1 ops2 : List SystemOp,
      ops1.map SystemOp.erasePriority = ops2.map SystemOp.erasePriority →
      ∀ n : Nat,
        ((System.fresh vc tc vid lanes tid asz).run (ops1.take n)).erasePriority
          = ((System.fresh vc tc vid lanes tid asz).run (ops2.take n)).erasePriority ∧
        ((System.fresh vc tc vid lanes tid asz).run (ops1.take n)).dispatchDecision
          = ((System.fresh vc tc vid lanes tid asz).run (ops2.take n)).dispatchDecision ∧
        ((System.fresh vc tc vid lanes tid asz).run (ops1.take n)).sched.getStats
          = ((System.fresh vc tc vid lanes tid asz).run (ops2.take n)).sched.getStats ∧
        ((System.fresh vc tc vid lanes tid asz).run (ops1.take n)).sched.getQueueDepth
          = ((System.fresh vc tc vid lanes tid asz).run (ops2.take n)).sched.getQueueDepth ∧
        ((System.fresh vc tc vid lanes tid asz).run (ops1.take n)).vcore.task_queue_.length
          = ((System.fresh vc tc vid lanes tid asz).run
              (ops2.take n)).vcore.task_queue_.length ∧
        ((System.fresh vc tc vid lanes tid asz).run (ops1.take n)).tcore.task_queue_.length
          = ((System.fresh vc tc vid lanes tid asz).run
              (ops2.take n)).tcore.task_queue_.length ∧
        ((System.fresh vc tc vid lanes tid asz).run (ops1.take n)).vcore.isBusy
          = ((System.fresh vc tc vid lanes tid asz).run (ops2.take n)).vcore.isBusy ∧
        ((System.fresh vc tc vid lanes tid asz).run (ops1.take n)).tcore.isBusy
          = ((System.fresh vc tc vid lanes tid asz).run (ops2.take n)).tcore.isBusy) := by
  refine ⟨?_, ?_, ?_⟩
  · intro s task h
    unfold Scheduler.submitTask at h ⊢
    split
    · rename_i hfull
      rw [if_pos hfull] at h
      exact absurd h Bool.false_ne_true
    · rfl
  · intro sys
    obtain ⟨_, _, _, hcase⟩ := schedulerClock_cases sys
    rcases hcase with ⟨hq, hv, ht, _, _⟩ | ⟨task, rest, hq, hq2, hcase2⟩
    · exact Or.inl ⟨hq, hv, ht⟩
    · refine Or.inr ⟨task, rest, hq, hq2, ?_⟩
      rcases hcase2 with ⟨_, _, _, hv, ht, _, _⟩ | ⟨_, _, _, ht, hv, _, _⟩
      · exact Or.inl ⟨hv, ht⟩
      · exact Or.inr ⟨ht, hv⟩
  · intro ops1 ops2 heq n
    have hE : ((System.fresh vc tc vid lanes tid asz).run (ops1.take n)).erasePriority
        = ((System.fresh vc tc vid lanes tid asz).run (ops2.take n)).erasePriority := by
      rw [system_run_erasePriority, system_run_erasePriority, List.map_take, List.map_take,
        heq]
    exact ⟨hE, erasePriority_observations _ _ hE⟩

/-- Witness for C26: the workload of `testIntegration` and the same workload with other
priorities and flags, each submitted to a fresh system and run for two cycles.  The two
workloads differ, and after the sixteen calls the statistics and the next dispatch decision
are the same. -/
theorem scheduler_fifo_ignores_priority_witness :
    integrationOps testIntegrationTask ≠ integrationOps reprioritizedTask ∧
    ((System.fresh true true 0 8 0 8).run
        ((integrationOps testIntegrationTask).take 16)).sched.getStats
      = ((System.fresh true true 0 8 0 8).run
        ((integrationOps reprioritizedTask).take 16)).sched.getStats ∧
    ((System.fresh true true 0 8 0 8).run
        ((integrationOps testIntegrationTask).take 16)).dispatchDecision
      = ((System.fresh true true 0 8 0 8).run
        ((integrationOps reprioritizedTask).take 16)).dispatchDecision :=
  ⟨by decide,
   ((scheduler_fifo_ignores_priority true true 0 8 0 8).2.2
      (integrationOps testIntegrationTask) (integrationOps reprioritizedTask)
      (by decide) 16).2.2.1,
   ((scheduler_fifo_ignores_priority true true 0 8 0 8).2.2
      (integrationOps testIntegrationTask) (integrationOps reprioritizedTask)
      (by decide) 16).2.1⟩

/-! ## Transactions carried out back to back -/

theorem interconnect_clockStart_free (s : Interconnect) (tr : Transaction)
    (rest : List Transaction) (hp : s.processing_ = false)
    (hq : s.pending_queue_ = tr :: rest) :
    s.clockStart = { s with current_transaction_ := tr,
                            pending_queue_ := rest,
                            cycles_remaining_ := s.calculateTransactionCycles tr,
                            processing_ := true,
                            total_bytes_ := (s.total_bytes_ + tr.size) % 2 ^ 64 } := by
  simp only [Interconnect.clockStart, hp, hq]

/-- The clock call that completes a transfer while another transaction is pending: the
completed transaction is delivered and the next one is started on the same tick. -/
theorem interconnect_clock_finish_start (s : Interconnect) (tr : Transaction)
    (rest : List Transaction) (hp : s.processing_ = true) (h1 : s.cycles_remaining_ = 1)
    (hq : s.pending_queue_ = tr :: rest) :
    s.clock.processing_ = true ∧
    s.clock.cycles_remaining_ = s.calculateTransactionCycles tr ∧
    s.clock.busy_cycles_ = s.busy_cycles_ + 1 ∧
    s.clock.cycle_count_ = s.cycle_count_ + 1 ∧
    s.clock.transaction_count_ = s.transaction_count_ + 1 ∧
    s.clock.pending_queue_ = rest ∧
    s.clock.completion_queues_
      = Interconnect.pushCompleted s.completion_queues_ s.current_transaction_.dest_id
          s.current_transaction_ ∧
    s.clock.current_transaction_ = tr ∧
    s.clock.bandwidth_ = s.bandwidth_ := by
  have hw : wrapInt32 (s.cycles_remaining_ - 1) = 0 := by
    rw [h1]
    decide
  have hprog : Interconnect.clockProgress s
      = { s with cycle_count_ := s.cycle_count_ + 1,
                 busy_cycles_ := s.busy_cycles_ + 1,
                 cycles_remaining_ := 0,
                 completion_queues_ :=
                   Interconnect.pushCompleted s.completion_queues_
                     s.current_transaction_.dest_id s.current_transaction_,
                 processing_ := false,
                 transaction_count_ := s.transaction_count_ + 1 } := by
    simp [Interconnect.clockProgress, hp, hw]
  have hp2 : (Interconnect.clockProgress s).processing_ = false := by rw [hprog]
  have hq2 : (Interconnect.clockProgress s).pending_queue_ = tr :: rest := by
    rw [hprog]
    exact hq
  rw [Interconnect.clock, interconnect_clockStart_free _ tr rest hp2 hq2]
  refine ⟨rfl, ?_, ?_, ?_, ?_, rfl, ?_, rfl, ?_⟩
  · exact interconnect_cycles_eq_of_bandwidth _ _ tr (by rw [hprog])
  · show (Interconnect.clockProgress s).busy_cycles_ = _
    rw [hprog]
  · show (Interconnect.clockProgress s).cycle_count_ = _
    rw [hprog]
  · show (Interconnect.clockProgress s).transaction_count_ = _
    rw [hprog]
  · show (Interconnect.clockProgress s).completion_queues_ = _
    rw [hprog]
  · show (Interconnect.clockProgress s).bandwidth_ = _
    rw [hprog]

/-- A transfer in progress during `j` clock calls, `j` less than its countdown. -/
theorem interconnect_transfer_run (s : Interconnect) (hp : s.processing_ = true)
    (h2 : s.cycles_remaining_ < 2 ^ 31) (j : Nat) (hj : (j : Int) < s.cycles_remaining_) :
    (Interconnect.clock^[j] s).processing_ = true ∧
    (Interconnect.clock^[j] s).cycles_remaining_ = s.cycles_remaining_ - (j : Int) ∧
    (Interconnect.clock^[j] s).busy_cycles_ = s.busy_cycles_ + j ∧
    (Interconnect.clock^[j] s).cycle_count_ = s.cycle_count_ + j ∧
    (Interconnect.clock^[j] s).transaction_count_ = s.transaction_count_ ∧
    (Interconnect.clock^[j] s).pending_queue_ = s.pending_queue_ ∧
    (Interconnect.clock^[j] s).completion_queues_ = s.completion_queues_ ∧
    (Interconnect.clock^[j] s).current_transaction_ = s.current_transaction_ ∧
    (Interconnect.clock^[j] s).bandwidth_ = s.bandwidth_ := by
  induction j with
  | zero =>
    refine ⟨hp, ?_, rfl, rfl, rfl, rfl, rfl, rfl, rfl⟩
    show s.cycles_remaining_ = s.cycles_remaining_ - ((0 : Nat) : Int)
    omega
  | succ n ih =>
    have ih2 := ih (by omega)
    rw [Function.iterate_succ_apply']
    generalize Interconnect.clock^[n] s = s1 at ih2 ⊢
    obtain ⟨g1, g2, g3, g4, g5, g6, g7, g8, g9⟩ := ih2
    rw [interconnect_clock_busy s1 g1 (by omega) (by omega)]
    refine ⟨g1, ?_, ?_, ?_, g5, g6, g7, g8, g9⟩
    · show s1.cycles_remaining_ - 1 = s.cycles_remaining_ - ((n + 1 : Nat) : Int)
      omega
    · show s1.busy_cycles_ + 1 = s.busy_cycles_ + (n + 1)
      omega
    · show s1.cycle_count_ + 1 = s.cycle_count_ + (n + 1)
      omega

/-- A transfer in progress with countdown `d + 1`, carried through: after `d + 1` clock
calls the transaction is delivered; the next pending transaction, if there is one, has
been started on the same tick, and otherwise the bus is free. -/
theorem interconnect_transfer_complete (s : Interconnect) (hp : s.processing_ = true)
    (d : Nat) (hd : s.cycles_remaining_ = ((d + 1 : Nat) : Int)) (h2 : d + 1 < 2 ^ 31) :
    (Interconnect.clock^[d + 1] s).busy_cycles_ = s.busy_cycles_ + (d + 1) ∧
    (Interconnect.clock^[d + 1] s).cycle_count_ = s.cycle_count_ + (d + 1) ∧
    (Interconnect.clock^[d + 1] s).transaction_count_ = s.transaction_count_ + 1 ∧
    (Interconnect.clock^[d + 1] s).completion_queues_
      = Interconnect.pushCompleted s.completion_queues_ s.current_transaction_.dest_id
          s.current_transaction_ ∧
    (Interconnect.clock^[d + 1] s).bandwidth_ = s.bandwidth_ ∧
    (Interconnect.clock^[d + 1] s).pending_queue_ = s.pending_queue_.tail ∧
    (∀ tr rest, s.pending_queue_ = tr :: rest →
      (Interconnect.clock^[d + 1] s).processing_ = true ∧
      (Interconnect.clock^[d + 1] s).current_transaction_ = tr ∧
      (Interconnect.clock^[d + 1] s).cycles_remaining_ = s.calculateTransactionCycles tr) ∧
    (s.pending_queue_ = [] → (Interconnect.clock^[d + 1] s).processing_ = false) := by
  have hrun := interconnect_transfer_run s hp (by omega) d (by omega)
  rw [Function.iterate_succ_apply']
  generalize Interconnect.clock^[d] s = s1 at hrun ⊢
  obtain ⟨g1, g2, g3, g4, g5, g6, g7, g8, g9⟩ := hrun
  have hrem : s1.cycles_remaining_ = 1 := by omega
  cases hq : s.pending_queue_ with
  | nil =>
    rw [interconnect_clock_finish s1 g1 hrem (g6.trans hq)]
    refine ⟨?_, ?_, ?_, ?_, g9, ?_, ?_, fun _ => rfl⟩
    · show s1.busy_cycles_ + 1 = _
      omega
    · show s1.cycle_count_ + 1 = _
      omega
    · show s1.transaction_count_ + 1 = _
      omega
    · show Interconnect.pushCompleted s1.completion_queues_ s1.current_transaction_.dest_id
        s1.current_transaction_ = _
      rw [g7, g8]
    · show s1.pending_queue_ = [].tail
      rw [g6, hq]
      rfl
    · intro tr rest h
      exact absurd h (by simp)
  | cons tr rest =>
    obtain ⟨f1, f2, f3, f4, f5, f6, f7, f8, f9⟩ :=
      interconnect_clock_finish_start s1 tr rest g1 hrem (g6.trans hq)
    refine ⟨?_, ?_, ?_, ?_, f9.trans g9, f6, ?_, ?_⟩
    · rw [f3]
      omega
    · rw [f4]
      omega
    · rw [f5]
      omega
    · rw [f7, g7, g8]
    · intro tr2 rest2 h
      have htr : tr = tr2 := (List.cons.inj h).1
      subst htr
      exact ⟨f1, f8, f2.trans (interconnect_cycles_eq_of_bandwidth _ _ tr g9)⟩
    · intro h
      exact absurd h (by simp)

theorem interconnect_durations_cons (ic : Interconnect) (tr : Transaction)
    (trs : List Transaction) :
    ic.durations (tr :: trs) = (ic.calculateTransactionCycles tr).toNat :: ic.durations trs :=
  rfl

theorem interconnect_deliver_cons (qs : List (List Transaction)) (tr : Transaction)
    (trs : List Transaction) :
    Interconnect.deliver qs (tr :: trs)
      = Interconnect.deliver (Interconnect.pushCompleted qs tr.dest_id tr) trs := rfl

/-- A bus that is carrying out a transaction while the transactions `pre ++ post` are
pending: after as many clock calls as the durations of the current transaction and of `pre`
add up to, these have all been delivered, and the head of `post`, if there is one, has
been started. -/
theorem interconnect_transfers_run (ic0 : Interconnect) (pre : List Transaction) :
    ∀ (s : Interconnect) (post : List Transaction),
      s.bandwidth_ = ic0.bandwidth_ → s.processing_ = true →
      s.cycles_remaining_ = ic0.calculateTransactionCycles s.current_transaction_ →
      s.pending_queue_ = pre ++ post →
      (Interconnect.clock^[(ic0.durations (s.current_transaction_ :: pre)).sum] s).busy_cycles_
        = s.busy_cycles_ + (ic0.durations (s.current_transaction_ :: pre)).sum ∧
      (Interconnect.clock^[(ic0.durations (s.current_transaction_ :: pre)).sum]
          s).transaction_count_ = s.transaction_count_ + (pre.length + 1) ∧
      (Interconnect.clock^[(ic0.durations (s.current_transaction_ :: pre)).sum]
          s).completion_queues_
        = Interconnect.deliver s.completion_queues_ (s.current_transaction_ :: pre) ∧
      (Interconnect.clock^[(ic0.durations (s.current_transaction_ :: pre)).sum] s).bandwidth_
        = ic0.bandwidth_ ∧
      (Interconnect.clock^[(ic0.durations (s.current_transaction_ :: pre)).sum]
          s).pending_queue_ = post.tail ∧
      (∀ tr rest, post = tr :: rest →
        (Interconnect.clock^[(ic0.durations (s.current_transaction_ :: pre)).sum]
            s).processing_ = true ∧
        (Interconnect.clock^[(ic0.durations (s.current_transaction_ :: pre)).sum]
            s).current_transaction_ = tr ∧
        (Interconnect.clock^[(ic0.durations (s.current_transaction_ :: pre)).sum]
            s).cycles_remaining_ = ic0.calculateTransactionCycles tr) ∧
      (post = [] →
        (Interconnect.clock^[(ic0.durations (s.current_transaction_ :: pre)).sum]
            s).processing_ = false) := by
  induction pre with
  | nil =>
    intro s post hb hp hrem hq
    have hr := interconnect_cycles_range ic0 s.current_transaction_
    obtain ⟨d, hd⟩ : ∃ d : Nat,
        (ic0.calculateTransactionCycles s.current_transaction_).toNat = d + 1 :=
      ⟨(ic0.calculateTransactionCycles s.current_transaction_).toNat - 1, by omega⟩
    have hsum : (ic0.durations [s.current_transaction_]).sum = d + 1 := by
      rw [interconnect_durations_cons, List.sum_cons, hd]
      rfl
    rw [hsum]
    obtain ⟨c1, _, c3, c4, c5, c6, c7, c8⟩ :=
      interconnect_transfer_complete s hp d (by omega) (by omega)
    have hq2 : s.pending_queue_ = post := hq
    refine ⟨c1, c3, c4, c5.trans hb, ?_, ?_, ?_⟩
    · rw [c6, hq2]
    · intro tr rest h
      obtain ⟨k1, k2, k3⟩ := c7 tr rest (hq2.trans h)
      exact ⟨k1, k2, k3.trans (interconnect_cycles_eq_of_bandwidth _ _ tr hb)⟩
    · intro h
      exact c8 (hq2.trans h)
  | cons p pre1 ih =>
    intro s post hb hp hrem hq
    have hr := interconnect_cycles_range ic0 s.current_transaction_
    obtain ⟨d, hd⟩ : ∃ d : Nat,
        (ic0.calculateTransactionCycles s.current_transaction_).toNat = d + 1 :=
      ⟨(ic0.calculateTransactionCycles s.current_transaction_).toNat - 1, by omega⟩
    have hsum : (ic0.durations (s.current_transaction_ :: p :: pre1)).sum
        = (ic0.durations (p :: pre1)).sum + (d + 1) := by
      rw [interconnect_durations_cons, List.sum_cons, hd]
      omega
    rw [hsum, Function.iterate_add_apply]
    obtain ⟨c1, _, c3, c4, c5, c6, c7, _⟩ :=
      interconnect_transfer_complete s hp d (by omega) (by omega)
    obtain ⟨k1, k2, k3⟩ := c7 p (pre1 ++ post) hq
    rw [hq] at c6
    generalize Interconnect.clock^[d + 1] s = s1 at c1 c3 c4 c5 c6 k1 k2 k3 ⊢
    have hrem1 : s1.cycles_remaining_ = ic0.calculateTransactionCycles s1.current_transaction_ := by
      rw [k3, k2]
      exact interconnect_cycles_eq_of_bandwidth _ _ p hb
    obtain ⟨r1, r2, r3, r4, r5, r6, r7⟩ := ih s1 post (c5.trans hb) k1 hrem1 c6
    rw [k2] at r1 r2 r3 r4 r5 r6 r7
    refine ⟨?_, ?_, ?_, r4, r5, r6, r7⟩
    · rw [r1, c1]
      omega
    · rw [r2, c3, List.length_cons]
      omega
    · rw [r3, c4]
      rfl

theorem interconnect_submitTransaction_accept (ic : Interconnect) (tr : Transaction)
    (h : ic.pending_queue_.length < 32) :
    ic.submitTransaction tr = ({ ic with pending_queue_ := ic.pending_queue_ ++ [tr] }, true) := by
  have h2 : ¬ (ic.pending_queue_.length ≥ 32) := by omega
  simp [Interconnect.submitTransaction, Interconnect.MAX_QUEUE_DEPTH, h2]

theorem interconnect_submitAll_cons (ic : Interconnect) (x : Transaction)
    (xs : List Transaction) :
    ic.submitAll (x :: xs)
      = (((ic.submitTransaction x).1.submitAll xs).1,
          (ic.submitTransaction x).2 :: ((ic.submitTransaction x).1.submitAll xs).2) := rfl

/-- Submitting no more transactions than the pending queue has free slots: all are accepted
and queued in order. -/
theorem interconnect_submitAll_room (trs : List Transaction) :
    ∀ ic : Interconnect, ic.pending_queue_.length + trs.length ≤ 32 →
      ic.submitAll trs
        = ({ ic with pending_queue_ := ic.pending_queue_ ++ trs },
            List.replicate trs.length true) := by
  induction trs with
  | nil =>
    intro ic _
    simp [Interconnect.submitAll]
  | cons x xs ih =>
    intro ic h
    have hroom : ic.pending_queue_.length < 32 := by
      simp only [List.length_cons] at h
      omega
    have hnext := ih { ic with pending_queue_ := ic.pending_queue_ ++ [x] } (by
      simp only [List.length_cons] at h
      simp only [List.length_append, List.length_singleton]
      omega)
    rw [interconnect_submitAll_cons, interconnect_submitTransaction_accept ic x hroom]
    simp only []
    rw [hnext]
    simp [List.replicate_succ]

/-- A fresh interconnect with the transactions `pre ++ post` pending: after one clock call
and as many more as the durations of `pre` add up to, the transactions of `pre` have been
delivered in order and the head of `post`, if there is one, has been started. -/
theorem interconnect_fresh_run (P B : Int) (pre post : List Transaction) :
    (Interconnect.clock^[1 + ((Interconnect.new P B).durations pre).sum]
        { Interconnect.new P B with pending_queue_ := pre ++ post }).busy_cycles_
      = ((Interconnect.new P B).durations pre).sum ∧
    (Interconnect.clock^[1 + ((Interconnect.new P B).durations pre).sum]
        { Interconnect.new P B with pending_queue_ := pre ++ post }).transaction_count_
      = pre.length ∧
    (Interconnect.clock^[1 + ((Interconnect.new P B).durations pre).sum]
        { Interconnect.new P B with pending_queue_ := pre ++ post }).completion_queues_
      = Interconnect.deliver (List.replicate P.toNat []) pre ∧
    (Interconnect.clock^[1 + ((Interconnect.new P B).durations pre).sum]
        { Interconnect.new P B with pending_queue_ := pre ++ post }).bandwidth_ = B ∧
    (Interconnect.clock^[1 + ((Interconnect.new P B).durations pre).sum]
        { Interconnect.new P B with pending_queue_ := pre ++ post }).pending_queue_
      = post.tail ∧
    (∀ tr rest, post = tr :: rest →
      (Interconnect.clock^[1 + ((Interconnect.new P B).durations pre).sum]
          { Interconnect.new P B with pending_queue_ := pre ++ post }).processing_ = true ∧
      (Interconnect.clock^[1 + ((Interconnect.new P B).durations pre).sum]
          { Interconnect.new P B with pending_queue_ := pre ++ post }).current_transaction_
        = tr ∧
      (Interconnect.clock^[1 + ((Interconnect.new P B).durations pre).sum]
          { Interconnect.new P B with pending_queue_ := pre ++ post }).cycles_remaining_
        = (Interconnect.new P B).calculateTransactionCycles tr) ∧
    (post = [] →
      (Interconnect.clock^[1 + ((Interconnect.new P B).durations pre).sum]
          { Interconnect.new P B with pending_queue_ := pre ++ post }).processing_ = false) := by
  cases pre with
  | nil =>
    have h1 : 1 + ((Interconnect.new P B).durations []).sum = 1 := rfl
    rw [h1, Function.iterate_one]
    cases post with
    | nil =>
      rw [interconnect_clock_idle _ rfl rfl]
      refine ⟨rfl, rfl, rfl, rfl, rfl, ?_, fun _ => rfl⟩
      intro tr rest h
      exact absurd h (by simp)
    | cons t rest =>
      rw [interconnect_clock_start _ t rest rfl rfl]
      refine ⟨rfl, rfl, rfl, rfl, rfl, ?_, ?_⟩
      · intro tr rest2 h
        have htr : t = tr := (List.cons.inj h).1
        subst htr
        exact ⟨rfl, rfl, interconnect_cycles_eq_of_bandwidth _ _ t rfl⟩
      · intro h
        exact absurd h (by simp)
  | cons t pre1 =>
    have hst := interconnect_clock_start
      { Interconnect.new P B with pending_queue_ := (t :: pre1) ++ post } t (pre1 ++ post)
      rfl rfl
    have f1 : (Interconnect.clock
        { Interconnect.new P B with pending_queue_ := (t :: pre1) ++ post }).bandwidth_
        = (Interconnect.new P B).bandwidth_ := by rw [hst]
    have f2 : (Interconnect.clock
        { Interconnect.new P B with pending_queue_ := (t :: pre1) ++ post }).processing_
        = true := by rw [hst]
    have f3 : (Interconnect.clock
        { Interconnect.new P B with pending_queue_ := (t :: pre1) ++ post }).current_transaction_
        = t := by rw [hst]
    have f4 : (Interconnect.clock
        { Interconnect.new P B with pending_queue_ := (t :: pre1) ++ post }).cycles_remaining_
        = (Interconnect.new P B).calculateTransactionCycles t := by
      rw [hst]
      exact interconnect_cycles_eq_of_bandwidth _ _ t rfl
    have f5 : (Interconnect.clock
        { Interconnect.new P B with pending_queue_ := (t :: pre1) ++ post }).pending_queue_
        = pre1 ++ post := by rw [hst]
    have f6 : (Interconnect.clock
        { Interconnect.new P B with pending_queue_ := (t :: pre1) ++ post }).busy_cycles_
        = 0 := by rw [hst]; rfl
    have f7 : (Interconnect.clock
        { Interconnect.new P B with pending_queue_ := (t :: pre1) ++ post }).transaction_count_
        = 0 := by rw [hst]; rfl
    have f8 : (Interconnect.clock
        { Interconnect.new P B with pending_queue_ := (t :: pre1) ++ post }).completion_queues_
        = List.replicate P.toNat [] := by rw [hst]; rfl
    rw [Nat.add_comm, Function.iterate_add_apply, Function.iterate_one]
    generalize Interconnect.clock
      { Interconnect.new P B with pending_queue_ := (t :: pre1) ++ post } = s1
      at f1 f2 f3 f4 f5 f6 f7 f8 ⊢
    obtain ⟨r1, r2, r3, r4, r5, r6, r7⟩ := interconnect_transfers_run (Interconnect.new P B)
      pre1 s1 post f1 f2 (by rw [f4, f3]) f5
    rw [f3] at r1 r2 r3 r4 r5 r6 r7
    refine ⟨?_, ?_, ?_, r4, r5, r6, r7⟩
    · rw [r1, f6]
      omega
    · rw [r2, f7, List.length_cons]
      omega
    · rw [r3, f8]

theorem pushCompleted_length (qs : List (List Transaction)) (i : Int) (t : Transaction) :
    (Interconnect.pushCompleted qs i t).length = qs.length := by
  unfold Interconnect.pushCompleted
  split
  · rw [List.length_set]
  · rfl

theorem pushCompleted_getD (qs : List (List Transaction)) (i : Int) (t : Transaction)
    (port : Int) (h0 : 0 ≤ port) (h1 : port.toNat < qs.length) :
    (Interconnect.pushCompleted qs i t).getD port.toNat []
      = if i = port then qs.getD port.toNat [] ++ [t] else qs.getD port.toNat [] := by
  unfold Interconnect.pushCompleted
  by_cases hi : i = port
  · subst hi
    rw [if_pos ⟨h0, h1⟩, if_pos rfl, List.getD_eq_getElem?_getD, List.getElem?_set_self h1]
    rfl
  · rw [if_neg hi]
    split
    · rename_i hv
      have hne : i.toNat ≠ port.toNat := by omega
      rw [List.getD_eq_getElem?_getD, List.getElem?_set_ne hne, ← List.getD_eq_getElem?_getD]
    · rfl

/-- Delivering a list of transactions appends to the queue of every port, in order, the
transactions addressed to it. -/
theorem deliver_getD (trs : List Transaction) :
    ∀ (qs : List (List Transaction)) (port : Int), 0 ≤ port → port.toNat < qs.length →
      (Interconnect.deliver qs trs).getD port.toNat []
        = qs.getD port.toNat [] ++ trs.filter (fun tr => decide (tr.dest_id = port)) := by
  induction trs with
  | nil =>
    intro qs port _ _
    show qs.getD port.toNat [] = qs.getD port.toNat [] ++ []
    rw [List.append_nil]
  | cons t rest ih =>
    intro qs port h0 h1
    rw [interconnect_deliver_cons,
      ih _ port h0 (by rw [pushCompleted_length]; exact h1),
      pushCompleted_getD qs t.dest_id t port h0 h1]
    by_cases h : t.dest_id = port
    · simp [h, List.filter_cons]
    · simp [h, List.filter_cons]

/-- C30 (as amended): `k ≤ 32` transactions are submitted to a freshly constructed
interconnect before its first clock call; `d_i` is the duration computed for transaction `i`
by `calculateTransactionCycles`.  All submissions are accepted.  The first clock call
starts the first transaction, and each later transaction is started on the tick on which
the one before it completes: after `1 + d_1 + ... + d_i` clock calls (for every `i ≤ k`)
the transaction count is `i`, the busy-cycle count is `d_1 + ... + d_i`, and the completion
queues hold exactly the first `i` transactions; `j < d_(i+1)` calls later the count is
still `i`, so transaction `i + 1` is delivered on call `1 + d_1 + ... + d_(i+1)` and not
before.  After `1 + d_1 + ... + d_k` calls the transaction count is `k`, the busy-cycle
count is `d_1 + ... + d_k`, the bus is free, and the completion queue of every port holds
the transactions addressed to it, unchanged and in submission order; when all destination
ports are valid every transaction is in the queue of its port.  `d_i` is
`max 1 (ceil_div size_i B)` when the bandwidth `B` is at least 1, `size_i + B - 1` does not
overflow and the quotient fits an `int`. -/
theorem interconnect_back_to_back (P B : Int) (trs : List Transaction)
    (hk : trs.length ≤ 32) :
    ((Interconnect.new P B).submitAll trs).2 = List.replicate trs.length true ∧
    (∀ pre post : List Transaction, trs = pre ++ post →
      (Interconnect.clock^[1 + ((Interconnect.new P B).durations pre).sum]
          ((Interconnect.new P B).submitAll trs).1).getTransactionCount = pre.length ∧
      (Interconnect.clock^[1 + ((Interconnect.new P B).durations pre).sum]
          ((Interconnect.new P B).submitAll trs).1).busy_cycles_
        = ((Interconnect.new P B).durations pre).sum ∧
      (Interconnect.clock^[1 + ((Interconnect.new P B).durations pre).sum]
          ((Interconnect.new P B).submitAll trs).1).completion_queues_
        = Interconnect.deliver (List.replicate P.toNat []) pre) ∧
    (∀ (pre : List Transaction) (tr : Transaction) (post : List Transaction),
      trs = pre ++ tr :: post →
      ∀ j : Nat, j < ((Interconnect.new P B).calculateTransactionCycles tr).toNat →
        (Interconnect.clock^[1 + ((Interconnect.new P B).durations pre).sum + j]
            ((Interconnect.new P B).submitAll trs).1).getTransactionCount = pre.length ∧
        (Interconnect.clock^[1 + ((Interconnect.new P B).durations pre).sum + j]
            ((Interconnect.new P B).submitAll trs).1).busy_cycles_
          = ((Interconnect.new P B).durations pre).sum + j) ∧
    ((Interconnect.clock^[1 + ((Interconnect.new P B).durations trs).sum]
          ((Interconnect.new P B).submitAll trs).1).getTransactionCount = trs.length ∧
      (Interconnect.clock^[1 + ((Interconnect.new P B).durations trs).sum]
          ((Interconnect.new P B).submitAll trs).1).busy_cycles_
        = ((Interconnect.new P B).durations trs).sum ∧
      (Interconnect.clock^[1 + ((Interconnect.new P B).durations trs).sum]
          ((Interconnect.new P B).submitAll trs).1).pending_queue_ = [] ∧
      (Interconnect.clock^[1 + ((Interconnect.new P B).durations trs).sum]
          ((Interconnect.new P B).submitAll trs).1).processing_ = false) ∧
    (∀ port : Int, 0 ≤ port → port < P →
      (Interconnect.clock^[1 + ((Interconnect.new P B).durations trs).sum]
          ((Interconnect.new P B).submitAll trs).1).completion_queues_.getD port.toNat []
        = trs.filter (fun tr => decide (tr.dest_id = port))) ∧
    ((∀ tr ∈ trs, 0 ≤ tr.dest_id ∧ tr.dest_id < P) →
      ∀ tr ∈ trs, tr ∈
        (Interconnect.clock^[1 + ((Interconnect.new P B).durations trs).sum]
          ((Interconnect.new P B).submitAll trs).1).completion_queues_.getD
            tr.dest_id.toNat []) ∧
    (∀ tr : Transaction, 1 ≤ B → B < 2 ^ 31 → tr.size + B.toNat - 1 < 2 ^ 64 →
      ceil_div tr.size B.toNat < 2 ^ 31 →
        ((Interconnect.new P B).calculateTransactionCycles tr).toNat
          = max 1 (ceil_div tr.size B.toNat)) := by
  have hsub := interconnect_submitAll_room trs (Interconnect.new P B)
    (by show 0 + trs.length ≤ 32; omega)
  have hs0 : ((Interconnect.new P B).submitAll trs).1
      = { Interconnect.new P B with pending_queue_ := trs } := by
    rw [hsub]
    rfl
  have hfl : ((Interconnect.new P B).submitAll trs).2 = List.replicate trs.length true := by
    rw [hsub]
  rw [hs0]
  have hfinal := interconnect_fresh_run P B trs []
  rw [List.append_nil] at hfinal
  obtain ⟨e1, e2, e3, _, e5, _, e7⟩ := hfinal
  have hports : ∀ port : Int, 0 ≤ port → port < P →
      (Interconnect.clock^[1 + ((Interconnect.new P B).durations trs).sum]
          { Interconnect.new P B with pending_queue_ := trs }).completion_queues_.getD
            port.toNat []
        = trs.filter (fun tr => decide (tr.dest_id = port)) := by
    intro port h0 h1
    rw [e3, deliver_getD trs _ port h0 (by rw [List.length_replicate]; omega),
      replicate_nil_getD, List.nil_append]
  refine ⟨hfl, ?_, ?_, ⟨e2, e1, e5, e7 rfl⟩, hports, ?_, ?_⟩
  · intro pre post hsplit
    subst hsplit
    obtain ⟨r1, r2, r3, _, _, _, _⟩ := interconnect_fresh_run P B pre post
    exact ⟨r2, r1, r3⟩
  · intro pre tr post hsplit j hj
    subst hsplit
    obtain ⟨r1, r2, _, _, _, r6, _⟩ := interconnect_fresh_run P B pre (tr :: post)
    obtain ⟨k1, _, k3⟩ := r6 tr post rfl
    have hr := interconnect_cycles_range (Interconnect.new P B) tr
    rw [Nat.add_comm _ j, Function.iterate_add_apply]
    generalize Interconnect.clock^[1 + ((Interconnect.new P B).durations pre).sum]
      { Interconnect.new P B with pending_queue_ := pre ++ tr :: post } = s1
      at r1 r2 k1 k3 ⊢
    obtain ⟨_, _, g3, _, g5, _, _, _, _⟩ :=
      interconnect_transfer_run s1 k1 (by omega) j (by omega)
    refine ⟨?_, ?_⟩
    · show (Interconnect.clock^[j] s1).transaction_count_ = _
      rw [g5, r2]
    · rw [g3, r1]
  · intro hvalid tr hmem
    obtain ⟨h0, h1⟩ := hvalid tr hmem
    rw [hports tr.dest_id h0 h1]
    exact List.mem_filter.mpr ⟨hmem, decide_eq_true rfl⟩
  · intro tr hb hb2 hs hfit
    rw [interconnect_cycles_eq_ceil (Interconnect.new P B) tr hb hb2 hs hfit]
    have hc : (1 : Int) ≤ max 1 ((ceil_div tr.size B.toNat : Nat) : Int) := le_max_left _ _
    show (max (1 : Int) ((ceil_div tr.size B.toNat : Nat) : Int)).toNat
      = max 1 (ceil_div tr.size B.toNat)
    omega

/-- Witness for C30: three transactions of 128, 64 and 200 bytes for ports 1, 2 and 1 on
the interconnect of the tests (4 ports, 64 bytes per cycle) have durations 2, 1 and 4.
After `1 + 7` clock calls all three are delivered, the busy-cycle count is 7, and port 1
holds the first and the third transaction in this order. -/
theorem interconnect_back_to_back_witness :
    (Interconnect.new 4 64).durations testTransactions = [2, 1, 4] ∧
    (Interconnect.clock^[1 + ((Interconnect.new 4 64).durations testTransactions).sum]
      ((Interconnect.new 4 64).submitAll testTransactions).1).getTransactionCount = 3 ∧
    (Interconnect.clock^[1 + ((Interconnect.new 4 64).durations testTransactions).sum]
      ((Interconnect.new 4 64).submitAll testTransactions).1).busy_cycles_ = 7 ∧
    (Interconnect.clock^[1 + ((Interconnect.new 4 64).durations testTransactions).sum]
      ((Interconnect.new 4 64).submitAll testTransactions).1).completion_queues_.getD 1 []
      = [testTransaction, { testTransaction with size := 200 }] :=
  ⟨by decide,
   (interconnect_back_to_back 4 64 testTransactions (by decide)).2.2.2.1.1,
   (interconnect_back_to_back 4 64 testTransactions (by decide)).2.2.2.1.2.1.trans (by decide),
   ((interconnect_back_to_back 4 64 testTransactions (by decide)).2.2.2.2.1 1 (by decide)
      (by decide)).trans (by decide)⟩

/-- Counterexample to C30 as stated: a single transaction of `2^37` bytes for the valid
port 1 at 64 bytes per cycle has `max 1 (ceil_div size 64) = 2^31`, yet it is delivered on
the second clock call, not on call `1 + 2^31`: the quotient is narrowed to `int` and the
computed duration is 1. -/
theorem interconnect_delivery_narrowed :
    max 1 (ceil_div hugeTransaction.size 64) = 2147483648 ∧
    ((0 : Int) ≤ hugeTransaction.dest_id ∧
      hugeTransaction.dest_id < (Interconnect.new 4 64).num_ports_) ∧
    ((Interconnect.new 4 64).submitAll [hugeTransaction]).2 = [true] ∧
    (Interconnect.clock^[2]
      ((Interconnect.new 4 64).submitAll [hugeTransaction]).1).getTransactionCount = 1 ∧
    (Interconnect.clock^[2]
      ((Interconnect.new 4 64).submitAll [hugeTransaction]).1).busy_cycles_ = 1 ∧
    (Interconnect.clock^[2]
      ((Interconnect.new 4 64).submitAll [hugeTransaction]).1).hasCompletedTransaction 1
        = true := by
  decide

/-! ## Lower bound of the vector cost estimate -/

/-- The quotient `dim_m / lanes` of a 32-bit `dim_m` by a lane count of at least 7 is small
enough for both cost formulas to stay within a signed 32-bit integer. -/
theorem vector_quotient_small (m l : Nat) (hm : m < 2 ^ 32) (hl : 7 ≤ l) :
    m / l * 3 + 10 < 2 ^ 31 := by
  have h1 : m / l * l ≤ m := Nat.div_mul_le_self m l
  have h2 : m / l * 7 ≤ m / l * l := Nat.mul_le_mul_left _ hl
  generalize m / l = q at h1 h2 ⊢
  generalize q * l = r at h1 h2
  omega

/-- C31 (as amended): for every 32-bit unsigned `dim_m`, every task kind and every lane
count from 1 up (an `int`), `VectorCore::estimateTaskCycles` returns a value of at least 5
whenever the unwrapped cost fits a signed 32-bit integer: `dim_m / lanes + 5 < 2^31` for
VECTOR_ADD and VECTOR_MUL, `(dim_m / lanes) * 3 + 10 < 2^31` for VECTOR_FMA, and always for
the other kinds.  This is the case for every `dim_m` when the lane count is at least 7.  A
task whose estimate is at least 5, started by an idle core, keeps the core busy with a
positive countdown after each of the first four clock calls, and the first five clock calls
are all busy ticks. -/
theorem vector_estimate_at_least_five (c : VectorCore) (task : TaskDescriptor)
    (hl : 1 ≤ c.num_lanes_) (hl2 : c.num_lanes_ < 2 ^ 31) (hm : task.dim_m < 2 ^ 32) :
    (((task.type = .VECTOR_ADD ∨ task.type = .VECTOR_MUL) →
        task.dim_m / c.num_lanes_.toNat + 5 < 2 ^ 31) →
      (task.type = .VECTOR_FMA → task.dim_m / c.num_lanes_.toNat * 3 + 10 < 2 ^ 31) →
      5 ≤ c.estimateTaskCycles task) ∧
    (7 ≤ c.num_lanes_ → 5 ≤ c.estimateTaskCycles task) ∧
    (5 ≤ c.estimateTaskCycles task →
      ∀ rest : List TaskDescriptor, c.idle_ = true → c.task_queue_ = task :: rest →
        (∀ n : Nat, 1 ≤ n → n < 5 →
          (VectorCore.clock^[n] c).isBusy = true ∧
          0 < (VectorCore.clock^[n] c).execution_cycles_remaining_) ∧
        (VectorCore.clock^[5] c).getBusyCycles = c.getBusyCycles + 5) := by
  have hu : intToUInt32 c.num_lanes_ = c.num_lanes_.toNat :=
    intToUInt32_of_range (by omega) (by omega)
  have hfit : ((task.type = .VECTOR_ADD ∨ task.type = .VECTOR_MUL) →
        task.dim_m / c.num_lanes_.toNat + 5 < 2 ^ 31) →
      (task.type = .VECTOR_FMA → task.dim_m / c.num_lanes_.toNat * 3 + 10 < 2 ^ 31) →
      5 ≤ c.estimateTaskCycles task := by
    intro ha hf
    have hadd : (task.type = .VECTOR_ADD ∨ task.type = .VECTOR_MUL) →
        5 ≤ c.estimateTaskCycles task := by
      intro ht
      have he : c.estimateTaskCycles task
          = toInt32 ((task.dim_m / intToUInt32 c.num_lanes_ + 5) % 2 ^ 32) := by
        unfold VectorCore.estimateTaskCycles
        rcases ht with ht | ht <;> rw [ht]
      have hlt := ha ht
      rw [he, hu, Nat.mod_eq_of_lt (by omega), toInt32_of_lt hlt]
      exact_mod_cast Nat.le_add_left 5 (task.dim_m / c.num_lanes_.toNat)
    cases ht : task.type with
    | VECTOR_ADD => exact hadd (Or.inl ht)
    | VECTOR_MUL => exact hadd (Or.inr ht)
    | VECTOR_FMA =>
      have he : c.estimateTaskCycles task
          = toInt32 (((task.dim_m / intToUInt32 c.num_lanes_) * 3 % 2 ^ 32 + 10) % 2 ^ 32) := by
        unfold VectorCore.estimateTaskCycles
        rw [ht]
      have hlt := hf ht
      have h3 : task.dim_m / c.num_lanes_.toNat * 3 % 2 ^ 32
          = task.dim_m / c.num_lanes_.toNat * 3 := Nat.mod_eq_of_lt (by omega)
      rw [he, hu, h3, Nat.mod_eq_of_lt (by omega), toInt32_of_lt hlt]
      have h10 : 5 ≤ task.dim_m / c.num_lanes_.toNat * 3 + 10 := by omega
      exact_mod_cast h10
    | MATRIX_MUL =>
      have he : c.estimateTaskCycles task = 100 := by
        unfold VectorCore.estimateTaskCycles
        rw [ht]
      rw [he]
      decide
    | CONV2D =>
      have he : c.estimateTaskCycles task = 100 := by
        unfold VectorCore.estimateTaskCycles
        rw [ht]
      rw [he]
      decide
    | ACTIVATION =>
      have he : c.estimateTaskCycles task = 100 := by
        unfold VectorCore.estimateTaskCycles
        rw [ht]
      rw [he]
      decide
    | UNKNOWN =>
      have he : c.estimateTaskCycles task = 100 := by
        unfold VectorCore.estimateTaskCycles
        rw [ht]
      rw [he]
      decide
  refine ⟨hfit, ?_, ?_⟩
  · intro h7
    have hq := vector_quotient_small task.dim_m c.num_lanes_.toNat hm (by omega)
    exact hfit (fun _ => by omega) (fun _ => hq)
  · intro h5 rest hi hq
    refine ⟨?_, ?_⟩
    · intro n h1 h4
      obtain ⟨j, hj⟩ : ∃ j : Nat, n = j + 1 := ⟨n - 1, by omega⟩
      subst hj
      obtain ⟨_, _, _, _, _, g6, g7, _⟩ := vector_task_run c task rest hi hq j (by omega)
      refine ⟨?_, ?_⟩
      · show (!(VectorCore.clock^[j + 1] c).idle_) = true
        rw [g6, decide_eq_false (by omega)]
        rfl
      · rw [g7]
        omega
    · obtain ⟨_, _, _, _, g5, _, _, _⟩ := vector_task_run c task rest hi hq 4 (by omega)
      exact g5

/-- Witness for C31: on the 8 lanes of the tests even the largest VECTOR_ADD and VECTOR_FMA
(`dim_m = 2^32 - 1`) have an estimate of at least 5, and the VECTOR_ADD of length 256 of
`testVectorCore` (cost 37) keeps the core busy after 4 clock calls. -/
theorem vector_estimate_at_least_five_witness :
    5 ≤ (VectorCore.new 0 8).estimateTaskCycles (vectorAddTask 4294967295) ∧
    5 ≤ (VectorCore.new 0 8).estimateTaskCycles
      { vectorAddTask 4294967295 with type := .VECTOR_FMA } ∧
    (VectorCore.clock^[4] ((VectorCore.new 0 8).submitTask (vectorAddTask 256)).1).isBusy
      = true ∧
    (VectorCore.clock^[5]
      ((VectorCore.new 0 8).submitTask (vectorAddTask 256)).1).getBusyCycles = 5 :=
  ⟨(vector_estimate_at_least_five (VectorCore.new 0 8) (vectorAddTask 4294967295)
      (by decide) (by decide) (by decide)).2.1 (by decide),
   (vector_estimate_at_least_five (VectorCore.new 0 8)
      { vectorAddTask 4294967295 with type := .VECTOR_FMA }
      (by decide) (by decide) (by decide)).2.1 (by decide),
   (((vector_estimate_at_least_five ((VectorCore.new 0 8).submitTask (vectorAddTask 256)).1
      (vectorAddTask 256) (by decide) (by decide) (by decide)).2.2 (by decide) [] rfl rfl).1
      4 (by decide) (by decide)).1,
   ((vector_estimate_at_least_five ((VectorCore.new 0 8).submitTask (vectorAddTask 256)).1
      (vectorAddTask 256) (by decide) (by decide) (by decide)).2.2 (by decide) [] rfl rfl).2⟩

/-- Counterexample to C31 as stated: on one lane a VECTOR_ADD with `dim_m = 2^32 - 1` has
the estimate 4 (the unsigned sum `dim_m + 5` wraps), and the core is idle again after 4
clock calls with 4 busy ticks; a VECTOR_ADD with `dim_m = 2^31` has the negative estimate
`-2147483643` (the sum does not fit the `int` it is returned as), and the core is idle
again after a single clock call. -/
theorem vector_estimate_below_five :
    (vectorAddTask 4294967295).dim_m < 2 ^ 32 ∧
    (1 : Int) ≤ (VectorCore.new 0 1).num_lanes_ ∧
    (VectorCore.new 0 1).estimateTaskCycles (vectorAddTask 4294967295) = 4 ∧
    (VectorCore.clock^[4]
      ((VectorCore.new 0 1).submitTask (vectorAddTask 4294967295)).1).isBusy = false ∧
    (VectorCore.clock^[5]
      ((VectorCore.new 0 1).submitTask (vectorAddTask 4294967295)).1).getBusyCycles = 4 ∧
    (VectorCore.new 0 1).estimateTaskCycles (vectorAddTask 2147483648) = -2147483643 ∧
    (VectorCore.clock^[1]
      ((VectorCore.new 0 1).submitTask (vectorAddTask 2147483648)).1).isBusy = false ∧
    (VectorCore.clock^[5]
      ((VectorCore.new 0 1).submitTask (vectorAddTask 2147483648)).1).getBusyCycles = 1 := by
  decide

/-! ## The index of the completion queue -/

/-- What one clock call does to the queues of the interconnect. -/
theorem interconnect_clock_queues (s : Interconnect) :
    s.clock.num_ports_ = s.num_ports_ ∧
    s.clock.completion_queues_
      = (if s.completesOnClock = true then
          Interconnect.pushCompleted s.completion_queues_ s.current_transaction_.dest_id
            s.current_transaction_
        else s.completion_queues_) ∧
    (∀ tr ∈ s.clock.pending_queue_, tr ∈ s.pending_queue_) ∧
    (s.clock.processing_ = true →
      s.clock.current_transaction_ ∈ s.pending_queue_ ∨
      (s.processing_ = true ∧ s.clock.current_transaction_ = s.current_transaction_)) := by
  unfold Interconnect.clock Interconnect.clockProgress Interconnect.clockStart
    Interconnect.completesOnClock
  cases hp : s.processing_ <;> cases hq : s.pending_queue_ <;>
    by_cases hw : wrapInt32 (s.cycles_remaining_ - 1) ≤ 0 <;> simp [hp, hq, hw] <;>
    exact fun tr h => Or.inr h

theorem interconnect_accepted_cons (ic : Interconnect) (op : InterconnectOp)
    (rest : List InterconnectOp) :
    ic.acceptedTransactions (op :: rest)
      = ic.acceptedTransactions [op] ++ (ic.step op).acceptedTransactions rest := by
  cases op <;> simp [Interconnect.acceptedTransactions, Interconnect.step]

theorem interconnect_accepted_take (ops : List InterconnectOp) :
    ∀ (ic : Interconnect) (n : Nat) (tr : Transaction),
      tr ∈ ic.acceptedTransactions (ops.take n) → tr ∈ ic.acceptedTransactions ops := by
  induction ops with
  | nil =>
    intro ic n tr h
    rw [List.take_nil] at h
    exact h
  | cons op rest ih =>
    intro ic n tr h
    cases n with
    | zero => exact absurd h (by simp [Interconnect.acceptedTransactions])
    | succ m =>
      rw [List.take_succ_cons, interconnect_accepted_cons] at h
      rw [interconnect_accepted_cons]
      rcases List.mem_append.mp h with h1 | h1
      · exact List.mem_append_left _ h1
      · exact List.mem_append_right _ (ih (ic.step op) m tr h1)

/-- One call keeps the port invariant: there is one completion queue per port, and every
pending transaction and the transaction in progress are addressed to a valid port,
provided a transaction accepted by the call is. -/
theorem interconnect_step_ports (P : Int) (ic : Interconnect) (op : InterconnectOp)
    (hinv : ic.num_ports_ = P ∧ ic.completion_queues_.length = P.toNat ∧
      (∀ tr ∈ ic.pending_queue_, 0 ≤ tr.dest_id ∧ tr.dest_id < P) ∧
      (ic.processing_ = true →
        0 ≤ ic.current_transaction_.dest_id ∧ ic.current_transaction_.dest_id < P))
    (hop : ∀ tr ∈ ic.acceptedTransactions [op], 0 ≤ tr.dest_id ∧ tr.dest_id < P) :
    (ic.step op).num_ports_ = P ∧ (ic.step op).completion_queues_.length = P.toNat ∧
      (∀ tr ∈ (ic.step op).pending_queue_, 0 ≤ tr.dest_id ∧ tr.dest_id < P) ∧
      ((ic.step op).processing_ = true →
        0 ≤ (ic.step op).current_transaction_.dest_id ∧
        (ic.step op).current_transaction_.dest_id < P) := by
  obtain ⟨h1, h2, h3, h4⟩ := hinv
  cases op with
  | submit tr =>
    show (ic.submitTransaction tr).1.num_ports_ = P ∧
      (ic.submitTransaction tr).1.completion_queues_.length = P.toNat ∧
      (∀ t ∈ (ic.submitTransaction tr).1.pending_queue_, 0 ≤ t.dest_id ∧ t.dest_id < P) ∧
      ((ic.submitTransaction tr).1.processing_ = true →
        0 ≤ (ic.submitTransaction tr).1.current_transaction_.dest_id ∧
        (ic.submitTransaction tr).1.current_transaction_.dest_id < P)
    by_cases hfull : ic.pending_queue_.length < 32
    · have hacc := interconnect_submitTransaction_accept ic tr hfull
      have hv : 0 ≤ tr.dest_id ∧ tr.dest_id < P := by
        apply hop
        simp [Interconnect.acceptedTransactions, hacc]
      rw [hacc]
      refine ⟨h1, h2, ?_, h4⟩
      intro t ht
      rcases List.mem_append.mp ht with ht1 | ht1
      · exact h3 t ht1
      · rw [List.mem_singleton.mp ht1]
        exact hv
    · have hrej : ic.submitTransaction tr = (ic, false) := by
        have h32 : ic.pending_queue_.length ≥ 32 := by omega
        simp [Interconnect.submitTransaction, Interconnect.MAX_QUEUE_DEPTH, h32]
      rw [hrej]
      exact ⟨h1, h2, h3, h4⟩
  | clock =>
    obtain ⟨c1, c2, c3, c4⟩ := interconnect_clock_queues ic
    show ic.clock.num_ports_ = P ∧ ic.clock.completion_queues_.length = P.toNat ∧
      (∀ t ∈ ic.clock.pending_queue_, 0 ≤ t.dest_id ∧ t.dest_id < P) ∧
      (ic.clock.processing_ = true →
        0 ≤ ic.clock.current_transaction_.dest_id ∧ ic.clock.current_transaction_.dest_id < P)
    refine ⟨c1.trans h1, ?_, fun t ht => h3 t (c3 t ht), ?_⟩
    · rw [c2]
      split
      · rw [pushCompleted_length]
        exact h2
      · exact h2
    · intro hp
      rcases c4 hp with hm | ⟨hp0, hcur⟩
      · exact h3 _ hm
      · rw [hcur]
        exact h4 hp0
  | reset =>
    refine ⟨h1, ?_, ?_, ?_⟩
    · show (ic.completion_queues_.map (fun _ => ([] : List Transaction))).length = P.toNat
      rw [List.length_map]
      exact h2
    · intro t ht
      exact absurd ht (List.not_mem_nil t)
    · intro hp
      exact absurd hp Bool.false_ne_true
  | getCompleted port_id =>
    show (ic.getCompletedTransaction port_id).1.num_ports_ = P ∧
      (ic.getCompletedTransaction port_id).1.completion_queues_.length = P.toNat ∧
      (∀ t ∈ (ic.getCompletedTransaction port_id).1.pending_queue_,
        0 ≤ t.dest_id ∧ t.dest_id < P) ∧
      ((ic.getCompletedTransaction port_id).1.processing_ = true →
        0 ≤ (ic.getCompletedTransaction port_id).1.current_transaction_.dest_id ∧
        (ic.getCompletedTransaction port_id).1.current_transaction_.dest_id < P)
    unfold Interconnect.getCompletedTransaction
    split
    · exact ⟨h1, h2, h3, h4⟩
    · split
      · exact ⟨h1, h2, h3, h4⟩
      · refine ⟨h1, ?_, h3, h4⟩
        show (ic.completion_queues_.set _ _).length = P.toNat
        rw [List.length_set]
        exact h2

theorem interconnect_run_ports (P : Int) (ops : List InterconnectOp) :
    ∀ ic : Interconnect,
      (ic.num_ports_ = P ∧ ic.completion_queues_.length = P.toNat ∧
        (∀ tr ∈ ic.pending_queue_, 0 ≤ tr.dest_id ∧ tr.dest_id < P) ∧
        (ic.processing_ = true →
          0 ≤ ic.current_transaction_.dest_id ∧ ic.current_transaction_.dest_id < P)) →
      (∀ tr ∈ ic.acceptedTransactions ops, 0 ≤ tr.dest_id ∧ tr.dest_id < P) →
      (ic.run ops).num_ports_ = P ∧ (ic.run ops).completion_queues_.length = P.toNat ∧
        (∀ tr ∈ (ic.run ops).pending_queue_, 0 ≤ tr.dest_id ∧ tr.dest_id < P) ∧
        ((ic.run ops).processing_ = true →
          0 ≤ (ic.run ops).current_transaction_.dest_id ∧
          (ic.run ops).current_transaction_.dest_id < P) := by
  induction ops with
  | nil =>
    intro ic hinv _
    exact hinv
  | cons op rest ih =>
    intro ic hinv hacc
    rw [interconnect_accepted_cons] at hacc
    exact ih (ic.step op)
      (interconnect_step_ports P ic op hinv (fun tr h => hacc tr (List.mem_append_left _ h)))
      (fun tr h => hacc tr (List.mem_append_right _ h))

/-- C32: `submitTransaction` accepts a transaction whenever the pending queue has room,
whatever its `dest_id`, and a clock call that completes a transfer indexes the completion
queues by the `dest_id` of the current transaction.  In every run from construction
(submissions, clock calls, resets and retrievals) in which every accepted transaction has
`0 ≤ dest_id < num_ports`, at every point of the run a clock call that completes a transfer
finds that index within the bounds of the vector of completion queues: the transaction is
appended to the queue of its own destination port and every other queue is unchanged.  A
clock call that completes no transfer leaves the completion queues unchanged. -/
theorem interconnect_dest_index_in_bounds (P B : Int) (ops : List InterconnectOp)
    (hvalid : ∀ tr ∈ (Interconnect.new P B).acceptedTransactions ops,
      0 ≤ tr.dest_id ∧ tr.dest_id < P) :
    (∀ (ic : Interconnect) (tr : Transaction),
      (ic.submitTransaction tr).2 = decide (ic.pending_queue_.length < 32)) ∧
    (∀ n : Nat, ((Interconnect.new P B).run (ops.take n)).completesOnClock = true →
      (0 ≤ ((Interconnect.new P B).run (ops.take n)).current_transaction_.dest_id ∧
        ((Interconnect.new P B).run (ops.take n)).current_transaction_.dest_id
          < ((Interconnect.new P B).run (ops.take n)).num_ports_ ∧
        ((Interconnect.new P B).run (ops.take n)).current_transaction_.dest_id.toNat
          < ((Interconnect.new P B).run (ops.take n)).completion_queues_.length) ∧
      ((Interconnect.new P B).run (ops.take n)).clock.completion_queues_
        = ((Interconnect.new P B).run (ops.take n)).completion_queues_.set
            ((Interconnect.new P B).run (ops.take n)).current_transaction_.dest_id.toNat
            (((Interconnect.new P B).run (ops.take n)).completion_queues_.getD
                ((Interconnect.new P B).run (ops.take n)).current_transaction_.dest_id.toNat []
              ++ [((Interconnect.new P B).run (ops.take n)).current_transaction_]) ∧
      (∀ port : Int, 0 ≤ port → port < P →
        ((Interconnect.new P B).run (ops.take n)).clock.completion_queues_.getD port.toNat []
          = if ((Interconnect.new P B).run (ops.take n)).current_transaction_.dest_id = port
            then
              ((Interconnect.new P B).run (ops.take n)).completion_queues_.getD port.toNat []
                ++ [((Interconnect.new P B).run (ops.take n)).current_transaction_]
            else
              ((Interconnect.new P B).run (ops.take n)).completion_queues_.getD
                port.toNat [])) ∧
    (∀ n : Nat, ((Interconnect.new P B).run (ops.take n)).completesOnClock = false →
      ((Interconnect.new P B).run (ops.take n)).clock.completion_queues_
        = ((Interconnect.new P B).run (ops.take n)).completion_queues_) := by
  refine ⟨?_, ?_, ?_⟩
  · intro ic tr
    unfold Interconnect.submitTransaction Interconnect.MAX_QUEUE_DEPTH
    by_cases h : ic.pending_queue_.length ≥ 32
    · rw [if_pos h]
      exact (decide_eq_false (by omega)).symm
    · rw [if_neg h]
      exact (decide_eq_true (by omega)).symm
  · intro n hc
    have hinv := interconnect_run_ports P (ops.take n) (Interconnect.new P B)
      ⟨rfl, List.length_replicate _ _, fun tr h => absurd h (List.not_mem_nil tr),
        fun h => absurd h Bool.false_ne_true⟩
      (fun tr h => hvalid tr (interconnect_accepted_take ops _ n tr h))
    obtain ⟨c1, c2, _, _⟩ := interconnect_clock_queues
      ((Interconnect.new P B).run (ops.take n))
    generalize (Interconnect.new P B).run (ops.take n) = s at hc hinv c1 c2 ⊢
    obtain ⟨i1, i2, _, i4⟩ := hinv
    have hp : s.processing_ = true := by
      unfold Interconnect.completesOnClock at hc
      cases hpp : s.processing_
      · rw [hpp] at hc
        exact absurd hc Bool.false_ne_true
      · rfl
    obtain ⟨v0, v1⟩ := i4 hp
    have hb : s.current_transaction_.dest_id.toNat < s.completion_queues_.length := by
      rw [i2]
      omega
    rw [if_pos hc] at c2
    refine ⟨⟨v0, by rw [i1]; exact v1, hb⟩, ?_, ?_⟩
    · rw [c2]
      unfold Interconnect.pushCompleted
      rw [if_pos ⟨v0, hb⟩]
    · intro port h0 h1
      rw [c2]
      exact pushCompleted_getD s.completion_queues_ s.current_transaction_.dest_id
        s.current_transaction_ port h0 (by rw [i2]; omega)
  · intro n hc
    obtain ⟨_, c2, _, _⟩ := interconnect_clock_queues
      ((Interconnect.new P B).run (ops.take n))
    rw [c2, hc]
    rfl

/-- Witness for C32: the transaction of `testInterconnect` (for port 1 of 4) is submitted
and the interconnect is clocked twice; the third clock call completes the transfer and
appends the transaction to the queue of port 1, leaving the queue of port 0 empty. -/
theorem interconnect_dest_index_in_bounds_witness :
    ((Interconnect.new 4 64).run
      ([InterconnectOp.submit testTransaction, .clock, .clock].take 3)).completesOnClock
        = true ∧
    ((Interconnect.new 4 64).run
      ([InterconnectOp.submit testTransaction, .clock, .clock].take 3)
        ).clock.completion_queues_.getD 1 [] = [testTransaction] ∧
    ((Interconnect.new 4 64).run
      ([InterconnectOp.submit testTransaction, .clock, .clock].take 3)
        ).clock.completion_queues_.getD 0 [] = [] :=
  ⟨by decide,
   (((interconnect_dest_index_in_bounds 4 64 [.submit testTransaction, .clock, .clock]
      (by decide)).2.1 3 (by decide)).2.2 1 (by decide) (by decide)).trans (by decide),
   (((interconnect_dest_index_in_bounds 4 64 [.submit testTransaction, .clock, .clock]
      (by decide)).2.1 3 (by decide)).2.2 0 (by decide) (by decide)).trans (by decide)⟩

end HeteroSim
